import Mathlib

/-!
# EquipmentPlugin: the equipment manager's equip/unequip state machine

A shallow embedding of `UEquipmentManagerComponent`
(`Source/EquipmentPlugin/Private/Components/EquipmentManagerComponent.cpp`).

* The component's mutable state is the record `Manager`; every member function
  becomes a function taking the state and returning the new one.
* A reference parameter of a direct operation (`const FItemInstance&`,
  `FItemInstance&`) is an `ItemRef`: the caller binds it to an object of its
  own or to the item of a slot of the public table, and the function reads and
  writes through it in the state of the moment.
* The effects of a call (the writes of a slot's item and occupancy, delegate
  broadcasts, forwarded server requests, the GAS callbacks, streamable-manager
  calls) are appended, in program order, to `Manager.Trace`.
* The engine and the collaborating plugins (gameplay tags, item instances, the
  item database, the inventory component, the ability system component) are
  not part of this repository; they are modelled at their interface.
* The GAS integration module (`Source/EquipmentGASIntegration`) is embedded next
  to the manager: the ability granter, the effect applier and the two callbacks
  `StartupModule` binds; a callback event of the trace stands for a call of
  the bound callback.
-/

namespace EquipmentPlugin

/-! ## Gameplay tags -/

/-- Modelled from the spec: a slot tag is a hierarchical identifier such as
`Equipment.MainHand`. The engine type `FGameplayTag` is represented by the list
of the dot-separated components of its name; the empty list is the
default-constructed (invalid, none) tag. -/
structure FGameplayTag where
  TagName : List String
deriving DecidableEq, Repr

/-- The default-constructed tag `FGameplayTag()`. -/
def FGameplayTag.None : FGameplayTag := ⟨[]⟩

/-- Engine `FGameplayTag::IsValid`: the tag has a name. -/
def FGameplayTag.IsValid (t : FGameplayTag) : Bool :=
  !t.TagName.isEmpty

/-- Whether the component list `p` is an initial segment of `t`. -/
def nameStartsWith : List String → List String → Bool
  | [], _ => true
  | _ :: _, [] => false
  | a :: p, b :: t => a == b && nameStartsWith p t

/-- Modelled from the spec: the hierarchical tag match `FGameplayTag::MatchesTag`.
`t.MatchesTag p` holds when `p` is a valid tag and `t` is `p` itself or one of
its descendants (`A.1` matches `A`, but `A` does not match `A.1`). -/
def FGameplayTag.MatchesTag (t p : FGameplayTag) : Bool :=
  p.IsValid && nameStartsWith p.TagName t.TagName

/-- Engine `FGameplayTagContainer`, as the list of its explicit tags. -/
abbrev FGameplayTagContainer := List FGameplayTag

/-- Engine `FGameplayTagContainer::Num`. -/
def FGameplayTagContainer.Num (c : FGameplayTagContainer) : Nat := c.length

/-- Modelled from the spec: the filter check "the item's definition tags must
intersect the accepted-tag set", the engine's `FGameplayTagContainer::HasAny`:
some tag of the other container is a tag of this container or a parent of one. -/
def FGameplayTagContainer.HasAny (c other : FGameplayTagContainer) : Bool :=
  other.any (fun o => c.any (fun t => t.MatchesTag o))

/-! ## Items, fragments and the item database -/

/-- Modelled from the spec: the result code
`{Success, Failed, InvalidItem, IncompatibleSlot, NoInventorySpace}`
(`Types/CGFCommonEnums.h` is not part of the sources). -/
inductive EEquipmentResult where
  | Success
  | Failed
  | InvalidItem
  | IncompatibleSlot
  | NoInventorySpace
deriving DecidableEq, Repr

/-- Modelled from the spec: the item instance
`{instance id, definition reference, stack count}` (`Types/CGFItemTypes.h` is
not part of the sources). Identifiers are numbers; `0` is the null identifier. -/
structure FItemInstance where
  InstanceId : Nat
  ItemDefinitionId : Nat
  StackCount : Int
deriving DecidableEq, Repr

/-- The default-constructed item `FItemInstance()`. -/
def FItemInstance.Default : FItemInstance :=
  { InstanceId := 0, ItemDefinitionId := 0, StackCount := 0 }

/-- Modelled from the spec: an item is valid when it has a non-null identity. -/
def FItemInstance.IsValid (Item : FItemInstance) : Bool :=
  Item.InstanceId != 0

/-- Modelled from the spec: the equipment fragment
`{preferred slot tag, optional mesh / skeletal mesh, optional animation layer,
grantable abilities, passive and on-equip effects}`
(`Data/Fragments/ItemFragment_Equipment.h` is not part of the sources).
Soft references and classes are numbers; `none` is a null reference. -/
structure UItemFragment_Equipment where
  EquipmentSlotTag : FGameplayTag
  EquipMesh : Option Nat
  EquipSkeletalMesh : Option Nat
  AnimLayerClass : Option Nat
  GrantedAbilities : List (Option Nat)
  PassiveEffects : List (Option Nat)
  OnEquipEffects : List (Option Nat)
deriving DecidableEq, Repr

/-- Modelled from the spec: an item definition exposes its tag set and
`FindFragment<UItemFragment_Equipment>()`, here the field `EquipmentFragment`
(`Data/ItemDefinition.h` is not part of the sources). -/
structure UItemDefinition where
  ItemTags : FGameplayTagContainer
  EquipmentFragment : Option UItemFragment_Equipment
deriving DecidableEq, Repr

/-- Modelled from the spec: the item database collaborator,
`GetDefinition(definitionId) -> definition|null`. -/
structure UItemDatabaseSubsystem where
  GetDefinition : Nat → Option UItemDefinition

/-! ## Runtime slots, the environment and the component state -/

/-- An attached visual component (`USceneComponent` created by `OnMeshLoaded`). -/
structure USceneComponent where
  bIsSkeletal : Bool
  Mesh : Nat
  Socket : Nat
deriving DecidableEq, Repr

/-- The runtime slot `FEquipmentSlot` (`Public/Types/EquipmentSystemTypes.h`).
`MeshLoadHandle` is the identifier of the streamable handle, `none` when the
shared pointer is null. -/
structure FEquipmentSlot where
  SlotTag : FGameplayTag
  EquippedItem : FItemInstance := FItemInstance.Default
  bIsOccupied : Bool := false
  AttachSocket : Nat := 0
  AcceptedItemTags : FGameplayTagContainer := []
  AttachedVisualComponent : Option USceneComponent := none
  MeshLoadHandle : Option Nat := none
deriving DecidableEq, Repr

/-- Modelled from the spec: the slot definition
`{slot tag, attach socket name, accepted item-tag set, display name}`
(`Types/CGFEquipmentTypes.h` is not part of the sources). -/
structure FEquipmentSlotDefinition where
  SlotTag : FGameplayTag
  AttachSocket : Nat := 0
  AcceptedItemTags : FGameplayTagContainer := []
  DisplayName : String := ""
deriving DecidableEq, Repr

/-- The effects of a member function: a write of a slot's item and occupancy, or
a call that leaves the component (broadcast, RPC, callback, engine call). -/
inductive Event where
  /-- A write of `EquippedItem` and `bIsOccupied` of the slot with this tag. -/
  | SlotWrite (SlotTag : FGameplayTag) (Item : FItemInstance) (bIsOccupied : Bool)
  | ServerRPC_RequestEquip (Item : FItemInstance) (SlotTag : FGameplayTag)
  | ServerRPC_RequestUnequip (SlotTag : FGameplayTag)
  | ServerRPC_RequestEquipFromInventory (ItemInstanceId : Nat) (SlotTag : FGameplayTag)
  | ServerRPC_RequestUnequipToInventory (SlotTag : FGameplayTag)
  /-- The client RPC, which broadcasts `OnOperationFailed` at the requester. -/
  | ClientRPC_EquipmentOperationFailed (Result : EEquipmentResult)
  | OnItemEquipped (Item : FItemInstance) (SlotTag : FGameplayTag)
  | OnItemUnequipped (Item : FItemInstance) (SlotTag : FGameplayTag)
  | OnEquipmentChanged
  | OnPostEquip (Item : FItemInstance) (SlotTag : FGameplayTag)
  | OnPostUnequip (Item : FItemInstance) (SlotTag : FGameplayTag)
  | OnGASEquipCallback (Item : FItemInstance) (SlotTag : FGameplayTag)
  | OnGASUnequipCallback (SlotTag : FGameplayTag)
  | RequestAsyncLoad (Handle : Nat) (Mesh : Nat) (SlotTag : FGameplayTag)
  | CancelHandle (Handle : Nat)
  | DestroyComponent (Component : USceneComponent)
  | LinkAnimClassLayers (AnimLayerClass : Nat)
  | UnlinkAnimClassLayers (AnimLayerClass : Nat)
  | LogError
deriving DecidableEq, Repr

/-- What the component reads from its surroundings during a call. -/
structure World where
  /-- The value of `GetOwner()->HasAuthority()`. -/
  HasAuthority : Bool
  /-- The value of `GetItemDatabase()`, `none` when no subsystem is found. -/
  ItemDatabase : Option UItemDatabaseSubsystem
  /-- Whether `OnGASEquipCallback` / `OnGASUnequipCallback` are bound. -/
  GASCallbacksBound : Bool := false
  /-- Whether `GetOwnerMesh()` finds a skeletal mesh component. -/
  OwnerMesh : Bool := false
  /-- Whether `Get()` on the soft reference resolves to a loaded asset. -/
  IsLoaded : Nat → Bool := fun _ => true

/-- The mutable state of `UEquipmentManagerComponent`. -/
structure Manager where
  /-- The replicated runtime slot table, in declaration order. -/
  EquipmentSlots : List FEquipmentSlot
  /-- The effects performed so far, oldest first. -/
  Trace : List Event := []
  /-- The identifier the streamable manager gives to the next load handle. -/
  NextHandle : Nat := 0
deriving DecidableEq, Repr

/-- Appends effects to the trace. -/
def Manager.emit (m : Manager) (es : List Event) : Manager :=
  { m with Trace := m.Trace ++ es }

/-- The external inventory component, at its interface: the five calls the
manager makes on it, over an arbitrary inventory state `Inv`. -/
structure UInventoryComponent (Inv : Type) where
  FindSlotIndexByInstanceId : Inv → Nat → Int
  GetItemInSlot : Inv → Int → FItemInstance
  CanAcceptItem : Inv → FItemInstance → Bool
  /-- Returns whether the outcome is `EInventoryOperationResult::Success`. -/
  TryAddItem : Inv → FItemInstance → Bool × Inv
  /-- Returns whether the outcome is `EInventoryOperationResult::Success`. -/
  TryRemoveItem : Inv → Nat → Bool × Inv

/-- The engine constant `INDEX_NONE`. -/
def INDEX_NONE : Int := -1

/-! ## Slot lookup -/

/-- `FindSlot`: the first runtime slot with the tag, `none` for `nullptr`. -/
def FindSlot (m : Manager) (SlotTag : FGameplayTag) : Option FEquipmentSlot :=
  m.EquipmentSlots.find? (fun Slot => Slot.SlotTag == SlotTag)

/-- A write through the pointer returned by `FindSlot`: `f` is applied to the
first slot with the tag, every other slot is left as it is. -/
def modifySlot (SlotTag : FGameplayTag) (f : FEquipmentSlot → FEquipmentSlot) :
    List FEquipmentSlot → List FEquipmentSlot
  | [] => []
  | Slot :: rest =>
    if Slot.SlotTag == SlotTag then f Slot :: rest
    else Slot :: modifySlot SlotTag f rest

/-- The state after a write through the pointer returned by `FindSlot`. -/
def Manager.writeSlot (m : Manager) (SlotTag : FGameplayTag)
    (f : FEquipmentSlot → FEquipmentSlot) : Manager :=
  { m with EquipmentSlots := modifySlot SlotTag f m.EquipmentSlots }

/-- `FindSlotDefinition`: the first slot definition with the tag. -/
def FindSlotDefinition (AvailableSlots : List FEquipmentSlotDefinition)
    (SlotTag : FGameplayTag) : Option FEquipmentSlotDefinition :=
  AvailableSlots.find? (fun Def => Def.SlotTag == SlotTag)

/-! ## Helpers -/

/-- `GetEquipmentFragment`: the equipment fragment of the item's definition,
`none` when the database, the definition or the fragment is missing. -/
def GetEquipmentFragment (w : World) (Item : FItemInstance) :
    Option UItemFragment_Equipment :=
  match w.ItemDatabase with
  | none => none
  | some DB =>
    match DB.GetDefinition Item.ItemDefinitionId with
    | none => none
    | some Def => Def.EquipmentFragment

/-! ## Activation -/

/-- `BeginPlay`: the runtime slots are created from the definitions. -/
def BeginPlay (AvailableSlots : List FEquipmentSlotDefinition) : Manager :=
  { EquipmentSlots := AvailableSlots.map (fun Def =>
      { SlotTag := Def.SlotTag
        AttachSocket := Def.AttachSocket
        AcceptedItemTags := Def.AcceptedItemTags
        bIsOccupied := false }) }

/-! ## Slot finding and validation -/

/-- `FindTargetSlot`: the three passes over the slot table, each returning at
its first hit. -/
def FindTargetSlot (w : World) (m : Manager) (Item : FItemInstance) : FGameplayTag :=
  match GetEquipmentFragment w Item with
  | none => FGameplayTag.None
  | some EquipFrag =>
    if !EquipFrag.EquipmentSlotTag.IsValid then FGameplayTag.None
    else
      let PreferredTag := EquipFrag.EquipmentSlotTag
      -- Exact match: find empty slot with this tag
      match m.EquipmentSlots.find?
          (fun Slot => Slot.SlotTag == PreferredTag && !Slot.bIsOccupied) with
      | some Slot => Slot.SlotTag
      | none =>
        -- Parent tag match: find first empty child slot
        match m.EquipmentSlots.find?
            (fun Slot => Slot.SlotTag.MatchesTag PreferredTag && !Slot.bIsOccupied) with
        | some Slot => Slot.SlotTag
        | none =>
          -- All matching slots occupied: return first match
          match m.EquipmentSlots.find?
              (fun Slot => Slot.SlotTag == PreferredTag
                || Slot.SlotTag.MatchesTag PreferredTag) with
          | some Slot => Slot.SlotTag
          | none => FGameplayTag.None

/-- `ValidateEquip`. -/
def ValidateEquip (w : World) (m : Manager) (Item : FItemInstance)
    (SlotTag : FGameplayTag) : EEquipmentResult :=
  if !Item.IsValid then EEquipmentResult.InvalidItem
  else
    match GetEquipmentFragment w Item with
    | none => EEquipmentResult.InvalidItem
    | some _ =>
      match FindSlot m SlotTag with
      | none => EEquipmentResult.IncompatibleSlot
      | some Slot =>
        -- Check accepted item tags (if any are configured)
        if Slot.AcceptedItemTags.Num > 0 then
          match w.ItemDatabase with
          | none => EEquipmentResult.Success
          | some DB =>
            match DB.GetDefinition Item.ItemDefinitionId with
            | none => EEquipmentResult.Success
            | some Def =>
              if !Def.ItemTags.HasAny Slot.AcceptedItemTags then
                EEquipmentResult.IncompatibleSlot
              else EEquipmentResult.Success
        else EEquipmentResult.Success

/-! ## Visuals -/

/-- `ApplyVisuals`: picks the mesh to load (skeletal before static), cancels a
pending load of the slot and requests the new one. -/
def ApplyVisuals (w : World) (m : Manager) (Item : FItemInstance)
    (SlotTag : FGameplayTag) : Manager :=
  match GetEquipmentFragment w Item with
  | none => m
  | some EquipFrag =>
    let MeshToLoad : Option Nat :=
      match EquipFrag.EquipSkeletalMesh with
      | some Mesh => some Mesh
      | none => EquipFrag.EquipMesh
    match MeshToLoad with
    | none => m -- No visual: ability-only equipment
    | some Mesh =>
      match FindSlot m SlotTag with
      | none => m
      | some Slot =>
        -- Cancel any pending load
        let m1 :=
          match Slot.MeshLoadHandle with
          | some Handle => m.emit [Event.CancelHandle Handle]
          | none => m
        let Handle := m1.NextHandle
        let m2 := { m1.emit [Event.RequestAsyncLoad Handle Mesh SlotTag] with
                    NextHandle := Handle + 1 }
        m2.writeSlot SlotTag (fun s => { s with MeshLoadHandle := some Handle })

/-- `RemoveVisuals`. -/
def RemoveVisuals (w : World) (m : Manager) (SlotTag : FGameplayTag) : Manager :=
  match FindSlot m SlotTag with
  | none => m
  | some Slot =>
    -- Cancel pending mesh load
    let m1 :=
      match Slot.MeshLoadHandle with
      | some Handle =>
        (m.emit [Event.CancelHandle Handle]).writeSlot SlotTag
          (fun s => { s with MeshLoadHandle := none })
      | none => m
    let m2 :=
      match Slot.AttachedVisualComponent with
      | some Component =>
        (m1.emit [Event.DestroyComponent Component]).writeSlot SlotTag
          (fun s => { s with AttachedVisualComponent := none })
      | none => m1
    -- Unlink animation layers if applicable
    if Slot.bIsOccupied then
      match GetEquipmentFragment w Slot.EquippedItem with
      | none => m2
      | some EquipFrag =>
        match EquipFrag.AnimLayerClass with
        | none => m2
        | some AnimLayerClass =>
          if w.OwnerMesh then m2.emit [Event.UnlinkAnimClassLayers AnimLayerClass]
          else m2
    else m2

/-- `OnMeshLoaded`: the completion delegate of the load requested for the slot. -/
def OnMeshLoaded (w : World) (m : Manager) (SlotTag : FGameplayTag) : Manager :=
  match FindSlot m SlotTag with
  | none => m
  | some Slot =>
    if !Slot.bIsOccupied then m
    else
      match GetEquipmentFragment w Slot.EquippedItem with
      | none => m
      | some EquipFrag =>
        if !w.OwnerMesh then m
        else
          -- Remove old visual if any
          let m1 :=
            match Slot.AttachedVisualComponent with
            | some Component =>
              (m.emit [Event.DestroyComponent Component]).writeSlot SlotTag
                (fun s => { s with AttachedVisualComponent := none })
            | none => m
          let Socket := Slot.AttachSocket
          let m2 :=
            match EquipFrag.EquipSkeletalMesh with
            | some Mesh =>
              if w.IsLoaded Mesh then
                m1.writeSlot SlotTag (fun s =>
                  { s with AttachedVisualComponent := some (USceneComponent.mk true Mesh Socket) })
              else m1
            | none =>
              match EquipFrag.EquipMesh with
              | some Mesh =>
                if w.IsLoaded Mesh then
                  m1.writeSlot SlotTag (fun s =>
                  { s with AttachedVisualComponent := some (USceneComponent.mk false Mesh Socket) })
                else m1
              | none => m1
          -- Animation layer support
          match EquipFrag.AnimLayerClass with
          | some AnimLayerClass => m2.emit [Event.LinkAnimClassLayers AnimLayerClass]
          | none => m2

/-! ## GAS helpers -/

/-- `ApplyGAS`: server-only; calls the equip callback when it is bound. -/
def ApplyGAS (w : World) (m : Manager) (Item : FItemInstance)
    (SlotTag : FGameplayTag) : Manager :=
  if !w.HasAuthority then m
  else if w.GASCallbacksBound then m.emit [Event.OnGASEquipCallback Item SlotTag]
  else m

/-- `RemoveGAS`: server-only; calls the unequip callback when it is bound. -/
def RemoveGAS (w : World) (m : Manager) (SlotTag : FGameplayTag) : Manager :=
  if !w.HasAuthority then m
  else if w.GASCallbacksBound then m.emit [Event.OnGASUnequipCallback SlotTag]
  else m

/-! ## Internal equip / unequip -/

/-- `Internal_Equip`: core equip logic (after validation). The slot write is
also recorded in the trace, before the effects that follow it. `Item` is the
item the argument refers to at entry: the only write of an item is that of this
very item into the target slot, so the argument refers to it throughout. -/
def Internal_Equip (w : World) (m : Manager) (Item : FItemInstance)
    (SlotTag : FGameplayTag) : Manager :=
  match FindSlot m SlotTag with
  | none => m
  | some _ =>
    let m1 := (m.writeSlot SlotTag
      (fun s => { s with EquippedItem := Item, bIsOccupied := true })).emit
        [Event.SlotWrite SlotTag Item true]
    let m2 := ApplyVisuals w m1 Item SlotTag
    let m3 := ApplyGAS w m2 Item SlotTag
    m3.emit [Event.OnItemEquipped Item SlotTag, Event.OnEquipmentChanged,
      Event.OnPostEquip Item SlotTag]

/-- `Internal_Unequip`: core unequip logic; returns the removed item. The slot
write is also recorded in the trace, between the effects around it. -/
def Internal_Unequip (w : World) (m : Manager) (SlotTag : FGameplayTag) :
    FItemInstance × Manager :=
  match FindSlot m SlotTag with
  | none => (FItemInstance.Default, m)
  | some Slot =>
    if !Slot.bIsOccupied then (FItemInstance.Default, m)
    else
      let UnequippedItem := Slot.EquippedItem
      let m1 := RemoveGAS w m SlotTag
      let m2 := RemoveVisuals w m1 SlotTag
      let m3 := (m2.writeSlot SlotTag
        (fun s => { s with EquippedItem := FItemInstance.Default, bIsOccupied := false })).emit
          [Event.SlotWrite SlotTag FItemInstance.Default false]
      (UnequippedItem, m3.emit [Event.OnItemUnequipped UnequippedItem SlotTag,
        Event.OnEquipmentChanged, Event.OnPostUnequip UnequippedItem SlotTag])

/-! ## References to item instances -/

/-- The object a parameter of type `const FItemInstance&` or `FItemInstance&` of
a direct operation is bound to by its caller: an object of the caller's own that
holds `Item`, or the member `EquipmentSlots[Index].EquippedItem` of the
component itself (`EquipmentSlots` is a public member; `Index` is an index of
the table). -/
inductive ItemRef where
  | Local (Item : FItemInstance)
  | SlotItem (Index : Nat)
deriving DecidableEq, Repr

/-- The item read through the reference when the component is in state `m`. -/
def ItemRef.Get (r : ItemRef) (m : Manager) : FItemInstance :=
  match r with
  | ItemRef.Local Item => Item
  | ItemRef.SlotItem Index =>
    match m.EquipmentSlots.get? Index with
    | some Slot => Slot.EquippedItem
    | none => FItemInstance.Default

/-- The slot table after `EquipmentSlots[Index].EquippedItem = Item`: nothing
but that member of that element is written. -/
def assignEquippedItem (Item : FItemInstance) :
    Nat → List FEquipmentSlot → List FEquipmentSlot
  | _, [] => []
  | 0, Slot :: rest => { Slot with EquippedItem := Item } :: rest
  | Index + 1, Slot :: rest => Slot :: assignEquippedItem Item Index rest

/-- The component after the assignment of `Item` through the reference: an
object of the caller's is outside the component, which stays as it is. -/
def ItemRef.Assign (r : ItemRef) (m : Manager) (Item : FItemInstance) : Manager :=
  match r with
  | ItemRef.Local _ => m
  | ItemRef.SlotItem Index =>
    { m with EquipmentSlots := assignEquippedItem Item Index m.EquipmentSlots }

/-! ## Direct equip / unequip -/

/-- `TryEquipToSlot`: equip an item to a specific slot. `Item` is a
`const FItemInstance&`: it is read for the validation and the forwarded request
in the state at entry, and read again by `Internal_Equip`, after the
auto-unequip. (`Internal_Equip` itself does not change what its argument refers
to: it writes `EquippedItem` of the target slot only, with that very value.) -/
def TryEquipToSlot (w : World) (m : Manager) (Item : ItemRef)
    (SlotTag : FGameplayTag) : EEquipmentResult × Manager :=
  let ValidationResult := ValidateEquip w m (Item.Get m) SlotTag
  if ValidationResult ≠ EEquipmentResult.Success then (ValidationResult, m)
  else if !w.HasAuthority then
    -- Optimistic
    (EEquipmentResult.Success, m.emit [Event.ServerRPC_RequestEquip (Item.Get m) SlotTag])
  else
    -- If slot is occupied, auto-unequip first
    let m1 :=
      match FindSlot m SlotTag with
      | some Slot => if Slot.bIsOccupied then (Internal_Unequip w m SlotTag).2 else m
      | none => m
    (EEquipmentResult.Success, Internal_Equip w m1 (Item.Get m1) SlotTag)

/-- `TryEquip`: equip an item to its preferred slot. The reference `Item` is
passed on to `TryEquipToSlot`. -/
def TryEquip (w : World) (m : Manager) (Item : ItemRef) :
    EEquipmentResult × Manager :=
  let TargetSlot := FindTargetSlot w m (Item.Get m)
  if !TargetSlot.IsValid then (EEquipmentResult.IncompatibleSlot, m)
  else TryEquipToSlot w m Item TargetSlot

/-- `TryUnequip`: unequip the item in a slot. `OutItem` is a `FItemInstance&`:
the item `Internal_Unequip` returns is assigned through it after the slot has
been cleared, and on the other paths it is not written. The second component
of the result is the item `OutItem` refers to after the call. -/
def TryUnequip (w : World) (m : Manager) (SlotTag : FGameplayTag)
    (OutItem : ItemRef) : EEquipmentResult × FItemInstance × Manager :=
  match FindSlot m SlotTag with
  | none => (EEquipmentResult.Failed, OutItem.Get m, m)
  | some Slot =>
    if !Slot.bIsOccupied then (EEquipmentResult.Failed, OutItem.Get m, m)
    else if !w.HasAuthority then
      (EEquipmentResult.Success, OutItem.Get m,
        m.emit [Event.ServerRPC_RequestUnequip SlotTag])
    else
      let r := Internal_Unequip w m SlotTag
      (EEquipmentResult.Success, r.1, OutItem.Assign r.2 r.1)

/-! ## Inventory-integrated equip / unequip -/

/-- `TryEquipFromInventory`: `SourceInventory` is the inventory the pointer
refers to, `none` for a null pointer; the inventory after the call is the last
component of the result. -/
def TryEquipFromInventory {Inv : Type} (I : UInventoryComponent Inv) (w : World)
    (m : Manager) (ItemInstanceId : Nat) (SourceInventory : Option Inv)
    (SlotTag : FGameplayTag) : EEquipmentResult × Manager × Option Inv :=
  match SourceInventory with
  | none => (EEquipmentResult.Failed, m, none)
  | some inv =>
    -- Find item in inventory
    let SlotIndex := I.FindSlotIndexByInstanceId inv ItemInstanceId
    if SlotIndex = INDEX_NONE then (EEquipmentResult.InvalidItem, m, some inv)
    else
      let Item := I.GetItemInSlot inv SlotIndex
      -- Auto-detect slot if not specified
      let Resolved : Option FGameplayTag :=
        if !SlotTag.IsValid then
          let Found := FindTargetSlot w m Item
          if !Found.IsValid then none else some Found
        else some SlotTag
      match Resolved with
      | none => (EEquipmentResult.IncompatibleSlot, m, some inv)
      | some SlotTag =>
        let ValidationResult := ValidateEquip w m Item SlotTag
        if ValidationResult ≠ EEquipmentResult.Success then (ValidationResult, m, some inv)
        else if !w.HasAuthority then
          (EEquipmentResult.Success,
            m.emit [Event.ServerRPC_RequestEquipFromInventory ItemInstanceId SlotTag],
            some inv)
        else
          -- The tail of the function: remove item from inventory, then equip
          let Finish := fun (m1 : Manager) (inv1 : Inv) =>
            let RemoveResult := I.TryRemoveItem inv1 ItemInstanceId
            if !RemoveResult.1 then (EEquipmentResult.Failed, m1, some RemoveResult.2)
            else (EEquipmentResult.Success, Internal_Equip w m1 Item SlotTag,
              some RemoveResult.2)
          -- If slot is occupied, check that inventory can accept the old item
          match FindSlot m SlotTag with
          | some ExistingSlot =>
            if ExistingSlot.bIsOccupied then
              if !I.CanAcceptItem inv ExistingSlot.EquippedItem then
                (EEquipmentResult.NoInventorySpace, m, some inv)
              else
                -- Unequip old item back to inventory
                let r := Internal_Unequip w m SlotTag
                let OldItem := r.1
                let AddResult := I.TryAddItem inv OldItem
                if !AddResult.1 then
                  -- Rollback: re-equip old item
                  (EEquipmentResult.NoInventorySpace,
                    Internal_Equip w r.2 OldItem SlotTag, some AddResult.2)
                else Finish r.2 AddResult.2
            else Finish m inv
          | none => Finish m inv

/-- `TryUnequipToInventory`. -/
def TryUnequipToInventory {Inv : Type} (I : UInventoryComponent Inv) (w : World)
    (m : Manager) (SlotTag : FGameplayTag) (TargetInventory : Option Inv) :
    EEquipmentResult × Manager × Option Inv :=
  match TargetInventory with
  | none => (EEquipmentResult.Failed, m, none)
  | some inv =>
    match FindSlot m SlotTag with
    | none => (EEquipmentResult.Failed, m, some inv)
    | some Slot =>
      if !Slot.bIsOccupied then (EEquipmentResult.Failed, m, some inv)
      else if !I.CanAcceptItem inv Slot.EquippedItem then
        (EEquipmentResult.NoInventorySpace, m, some inv)
      else if !w.HasAuthority then
        (EEquipmentResult.Success,
          m.emit [Event.ServerRPC_RequestUnequipToInventory SlotTag], some inv)
      else
        let r := Internal_Unequip w m SlotTag
        let UnequippedItem := r.1
        let AddResult := I.TryAddItem inv UnequippedItem
        if !AddResult.1 then
          -- Rollback: re-equip
          (EEquipmentResult.NoInventorySpace,
            (Internal_Equip w r.2 UnequippedItem SlotTag).emit [Event.LogError],
            some AddResult.2)
        else (EEquipmentResult.Success, r.2, some AddResult.2)

/-! ## Queries -/

/-- `GetEquippedItem`. -/
def GetEquippedItem (m : Manager) (SlotTag : FGameplayTag) : FItemInstance :=
  match FindSlot m SlotTag with
  | some Slot => if Slot.bIsOccupied then Slot.EquippedItem else FItemInstance.Default
  | none => FItemInstance.Default

/-- `IsSlotOccupied`. -/
def IsSlotOccupied (m : Manager) (SlotTag : FGameplayTag) : Bool :=
  match FindSlot m SlotTag with
  | some Slot => Slot.bIsOccupied
  | none => false

/-- `GetOccupiedSlotTags`. -/
def GetOccupiedSlotTags (m : Manager) : List FGameplayTag :=
  (m.EquipmentSlots.filter (fun Slot => Slot.bIsOccupied)).map (fun Slot => Slot.SlotTag)

/-- `GetEmptySlotTags`. -/
def GetEmptySlotTags (m : Manager) : List FGameplayTag :=
  (m.EquipmentSlots.filter (fun Slot => !Slot.bIsOccupied)).map (fun Slot => Slot.SlotTag)

/-- `CanEquipItem`: validation only. -/
def CanEquipItem (w : World) (m : Manager) (Item : FItemInstance) : Bool :=
  let TargetSlot := FindTargetSlot w m Item
  if !TargetSlot.IsValid then false
  else ValidateEquip w m Item TargetSlot = EEquipmentResult.Success

/-! ## Server RPCs (the authoritative handlers of forwarded requests) -/

/-- `ServerRPC_RequestEquip_Implementation`. The RPC is a private member, sent by
`TryEquipToSlot` only; `Item` is the item of the request, which arrives in the
parameter block of the call, apart from the slot table. -/
def ServerRPC_RequestEquip (w : World) (m : Manager) (Item : FItemInstance)
    (SlotTag : FGameplayTag) : Manager :=
  let Result := ValidateEquip w m Item SlotTag
  if Result ≠ EEquipmentResult.Success then
    m.emit [Event.ClientRPC_EquipmentOperationFailed Result]
  else
    let m1 :=
      match FindSlot m SlotTag with
      | some Slot => if Slot.bIsOccupied then (Internal_Unequip w m SlotTag).2 else m
      | none => m
    Internal_Equip w m1 Item SlotTag

/-- `ServerRPC_RequestUnequip_Implementation`. -/
def ServerRPC_RequestUnequip (w : World) (m : Manager) (SlotTag : FGameplayTag) :
    Manager :=
  match FindSlot m SlotTag with
  | none => m.emit [Event.ClientRPC_EquipmentOperationFailed EEquipmentResult.Failed]
  | some Slot =>
    if !Slot.bIsOccupied then
      m.emit [Event.ClientRPC_EquipmentOperationFailed EEquipmentResult.Failed]
    else (Internal_Unequip w m SlotTag).2

/-- `ServerRPC_RequestEquipFromInventory_Implementation`. -/
def ServerRPC_RequestEquipFromInventory {Inv : Type} (I : UInventoryComponent Inv)
    (w : World) (m : Manager) (ItemInstanceId : Nat) (SourceInventory : Option Inv)
    (SlotTag : FGameplayTag) : Manager × Option Inv :=
  match SourceInventory with
  | none => (m.emit [Event.ClientRPC_EquipmentOperationFailed EEquipmentResult.Failed], none)
  | some inv =>
    let SlotIndex := I.FindSlotIndexByInstanceId inv ItemInstanceId
    if SlotIndex = INDEX_NONE then
      (m.emit [Event.ClientRPC_EquipmentOperationFailed EEquipmentResult.InvalidItem],
        some inv)
    else
      let Item := I.GetItemInSlot inv SlotIndex
      let SlotTag := if !SlotTag.IsValid then FindTargetSlot w m Item else SlotTag
      let Result := ValidateEquip w m Item SlotTag
      if Result ≠ EEquipmentResult.Success then
        (m.emit [Event.ClientRPC_EquipmentOperationFailed Result], some inv)
      else
        let Finish := fun (m1 : Manager) (inv1 : Inv) =>
          let RemoveResult := I.TryRemoveItem inv1 ItemInstanceId
          (Internal_Equip w m1 Item SlotTag, some RemoveResult.2)
        match FindSlot m SlotTag with
        | some ExistingSlot =>
          if ExistingSlot.bIsOccupied then
            if !I.CanAcceptItem inv ExistingSlot.EquippedItem then
              (m.emit [Event.ClientRPC_EquipmentOperationFailed
                EEquipmentResult.NoInventorySpace], some inv)
            else
              let r := Internal_Unequip w m SlotTag
              let OldItem := r.1
              let AddResult := I.TryAddItem inv OldItem
              Finish r.2 AddResult.2
          else Finish m inv
        | none => Finish m inv

/-- `ServerRPC_RequestUnequipToInventory_Implementation`. -/
def ServerRPC_RequestUnequipToInventory {Inv : Type} (I : UInventoryComponent Inv)
    (w : World) (m : Manager) (SlotTag : FGameplayTag) (TargetInventory : Option Inv) :
    Manager × Option Inv :=
  match TargetInventory with
  | none => (m.emit [Event.ClientRPC_EquipmentOperationFailed EEquipmentResult.Failed], none)
  | some inv =>
    match FindSlot m SlotTag with
    | none =>
      (m.emit [Event.ClientRPC_EquipmentOperationFailed EEquipmentResult.Failed], some inv)
    | some Slot =>
      if !Slot.bIsOccupied then
        (m.emit [Event.ClientRPC_EquipmentOperationFailed EEquipmentResult.Failed], some inv)
      else if !I.CanAcceptItem inv Slot.EquippedItem then
        (m.emit [Event.ClientRPC_EquipmentOperationFailed EEquipmentResult.NoInventorySpace],
          some inv)
      else
        let r := Internal_Unequip w m SlotTag
        let UnequippedItem := r.1
        let AddResult := I.TryAddItem inv UnequippedItem
        (r.2, some AddResult.2)

/-! ## Replication -/

/-- One iteration of the loop of `OnRep_EquipmentSlots`, at slot index `i`. -/
def OnRep_step (w : World) (m : Manager) (i : Nat) : Manager :=
  match m.EquipmentSlots[i]? with
  | none => m
  | some Slot =>
    if Slot.bIsOccupied && Slot.AttachedVisualComponent.isNone then
      ApplyVisuals w m Slot.EquippedItem Slot.SlotTag
    else if !Slot.bIsOccupied && Slot.AttachedVisualComponent.isSome then
      RemoveVisuals w m Slot.SlotTag
    else m

/-- `OnRep_EquipmentSlots`: sync visuals on clients based on replicated state. -/
def OnRep_EquipmentSlots (w : World) (m : Manager) : Manager :=
  ((List.range m.EquipmentSlots.length).foldl (OnRep_step w) m).emit
    [Event.OnEquipmentChanged]

/-! ## The logical content of the slot table -/

/-- The slot without its local visual state (attached component, load handle):
the part of a slot that the equip / unequip state machine is about. -/
def FEquipmentSlot.Logical (s : FEquipmentSlot) : FEquipmentSlot :=
  { s with AttachedVisualComponent := none, MeshLoadHandle := none }

/-- The slot table without the visual state of its slots. -/
def Manager.Logical (m : Manager) : List FEquipmentSlot :=
  m.EquipmentSlots.map FEquipmentSlot.Logical

/-- The slot write of `Internal_Equip`. -/
def setEquipped (Item : FItemInstance) (s : FEquipmentSlot) : FEquipmentSlot :=
  { s with EquippedItem := Item, bIsOccupied := true }

/-- The slot write of `Internal_Unequip`. -/
def clearEquipped (s : FEquipmentSlot) : FEquipmentSlot :=
  { s with EquippedItem := FItemInstance.Default, bIsOccupied := false }

/-! ## Example data -/

/-- The tag `Equipment`. -/
def tagEquipment : FGameplayTag := ⟨["Equipment"]⟩
/-- The tag `Equipment.MainHand`. -/
def tagMainHand : FGameplayTag := ⟨["Equipment", "MainHand"]⟩
/-- The tag `Equipment.OffHand`. -/
def tagOffHand : FGameplayTag := ⟨["Equipment", "OffHand"]⟩
/-- The tag `Equipment.Head`. -/
def tagHead : FGameplayTag := ⟨["Equipment", "Head"]⟩
/-- The tag `Item.Weapon`. -/
def tagWeapon : FGameplayTag := ⟨["Item", "Weapon"]⟩
/-- The tag `Item.Armor`. -/
def tagArmor : FGameplayTag := ⟨["Item", "Armor"]⟩

/-- The equipment fragment of a sword: main hand, a static mesh, one ability and
one passive effect. -/
def swordFragment : UItemFragment_Equipment :=
  { EquipmentSlotTag := tagMainHand, EquipMesh := some 10, EquipSkeletalMesh := none,
    AnimLayerClass := none, GrantedAbilities := [some 100], PassiveEffects := [some 200],
    OnEquipEffects := [] }

/-- The equipment fragment of a helmet: head, a skeletal mesh. -/
def helmetFragment : UItemFragment_Equipment :=
  { EquipmentSlotTag := tagHead, EquipMesh := none, EquipSkeletalMesh := some 20,
    AnimLayerClass := none, GrantedAbilities := [], PassiveEffects := [],
    OnEquipEffects := [] }

/-- The equipment fragment of a ring: any slot below `Equipment`, no visual. -/
def ringFragment : UItemFragment_Equipment :=
  { EquipmentSlotTag := tagEquipment, EquipMesh := none, EquipSkeletalMesh := none,
    AnimLayerClass := none, GrantedAbilities := [], PassiveEffects := [],
    OnEquipEffects := [] }

/-- An example database: definition 1 is a sword, 2 a helmet, 3 a ring, 4 a
potion without equipment fragment; no other definition exists. -/
def exampleDB : UItemDatabaseSubsystem where
  GetDefinition := fun id =>
    if id = 1 then some { ItemTags := [tagWeapon], EquipmentFragment := some swordFragment }
    else if id = 2 then
      some { ItemTags := [tagArmor], EquipmentFragment := some helmetFragment }
    else if id = 3 then some { ItemTags := [], EquipmentFragment := some ringFragment }
    else if id = 4 then some { ItemTags := [], EquipmentFragment := none }
    else none

/-- The authoritative node with the example database. -/
def serverWorld : World :=
  { HasAuthority := true, ItemDatabase := some exampleDB }

/-- A non-authoritative node with the example database. -/
def clientWorld : World :=
  { HasAuthority := false, ItemDatabase := some exampleDB }

/-- An example item: a sword. -/
def itemSword : FItemInstance := { InstanceId := 7, ItemDefinitionId := 1, StackCount := 1 }
/-- An example item: a second sword. -/
def itemSword2 : FItemInstance := { InstanceId := 8, ItemDefinitionId := 1, StackCount := 1 }
/-- An example item: a helmet. -/
def itemHelmet : FItemInstance := { InstanceId := 9, ItemDefinitionId := 2, StackCount := 1 }
/-- An example item: a ring, whose preferred tag is the parent tag `Equipment`. -/
def itemRing : FItemInstance := { InstanceId := 11, ItemDefinitionId := 3, StackCount := 1 }
/-- An example item without equipment fragment. -/
def itemPotion : FItemInstance := { InstanceId := 12, ItemDefinitionId := 4, StackCount := 5 }

/-- A freshly activated manager with the slots `[MainHand, OffHand, Head]`. -/
def exampleManager : Manager :=
  BeginPlay [{ SlotTag := tagMainHand }, { SlotTag := tagOffHand }, { SlotTag := tagHead }]

/-- A manager whose main-hand slot holds the sword; the other slots are empty. -/
def swordManager : Manager :=
  { EquipmentSlots :=
      [{ SlotTag := tagMainHand, EquippedItem := itemSword, bIsOccupied := true },
       { SlotTag := tagOffHand }, { SlotTag := tagHead }] }

/-- The example manager after the sword was equipped into the main hand by a
direct call on the authoritative node. -/
def swordEquippedManager : Manager :=
  (TryEquipToSlot serverWorld exampleManager (ItemRef.Local itemSword) tagMainHand).2

/-! ## Definitions used to state the claims, and further example data -/

/-- The tag set of the item's definition (empty when the definition does not
resolve). -/
def ItemDefinitionTags (w : World) (Item : FItemInstance) : FGameplayTagContainer :=
  match w.ItemDatabase with
  | none => []
  | some DB =>
    match DB.GetDefinition Item.ItemDefinitionId with
    | none => []
    | some Def => Def.ItemTags

/-- Validation as the specification words it: `InvalidItem` if the item is
invalid or resolves to no equipment fragment; otherwise `IncompatibleSlot` if no
runtime slot has the tag; otherwise `IncompatibleSlot` if the slot's accepted-tag
filter is non-empty and the item's definition tags do not intersect it;
otherwise `Success`. -/
def ValidateEquip_spec (w : World) (m : Manager) (Item : FItemInstance)
    (SlotTag : FGameplayTag) : EEquipmentResult :=
  if Item.IsValid = false ∨ GetEquipmentFragment w Item = none then
    EEquipmentResult.InvalidItem
  else
    match m.EquipmentSlots.find? (fun Slot => Slot.SlotTag == SlotTag) with
    | none => EEquipmentResult.IncompatibleSlot
    | some Slot =>
      if Slot.AcceptedItemTags ≠ []
          ∧ (ItemDefinitionTags w Item).HasAny Slot.AcceptedItemTags = false then
        EEquipmentResult.IncompatibleSlot
      else EEquipmentResult.Success

/-- An example inventory: a list of items with room for four. -/
def exampleInventory : UInventoryComponent (List FItemInstance) where
  FindSlotIndexByInstanceId := fun inv id =>
    match inv.findIdx? (fun it => it.InstanceId == id) with
    | some i => (i : Int)
    | none => INDEX_NONE
  GetItemInSlot := fun inv i => inv.getD i.toNat FItemInstance.Default
  CanAcceptItem := fun inv _ => inv.length < 4
  TryAddItem := fun inv it => if inv.length < 4 then (true, inv ++ [it]) else (false, inv)
  TryRemoveItem := fun inv id =>
    if inv.any (fun it => it.InstanceId == id) then
      (true, inv.filter (fun it => it.InstanceId != id))
    else (false, inv)

/-- A manager whose only slot, the main hand, accepts armor only. -/
def armorOnlyManager : Manager :=
  { EquipmentSlots := [{ SlotTag := tagMainHand, AcceptedItemTags := [tagArmor] }] }

/-- A manager with an empty `Equipment.MainHand` slot declared before an empty
`Equipment` slot. -/
def childFirstManager : Manager :=
  { EquipmentSlots := [{ SlotTag := tagMainHand }, { SlotTag := tagEquipment }] }

/-- Whether a slot's tag equals the tag `P` or descends from it. -/
def SlotMatches (P : FGameplayTag) (Slot : FEquipmentSlot) : Prop :=
  Slot.SlotTag = P ∨ Slot.SlotTag.MatchesTag P = true

instance (P : FGameplayTag) (Slot : FEquipmentSlot) : Decidable (SlotMatches P Slot) :=
  inferInstanceAs (Decidable (_ ∨ _))

/-- A manager with two empty slots below `Equipment`, declared in the order
`[MainHand, OffHand]`. -/
def twoChildrenManager : Manager :=
  { EquipmentSlots := [{ SlotTag := tagMainHand }, { SlotTag := tagOffHand }] }

/-- A manager whose two slots below `Equipment` are both occupied. -/
def fullManager : Manager :=
  { EquipmentSlots :=
      [{ SlotTag := tagMainHand, EquippedItem := itemSword, bIsOccupied := true },
       { SlotTag := tagOffHand, EquippedItem := itemSword2, bIsOccupied := true }] }

/-- The slot tag `TryEquipFromInventory` works with after its auto-detection
step: the given tag when it is valid, else the result of `FindTargetSlot`. -/
def ResolvedSlotTag (w : World) (m : Manager) (Item : FItemInstance)
    (SlotTag : FGameplayTag) : FGameplayTag :=
  if SlotTag.IsValid then SlotTag else FindTargetSlot w m Item

/-- A state-changing call made on the inventory component. -/
inductive InventoryCall where
  | TryAddItem (Item : FItemInstance)
  | TryRemoveItem (ItemInstanceId : Nat)
deriving DecidableEq, Repr

/-- An inventory that behaves as `I` does and keeps, next to the state of `I`,
the list of the state-changing calls made on it, oldest first. -/
def recordingInventory {Inv : Type} (I : UInventoryComponent Inv) :
    UInventoryComponent (Inv × List InventoryCall) where
  FindSlotIndexByInstanceId := fun s id => I.FindSlotIndexByInstanceId s.1 id
  GetItemInSlot := fun s i => I.GetItemInSlot s.1 i
  CanAcceptItem := fun s it => I.CanAcceptItem s.1 it
  TryAddItem := fun s it =>
    ((I.TryAddItem s.1 it).1, ((I.TryAddItem s.1 it).2, s.2 ++ [InventoryCall.TryAddItem it]))
  TryRemoveItem := fun s id =>
    ((I.TryRemoveItem s.1 id).1,
      ((I.TryRemoveItem s.1 id).2, s.2 ++ [InventoryCall.TryRemoveItem id]))

/-- An example inventory over a list of items whose answers are fixed: whether
the pre-check `CanAcceptItem` passes, whether `TryAddItem` succeeds, and whether
`TryRemoveItem` of a held item succeeds. A failed call leaves the list as it
is. -/
def listInventory (accepts adds removes : Bool) : UInventoryComponent (List FItemInstance) where
  FindSlotIndexByInstanceId := fun inv id =>
    match inv.findIdx? (fun it => it.InstanceId == id) with
    | some i => (i : Int)
    | none => INDEX_NONE
  GetItemInSlot := fun inv i => inv.getD i.toNat FItemInstance.Default
  CanAcceptItem := fun _ _ => accepts
  TryAddItem := fun inv it => if adds then (true, inv ++ [it]) else (false, inv)
  TryRemoveItem := fun inv id =>
    if removes && inv.any (fun it => it.InstanceId == id) then
      (true, inv.filter (fun it => it.InstanceId != id))
    else (false, inv)

/-- Whether an effect is a request forwarded to the authoritative node. -/
def IsForwardedRequest : Event → Bool
  | Event.ServerRPC_RequestEquip _ _ => true
  | Event.ServerRPC_RequestUnequip _ => true
  | Event.ServerRPC_RequestEquipFromInventory _ _ => true
  | Event.ServerRPC_RequestUnequipToInventory _ => true
  | _ => false

/-- The state `m1` differs from `m` by at most one forwarded request: the slot
table is the same and the trace has grown by nothing or by one request. -/
def AtMostOneRequest (m m1 : Manager) : Prop :=
  m1 = m ∨ ∃ e, IsForwardedRequest e = true ∧ m1 = m.emit [e]

/-- Whether an effect is the operation-failed notification sent back to the
requester. -/
def IsOperationFailed : Event → Bool
  | Event.ClientRPC_EquipmentOperationFailed _ => true
  | _ => false

/-- The trace of `m1` continues the trace of `m` with effects none of which is
an operation-failed notification. -/
def NoFailureNotification (m m1 : Manager) : Prop :=
  ∃ d, m1.Trace = m.Trace ++ d ∧ ∀ e ∈ d, IsOperationFailed e = false

/-- What an operation addressed to the tag `T` may do to the logical table:
nothing, clear the first slot of tag `T`, or write a valid item into it. -/
def LogicalChange (T : FGameplayTag) (L L1 : List FEquipmentSlot) : Prop :=
  L1 = L ∨ L1 = modifySlot T clearEquipped L
    ∨ ∃ Item : FItemInstance, Item.IsValid = true ∧ L1 = modifySlot T (setEquipped Item) L

/-- The slot `s1` is the slot `s` after an operation addressed to the tag `T`
that kept what it must keep: tag, filter and socket, and, for a slot of another
tag, occupancy and item. -/
def SlotKept (T : FGameplayTag) (s s1 : FEquipmentSlot) : Prop :=
  s1.SlotTag = s.SlotTag ∧ s1.AcceptedItemTags = s.AcceptedItemTags
    ∧ s1.AttachSocket = s.AttachSocket
    ∧ (s.SlotTag ≠ T → s1.bIsOccupied = s.bIsOccupied ∧ s1.EquippedItem = s.EquippedItem)

/-- The slot invariant of the data model: the slot is occupied if and only if
its item is valid, and an empty slot holds the default item. -/
def SlotInvariant (s : FEquipmentSlot) : Prop :=
  (s.bIsOccupied = true ↔ s.EquippedItem.IsValid = true)
    ∧ (s.bIsOccupied = false → s.EquippedItem = FItemInstance.Default)

/-- One call of a public operation or of a forwarded-request handler, on any
node and with any arguments, addressed to the slot tag `T`: `StepAt T m m1`
holds when the call takes the component from state `m` to state `m1`. For the
operations that resolve the tag themselves, `T` is the resolved tag. The
reference arguments of the direct operations are bound to objects of the
caller's own, not to members of the slot table. -/
inductive StepAt (T : FGameplayTag) (m : Manager) : Manager → Prop where
  | TryEquip (w : World) (Item : FItemInstance) (h : FindTargetSlot w m Item = T) :
      StepAt T m (TryEquip w m (ItemRef.Local Item)).2
  | TryEquipToSlot (w : World) (Item : FItemInstance) :
      StepAt T m (TryEquipToSlot w m (ItemRef.Local Item) T).2
  | TryUnequip (w : World) (OutItem : FItemInstance) :
      StepAt T m (TryUnequip w m T (ItemRef.Local OutItem)).2.2
  | TryEquipFromInventory (Inv : Type) (I : UInventoryComponent Inv) (w : World)
      (ItemInstanceId : Nat) (SourceInventory : Option Inv) (SlotTag : FGameplayTag)
      (h : ∀ inv, SourceInventory = some inv →
        ResolvedSlotTag w m
          (I.GetItemInSlot inv (I.FindSlotIndexByInstanceId inv ItemInstanceId)) SlotTag = T) :
      StepAt T m (TryEquipFromInventory I w m ItemInstanceId SourceInventory SlotTag).2.1
  | TryUnequipToInventory (Inv : Type) (I : UInventoryComponent Inv) (w : World)
      (TargetInventory : Option Inv) :
      StepAt T m (TryUnequipToInventory I w m T TargetInventory).2.1
  | ServerRPC_RequestEquip (w : World) (Item : FItemInstance) :
      StepAt T m (ServerRPC_RequestEquip w m Item T)
  | ServerRPC_RequestUnequip (w : World) :
      StepAt T m (ServerRPC_RequestUnequip w m T)
  | ServerRPC_RequestEquipFromInventory (Inv : Type) (I : UInventoryComponent Inv)
      (w : World) (ItemInstanceId : Nat) (SourceInventory : Option Inv)
      (SlotTag : FGameplayTag)
      (h : ∀ inv, SourceInventory = some inv →
        ResolvedSlotTag w m
          (I.GetItemInSlot inv (I.FindSlotIndexByInstanceId inv ItemInstanceId)) SlotTag = T) :
      StepAt T m
        (ServerRPC_RequestEquipFromInventory I w m ItemInstanceId SourceInventory SlotTag).1
  | ServerRPC_RequestUnequipToInventory (Inv : Type) (I : UInventoryComponent Inv)
      (w : World) (TargetInventory : Option Inv) :
      StepAt T m (ServerRPC_RequestUnequipToInventory I w m T TargetInventory).1

/-- The states reachable from the freshly activated manager with the slot
definitions `AvailableSlots` by any sequence of public operations and
forwarded-request handlers, in the sense of `StepAt`. -/
inductive Reachable (AvailableSlots : List FEquipmentSlotDefinition) : Manager → Prop where
  | BeginPlay : Reachable AvailableSlots (BeginPlay AvailableSlots)
  | step (T : FGameplayTag) (m m1 : Manager) (hm : Reachable AvailableSlots m)
      (hs : StepAt T m m1) : Reachable AvailableSlots m1

/-- A manager activated from two slot definitions with the same tag. -/
def duplicateTagManager : Manager :=
  BeginPlay [{ SlotTag := tagMainHand }, { SlotTag := tagMainHand }]

/-- The main-hand slot holding the sword, with the load of its mesh (handle 0)
requested. -/
def swordSlotLoading : FEquipmentSlot :=
  { SlotTag := tagMainHand, EquippedItem := itemSword, bIsOccupied := true,
    MeshLoadHandle := some 0 }

/-! ### The effects of the visual and GAS helpers, by the slot they find -/

/-- The cancellation of the pending load of a slot, if it has one. -/
def cancelEffects (Slot : FEquipmentSlot) : List Event :=
  match Slot.MeshLoadHandle with
  | some Handle => [Event.CancelHandle Handle]
  | none => []

/-- The destruction of the attached visual component of a slot, if it has one. -/
def destroyEffects (Slot : FEquipmentSlot) : List Event :=
  match Slot.AttachedVisualComponent with
  | some Component => [Event.DestroyComponent Component]
  | none => []

/-- The unlinking of the animation layer of the item of an occupied slot. -/
def unlinkEffects (w : World) (Slot : FEquipmentSlot) : List Event :=
  if Slot.bIsOccupied then
    match GetEquipmentFragment w Slot.EquippedItem with
    | none => []
    | some EquipFrag =>
      match EquipFrag.AnimLayerClass with
      | none => []
      | some AnimLayerClass =>
        if w.OwnerMesh then [Event.UnlinkAnimClassLayers AnimLayerClass] else []
  else []

/-- The effects of the visual removal `RemoveVisuals` for the slot it finds. -/
def RemoveVisualsEffects (w : World) (Slot : FEquipmentSlot) : List Event :=
  cancelEffects Slot ++ destroyEffects Slot ++ unlinkEffects w Slot

/-- The mesh `ApplyVisuals` decides to load for an item: the skeletal mesh when
one is set, otherwise the static mesh; `none` when the fragment does not resolve
or has neither. -/
def MeshToLoad (w : World) (Item : FItemInstance) : Option Nat :=
  match GetEquipmentFragment w Item with
  | none => none
  | some EquipFrag =>
    match EquipFrag.EquipSkeletalMesh with
    | some Mesh => some Mesh
    | none => EquipFrag.EquipMesh

/-- The effects of the visual attachment `ApplyVisuals` for the slot it finds,
with `Handle` the next handle of the streamable manager. -/
def ApplyVisualsEffects (w : World) (Item : FItemInstance) (Slot : FEquipmentSlot)
    (SlotTag : FGameplayTag) (Handle : Nat) : List Event :=
  match MeshToLoad w Item with
  | none => []
  | some Mesh => cancelEffects Slot ++ [Event.RequestAsyncLoad Handle Mesh SlotTag]

/-- The effects of `ApplyGAS`: the equip callback, on the authoritative node with
the callbacks bound. -/
def gasEquipEffects (w : World) (Item : FItemInstance) (SlotTag : FGameplayTag) :
    List Event :=
  if w.HasAuthority && w.GASCallbacksBound then [Event.OnGASEquipCallback Item SlotTag]
  else []

/-- The effects of `RemoveGAS`: the unequip callback, on the authoritative node
with the callbacks bound. -/
def gasUnequipEffects (w : World) (SlotTag : FGameplayTag) : List Event :=
  if w.HasAuthority && w.GASCallbacksBound then [Event.OnGASUnequipCallback SlotTag]
  else []

/-- The slot after `RemoveVisuals`: no load handle, no visual component. -/
def clearVisuals (s : FEquipmentSlot) : FEquipmentSlot :=
  { s with MeshLoadHandle := none, AttachedVisualComponent := none }

/-- The slot after `ApplyVisuals` of an item: the handle of the requested load,
when a load is requested. -/
def setLoadHandle (w : World) (Item : FItemInstance) (Handle : Nat) (s : FEquipmentSlot) :
    FEquipmentSlot :=
  match MeshToLoad w Item with
  | none => s
  | some _ => { s with MeshLoadHandle := some Handle }

/-- The next handle of the streamable manager after `ApplyVisuals` of an item. -/
def nextHandleAfter (w : World) (Item : FItemInstance) (Handle : Nat) : Nat :=
  match MeshToLoad w Item with
  | none => Handle
  | some _ => Handle + 1

/-- The effects of `Internal_Unequip` on an occupied slot, in the order of the
code: GAS unequip callback, visual removal, the clearing of the slot, the
item-unequipped and equipment-changed notifications, the post-unequip hook. -/
def unequipEffects (w : World) (Slot : FEquipmentSlot) (SlotTag : FGameplayTag) :
    List Event :=
  gasUnequipEffects w SlotTag ++ RemoveVisualsEffects w Slot
    ++ [Event.SlotWrite SlotTag FItemInstance.Default false,
        Event.OnItemUnequipped Slot.EquippedItem SlotTag, Event.OnEquipmentChanged,
        Event.OnPostUnequip Slot.EquippedItem SlotTag]

/-- The effects of `Internal_Equip` on the slot it finds, in the order of the
code: the write of the item, visual attachment, GAS equip callback, the
item-equipped and equipment-changed notifications, the post-equip hook. -/
def equipEffects (w : World) (Item : FItemInstance) (Slot : FEquipmentSlot)
    (SlotTag : FGameplayTag) (Handle : Nat) : List Event :=
  [Event.SlotWrite SlotTag Item true] ++ ApplyVisualsEffects w Item Slot SlotTag Handle
    ++ gasEquipEffects w Item SlotTag
    ++ [Event.OnItemEquipped Item SlotTag, Event.OnEquipmentChanged,
        Event.OnPostEquip Item SlotTag]

/-- The slot after `Internal_Unequip`: empty, without visual state. -/
def unequippedSlot (s : FEquipmentSlot) : FEquipmentSlot :=
  { clearVisuals s with EquippedItem := FItemInstance.Default, bIsOccupied := false }

/-- The slot after `Internal_Equip` of an item. -/
def equippedSlot (w : World) (Item : FItemInstance) (Handle : Nat) (s : FEquipmentSlot) :
    FEquipmentSlot :=
  setLoadHandle w Item Handle { s with EquippedItem := Item, bIsOccupied := true }

/-- The effects of a rollback of the slot of `SlotTag` holding `Slot.EquippedItem`,
as the specification lists them: the unequip of the item followed by the equip
of the same item, with the visual attachment restarted under a new handle. -/
def rollbackEffects (w : World) (Slot : FEquipmentSlot) (SlotTag : FGameplayTag)
    (Handle : Nat) : List Event :=
  gasUnequipEffects w SlotTag
    ++ RemoveVisualsEffects w Slot
    ++ [Event.SlotWrite SlotTag FItemInstance.Default false,
        Event.OnItemUnequipped Slot.EquippedItem SlotTag,
        Event.OnEquipmentChanged,
        Event.OnPostUnequip Slot.EquippedItem SlotTag,
        Event.SlotWrite SlotTag Slot.EquippedItem true]
    ++ (match MeshToLoad w Slot.EquippedItem with
        | none => []
        | some Mesh => [Event.RequestAsyncLoad Handle Mesh SlotTag])
    ++ gasEquipEffects w Slot.EquippedItem SlotTag
    ++ [Event.OnItemEquipped Slot.EquippedItem SlotTag,
        Event.OnEquipmentChanged,
        Event.OnPostEquip Slot.EquippedItem SlotTag]

/-- The visual component `OnMeshLoaded` attaches for a fragment at a socket: a
skeletal one when the fragment has a skeletal mesh, otherwise a static one when
it has a static mesh; nothing when the chosen mesh did not load. -/
def VisualToAttach (w : World) (EquipFrag : UItemFragment_Equipment) (Socket : Nat) :
    Option USceneComponent :=
  match EquipFrag.EquipSkeletalMesh with
  | some Mesh => if w.IsLoaded Mesh then some (USceneComponent.mk true Mesh Socket) else none
  | none =>
    match EquipFrag.EquipMesh with
    | some Mesh => if w.IsLoaded Mesh then some (USceneComponent.mk false Mesh Socket) else none
    | none => none

/-- The linking of the animation layer of a fragment. -/
def linkEffects (EquipFrag : UItemFragment_Equipment) : List Event :=
  match EquipFrag.AnimLayerClass with
  | some AnimLayerClass => [Event.LinkAnimClassLayers AnimLayerClass]
  | none => []

/-! ## The GAS integration module (`EquipmentGASIntegration`)

The module binds the two GAS callbacks of the manager to an ability granter and
an effect applier. The ability system component of the engine is taken at its
interface, over an arbitrary state `A`; ability and effect classes are the
identifiers the fragment carries. -/

/-- The engine type `FGameplayAbilitySpecHandle`. -/
structure FGameplayAbilitySpecHandle where
  Handle : Int
deriving DecidableEq, Repr

/-- The engine check `FGameplayAbilitySpecHandle::IsValid`. -/
def FGameplayAbilitySpecHandle.IsValid (h : FGameplayAbilitySpecHandle) : Bool :=
  h.Handle != INDEX_NONE

/-- The engine type `FActiveGameplayEffectHandle`. -/
structure FActiveGameplayEffectHandle where
  Handle : Int
deriving DecidableEq, Repr

/-- The engine check `FActiveGameplayEffectHandle::IsValid`. -/
def FActiveGameplayEffectHandle.IsValid (h : FActiveGameplayEffectHandle) : Bool :=
  h.Handle != INDEX_NONE

/-- The engine class `UAbilitySystemComponent`, at its interface: the calls the
granter and the applier make on it. -/
structure UAbilitySystemComponent (A : Type) where
  GiveAbility : A → Nat → FGameplayAbilitySpecHandle × A
  ClearAbility : A → FGameplayAbilitySpecHandle → A
  /-- Returns whether the outgoing spec made for the effect class is valid. -/
  MakeOutgoingSpec : A → Nat → Bool
  ApplyGameplayEffectSpecToSelf : A → Nat → FActiveGameplayEffectHandle × A
  RemoveActiveGameplayEffect : A → FActiveGameplayEffectHandle → A

/-- The engine container `TMap` keyed by gameplay tags: `none` for a tag without
an entry. -/
def TMap (V : Type) : Type := FGameplayTag → Option V

/-- The empty map. -/
def TMap.Empty {V : Type} : TMap V := fun _ => none

/-- `TMap::Find`. -/
def TMap.Find {V : Type} (M : TMap V) (Key : FGameplayTag) : Option V := M Key

/-- `TMap::Add`: sets the entry of the key. -/
def TMap.Add {V : Type} (M : TMap V) (Key : FGameplayTag) (Value : V) : TMap V :=
  fun k => if k = Key then some Value else M k

/-- `TMap::Remove`. -/
def TMap.Remove {V : Type} (M : TMap V) (Key : FGameplayTag) : TMap V :=
  fun k => if k = Key then none else M k

/-- `UEquipmentAbilityGranter`: the granted ability handles, by slot tag. -/
structure UEquipmentAbilityGranter where
  GrantedAbilityHandles : TMap (List FGameplayAbilitySpecHandle)

/-- `UEquipmentEffectApplier`: the handles of the applied passive effects, by slot
tag. -/
structure UEquipmentEffectApplier where
  AppliedEffectHandles : TMap (List FActiveGameplayEffectHandle)

/-- One turn of the loop of `GrantAbilities` over the ability classes of the
fragment: a null class is skipped, a valid returned handle is added. -/
def GrantAbilityStep {A : Type} (C : UAbilitySystemComponent A)
    (acc : List FGameplayAbilitySpecHandle × A) (AbilityClass : Option Nat) :
    List FGameplayAbilitySpecHandle × A :=
  match AbilityClass with
  | none => acc
  | some Class =>
    let r := C.GiveAbility acc.2 Class
    if r.1.IsValid then (acc.1 ++ [r.1], r.2) else (acc.1, r.2)

/-- `UEquipmentAbilityGranter::GrantAbilities`. The database, definition and
fragment lookups are those of `GetEquipmentFragment`; `FindOrAdd` followed by
the additions of the loop is the final `Add` of the extended list. Returns the
granter and the ability system component after the call. -/
def GrantAbilities {A : Type} (C : UAbilitySystemComponent A) (w : World)
    (self : UEquipmentAbilityGranter) (Item : FItemInstance) (SlotTag : FGameplayTag)
    (ASC : Option A) : UEquipmentAbilityGranter × Option A :=
  match ASC with
  | none => (self, none)
  | some asc =>
    match GetEquipmentFragment w Item with
    | none => (self, some asc)
    | some EquipFrag =>
      let Handles := (self.GrantedAbilityHandles.Find SlotTag).getD []
      let r := EquipFrag.GrantedAbilities.foldl (GrantAbilityStep C) (Handles, asc)
      ({ GrantedAbilityHandles := self.GrantedAbilityHandles.Add SlotTag r.1 }, some r.2)

/-- `UEquipmentAbilityGranter::RevokeAbilities`. -/
def RevokeAbilities {A : Type} (C : UAbilitySystemComponent A)
    (self : UEquipmentAbilityGranter) (SlotTag : FGameplayTag) (ASC : Option A) :
    UEquipmentAbilityGranter × Option A :=
  match ASC with
  | none => (self, none)
  | some asc =>
    match self.GrantedAbilityHandles.Find SlotTag with
    | none => (self, some asc)
    | some Handles =>
      let asc1 := Handles.foldl
        (fun a Handle => if Handle.IsValid then C.ClearAbility a Handle else a) asc
      ({ GrantedAbilityHandles := self.GrantedAbilityHandles.Remove SlotTag }, some asc1)

/-- One turn of the loop of `ApplyEffects` over the passive effects: a null class
is skipped, the effect is applied when its outgoing spec is valid, and a valid
returned handle is added. -/
def PassiveEffectStep {A : Type} (C : UAbilitySystemComponent A)
    (acc : List FActiveGameplayEffectHandle × A) (EffectClass : Option Nat) :
    List FActiveGameplayEffectHandle × A :=
  match EffectClass with
  | none => acc
  | some Class =>
    if C.MakeOutgoingSpec acc.2 Class then
      let r := C.ApplyGameplayEffectSpecToSelf acc.2 Class
      if r.1.IsValid then (acc.1 ++ [r.1], r.2) else (acc.1, r.2)
    else acc

/-- One turn of the loop of `ApplyEffects` over the on-equip effects: a null
class is skipped, the effect is applied when its outgoing spec is valid, and the
returned handle is dropped. -/
def OnEquipEffectStep {A : Type} (C : UAbilitySystemComponent A) (asc : A)
    (EffectClass : Option Nat) : A :=
  match EffectClass with
  | none => asc
  | some Class =>
    if C.MakeOutgoingSpec asc Class then (C.ApplyGameplayEffectSpecToSelf asc Class).2
    else asc

/-- `UEquipmentEffectApplier::ApplyEffects`. -/
def ApplyEffects {A : Type} (C : UAbilitySystemComponent A) (w : World)
    (self : UEquipmentEffectApplier) (Item : FItemInstance) (SlotTag : FGameplayTag)
    (ASC : Option A) : UEquipmentEffectApplier × Option A :=
  match ASC with
  | none => (self, none)
  | some asc =>
    match GetEquipmentFragment w Item with
    | none => (self, some asc)
    | some EquipFrag =>
      let Handles := (self.AppliedEffectHandles.Find SlotTag).getD []
      -- Passive effects (tracked for removal)
      let r := EquipFrag.PassiveEffects.foldl (PassiveEffectStep C) (Handles, asc)
      -- On-equip effects (instant / duration, not tracked)
      let asc2 := EquipFrag.OnEquipEffects.foldl (OnEquipEffectStep C) r.2
      ({ AppliedEffectHandles := self.AppliedEffectHandles.Add SlotTag r.1 }, some asc2)

/-- `UEquipmentEffectApplier::RemoveEffects`. -/
def RemoveEffects {A : Type} (C : UAbilitySystemComponent A)
    (self : UEquipmentEffectApplier) (SlotTag : FGameplayTag) (ASC : Option A) :
    UEquipmentEffectApplier × Option A :=
  match ASC with
  | none => (self, none)
  | some asc =>
    match self.AppliedEffectHandles.Find SlotTag with
    | none => (self, some asc)
    | some Handles =>
      let asc1 := Handles.foldl
        (fun a Handle => if Handle.IsValid then C.RemoveActiveGameplayEffect a Handle else a)
        asc
      ({ AppliedEffectHandles := self.AppliedEffectHandles.Remove SlotTag }, some asc1)

/-- The objects the GAS setup factory creates for a manager, with the ability
system component of the owner (`none` when the owner has none). -/
structure GASIntegration (A : Type) where
  Granter : UEquipmentAbilityGranter
  Applier : UEquipmentEffectApplier
  ASC : Option A

/-- The callback bound to `OnGASEquipCallback` by `StartupModule`. -/
def OnGASEquipCallback {A : Type} (C : UAbilitySystemComponent A) (w : World)
    (G : GASIntegration A) (Item : FItemInstance) (SlotTag : FGameplayTag) :
    GASIntegration A :=
  match G.ASC with
  | none => G
  | some asc =>
    let r1 := GrantAbilities C w G.Granter Item SlotTag (some asc)
    let r2 := ApplyEffects C w G.Applier Item SlotTag r1.2
    { Granter := r1.1, Applier := r2.1, ASC := r2.2 }

/-- The callback bound to `OnGASUnequipCallback` by `StartupModule`. -/
def OnGASUnequipCallback {A : Type} (C : UAbilitySystemComponent A)
    (G : GASIntegration A) (SlotTag : FGameplayTag) : GASIntegration A :=
  match G.ASC with
  | none => G
  | some asc =>
    let r1 := RevokeAbilities C G.Granter SlotTag (some asc)
    let r2 := RemoveEffects C G.Applier SlotTag r1.2
    { Granter := r1.1, Applier := r2.1, ASC := r2.2 }

/-- Gives each ability class of a list in order: the returned handles, valid or
not, and the ability system component after the calls. -/
def giveAll {A : Type} (C : UAbilitySystemComponent A) :
    A → List Nat → List FGameplayAbilitySpecHandle × A
  | asc, [] => ([], asc)
  | asc, Class :: rest =>
    let r := C.GiveAbility asc Class
    let rs := giveAll C r.2 rest
    (r.1 :: rs.1, rs.2)

/-- Applies each effect class of a list in order, whatever its outgoing spec:
the returned handles, valid or not, and the ability system component after the
calls. -/
def applyEvery {A : Type} (C : UAbilitySystemComponent A) :
    A → List Nat → List FActiveGameplayEffectHandle × A
  | asc, [] => ([], asc)
  | asc, Class :: rest =>
    let r := C.ApplyGameplayEffectSpecToSelf asc Class
    let rs := applyEvery C r.2 rest
    (r.1 :: rs.1, rs.2)

/-- Applies in order each effect class of a list whose outgoing spec is valid:
the returned handles, valid or not, and the ability system component after the
calls. -/
def applyValid {A : Type} (C : UAbilitySystemComponent A) :
    A → List Nat → List FActiveGameplayEffectHandle × A
  | asc, [] => ([], asc)
  | asc, Class :: rest =>
    if C.MakeOutgoingSpec asc Class then
      let r := C.ApplyGameplayEffectSpecToSelf asc Class
      let rs := applyValid C r.2 rest
      (r.1 :: rs.1, rs.2)
    else applyValid C asc rest

/-- Clears each ability handle of a list once, in order. -/
def clearAll {A : Type} (C : UAbilitySystemComponent A) (asc : A)
    (Handles : List FGameplayAbilitySpecHandle) : A :=
  Handles.foldl C.ClearAbility asc

/-- Removes each active effect handle of a list once, in order. -/
def removeAll {A : Type} (C : UAbilitySystemComponent A) (asc : A)
    (Handles : List FActiveGameplayEffectHandle) : A :=
  Handles.foldl C.RemoveActiveGameplayEffect asc

/-- A call received by the example ability system component. -/
inductive ASCCall where
  | GiveAbility (Class : Nat) (Handle : Int)
  | ClearAbility (Handle : Int)
  | ApplyGameplayEffectSpecToSelf (Class : Nat) (Handle : Int)
  | RemoveActiveGameplayEffect (Handle : Int)
deriving DecidableEq, Repr

/-- The state of the example ability system component: the calls it received and
the next handle it hands out. -/
structure ExampleASC where
  Log : List ASCCall
  Next : Int
deriving DecidableEq, Repr

/-- An example ability system component: it logs its calls and hands out
increasing handles; `Accepts` tells the classes for which it returns a valid
handle, `SpecValid` the effect classes whose outgoing spec is valid. -/
def exampleASC (Accepts SpecValid : Nat → Bool) : UAbilitySystemComponent ExampleASC where
  GiveAbility := fun s Class =>
    if Accepts Class then
      (⟨s.Next⟩, { Log := s.Log ++ [ASCCall.GiveAbility Class s.Next], Next := s.Next + 1 })
    else (⟨INDEX_NONE⟩, { s with Log := s.Log ++ [ASCCall.GiveAbility Class INDEX_NONE] })
  ClearAbility := fun s h => { s with Log := s.Log ++ [ASCCall.ClearAbility h.Handle] }
  MakeOutgoingSpec := fun _ Class => SpecValid Class
  ApplyGameplayEffectSpecToSelf := fun s Class =>
    if Accepts Class then
      (⟨s.Next⟩, { Log := s.Log ++ [ASCCall.ApplyGameplayEffectSpecToSelf Class s.Next],
                   Next := s.Next + 1 })
    else (⟨INDEX_NONE⟩,
      { s with Log := s.Log ++ [ASCCall.ApplyGameplayEffectSpecToSelf Class INDEX_NONE] })
  RemoveActiveGameplayEffect := fun s h =>
    { s with Log := s.Log ++ [ASCCall.RemoveActiveGameplayEffect h.Handle] }

/-! ### Places of an item: the vocabulary of the conservation claim -/

/-- The item is in the inventory: the inventory finds a slot for its instance id
and that slot holds the item, with all its fields. -/
def InInventory {Inv : Type} (I : UInventoryComponent Inv) (inv : Inv) (X : FItemInstance) :
    Prop :=
  I.FindSlotIndexByInstanceId inv X.InstanceId ≠ INDEX_NONE
    ∧ I.GetItemInSlot inv (I.FindSlotIndexByInstanceId inv X.InstanceId) = X

instance {Inv : Type} (I : UInventoryComponent Inv) (inv : Inv) (X : FItemInstance) :
    Decidable (InInventory I inv X) := by
  unfold InInventory
  exact inferInstance

/-- The item is in the equipment slot of the tag, with all its fields. -/
def InSlot (m : Manager) (SlotTag : FGameplayTag) (X : FItemInstance) : Prop :=
  IsSlotOccupied m SlotTag = true ∧ GetEquippedItem m SlotTag = X

instance (m : Manager) (SlotTag : FGameplayTag) (X : FItemInstance) :
    Decidable (InSlot m SlotTag X) := by
  unfold InSlot
  exact inferInstance

/-- The item is in exactly one place, the equipment slot of the tag or the
inventory: never in both, never in neither. -/
def ExactlyOnePlace {Inv : Type} (I : UInventoryComponent Inv) (m : Manager) (inv : Inv)
    (SlotTag : FGameplayTag) (X : FItemInstance) : Prop :=
  (InSlot m SlotTag X ∧ ¬ InInventory I inv X) ∨ (¬ InSlot m SlotTag X ∧ InInventory I inv X)

instance {Inv : Type} (I : UInventoryComponent Inv) (m : Manager) (inv : Inv)
    (SlotTag : FGameplayTag) (X : FItemInstance) :
    Decidable (ExactlyOnePlace I m inv SlotTag X) := by
  unfold ExactlyOnePlace
  exact inferInstance

/-- The inventory the conservation claim is about: a failed add or remove leaves
it unchanged; a successful add puts the item in and a successful remove takes
the items of the instance id out, both keeping the items of other instance ids
where they are; the item found for an instance id has this instance id. -/
structure WellBehaved {Inv : Type} (I : UInventoryComponent Inv) : Prop where
  add_failed : ∀ inv Item, (I.TryAddItem inv Item).1 = false → (I.TryAddItem inv Item).2 = inv
  remove_failed : ∀ inv id,
    (I.TryRemoveItem inv id).1 = false → (I.TryRemoveItem inv id).2 = inv
  add_success : ∀ inv Item,
    (I.TryAddItem inv Item).1 = true → InInventory I (I.TryAddItem inv Item).2 Item
  add_others : ∀ inv Item X, (I.TryAddItem inv Item).1 = true →
    X.InstanceId ≠ Item.InstanceId →
    (InInventory I (I.TryAddItem inv Item).2 X ↔ InInventory I inv X)
  remove_success : ∀ inv id X, (I.TryRemoveItem inv id).1 = true → X.InstanceId = id →
    ¬ InInventory I (I.TryRemoveItem inv id).2 X
  remove_others : ∀ inv id X, (I.TryRemoveItem inv id).1 = true → X.InstanceId ≠ id →
    (InInventory I (I.TryRemoveItem inv id).2 X ↔ InInventory I inv X)
  found_id : ∀ inv id, I.FindSlotIndexByInstanceId inv id ≠ INDEX_NONE →
    (I.GetItemInSlot inv (I.FindSlotIndexByInstanceId inv id)).InstanceId = id

/-- An example inventory that is well behaved: a list of items of pairwise
distinct instance ids, of bounded length, where the slot index of an item is
its instance id. -/
def keyedInventory (Capacity : Nat) : UInventoryComponent (List FItemInstance) where
  FindSlotIndexByInstanceId := fun inv id =>
    if inv.any (fun it => it.InstanceId == id) then (id : Int) else INDEX_NONE
  GetItemInSlot := fun inv i =>
    (inv.find? (fun it => (it.InstanceId : Int) == i)).getD FItemInstance.Default
  CanAcceptItem := fun inv Item =>
    decide (inv.length < Capacity) && !inv.any (fun it => it.InstanceId == Item.InstanceId)
  TryAddItem := fun inv Item =>
    if decide (inv.length < Capacity) && !inv.any (fun it => it.InstanceId == Item.InstanceId)
    then (true, Item :: inv) else (false, inv)
  TryRemoveItem := fun inv id =>
    if inv.any (fun it => it.InstanceId == id) then
      (true, inv.filter (fun it => it.InstanceId != id))
    else (false, inv)

/-! ### Client reconciliation, slot by slot -/

/-- The reconciliation of one slot, from the state of the slot alone: the visual
attachment is started for an occupied slot without visual, the visual is removed
from an unoccupied slot with one, and the slot is left as it is otherwise. The
accumulator holds the slots done so far, the trace and the next load handle. -/
def reconcileSlot (w : World) (acc : Manager) (Slot : FEquipmentSlot) : Manager :=
  if Slot.bIsOccupied && Slot.AttachedVisualComponent.isNone then
    { EquipmentSlots :=
        acc.EquipmentSlots ++ [setLoadHandle w Slot.EquippedItem acc.NextHandle Slot],
      Trace := acc.Trace
        ++ ApplyVisualsEffects w Slot.EquippedItem Slot Slot.SlotTag acc.NextHandle,
      NextHandle := nextHandleAfter w Slot.EquippedItem acc.NextHandle }
  else if !Slot.bIsOccupied && Slot.AttachedVisualComponent.isSome then
    { EquipmentSlots := acc.EquipmentSlots ++ [clearVisuals Slot],
      Trace := acc.Trace ++ RemoveVisualsEffects w Slot,
      NextHandle := acc.NextHandle }
  else { acc with EquipmentSlots := acc.EquipmentSlots ++ [Slot] }

/-- The reconciliation of a list of slots, each by its own state, in order. -/
def reconcileSlots (w : World) (acc : Manager) (Slots : List FEquipmentSlot) : Manager :=
  Slots.foldl (reconcileSlot w) acc

/-- The reconciliation of the slot table of a manager, slot by slot. -/
def reconcile (w : World) (m : Manager) : Manager :=
  reconcileSlots w { m with EquipmentSlots := [] } m.EquipmentSlots

/-! ### Operations as sequences of internal moves -/

/-- Whether an effect is a message only: a request forwarded to the
authoritative node, a failure notification to the client, or a log entry. -/
def IsNotice : Event → Bool
  | Event.ServerRPC_RequestEquip _ _ => true
  | Event.ServerRPC_RequestUnequip _ => true
  | Event.ServerRPC_RequestEquipFromInventory _ _ => true
  | Event.ServerRPC_RequestUnequipToInventory _ => true
  | Event.ClientRPC_EquipmentOperationFailed _ => true
  | Event.LogError => true
  | _ => false

/-- The state `m1` is reached from `m` by internal moves on the node `w`:
`Internal_Unequip` of a slot, `Internal_Equip` into a slot that is not occupied,
and messages. -/
inductive Moves (w : World) (m : Manager) : Manager → Prop where
  | refl : Moves w m m
  | unequip (m1 : Manager) (T : FGameplayTag) (h : Moves w m m1) :
      Moves w m (Internal_Unequip w m1 T).2
  | equip (m1 : Manager) (Item : FItemInstance) (T : FGameplayTag) (h : Moves w m m1)
      (hempty : IsSlotOccupied m1 T = false) : Moves w m (Internal_Equip w m1 Item T)
  | notice (m1 : Manager) (es : List Event) (h : Moves w m m1)
      (hes : ∀ e ∈ es, IsNotice e = true) : Moves w m (m1.emit es)

/-- One call of a public operation or of a forwarded-request handler on the node
`w`, with any arguments: `StepOn w m m1` holds when the call takes the component
from state `m` to state `m1`. The item argument of `TryEquip` and of
`TryEquipToSlot` may be bound to any object; the output of `TryUnequip` is bound
to an object of the caller's own, not to a member of the slot table. -/
inductive StepOn (w : World) (m : Manager) : Manager → Prop where
  | TryEquip (Item : ItemRef) : StepOn w m (TryEquip w m Item).2
  | TryEquipToSlot (Item : ItemRef) (SlotTag : FGameplayTag) :
      StepOn w m (TryEquipToSlot w m Item SlotTag).2
  | TryUnequip (SlotTag : FGameplayTag) (OutItem : FItemInstance) :
      StepOn w m (TryUnequip w m SlotTag (ItemRef.Local OutItem)).2.2
  | TryEquipFromInventory (Inv : Type) (I : UInventoryComponent Inv)
      (ItemInstanceId : Nat) (SourceInventory : Option Inv) (SlotTag : FGameplayTag) :
      StepOn w m (TryEquipFromInventory I w m ItemInstanceId SourceInventory SlotTag).2.1
  | TryUnequipToInventory (Inv : Type) (I : UInventoryComponent Inv)
      (SlotTag : FGameplayTag) (TargetInventory : Option Inv) :
      StepOn w m (TryUnequipToInventory I w m SlotTag TargetInventory).2.1
  | ServerRPC_RequestEquip (Item : FItemInstance) (SlotTag : FGameplayTag) :
      StepOn w m (ServerRPC_RequestEquip w m Item SlotTag)
  | ServerRPC_RequestUnequip (SlotTag : FGameplayTag) :
      StepOn w m (ServerRPC_RequestUnequip w m SlotTag)
  | ServerRPC_RequestEquipFromInventory (Inv : Type) (I : UInventoryComponent Inv)
      (ItemInstanceId : Nat) (SourceInventory : Option Inv) (SlotTag : FGameplayTag) :
      StepOn w m
        (ServerRPC_RequestEquipFromInventory I w m ItemInstanceId SourceInventory SlotTag).1
  | ServerRPC_RequestUnequipToInventory (Inv : Type) (I : UInventoryComponent Inv)
      (SlotTag : FGameplayTag) (TargetInventory : Option Inv) :
      StepOn w m (ServerRPC_RequestUnequipToInventory I w m SlotTag TargetInventory).1

/-- The states reachable from the freshly activated manager with the slot
definitions `AvailableSlots` by any interleaving of public operations,
forwarded-request handlers and mesh-load completions, each on a node that
satisfies `P`. -/
inductive ReachableVia (P : World → Prop) (AvailableSlots : List FEquipmentSlotDefinition) :
    Manager → Prop where
  | BeginPlay : ReachableVia P AvailableSlots (BeginPlay AvailableSlots)
  | step (w : World) (hw : P w) (m m1 : Manager) (hm : ReachableVia P AvailableSlots m)
      (hs : StepOn w m m1) : ReachableVia P AvailableSlots m1
  | loaded (w : World) (hw : P w) (m : Manager) (hm : ReachableVia P AvailableSlots m)
      (SlotTag : FGameplayTag) : ReachableVia P AvailableSlots (OnMeshLoaded w m SlotTag)

/-! ### Loads in flight -/

/-- One effect read for the loads of the slot tag `T`: a request for the tag
adds its handle, the cancellation of a handle takes it away. -/
def pendingStep (T : FGameplayTag) (acc : List Nat) : Event → List Nat
  | Event.RequestAsyncLoad Handle _ SlotTag => if SlotTag = T then acc ++ [Handle] else acc
  | Event.CancelHandle Handle => acc.filter (fun h => h != Handle)
  | _ => acc

/-- The handles of the loads requested for the slot tag `T` in a trace and not
cancelled since: the loads that are in flight or completed. -/
def UncancelledLoads (Trace : List Event) (T : FGameplayTag) : List Nat :=
  Trace.foldl (pendingStep T) []

/-- Whether an effect is a call on the streamable manager. -/
def IsLoadEvent : Event → Bool
  | Event.RequestAsyncLoad _ _ _ => true
  | Event.CancelHandle _ => true
  | _ => false

/-- The load handle held by the slot `FindSlot` returns, as a list. -/
def heldHandle (Slot : Option FEquipmentSlot) : List Nat :=
  match Slot with
  | some s => s.MeshLoadHandle.toList
  | none => []

/-- The visual state is consistent: an unoccupied slot has no visual component
and no load handle; the uncancelled loads of a tag are the load held by the slot
of the tag; the handles held are below the next handle, and the slots of distinct
tags hold distinct handles. -/
structure VisualInvariant (m : Manager) : Prop where
  idle : ∀ s ∈ m.EquipmentSlots, s.bIsOccupied = false →
    s.AttachedVisualComponent = none ∧ s.MeshLoadHandle = none
  pending : ∀ T, UncancelledLoads m.Trace T = heldHandle (FindSlot m T)
  fresh : ∀ s ∈ m.EquipmentSlots, ∀ h, s.MeshLoadHandle = some h → h < m.NextHandle
  distinct : ∀ T U s u h, T ≠ U → FindSlot m T = some s → FindSlot m U = some u →
    s.MeshLoadHandle = some h → u.MeshLoadHandle ≠ some h

/-! ### The GAS callbacks in a trace -/

/-- Every slot of the table is the first of its tag, or else is unoccupied and
has no visual component. The activation and the operations of the component
touch only the first slot of a tag, so a slot that repeats a tag stays as the
activation made it. -/
def FirstOrIdle (Slots : List FEquipmentSlot) : Prop :=
  ∀ pre s post, Slots = pre ++ s :: post →
    (∀ x ∈ pre, x.SlotTag ≠ s.SlotTag)
      ∨ (s.bIsOccupied = false ∧ s.AttachedVisualComponent = none)

/-! ### Replication of the slot table, and the states a component can be in -/

/-- The replication of `EquipmentSlots` by the engine, at its interface. The
first list is the table of the authoritative instance, the second the table the
receiving instance has. Every slot takes the replicated properties from the
authoritative table; `AttachedVisualComponent` (declared `NotReplicated`) and
`MeshLoadHandle` (no property) stay as the receiving instance has them, and a
slot it did not have yet starts without them. -/
def receiveSlots : List FEquipmentSlot → List FEquipmentSlot → List FEquipmentSlot
  | [], _ => []
  | Slot :: rest, [] =>
    { Slot with AttachedVisualComponent := none, MeshLoadHandle := none }
      :: receiveSlots rest []
  | Slot :: rest, Mine :: mine =>
    { Slot with AttachedVisualComponent := Mine.AttachedVisualComponent,
                MeshLoadHandle := Mine.MeshLoadHandle }
      :: receiveSlots rest mine

/-- The component `m` after it received the slot table of the
authoritative instance `Server`; `OnRep_EquipmentSlots` is called next. -/
def ReceiveEquipmentSlots (Server m : Manager) : Manager :=
  { m with EquipmentSlots := receiveSlots Server.EquipmentSlots m.EquipmentSlots }

/-- The states an instance of the component with the slot definitions
`AvailableSlots` can be in, on whatever node: the state after construction (the
table is empty until `BeginPlay`), the state after activation, and from such a
state the state after a call of a public operation or of a forwarded-request
handler (on any node, with any arguments, the reference arguments of the direct
operations bound to any object), after a mesh-load completion, after the receipt
of the slot table of another such instance, and after `OnRep_EquipmentSlots`.
`StepOn` covers every call but `TryUnequip` with its output bound to a member of
the slot table, which has a constructor of its own. -/
inductive Attainable (AvailableSlots : List FEquipmentSlotDefinition) : Manager → Prop where
  | Constructed : Attainable AvailableSlots { EquipmentSlots := [] }
  | BeginPlay : Attainable AvailableSlots (BeginPlay AvailableSlots)
  | step (w : World) (m m1 : Manager) (hm : Attainable AvailableSlots m)
      (hs : StepOn w m m1) : Attainable AvailableSlots m1
  | TryUnequip (w : World) (m : Manager) (hm : Attainable AvailableSlots m)
      (SlotTag : FGameplayTag) (OutItem : ItemRef) :
      Attainable AvailableSlots (TryUnequip w m SlotTag OutItem).2.2
  | OnMeshLoaded (w : World) (m : Manager) (hm : Attainable AvailableSlots m)
      (SlotTag : FGameplayTag) : Attainable AvailableSlots (OnMeshLoaded w m SlotTag)
  | Received (Server m : Manager) (hS : Attainable AvailableSlots Server)
      (hm : Attainable AvailableSlots m) :
      Attainable AvailableSlots (ReceiveEquipmentSlots Server m)
  | OnRep_EquipmentSlots (w : World) (m : Manager) (hm : Attainable AvailableSlots m) :
      Attainable AvailableSlots (OnRep_EquipmentSlots w m)

/-- The condition `FirstOrIdle`, slot by slot: `seen` holds the tags of the slots
before. -/
def FirstOrIdleFrom (seen : List FGameplayTag) : List FEquipmentSlot → Prop
  | [] => True
  | Slot :: rest =>
    (Slot.SlotTag ∉ seen
        ∨ (Slot.bIsOccupied = false ∧ Slot.AttachedVisualComponent = none))
      ∧ FirstOrIdleFrom (Slot.SlotTag :: seen) rest

/-- The slot table of `m1` is the slot table of `m` after writes through the
pointer `FindSlot` returns for the tag `T`, writes that keep the tag. -/
def WrittenAt (T : FGameplayTag) (m m1 : Manager) : Prop :=
  ∃ g : FEquipmentSlot → FEquipmentSlot,
    (∀ s, (g s).SlotTag = s.SlotTag) ∧ m1.EquipmentSlots = modifySlot T g m.EquipmentSlots

/-- What the slot tables a component can hold have in common: the table is
empty or has the tags of the slot definitions, and every slot is the first of
its tag or idle. -/
structure TableInvariant (AvailableSlots : List FEquipmentSlotDefinition) (m : Manager) :
    Prop where
  tags : m.EquipmentSlots = []
    ∨ m.EquipmentSlots.map (fun s => s.SlotTag) = AvailableSlots.map (fun d => d.SlotTag)
  idle : FirstOrIdleFrom [] m.EquipmentSlots

/-- The client of the example after it received the slot table of the server
that holds the sword in the main hand, started the load of its mesh and attached
it, and then received the slot table of the server after the unequip. -/
def clientAfterUnequip : Manager :=
  ReceiveEquipmentSlots
    (TryUnequip serverWorld swordEquippedManager tagMainHand
      (ItemRef.Local FItemInstance.Default)).2.2
    (OnMeshLoaded { clientWorld with OwnerMesh := true }
      (OnRep_EquipmentSlots clientWorld
        (ReceiveEquipmentSlots swordEquippedManager exampleManager))
      tagMainHand)

/-! ## Lemmas on slot lookup and slot writes -/

/-! ### The direct operations on an object of the caller's own -/

theorem ItemRef.Get_Local (Item : FItemInstance) (m : Manager) :
    (ItemRef.Local Item).Get m = Item := rfl

theorem ItemRef.Assign_Local (Item v : FItemInstance) (m : Manager) :
    (ItemRef.Local Item).Assign m v = m := rfl

/-- With an argument object of the caller's own, `TryEquipToSlot` equips the
value the object holds at entry. -/
theorem TryEquipToSlot_Local (w : World) (m : Manager) (Item : FItemInstance)
    (SlotTag : FGameplayTag) :
    TryEquipToSlot w m (ItemRef.Local Item) SlotTag =
      (let ValidationResult := ValidateEquip w m Item SlotTag
       if ValidationResult ≠ EEquipmentResult.Success then (ValidationResult, m)
       else if !w.HasAuthority then
         (EEquipmentResult.Success, m.emit [Event.ServerRPC_RequestEquip Item SlotTag])
       else
         let m1 :=
           match FindSlot m SlotTag with
           | some Slot => if Slot.bIsOccupied then (Internal_Unequip w m SlotTag).2 else m
           | none => m
         (EEquipmentResult.Success, Internal_Equip w m1 Item SlotTag)) := rfl

theorem TryEquip_Local (w : World) (m : Manager) (Item : FItemInstance) :
    TryEquip w m (ItemRef.Local Item) =
      (let TargetSlot := FindTargetSlot w m Item
       if !TargetSlot.IsValid then (EEquipmentResult.IncompatibleSlot, m)
       else TryEquipToSlot w m (ItemRef.Local Item) TargetSlot) := rfl

/-- With an output object of the caller's own, `TryUnequip` writes nothing of
the component through it. -/
theorem TryUnequip_Local (w : World) (m : Manager) (SlotTag : FGameplayTag)
    (OutItem : FItemInstance) :
    TryUnequip w m SlotTag (ItemRef.Local OutItem) =
      (match FindSlot m SlotTag with
       | none => (EEquipmentResult.Failed, OutItem, m)
       | some Slot =>
         if !Slot.bIsOccupied then (EEquipmentResult.Failed, OutItem, m)
         else if !w.HasAuthority then
           (EEquipmentResult.Success, OutItem, m.emit [Event.ServerRPC_RequestUnequip SlotTag])
         else
           let r := Internal_Unequip w m SlotTag
           (EEquipmentResult.Success, r.1, r.2)) := rfl


theorem modifySlot_length (t : FGameplayTag) (f : FEquipmentSlot → FEquipmentSlot)
    (l : List FEquipmentSlot) : (modifySlot t f l).length = l.length := by
  induction l with
  | nil => rfl
  | cons a l ih =>
    unfold modifySlot
    split <;> simp [ih]

theorem Logical_SlotTag (s : FEquipmentSlot) : s.Logical.SlotTag = s.SlotTag := rfl

theorem Logical_bIsOccupied (s : FEquipmentSlot) : s.Logical.bIsOccupied = s.bIsOccupied := rfl

theorem Logical_EquippedItem (s : FEquipmentSlot) :
    s.Logical.EquippedItem = s.EquippedItem := rfl

theorem Logical_Logical (s : FEquipmentSlot) : s.Logical.Logical = s.Logical := rfl

/-- Looking a tag up in the logical table gives the logical content of the slot
that `FindSlot` returns. -/
theorem find_Logical (l : List FEquipmentSlot) (t : FGameplayTag) :
    (l.map FEquipmentSlot.Logical).find? (fun s => s.SlotTag == t)
      = (l.find? (fun s => s.SlotTag == t)).map FEquipmentSlot.Logical := by
  induction l with
  | nil => rfl
  | cons a l ih =>
    simp only [List.map_cons, List.find?_cons, Logical_SlotTag]
    cases h : (a.SlotTag == t) <;> simp [ih]

/-- A write that touches only the visual state leaves the logical table as it is. -/
theorem modifySlot_Logical_of_visual (t : FGameplayTag)
    (f : FEquipmentSlot → FEquipmentSlot) (hf : ∀ s, (f s).Logical = s.Logical)
    (l : List FEquipmentSlot) :
    (modifySlot t f l).map FEquipmentSlot.Logical = l.map FEquipmentSlot.Logical := by
  induction l with
  | nil => rfl
  | cons a l ih =>
    unfold modifySlot
    split
    · simp [hf]
    · simp [ih]

/-- A write that acts on the logical content commutes with taking the logical
table. -/
theorem modifySlot_Logical_comm (t : FGameplayTag)
    (f g : FEquipmentSlot → FEquipmentSlot) (hf : ∀ s, (f s).Logical = g s.Logical)
    (l : List FEquipmentSlot) :
    (modifySlot t f l).map FEquipmentSlot.Logical
      = modifySlot t g (l.map FEquipmentSlot.Logical) := by
  induction l with
  | nil => rfl
  | cons a l ih =>
    simp only [modifySlot, List.map_cons, Logical_SlotTag]
    split
    · simp [hf]
    · simp [ih]

/-- Two successive writes to the slot of one tag are one write. -/
theorem modifySlot_modifySlot (t : FGameplayTag) (f g : FEquipmentSlot → FEquipmentSlot)
    (hf : ∀ s, (f s).SlotTag = s.SlotTag) (l : List FEquipmentSlot) :
    modifySlot t g (modifySlot t f l) = modifySlot t (fun s => g (f s)) l := by
  induction l with
  | nil => rfl
  | cons a l ih =>
    by_cases h : (a.SlotTag == t) = true
    · simp [modifySlot, h, hf]
    · simp [modifySlot, h, ih]

/-- Without a slot of that tag, a write changes nothing. -/
theorem modifySlot_of_find_none (t : FGameplayTag) (f : FEquipmentSlot → FEquipmentSlot)
    (l : List FEquipmentSlot) (h : l.find? (fun s => s.SlotTag == t) = none) :
    modifySlot t f l = l := by
  induction l with
  | nil => rfl
  | cons a l ih =>
    simp only [List.find?_cons] at h
    cases ha : (a.SlotTag == t)
    · rw [ha] at h
      simp [modifySlot, ha, ih h]
    · rw [ha] at h
      simp at h

/-- The slot found after a tag-preserving write is the written slot. -/
theorem find_modifySlot_same (t : FGameplayTag) (f : FEquipmentSlot → FEquipmentSlot)
    (hf : ∀ s, (f s).SlotTag = s.SlotTag) (l : List FEquipmentSlot) :
    (modifySlot t f l).find? (fun s => s.SlotTag == t)
      = (l.find? (fun s => s.SlotTag == t)).map f := by
  induction l with
  | nil => rfl
  | cons a l ih =>
    by_cases h : (a.SlotTag == t) = true
    · simp [modifySlot, h, hf, List.find?_cons]
    · simp [modifySlot, h, ih, List.find?_cons]

/-- A tag-preserving write to one tag is invisible when looking up another tag. -/
theorem find_modifySlot_other (t u : FGameplayTag) (f : FEquipmentSlot → FEquipmentSlot)
    (hf : ∀ s, (f s).SlotTag = s.SlotTag) (hu : u ≠ t) (l : List FEquipmentSlot) :
    (modifySlot t f l).find? (fun s => s.SlotTag == u)
      = l.find? (fun s => s.SlotTag == u) := by
  induction l with
  | nil => rfl
  | cons a l ih =>
    by_cases h : (a.SlotTag == t) = true
    · have hat : a.SlotTag = t := by simpa using h
      have hau : (a.SlotTag == u) = false := by
        simp only [beq_eq_false_iff_ne, ne_eq, hat]
        exact fun e => hu e.symm
      simp [modifySlot, h, hf, hau, List.find?_cons]
    · simp [modifySlot, h, List.find?_cons, ih]

theorem emit_EquipmentSlots (m : Manager) (es : List Event) :
    (m.emit es).EquipmentSlots = m.EquipmentSlots := rfl

theorem emit_Logical (m : Manager) (es : List Event) :
    (m.emit es).Logical = m.Logical := rfl

theorem FindSlot_emit (m : Manager) (es : List Event) (t : FGameplayTag) :
    FindSlot (m.emit es) t = FindSlot m t := rfl

theorem emit_Trace (m : Manager) (es : List Event) :
    (m.emit es).Trace = m.Trace ++ es := rfl

theorem writeSlot_Trace (m : Manager) (t : FGameplayTag)
    (f : FEquipmentSlot → FEquipmentSlot) : (m.writeSlot t f).Trace = m.Trace := rfl

theorem writeSlot_Logical_of_visual (m : Manager) (t : FGameplayTag)
    (f : FEquipmentSlot → FEquipmentSlot) (hf : ∀ s, (f s).Logical = s.Logical) :
    (m.writeSlot t f).Logical = m.Logical :=
  modifySlot_Logical_of_visual t f hf m.EquipmentSlots

theorem writeSlot_Logical_comm (m : Manager) (t : FGameplayTag)
    (f g : FEquipmentSlot → FEquipmentSlot) (hf : ∀ s, (f s).Logical = g s.Logical) :
    (m.writeSlot t f).Logical = modifySlot t g m.Logical :=
  modifySlot_Logical_comm t f g hf m.EquipmentSlots

/-- The logical content of the slot `FindSlot` returns, read off the logical
table. -/
theorem FindSlot_Logical (m : Manager) (t : FGameplayTag) :
    m.Logical.find? (fun s => s.SlotTag == t)
      = (FindSlot m t).map FEquipmentSlot.Logical :=
  find_Logical m.EquipmentSlots t

/-- `IsSlotOccupied` depends on the logical table only. -/
theorem IsSlotOccupied_eq (m : Manager) (t : FGameplayTag) :
    IsSlotOccupied m t
      = ((m.Logical.find? (fun s => s.SlotTag == t)).map
          (fun s => s.bIsOccupied)).getD false := by
  rw [FindSlot_Logical]
  unfold IsSlotOccupied
  cases FindSlot m t <;> rfl

/-- `GetEquippedItem` depends on the logical table only. -/
theorem GetEquippedItem_eq (m : Manager) (t : FGameplayTag) :
    GetEquippedItem m t
      = ((m.Logical.find? (fun s => s.SlotTag == t)).map
          (fun s => if s.bIsOccupied then s.EquippedItem else FItemInstance.Default)).getD
            FItemInstance.Default := by
  rw [FindSlot_Logical]
  unfold GetEquippedItem
  cases FindSlot m t <;> rfl

theorem setEquipped_SlotTag (Item : FItemInstance) (s : FEquipmentSlot) :
    (setEquipped Item s).SlotTag = s.SlotTag := rfl

theorem clearEquipped_SlotTag (s : FEquipmentSlot) :
    (clearEquipped s).SlotTag = s.SlotTag := rfl

theorem setEquipped_clearEquipped (Item : FItemInstance) (s : FEquipmentSlot) :
    setEquipped Item (clearEquipped s) = setEquipped Item s := rfl

/-! ## What the visual and GAS helpers leave alone -/

theorem writeSlot_handle_Logical (m : Manager) (t : FGameplayTag) (h : Option Nat) :
    (m.writeSlot t (fun s => { s with MeshLoadHandle := h })).Logical = m.Logical :=
  writeSlot_Logical_of_visual m t _ (fun _ => rfl)

theorem writeSlot_component_Logical (m : Manager) (t : FGameplayTag)
    (c : Option USceneComponent) :
    (m.writeSlot t (fun s => { s with AttachedVisualComponent := c })).Logical = m.Logical :=
  writeSlot_Logical_of_visual m t _ (fun _ => rfl)

theorem writeSlot_set_Logical (m : Manager) (t : FGameplayTag) (Item : FItemInstance) :
    (m.writeSlot t (fun s => { s with EquippedItem := Item, bIsOccupied := true })).Logical
      = modifySlot t (setEquipped Item) m.Logical :=
  writeSlot_Logical_comm m t _ (setEquipped Item) (fun _ => rfl)

theorem writeSlot_clear_Logical (m : Manager) (t : FGameplayTag) :
    (m.writeSlot t (fun s =>
        { s with EquippedItem := FItemInstance.Default, bIsOccupied := false })).Logical
      = modifySlot t clearEquipped m.Logical :=
  writeSlot_Logical_comm m t _ clearEquipped (fun _ => rfl)

theorem ApplyVisuals_Logical (w : World) (m : Manager) (Item : FItemInstance)
    (t : FGameplayTag) : (ApplyVisuals w m Item t).Logical = m.Logical := by
  unfold ApplyVisuals
  dsimp only
  repeat' split
  all_goals first
    | rfl
    | (rw [writeSlot_handle_Logical]; rfl)

theorem RemoveVisuals_Logical (w : World) (m : Manager) (t : FGameplayTag) :
    (RemoveVisuals w m t).Logical = m.Logical := by
  unfold RemoveVisuals
  dsimp only
  repeat' split
  all_goals
    simp only [emit_Logical, writeSlot_handle_Logical, writeSlot_component_Logical]

theorem ApplyGAS_EquipmentSlots (w : World) (m : Manager) (Item : FItemInstance)
    (t : FGameplayTag) : (ApplyGAS w m Item t).EquipmentSlots = m.EquipmentSlots := by
  unfold ApplyGAS
  split
  · rfl
  · split <;> rfl

theorem RemoveGAS_EquipmentSlots (w : World) (m : Manager) (t : FGameplayTag) :
    (RemoveGAS w m t).EquipmentSlots = m.EquipmentSlots := by
  unfold RemoveGAS
  split
  · rfl
  · split <;> rfl

theorem ApplyGAS_Logical (w : World) (m : Manager) (Item : FItemInstance)
    (t : FGameplayTag) : (ApplyGAS w m Item t).Logical = m.Logical := by
  unfold Manager.Logical
  rw [ApplyGAS_EquipmentSlots]

theorem RemoveGAS_Logical (w : World) (m : Manager) (t : FGameplayTag) :
    (RemoveGAS w m t).Logical = m.Logical := by
  unfold Manager.Logical
  rw [RemoveGAS_EquipmentSlots]

theorem FindSlot_RemoveGAS (w : World) (m : Manager) (t u : FGameplayTag) :
    FindSlot (RemoveGAS w m t) u = FindSlot m u := by
  unfold FindSlot
  rw [RemoveGAS_EquipmentSlots]

/-! ## The logical effect of the internal operations -/

/-- `Internal_Equip` writes the item into the first slot of the tag and changes
nothing else of the logical table. -/
theorem Internal_Equip_Logical (w : World) (m : Manager) (Item : FItemInstance)
    (t : FGameplayTag) :
    (Internal_Equip w m Item t).Logical = modifySlot t (setEquipped Item) m.Logical := by
  unfold Internal_Equip
  cases h : FindSlot m t with
  | none =>
    simp only
    symm
    apply modifySlot_of_find_none
    rw [FindSlot_Logical, h]
    rfl
  | some Slot =>
    simp only
    rw [emit_Logical, ApplyGAS_Logical, ApplyVisuals_Logical, emit_Logical]
    exact writeSlot_set_Logical m t Item

/-- `Internal_Unequip` of an occupied slot returns its item and clears it. -/
theorem Internal_Unequip_occupied (w : World) (m : Manager) (t : FGameplayTag)
    (Slot : FEquipmentSlot) (h : FindSlot m t = some Slot) (ho : Slot.bIsOccupied = true) :
    (Internal_Unequip w m t).1 = Slot.EquippedItem
      ∧ (Internal_Unequip w m t).2.Logical = modifySlot t clearEquipped m.Logical := by
  unfold Internal_Unequip
  simp only [h, ho]
  refine ⟨rfl, ?_⟩
  simp only [Bool.not_true, Bool.false_eq_true, if_false]
  rw [emit_Logical, emit_Logical, writeSlot_clear_Logical,
    RemoveVisuals_Logical, RemoveGAS_Logical]

/-- `Internal_Unequip` does nothing when the slot is absent or empty. -/
theorem Internal_Unequip_idle (w : World) (m : Manager) (t : FGameplayTag)
    (h : ∀ Slot, FindSlot m t = some Slot → Slot.bIsOccupied = false) :
    Internal_Unequip w m t = (FItemInstance.Default, m) := by
  unfold Internal_Unequip
  cases hs : FindSlot m t with
  | none => rfl
  | some Slot => simp [h Slot hs]

/-! ### The direct operations on any reference -/

/-- The guarded auto-unequip of `TryEquipToSlot` and of its handler is
`Internal_Unequip`, which does nothing for an absent or empty slot. -/
theorem guarded_unequip_eq (w : World) (m : Manager) (t : FGameplayTag) :
    (match FindSlot m t with
      | some Slot => if Slot.bIsOccupied then (Internal_Unequip w m t).2 else m
      | none => m) = (Internal_Unequip w m t).2 := by
  cases hs : FindSlot m t with
  | none =>
    rw [Internal_Unequip_idle w m t (fun s h => by rw [hs] at h; cases h)]
  | some s =>
    cases ho : s.bIsOccupied with
    | true => simp [ho]
    | false =>
      rw [Internal_Unequip_idle w m t (fun s' h => by rw [hs] at h; cases h; exact ho)]
      simp [ho]

/-- `TryEquipToSlot` in closed form, for any reference: the item validated and
forwarded is the one read at entry, the item equipped is the one read after
`Internal_Unequip`. -/
theorem TryEquipToSlot_eq (w : World) (m : Manager) (Item : ItemRef) (t : FGameplayTag) :
    TryEquipToSlot w m Item t
      = if ValidateEquip w m (Item.Get m) t ≠ EEquipmentResult.Success then
          (ValidateEquip w m (Item.Get m) t, m)
        else if w.HasAuthority = false then
          (EEquipmentResult.Success,
            m.emit [Event.ServerRPC_RequestEquip (Item.Get m) t])
        else
          (EEquipmentResult.Success,
            Internal_Equip w (Internal_Unequip w m t).2
              (Item.Get (Internal_Unequip w m t).2) t) := by
  unfold TryEquipToSlot
  simp only [guarded_unequip_eq]
  cases w.HasAuthority <;> simp

/-- The result code of `TryEquipToSlot` is the validation result of the item read
at entry, on any node and for any reference. -/
theorem TryEquipToSlot_code (w : World) (m : Manager) (Item : ItemRef) (t : FGameplayTag) :
    (TryEquipToSlot w m Item t).1 = ValidateEquip w m (Item.Get m) t := by
  rw [TryEquipToSlot_eq]
  by_cases hV : ValidateEquip w m (Item.Get m) t = EEquipmentResult.Success
  · simp only [hV, ne_eq, not_true_eq_false, if_false]
    split <;> rfl
  · simp [hV]

/-- A reference that reads the same item after `Internal_Unequip` of the tag as
before it behaves as an object of the caller's own holding that item. -/
theorem TryEquipToSlot_of_kept (w : World) (m : Manager) (Item : ItemRef) (t : FGameplayTag)
    (h : Item.Get (Internal_Unequip w m t).2 = Item.Get m) :
    TryEquipToSlot w m Item t = TryEquipToSlot w m (ItemRef.Local (Item.Get m)) t := by
  rw [TryEquipToSlot_eq, TryEquipToSlot_eq, h]
  rfl

/-- When the slot of the tag is absent or not occupied, nothing is cleared and
every reference keeps its item. -/
theorem ItemRef.Get_after_idle_unequip (Item : ItemRef) (w : World) (m : Manager)
    (t : FGameplayTag) (h : ∀ Slot, FindSlot m t = some Slot → Slot.bIsOccupied = false) :
    Item.Get (Internal_Unequip w m t).2 = Item.Get m := by
  rw [Internal_Unequip_idle w m t h]

/-- A write through the pointer `FindSlot` returns for a tag leaves the slots of
the other tags as they are. -/
theorem get?_modifySlot_of_other_tag (T : FGameplayTag) (g : FEquipmentSlot → FEquipmentSlot)
    (l : List FEquipmentSlot) :
    ∀ i : Nat, (∀ s, l.get? i = some s → s.SlotTag ≠ T) →
      (modifySlot T g l).get? i = l.get? i := by
  induction l with
  | nil => intro i _; rfl
  | cons a l ih =>
    intro i h
    by_cases ha : (a.SlotTag == T) = true
    · rw [modifySlot, if_pos ha]
      cases i with
      | zero => exact absurd (by simpa using ha) (h a rfl)
      | succ k => rfl
    · rw [modifySlot, if_neg ha]
      cases i with
      | zero => rfl
      | succ k => exact ih k h

/-- `TryEquip` passes its reference on to `TryEquipToSlot`. -/
theorem TryEquip_eq (w : World) (m : Manager) (Item : ItemRef) :
    TryEquip w m Item
      = if (FindTargetSlot w m (Item.Get m)).IsValid = false then
          (EEquipmentResult.IncompatibleSlot, m)
        else TryEquipToSlot w m Item (FindTargetSlot w m (Item.Get m)) := by
  unfold TryEquip
  cases h : (FindTargetSlot w m (Item.Get m)).IsValid <;> simp [h]

/-- `TryUnequip` in closed form, for any output reference. -/
theorem TryUnequip_eq (w : World) (m : Manager) (t : FGameplayTag) (OutItem : ItemRef) :
    TryUnequip w m t OutItem
      = match FindSlot m t with
        | none => (EEquipmentResult.Failed, OutItem.Get m, m)
        | some Slot =>
          if Slot.bIsOccupied = false then (EEquipmentResult.Failed, OutItem.Get m, m)
          else if w.HasAuthority = false then
            (EEquipmentResult.Success, OutItem.Get m,
              m.emit [Event.ServerRPC_RequestUnequip t])
          else
            (EEquipmentResult.Success, (Internal_Unequip w m t).1,
              OutItem.Assign (Internal_Unequip w m t).2 (Internal_Unequip w m t).1) := by
  unfold TryUnequip
  cases FindSlot m t with
  | none => rfl
  | some Slot => cases Slot.bIsOccupied <;> cases w.HasAuthority <;> simp

theorem ItemRef.Assign_Trace (r : ItemRef) (m : Manager) (v : FItemInstance) :
    (r.Assign m v).Trace = m.Trace := by
  cases r <;> rfl

theorem ItemRef.Assign_NextHandle (r : ItemRef) (m : Manager) (v : FItemInstance) :
    (r.Assign m v).NextHandle = m.NextHandle := by
  cases r <;> rfl

/-- An assignment of `EquippedItem` keeps the tag of every slot. -/
theorem assignEquippedItem_tags (v : FItemInstance) :
    ∀ (i : Nat) (l : List FEquipmentSlot),
      (assignEquippedItem v i l).map (fun s => s.SlotTag) = l.map (fun s => s.SlotTag) := by
  intro i l
  induction l generalizing i with
  | nil => cases i <;> rfl
  | cons a l ih =>
    cases i with
    | zero => rfl
    | succ k =>
      show a.SlotTag :: (assignEquippedItem v k l).map (fun s => s.SlotTag) = _
      rw [ih k]
      rfl

/-- An assignment of `EquippedItem` keeps the occupancy of the slot of every
tag. -/
theorem assignEquippedItem_occupied (v : FItemInstance) (t : FGameplayTag) :
    ∀ (i : Nat) (l : List FEquipmentSlot),
      ((assignEquippedItem v i l).find? (fun s => s.SlotTag == t)).map (fun s => s.bIsOccupied)
        = (l.find? (fun s => s.SlotTag == t)).map (fun s => s.bIsOccupied) := by
  intro i l
  induction l generalizing i with
  | nil => cases i <;> rfl
  | cons a l ih =>
    cases i with
    | zero =>
      show (List.find? _ ({ a with EquippedItem := v } :: l)).map _ = _
      rw [List.find?_cons, List.find?_cons]
      cases a.SlotTag == t <;> rfl
    | succ k =>
      show (List.find? _ (a :: assignEquippedItem v k l)).map _ = _
      rw [List.find?_cons, List.find?_cons]
      cases a.SlotTag == t
      · exact ih k
      · rfl

theorem IsSlotOccupied_Assign (r : ItemRef) (m : Manager) (v : FItemInstance)
    (t : FGameplayTag) : IsSlotOccupied (r.Assign m v) t = IsSlotOccupied m t := by
  cases r with
  | Local _ => rfl
  | SlotItem i =>
    have h := assignEquippedItem_occupied v t i m.EquipmentSlots
    unfold IsSlotOccupied FindSlot ItemRef.Assign
    dsimp only
    cases h1 : (assignEquippedItem v i m.EquipmentSlots).find? (fun s => s.SlotTag == t) <;>
      cases h2 : m.EquipmentSlots.find? (fun s => s.SlotTag == t) <;>
      simp [h1, h2] at h ⊢
    exact h

/-- The slot of a tag that is not occupied yields the default item. -/
theorem GetEquippedItem_of_not_occupied (m : Manager) (t : FGameplayTag)
    (h : IsSlotOccupied m t = false) : GetEquippedItem m t = FItemInstance.Default := by
  unfold IsSlotOccupied at h
  unfold GetEquippedItem
  cases hs : FindSlot m t with
  | none => rfl
  | some s =>
    rw [hs] at h
    simp only at h
    simp [h]

/-- An assignment of `EquippedItem` keeps the tags of the empty slots. -/
theorem assignEquippedItem_empty_tags (v : FItemInstance) :
    ∀ (i : Nat) (l : List FEquipmentSlot),
      ((assignEquippedItem v i l).filter (fun Slot => !Slot.bIsOccupied)).map
          (fun Slot => Slot.SlotTag)
        = (l.filter (fun Slot => !Slot.bIsOccupied)).map (fun Slot => Slot.SlotTag) := by
  intro i l
  induction l generalizing i with
  | nil => cases i <;> rfl
  | cons a l ih =>
    cases i with
    | zero =>
      show (List.filter _ ({ a with EquippedItem := v } :: l)).map _ = _
      rw [List.filter_cons, List.filter_cons]
      cases a.bIsOccupied <;> rfl
    | succ k =>
      show (List.filter _ (a :: assignEquippedItem v k l)).map _ = _
      rw [List.filter_cons, List.filter_cons]
      cases a.bIsOccupied
      · simp only [Bool.not_false, if_true, List.map_cons, ih k]
      · simp only [Bool.not_true, Bool.false_eq_true, if_false, ih k]

theorem GetEmptySlotTags_Assign (r : ItemRef) (m : Manager) (v : FItemInstance) :
    GetEmptySlotTags (r.Assign m v) = GetEmptySlotTags m := by
  cases r with
  | Local _ => rfl
  | SlotItem i => exact assignEquippedItem_empty_tags v i m.EquipmentSlots

/-- On a non-authoritative node every reference behaves as an object of the
caller's own holding the item read at entry: nothing is cleared. -/
theorem TryEquipToSlot_client_any (w : World) (m : Manager) (Item : ItemRef)
    (t : FGameplayTag) (hA : w.HasAuthority = false) :
    TryEquipToSlot w m Item t = TryEquipToSlot w m (ItemRef.Local (Item.Get m)) t := by
  rw [TryEquipToSlot_eq, TryEquipToSlot_eq]
  simp only [hA, if_true]
  rfl

/-- On a non-authoritative node nothing is assigned through the output. -/
theorem TryUnequip_client_any (w : World) (m : Manager) (t : FGameplayTag)
    (OutItem : ItemRef) (hA : w.HasAuthority = false) :
    TryUnequip w m t OutItem = TryUnequip w m t (ItemRef.Local (OutItem.Get m)) := by
  rw [TryUnequip_eq, TryUnequip_eq]
  cases FindSlot m t with
  | none => rfl
  | some Slot => simp only [hA, if_true]; rfl

/-! ## Validation and the direct equip -/

/-- A successful validation found a slot with the tag. -/
theorem ValidateEquip_Success_FindSlot (w : World) (m : Manager) (Item : FItemInstance)
    (t : FGameplayTag) (h : ValidateEquip w m Item t = EEquipmentResult.Success) :
    ∃ Slot, FindSlot m t = some Slot := by
  unfold ValidateEquip at h
  cases hs : FindSlot m t with
  | some Slot => exact ⟨Slot, rfl⟩
  | none =>
    rw [hs] at h
    split at h
    · cases h
    · split at h <;> cases h

/-- A successful validation resolved the item's equipment fragment and found
the item valid. -/
theorem ValidateEquip_Success_item (w : World) (m : Manager) (Item : FItemInstance)
    (t : FGameplayTag) (h : ValidateEquip w m Item t = EEquipmentResult.Success) :
    Item.IsValid = true ∧ ∃ frag, GetEquipmentFragment w Item = some frag := by
  unfold ValidateEquip at h
  split at h
  · cases h
  · rename_i hv
    refine ⟨by simpa using hv, ?_⟩
    cases hf : GetEquipmentFragment w Item with
    | some frag => exact ⟨frag, rfl⟩
    | none =>
      rw [hf] at h
      cases h

/-- After a write of `Item` into the slot of tag `t`, the queries on `t` see it. -/
theorem queries_after_set (m m1 : Manager) (t : FGameplayTag) (Item : FItemInstance)
    (Slot : FEquipmentSlot) (hs : FindSlot m t = some Slot)
    (hL : m1.Logical = modifySlot t (setEquipped Item) m.Logical) :
    IsSlotOccupied m1 t = true ∧ GetEquippedItem m1 t = Item := by
  have hfind : m1.Logical.find? (fun s => s.SlotTag == t)
      = some (setEquipped Item Slot.Logical) := by
    rw [hL, find_modifySlot_same t _ (setEquipped_SlotTag Item), FindSlot_Logical, hs]
    rfl
  rw [IsSlotOccupied_eq, GetEquippedItem_eq, hfind]
  exact ⟨rfl, rfl⟩

/-- The authoritative path of `TryEquipToSlot` after a successful validation:
the result is `Success` and the logical table is the old one with the item
written into the slot of the tag. -/
theorem TryEquipToSlot_authoritative (w : World) (m : Manager) (Item : FItemInstance)
    (t : FGameplayTag) (hA : w.HasAuthority = true)
    (hV : ValidateEquip w m Item t = EEquipmentResult.Success) :
    (TryEquipToSlot w m (ItemRef.Local Item) t).1 = EEquipmentResult.Success
      ∧ (TryEquipToSlot w m (ItemRef.Local Item) t).2.Logical
          = modifySlot t (setEquipped Item) m.Logical := by
  obtain ⟨Slot, hs⟩ := ValidateEquip_Success_FindSlot w m Item t hV
  rw [TryEquipToSlot_Local]
  simp only [hV, hA, ne_eq, not_true_eq_false, if_false, Bool.not_true, Bool.false_eq_true,
    hs, true_and]
  rw [Internal_Equip_Logical]
  cases ho : Slot.bIsOccupied with
  | false => simp
  | true =>
    simp only [if_true]
    rw [(Internal_Unequip_occupied w m t Slot hs ho).2,
      modifySlot_modifySlot t _ _ clearEquipped_SlotTag]
    rfl

/-- The authoritative path of `TryEquipToSlot` after a successful validation, for
any reference: the item written into the slot of the tag is the one the
reference holds after `Internal_Unequip` of the tag. -/
theorem TryEquipToSlot_authoritative_any (w : World) (m : Manager) (Item : ItemRef)
    (t : FGameplayTag) (hA : w.HasAuthority = true)
    (hV : ValidateEquip w m (Item.Get m) t = EEquipmentResult.Success) :
    (TryEquipToSlot w m Item t).1 = EEquipmentResult.Success
      ∧ (TryEquipToSlot w m Item t).2.Logical
          = modifySlot t (setEquipped (Item.Get (Internal_Unequip w m t).2)) m.Logical := by
  obtain ⟨Slot, hs⟩ := ValidateEquip_Success_FindSlot w m _ t hV
  rw [TryEquipToSlot_eq]
  simp only [hV, hA, ne_eq, not_true_eq_false, if_false, Bool.true_eq_false, true_and]
  rw [Internal_Equip_Logical]
  cases ho : Slot.bIsOccupied with
  | false =>
    rw [Internal_Unequip_idle w m t (fun s h => by rw [hs] at h; cases h; exact ho)]
  | true =>
    rw [(Internal_Unequip_occupied w m t Slot hs ho).2,
      modifySlot_modifySlot t _ _ clearEquipped_SlotTag]
    rfl

/-! ## Claims C1 to C3 -/

/-- With an argument object of the caller's own: on the authoritative node,
whenever `ValidateEquip` returns `Success` for an item and a slot tag,
`TryEquipToSlot` returns `Success`, and afterwards the slot of that tag is
occupied and `GetEquippedItem` returns exactly the given item. The table after
the call is the table before it with the item written into the target slot: a
previous occupant is in no slot any more (unless it also was in another one),
and since the call returns only the result code and the component state, it is
neither handed back to the caller nor put into an inventory. -/
theorem TryEquipToSlot_Local_success (w : World) (m : Manager) (Item : FItemInstance)
    (SlotTag : FGameplayTag) (hA : w.HasAuthority = true)
    (hV : ValidateEquip w m Item SlotTag = EEquipmentResult.Success) :
    (TryEquipToSlot w m (ItemRef.Local Item) SlotTag).1 = EEquipmentResult.Success
      ∧ IsSlotOccupied (TryEquipToSlot w m (ItemRef.Local Item) SlotTag).2 SlotTag = true
      ∧ GetEquippedItem (TryEquipToSlot w m (ItemRef.Local Item) SlotTag).2 SlotTag = Item
      ∧ (TryEquipToSlot w m (ItemRef.Local Item) SlotTag).2.Logical
          = modifySlot SlotTag (setEquipped Item) m.Logical := by
  obtain ⟨Slot, hs⟩ := ValidateEquip_Success_FindSlot w m Item SlotTag hV
  obtain ⟨hr, hL⟩ := TryEquipToSlot_authoritative w m Item SlotTag hA hV
  obtain ⟨ho, hg⟩ := queries_after_set m _ SlotTag Item Slot hs hL
  exact ⟨hr, ho, hg, hL⟩

/-- C1 fails in the code when the item argument is the item of the target slot
itself. On the authoritative node the main hand of `swordEquippedManager` holds
the sword, and `TryEquipToSlot` is called with `EquipmentSlots[0].EquippedItem`
and the tag of the main hand. The item given is the sword, `ValidateEquip`
returns `Success` for it, and the call returns `Success`; afterwards the slot is
occupied, but `GetEquippedItem` returns the default item, which is not valid and
is not the sword: the auto-unequip cleared the slot before `Internal_Equip` read
the argument again. -/
theorem C1_TryEquipToSlot_of_own_item :
    (ItemRef.SlotItem 0).Get swordEquippedManager = itemSword
      ∧ ValidateEquip serverWorld swordEquippedManager itemSword tagMainHand
          = EEquipmentResult.Success
      ∧ (TryEquipToSlot serverWorld swordEquippedManager (ItemRef.SlotItem 0) tagMainHand).1
          = EEquipmentResult.Success
      ∧ IsSlotOccupied
          (TryEquipToSlot serverWorld swordEquippedManager (ItemRef.SlotItem 0) tagMainHand).2
          tagMainHand = true
      ∧ GetEquippedItem
          (TryEquipToSlot serverWorld swordEquippedManager (ItemRef.SlotItem 0) tagMainHand).2
          tagMainHand = FItemInstance.Default
      ∧ FItemInstance.Default.IsValid = false
      ∧ FItemInstance.Default ≠ itemSword := by
  decide

/-- C2. On any node, when `ValidateEquip` returns a result other than `Success`,
`TryEquipToSlot` returns that same result and leaves the whole component state
as it was: no slot is written, nothing is added to the trace (no notification,
no forwarded request). The item is the one the argument refers to at entry,
whatever object the reference is bound to. -/
theorem C2_TryEquipToSlot_validation_failure (w : World) (m : Manager)
    (Item : ItemRef) (SlotTag : FGameplayTag)
    (hV : ValidateEquip w m (Item.Get m) SlotTag ≠ EEquipmentResult.Success) :
    TryEquipToSlot w m Item SlotTag = (ValidateEquip w m (Item.Get m) SlotTag, m) := by
  rw [TryEquipToSlot_eq, if_pos hV]

/-- C2 at a concrete input: on a client, a sword offered to a slot that accepts
armor only. -/
theorem C2_TryEquipToSlot_validation_failure_witness :
    TryEquipToSlot clientWorld armorOnlyManager (ItemRef.Local itemSword) tagMainHand
      = (ValidateEquip clientWorld armorOnlyManager itemSword tagMainHand,
          armorOnlyManager) :=
  C2_TryEquipToSlot_validation_failure clientWorld armorOnlyManager
    (ItemRef.Local itemSword) tagMainHand (by decide)

/-- When the equipment fragment resolves, so do the database and the
definition, and the definition's tags are the item's definition tags. -/
theorem GetEquipmentFragment_some (w : World) (Item : FItemInstance)
    (frag : UItemFragment_Equipment) (h : GetEquipmentFragment w Item = some frag) :
    ∃ DB Def, w.ItemDatabase = some DB ∧ DB.GetDefinition Item.ItemDefinitionId = some Def
      ∧ ItemDefinitionTags w Item = Def.ItemTags := by
  unfold GetEquipmentFragment at h
  unfold ItemDefinitionTags
  cases hdb : w.ItemDatabase with
  | none => rw [hdb] at h; cases h
  | some DB =>
    rw [hdb] at h
    simp only at h
    cases hd : DB.GetDefinition Item.ItemDefinitionId with
    | none => rw [hd] at h; cases h
    | some Def => exact ⟨DB, Def, rfl, hd, by simp [hd]⟩

/-- C3. `ValidateEquip` computes the result the specification words: `InvalidItem`
if the item is invalid or resolves to no equipment fragment; otherwise
`IncompatibleSlot` if no runtime slot has the tag; otherwise `IncompatibleSlot`
if the slot's accepted-tag filter is non-empty and the item's definition tags do
not intersect it; otherwise `Success`. It is a function of the state that
returns the result code only, so it changes no slot. -/
theorem C3_ValidateEquip_spec (w : World) (m : Manager) (Item : FItemInstance)
    (SlotTag : FGameplayTag) :
    ValidateEquip w m Item SlotTag = ValidateEquip_spec w m Item SlotTag := by
  unfold ValidateEquip ValidateEquip_spec
  cases hv : Item.IsValid with
  | false => simp
  | true =>
    cases hf : GetEquipmentFragment w Item with
    | none => simp
    | some frag =>
      obtain ⟨DB, Def, hdb, hd, htags⟩ := GetEquipmentFragment_some w Item frag hf
      simp only [Bool.not_true, Bool.false_eq_true, if_false, Bool.true_eq_false,
        reduceCtorEq, or_self, FindSlot]
      cases m.EquipmentSlots.find? (fun Slot => Slot.SlotTag == SlotTag) with
      | none => rfl
      | some Slot =>
        simp only [hdb, hd, htags, FGameplayTagContainer.Num]
        cases hacc : Slot.AcceptedItemTags with
        | nil => simp
        | cons a l =>
          cases hany : FGameplayTagContainer.HasAny Def.ItemTags (a :: l) <;> simp


/-! ## Slot resolution: claims C4 to C6 -/

theorem IsValid_None : FGameplayTag.None.IsValid = false := rfl

/-- The default-constructed tag is the only invalid tag. -/
theorem IsValid_eq_false_iff (t : FGameplayTag) :
    t.IsValid = false ↔ t = FGameplayTag.None := by
  cases t with
  | mk n =>
    cases n with
    | nil => simp [FGameplayTag.IsValid, FGameplayTag.None]
    | cons a l => simp [FGameplayTag.IsValid, FGameplayTag.None]

/-- A tag that matches a tag is valid. -/
theorem MatchesTag_IsValid (t p : FGameplayTag) (h : t.MatchesTag p = true) :
    t.IsValid = true := by
  cases t with
  | mk tn =>
    cases p with
    | mk pn =>
      cases pn with
      | nil => simp [FGameplayTag.MatchesTag, FGameplayTag.IsValid] at h
      | cons a pn =>
        cases tn with
        | nil => simp [FGameplayTag.MatchesTag, FGameplayTag.IsValid, nameStartsWith] at h
        | cons b tn => simp [FGameplayTag.IsValid]

/-- `FindTargetSlot` for an item whose fragment resolves with a valid preferred
tag: the three passes. -/
theorem FindTargetSlot_of_fragment (w : World) (m : Manager) (Item : FItemInstance)
    (frag : UItemFragment_Equipment) (hf : GetEquipmentFragment w Item = some frag)
    (hP : frag.EquipmentSlotTag.IsValid = true) :
    FindTargetSlot w m Item =
      match m.EquipmentSlots.find?
          (fun Slot => Slot.SlotTag == frag.EquipmentSlotTag && !Slot.bIsOccupied) with
      | some Slot => Slot.SlotTag
      | none =>
        match m.EquipmentSlots.find?
            (fun Slot => Slot.SlotTag.MatchesTag frag.EquipmentSlotTag
              && !Slot.bIsOccupied) with
        | some Slot => Slot.SlotTag
        | none =>
          match m.EquipmentSlots.find?
              (fun Slot => Slot.SlotTag == frag.EquipmentSlotTag
                || Slot.SlotTag.MatchesTag frag.EquipmentSlotTag) with
          | some Slot => Slot.SlotTag
          | none => FGameplayTag.None := by
  unfold FindTargetSlot
  simp only [hf, hP, Bool.not_true, Bool.false_eq_true, if_false]

/-- An empty slot with exactly the valid preferred tag makes the first pass of
`FindTargetSlot` succeed. -/
theorem FindTargetSlot_exact (w : World) (m : Manager) (Item : FItemInstance)
    (frag : UItemFragment_Equipment) (hf : GetEquipmentFragment w Item = some frag)
    (hP : frag.EquipmentSlotTag.IsValid = true)
    (hex : ∃ Slot ∈ m.EquipmentSlots,
      Slot.SlotTag = frag.EquipmentSlotTag ∧ Slot.bIsOccupied = false) :
    FindTargetSlot w m Item = frag.EquipmentSlotTag := by
  rw [FindTargetSlot_of_fragment w m Item frag hf hP]
  cases h : m.EquipmentSlots.find?
      (fun Slot => Slot.SlotTag == frag.EquipmentSlotTag && !Slot.bIsOccupied) with
  | some Slot =>
    have := List.find?_some h
    simp only [Bool.and_eq_true, beq_iff_eq] at this
    exact this.1
  | none =>
    exfalso
    obtain ⟨Slot, hmem, htag, hocc⟩ := hex
    have := List.find?_eq_none.mp h Slot hmem
    simp [htag, hocc] at this

/-- C4. For every slot table and every item whose fragment's preferred tag `P` is
valid: if some empty slot has tag exactly `P`, `FindTargetSlot` returns `P`,
wherever in the table that slot is declared (also after an empty slot whose tag
is a strict descendant of `P`). -/
theorem C4_FindTargetSlot_exact (w : World) (m : Manager) (Item : FItemInstance)
    (frag : UItemFragment_Equipment) (hf : GetEquipmentFragment w Item = some frag)
    (hP : frag.EquipmentSlotTag.IsValid = true)
    (hex : ∃ Slot ∈ m.EquipmentSlots,
      Slot.SlotTag = frag.EquipmentSlotTag ∧ Slot.bIsOccupied = false) :
    FindTargetSlot w m Item = frag.EquipmentSlotTag :=
  FindTargetSlot_exact w m Item frag hf hP hex

/-- C4 at a concrete input: the ring prefers `Equipment`; the empty slot
`Equipment.MainHand`, a strict descendant, is declared before the empty slot
`Equipment`, and `Equipment` is returned. -/
theorem C4_FindTargetSlot_exact_witness :
    FindTargetSlot serverWorld childFirstManager itemRing = tagEquipment :=
  C4_FindTargetSlot_exact serverWorld childFirstManager itemRing
    ringFragment
    (by decide) (by decide) (by decide)

/-- C5. For every slot table and preferred tag `P` (the valid preferred tag of the
item's fragment): if no empty slot has tag exactly `P`, and `Slot` is the first
empty slot in declaration order whose tag descends from `P` (the table is
`pre ++ Slot :: post` and no slot of `pre` is an empty descendant),
`FindTargetSlot` returns the tag of `Slot`. -/
theorem C5_FindTargetSlot_first_empty_descendant (w : World) (m : Manager)
    (Item : FItemInstance) (frag : UItemFragment_Equipment)
    (pre post : List FEquipmentSlot) (Slot : FEquipmentSlot)
    (hf : GetEquipmentFragment w Item = some frag)
    (hP : frag.EquipmentSlotTag.IsValid = true)
    (hno : ∀ x ∈ m.EquipmentSlots, x.SlotTag = frag.EquipmentSlotTag → x.bIsOccupied = true)
    (hsplit : m.EquipmentSlots = pre ++ Slot :: post)
    (hSlot : Slot.SlotTag.MatchesTag frag.EquipmentSlotTag = true ∧ Slot.bIsOccupied = false)
    (hpre : ∀ x ∈ pre,
      ¬ (x.SlotTag.MatchesTag frag.EquipmentSlotTag = true ∧ x.bIsOccupied = false)) :
    FindTargetSlot w m Item = Slot.SlotTag := by
  rw [FindTargetSlot_of_fragment w m Item frag hf hP]
  have h1 : m.EquipmentSlots.find?
      (fun Slot => Slot.SlotTag == frag.EquipmentSlotTag && !Slot.bIsOccupied) = none := by
    rw [List.find?_eq_none]
    intro x hx
    have := hno x hx
    by_cases hx' : x.SlotTag = frag.EquipmentSlotTag
    · simp [this hx']
    · simp [hx']
  have h2 : m.EquipmentSlots.find?
      (fun Slot => Slot.SlotTag.MatchesTag frag.EquipmentSlotTag && !Slot.bIsOccupied)
        = some Slot := by
    rw [List.find?_eq_some]
    refine ⟨by simp [hSlot.1, hSlot.2], pre, post, hsplit, ?_⟩
    intro x hx
    have := hpre x hx
    cases hm : x.SlotTag.MatchesTag frag.EquipmentSlotTag
    · simp
    · cases ho : x.bIsOccupied
      · exact absurd ⟨hm, ho⟩ this
      · simp
  rw [h1, h2]

/-- C5 at a concrete input: two empty descendants of `Equipment` declared in the
order `[MainHand, OffHand]`; the first one is returned. -/
theorem C5_FindTargetSlot_first_empty_descendant_witness :
    FindTargetSlot serverWorld twoChildrenManager itemRing = tagMainHand :=
  C5_FindTargetSlot_first_empty_descendant serverWorld twoChildrenManager itemRing
    ringFragment
    [] [{ SlotTag := tagOffHand }] { SlotTag := tagMainHand }
    (by decide) (by decide) (by decide) (by decide) (by decide) (by simp)


/-- The test of the third pass of `FindTargetSlot` is `SlotMatches`. -/
theorem SlotMatches_iff (P : FGameplayTag) (Slot : FEquipmentSlot) :
    (Slot.SlotTag == P || Slot.SlotTag.MatchesTag P) = true ↔ SlotMatches P Slot := by
  simp [SlotMatches]

/-- A slot that matches a valid tag has a valid tag. -/
theorem SlotMatches_IsValid (P : FGameplayTag) (Slot : FEquipmentSlot)
    (hP : P.IsValid = true) (h : SlotMatches P Slot) : Slot.SlotTag.IsValid = true := by
  cases h with
  | inl h => rw [h]; exact hP
  | inr h => exact MatchesTag_IsValid _ _ h

/-- C6. For every slot table and item: (1) `FindTargetSlot` returns the invalid
(none) tag exactly when the item has no equipment fragment, or the preferred tag
`P` of its fragment is invalid, or no slot's tag equals or descends from `P`;
(2) if every slot whose tag equals or descends from the valid preferred tag `P`
is occupied, and `Slot` is the first such slot in declaration order (the table
is `pre ++ Slot :: post` and no slot of `pre` matches `P`), `FindTargetSlot`
returns the tag of `Slot`. -/
theorem C6_FindTargetSlot_fallback_and_none (w : World) (m : Manager)
    (Item : FItemInstance) :
    (FindTargetSlot w m Item = FGameplayTag.None ↔
        (GetEquipmentFragment w Item = none
          ∨ ∃ frag, GetEquipmentFragment w Item = some frag
              ∧ (frag.EquipmentSlotTag.IsValid = false
                  ∨ ∀ x ∈ m.EquipmentSlots, ¬ SlotMatches frag.EquipmentSlotTag x)))
      ∧ (∀ (frag : UItemFragment_Equipment) (pre post : List FEquipmentSlot)
          (Slot : FEquipmentSlot),
          GetEquipmentFragment w Item = some frag →
          frag.EquipmentSlotTag.IsValid = true →
          (∀ x ∈ m.EquipmentSlots, SlotMatches frag.EquipmentSlotTag x →
            x.bIsOccupied = true) →
          m.EquipmentSlots = pre ++ Slot :: post →
          SlotMatches frag.EquipmentSlotTag Slot →
          (∀ x ∈ pre, ¬ SlotMatches frag.EquipmentSlotTag x) →
          FindTargetSlot w m Item = Slot.SlotTag) := by
  constructor
  · cases hf : GetEquipmentFragment w Item with
    | none => simp [FindTargetSlot, hf]
    | some frag =>
      cases hP : frag.EquipmentSlotTag.IsValid with
      | false => simp [FindTargetSlot, hf, hP]
      | true =>
        rw [FindTargetSlot_of_fragment w m Item frag hf hP]
        simp only [reduceCtorEq, Option.some.injEq, exists_eq_left', hP, Bool.true_eq_false,
          false_or]
        constructor
        · intro h x hx hmx
          -- some slot matches, so the third pass finds one, and its tag is valid
          cases h1 : m.EquipmentSlots.find?
              (fun Slot => Slot.SlotTag == frag.EquipmentSlotTag && !Slot.bIsOccupied) with
          | some s1 =>
            rw [h1] at h
            have hp := List.find?_some h1
            simp only [Bool.and_eq_true, beq_iff_eq] at hp
            have hv : s1.SlotTag.IsValid = true := by rw [hp.1]; exact hP
            simp only at h
            rw [h] at hv
            cases hv
          | none =>
            rw [h1] at h
            cases h2 : m.EquipmentSlots.find?
                (fun Slot => Slot.SlotTag.MatchesTag frag.EquipmentSlotTag
                  && !Slot.bIsOccupied) with
            | some s2 =>
              rw [h2] at h
              have hp := List.find?_some h2
              simp only [Bool.and_eq_true] at hp
              have hv := MatchesTag_IsValid _ _ hp.1
              simp only at h
              rw [h] at hv
              cases hv
            | none =>
              rw [h2] at h
              cases h3 : m.EquipmentSlots.find?
                  (fun Slot => Slot.SlotTag == frag.EquipmentSlotTag
                    || Slot.SlotTag.MatchesTag frag.EquipmentSlotTag) with
              | some s3 =>
                rw [h3] at h
                have hp := List.find?_some h3
                have hv := SlotMatches_IsValid _ _ hP ((SlotMatches_iff _ _).mp hp)
                simp only at h
                rw [h] at hv
                cases hv
              | none =>
                have := List.find?_eq_none.mp h3 x hx
                exact this ((SlotMatches_iff _ _).mpr hmx)
        · intro h
          have h1 : m.EquipmentSlots.find?
              (fun Slot => Slot.SlotTag == frag.EquipmentSlotTag && !Slot.bIsOccupied)
                = none := by
            rw [List.find?_eq_none]
            intro x hx hp
            simp only [Bool.and_eq_true, beq_iff_eq] at hp
            exact h x hx (Or.inl hp.1)
          have h2 : m.EquipmentSlots.find?
              (fun Slot => Slot.SlotTag.MatchesTag frag.EquipmentSlotTag
                && !Slot.bIsOccupied) = none := by
            rw [List.find?_eq_none]
            intro x hx hp
            simp only [Bool.and_eq_true] at hp
            exact h x hx (Or.inr hp.1)
          have h3 : m.EquipmentSlots.find?
              (fun Slot => Slot.SlotTag == frag.EquipmentSlotTag
                || Slot.SlotTag.MatchesTag frag.EquipmentSlotTag) = none := by
            rw [List.find?_eq_none]
            intro x hx hp
            exact h x hx ((SlotMatches_iff _ _).mp hp)
          rw [h1, h2, h3]
  · intro frag pre post Slot hf hP hocc hsplit hSlot hpre
    rw [FindTargetSlot_of_fragment w m Item frag hf hP]
    have h1 : m.EquipmentSlots.find?
        (fun Slot => Slot.SlotTag == frag.EquipmentSlotTag && !Slot.bIsOccupied)
          = none := by
      rw [List.find?_eq_none]
      intro x hx hp
      simp only [Bool.and_eq_true, beq_iff_eq, Bool.not_eq_true'] at hp
      have := hocc x hx (Or.inl hp.1)
      rw [this] at hp
      exact absurd hp.2 (by simp)
    have h2 : m.EquipmentSlots.find?
        (fun Slot => Slot.SlotTag.MatchesTag frag.EquipmentSlotTag
          && !Slot.bIsOccupied) = none := by
      rw [List.find?_eq_none]
      intro x hx hp
      simp only [Bool.and_eq_true, Bool.not_eq_true'] at hp
      have := hocc x hx (Or.inr hp.1)
      rw [this] at hp
      exact absurd hp.2 (by simp)
    have h3 : m.EquipmentSlots.find?
        (fun Slot => Slot.SlotTag == frag.EquipmentSlotTag
          || Slot.SlotTag.MatchesTag frag.EquipmentSlotTag) = some Slot := by
      rw [List.find?_eq_some]
      refine ⟨(SlotMatches_iff _ _).mpr hSlot, pre, post, hsplit, ?_⟩
      intro x hx
      have := hpre x hx
      rw [← SlotMatches_iff] at this
      simpa using this
    rw [h1, h2, h3]

/-- C6 at a concrete input: both slots below `Equipment` are occupied, and the
ring, which prefers `Equipment`, is sent to the first of them. -/
theorem C6_FindTargetSlot_fallback_and_none_witness :
    FindTargetSlot serverWorld fullManager itemRing = tagMainHand :=
  (C6_FindTargetSlot_fallback_and_none serverWorld fullManager itemRing).2
    ringFragment
    [] [{ SlotTag := tagOffHand, EquippedItem := itemSword2, bIsOccupied := true }]
    { SlotTag := tagMainHand, EquippedItem := itemSword, bIsOccupied := true }
    (by decide) (by decide) (by decide) (by decide) (by decide) (by simp)


/-! ## Claims C7 to C10 -/

/-- C7, the claim as stated fails: on the authoritative node the valid sword
prefers `Equipment.MainHand`, the only slot has exactly that tag and is empty,
but accepts armor only; `TryEquip` returns `IncompatibleSlot`, changes nothing,
and the slot stays empty. -/
theorem C7_TryEquip_exact_match_counterexample :
    serverWorld.HasAuthority = true
      ∧ itemSword.IsValid = true
      ∧ GetEquipmentFragment serverWorld itemSword = some swordFragment
      ∧ swordFragment.EquipmentSlotTag = tagMainHand
      ∧ (∃ Slot ∈ armorOnlyManager.EquipmentSlots,
          Slot.SlotTag = tagMainHand ∧ Slot.bIsOccupied = false)
      ∧ TryEquip serverWorld armorOnlyManager (ItemRef.Local itemSword)
          = (EEquipmentResult.IncompatibleSlot, armorOnlyManager)
      ∧ IsSlotOccupied (TryEquip serverWorld armorOnlyManager (ItemRef.Local itemSword)).2
          tagMainHand
          = false := by
  decide

/-- C7, amended. On the authoritative node, for every item whose valid preferred
tag `P` exactly matches the tag of an empty slot and which `ValidateEquip`
accepts for `P` (the item is valid and the accepted-tag filter of the slot
admits its definition tags), `TryEquip` returns `Success` and places the item in
that slot: afterwards `IsSlotOccupied(P)` is true and `GetEquippedItem(P)`
returns an item with the same instance id as the given item. The item argument
may be bound to any object that holds the item at entry and still holds it after
`Internal_Unequip` of `P`: every object of the caller's own, and the item of any
slot of another tag. -/
theorem C7_TryEquip_exact_match (w : World) (m : Manager) (Item : FItemInstance)
    (r : ItemRef) (frag : UItemFragment_Equipment) (hA : w.HasAuthority = true)
    (hr : r.Get m = Item)
    (hK : r.Get (Internal_Unequip w m frag.EquipmentSlotTag).2 = Item)
    (hf : GetEquipmentFragment w Item = some frag)
    (hP : frag.EquipmentSlotTag.IsValid = true)
    (hex : ∃ Slot ∈ m.EquipmentSlots,
      Slot.SlotTag = frag.EquipmentSlotTag ∧ Slot.bIsOccupied = false)
    (hV : ValidateEquip w m Item frag.EquipmentSlotTag = EEquipmentResult.Success) :
    (TryEquip w m r).1 = EEquipmentResult.Success
      ∧ IsSlotOccupied (TryEquip w m r).2 frag.EquipmentSlotTag = true
      ∧ (GetEquippedItem (TryEquip w m r).2 frag.EquipmentSlotTag).InstanceId
          = Item.InstanceId := by
  have hT : TryEquip w m r = TryEquipToSlot w m (ItemRef.Local Item) frag.EquipmentSlotTag := by
    rw [TryEquip_eq, hr]
    simp only [FindTargetSlot_exact w m Item frag hf hP hex, hP, Bool.true_eq_false, if_false]
    rw [TryEquipToSlot_of_kept w m r _ (by rw [hK, hr]), hr]
  obtain ⟨Slot, hs⟩ := ValidateEquip_Success_FindSlot w m Item _ hV
  obtain ⟨hr1, hL⟩ := TryEquipToSlot_authoritative w m Item _ hA hV
  obtain ⟨ho, hg⟩ := queries_after_set m _ _ Item Slot hs hL
  rw [hT]
  exact ⟨hr1, ho, by rw [hg]⟩

/-- C7 (amended) at a concrete input: the sword into the empty main hand of the
freshly activated manager. -/
theorem C7_TryEquip_exact_match_witness :
    (TryEquip serverWorld exampleManager (ItemRef.Local itemSword)).1 = EEquipmentResult.Success
      ∧ IsSlotOccupied (TryEquip serverWorld exampleManager (ItemRef.Local itemSword)).2
          swordFragment.EquipmentSlotTag = true
      ∧ (GetEquippedItem (TryEquip serverWorld exampleManager (ItemRef.Local itemSword)).2
          swordFragment.EquipmentSlotTag).InstanceId = itemSword.InstanceId :=
  C7_TryEquip_exact_match serverWorld exampleManager itemSword (ItemRef.Local itemSword)
    swordFragment (by decide) rfl rfl (by decide) (by decide) (by decide) (by decide)

/-- C8. On any node, whenever `FindTargetSlot` resolves no slot for the item
(returns the invalid tag), `TryEquip` returns `IncompatibleSlot` and leaves the
whole component state as it was: no slot is written, nothing is added to the
trace (no notification, no forwarded request). The item is the one the argument
refers to at entry, whatever object the reference is bound to. -/
theorem C8_TryEquip_no_slot (w : World) (m : Manager) (Item : ItemRef)
    (h : (FindTargetSlot w m (Item.Get m)).IsValid = false) :
    TryEquip w m Item = (EEquipmentResult.IncompatibleSlot, m) := by
  rw [TryEquip_eq, if_pos h]

/-- C8 at a concrete input: a helmet offered to a manager without head slot. -/
theorem C8_TryEquip_no_slot_witness :
    TryEquip clientWorld twoChildrenManager (ItemRef.Local itemHelmet)
      = (EEquipmentResult.IncompatibleSlot, twoChildrenManager) :=
  C8_TryEquip_no_slot clientWorld twoChildrenManager (ItemRef.Local itemHelmet) (by decide)

/-- C9, the claim as stated fails: the potion's definition has no equipment
fragment, yet `TryEquip`, and `TryEquipFromInventory` without a slot tag for the
potion found in the inventory, return `IncompatibleSlot`, not `InvalidItem`. -/
theorem C9_unresolvable_item_counterexample :
    GetEquipmentFragment serverWorld itemPotion = none
      ∧ (TryEquip serverWorld exampleManager (ItemRef.Local itemPotion)).1
          = EEquipmentResult.IncompatibleSlot
      ∧ exampleInventory.FindSlotIndexByInstanceId [itemPotion] itemPotion.InstanceId = 0
      ∧ exampleInventory.GetItemInSlot [itemPotion] 0 = itemPotion
      ∧ (TryEquipFromInventory exampleInventory serverWorld exampleManager
          itemPotion.InstanceId (some [itemPotion]) FGameplayTag.None).1
          = EEquipmentResult.IncompatibleSlot := by
  decide

/-- C9, amended. For an item whose definition or equipment fragment cannot be
resolved, the slot-targeted equip operations return `InvalidItem`:
`TryEquipToSlot` for every slot tag, and `TryEquipFromInventory` with an explicit
(valid) slot tag for an item found in the inventory. The operations that resolve
the slot themselves return `IncompatibleSlot`, because slot resolution runs
before validation and resolves no slot for such an item: `TryEquip`, and
`TryEquipFromInventory` without a slot tag. For the direct operations the item
is the one their argument refers to at entry, whatever object the reference is
bound to. -/
theorem C9_unresolvable_item (w : World) (m : Manager) (Item : FItemInstance)
    (hf : GetEquipmentFragment w Item = none) :
    (∀ (r : ItemRef) SlotTag, r.Get m = Item →
        (TryEquipToSlot w m r SlotTag).1 = EEquipmentResult.InvalidItem)
      ∧ (∀ r : ItemRef, r.Get m = Item →
          (TryEquip w m r).1 = EEquipmentResult.IncompatibleSlot)
      ∧ (∀ (Inv : Type) (I : UInventoryComponent Inv) (inv : Inv) (ItemInstanceId : Nat)
          (SlotTag : FGameplayTag),
          I.FindSlotIndexByInstanceId inv ItemInstanceId ≠ INDEX_NONE →
          I.GetItemInSlot inv (I.FindSlotIndexByInstanceId inv ItemInstanceId) = Item →
          (TryEquipFromInventory I w m ItemInstanceId (some inv) SlotTag).1
            = if SlotTag.IsValid then EEquipmentResult.InvalidItem
              else EEquipmentResult.IncompatibleSlot) := by
  have hV : ∀ t, ValidateEquip w m Item t = EEquipmentResult.InvalidItem := by
    intro t
    unfold ValidateEquip
    split
    · rfl
    · rw [hf]
  have hF : FindTargetSlot w m Item = FGameplayTag.None := by
    unfold FindTargetSlot
    rw [hf]
  refine ⟨?_, ?_, ?_⟩
  · intro r t hr
    rw [TryEquipToSlot_code, hr]
    exact hV t
  · intro r hr
    rw [TryEquip_eq, hr]
    simp [hF, IsValid_None]
  · intro Inv I inv id t hidx hitem
    unfold TryEquipFromInventory
    simp only [hidx, if_false, hitem, hF, IsValid_None]
    cases ht : t.IsValid <;> simp [hV]

/-- C9 (amended) at a concrete input: the potion, whose definition has no
equipment fragment. -/
theorem C9_unresolvable_item_witness :
    (∀ (r : ItemRef) SlotTag, r.Get exampleManager = itemPotion →
        (TryEquipToSlot serverWorld exampleManager r SlotTag).1
          = EEquipmentResult.InvalidItem)
      ∧ (∀ r : ItemRef, r.Get exampleManager = itemPotion →
          (TryEquip serverWorld exampleManager r).1 = EEquipmentResult.IncompatibleSlot)
      ∧ (∀ (Inv : Type) (I : UInventoryComponent Inv) (inv : Inv) (ItemInstanceId : Nat)
          (SlotTag : FGameplayTag),
          I.FindSlotIndexByInstanceId inv ItemInstanceId ≠ INDEX_NONE →
          I.GetItemInSlot inv (I.FindSlotIndexByInstanceId inv ItemInstanceId)
            = itemPotion →
          (TryEquipFromInventory I serverWorld exampleManager ItemInstanceId (some inv)
              SlotTag).1
            = if SlotTag.IsValid then EEquipmentResult.InvalidItem
              else EEquipmentResult.IncompatibleSlot) :=
  C9_unresolvable_item serverWorld exampleManager itemPotion (by decide)

/-- C10. On any node, when no slot has the tag or the slot is empty, `TryUnequip`
returns `Failed` and leaves the caller's output item and the whole component
state as they were: no slot is written, nothing is added to the trace (no
notification, no forwarded request). This holds whatever object the output
reference is bound to: the item read through it after the call is the item read
through it before. -/
theorem C10_TryUnequip_failed (w : World) (m : Manager) (SlotTag : FGameplayTag)
    (OutItem : ItemRef)
    (h : FindSlot m SlotTag = none
      ∨ ∃ Slot, FindSlot m SlotTag = some Slot ∧ Slot.bIsOccupied = false) :
    TryUnequip w m SlotTag OutItem = (EEquipmentResult.Failed, OutItem.Get m, m) := by
  rw [TryUnequip_eq]
  rcases h with h | ⟨Slot, h, ho⟩
  · rw [h]
  · rw [h]
    simp [ho]

/-- C10 at a concrete input: on a client, unequipping the empty off hand, with
the caller's variable holding the helmet. -/
theorem C10_TryUnequip_failed_witness :
    TryUnequip clientWorld swordManager tagOffHand (ItemRef.Local itemHelmet)
      = (EEquipmentResult.Failed, itemHelmet, swordManager) :=
  C10_TryUnequip_failed clientWorld swordManager tagOffHand (ItemRef.Local itemHelmet)
    (Or.inr ⟨{ SlotTag := tagOffHand }, by decide, by decide⟩)

/-! ## Further lemmas on the slot table -/

/-- A write that maps the slot it reaches to itself changes nothing. -/
theorem modifySlot_eq_self (t : FGameplayTag) (f : FEquipmentSlot → FEquipmentSlot)
    (l : List FEquipmentSlot)
    (h : ∀ s, l.find? (fun s => s.SlotTag == t) = some s → f s = s) :
    modifySlot t f l = l := by
  induction l with
  | nil => rfl
  | cons a l ih =>
    by_cases ha : (a.SlotTag == t) = true
    · have := h a (by simp [List.find?_cons, ha])
      simp [modifySlot, ha, this]
    · have ih' := ih (fun s hs => h s (by simpa [List.find?_cons, ha] using hs))
      simp [modifySlot, ha, ih']

/-- The slot `FindSlot` returns, recovered from a lookup in the logical table. -/
theorem FindSlot_of_Logical (m : Manager) (t : FGameplayTag) (x : FEquipmentSlot)
    (h : m.Logical.find? (fun s => s.SlotTag == t) = some x) :
    ∃ s, FindSlot m t = some s ∧ s.Logical = x := by
  rw [FindSlot_Logical] at h
  cases hs : FindSlot m t with
  | none => rw [hs] at h; cases h
  | some s =>
    rw [hs] at h
    exact ⟨s, rfl, by simpa using h⟩

/-- After a write of `Item` into the slot of tag `t`, `FindSlot` returns an
occupied slot holding `Item`. -/
theorem FindSlot_after_set (m m1 : Manager) (t : FGameplayTag) (Item : FItemInstance)
    (Slot : FEquipmentSlot) (hs : FindSlot m t = some Slot)
    (hL : m1.Logical = modifySlot t (setEquipped Item) m.Logical) :
    ∃ s, FindSlot m1 t = some s ∧ s.bIsOccupied = true ∧ s.EquippedItem = Item := by
  have hfind : m1.Logical.find? (fun s => s.SlotTag == t)
      = some (setEquipped Item Slot.Logical) := by
    rw [hL, find_modifySlot_same t _ (setEquipped_SlotTag Item), FindSlot_Logical, hs]
    rfl
  obtain ⟨s, hs1, hsl⟩ := FindSlot_of_Logical m1 t _ hfind
  refine ⟨s, hs1, ?_, ?_⟩
  · rw [← Logical_bIsOccupied, hsl]; rfl
  · rw [← Logical_EquippedItem, hsl]; rfl

/-- After the slot of tag `t` has been cleared, the queries on `t` see an empty
slot. -/
theorem queries_after_clear (m m1 : Manager) (t : FGameplayTag)
    (hL : m1.Logical = modifySlot t clearEquipped m.Logical) :
    IsSlotOccupied m1 t = false ∧ GetEquippedItem m1 t = FItemInstance.Default := by
  have hfind : m1.Logical.find? (fun s => s.SlotTag == t)
      = (m.Logical.find? (fun s => s.SlotTag == t)).map clearEquipped := by
    rw [hL, find_modifySlot_same t _ clearEquipped_SlotTag]
  rw [IsSlotOccupied_eq, GetEquippedItem_eq, hfind]
  cases m.Logical.find? (fun s => s.SlotTag == t) with
  | none => exact ⟨rfl, rfl⟩
  | some s => exact ⟨rfl, rfl⟩

/-- Re-equipping the item an occupied slot held, after unequipping it, restores
the logical table. -/
theorem modifySlot_set_clear_restore (t : FGameplayTag) (m : Manager)
    (Slot : FEquipmentSlot) (hs : FindSlot m t = some Slot)
    (ho : Slot.bIsOccupied = true) :
    modifySlot t (setEquipped Slot.EquippedItem) (modifySlot t clearEquipped m.Logical)
      = m.Logical := by
  rw [modifySlot_modifySlot t _ _ clearEquipped_SlotTag]
  apply modifySlot_eq_self
  intro s hfind
  rw [FindSlot_Logical, hs] at hfind
  simp only [Option.map_some', Option.some.injEq] at hfind
  subst hfind
  cases Slot with
  | mk tag item occ sock acc vis hdl =>
    simp only at ho
    subst ho
    rfl

/-! ## Claim C11 -/

/-- C11. On the authoritative node, whenever `TryEquipToSlot` returns `Success` for
an item and a slot tag, a `TryUnequip` of the same tag right after it returns
`Success` with the equipped item as output item, and afterwards
`IsSlotOccupied(tag)` is false and `GetEquippedItem(tag)` is an invalid item.
This holds whatever objects the item and the output reference are bound to. The
output item is the item the slot held after the equip; it is the item given to
`TryEquipToSlot` for every reference that reads the same item after
`Internal_Unequip` of the tag as before it, in particular for every object of
the caller's own. -/
theorem C11_equip_then_unequip (w : World) (m : Manager) (Item OutItem : ItemRef)
    (SlotTag : FGameplayTag) (hA : w.HasAuthority = true)
    (hS : (TryEquipToSlot w m Item SlotTag).1 = EEquipmentResult.Success) :
    (TryUnequip w (TryEquipToSlot w m Item SlotTag).2 SlotTag OutItem).1
        = EEquipmentResult.Success
      ∧ (TryUnequip w (TryEquipToSlot w m Item SlotTag).2 SlotTag OutItem).2.1
          = GetEquippedItem (TryEquipToSlot w m Item SlotTag).2 SlotTag
      ∧ (Item.Get (Internal_Unequip w m SlotTag).2 = Item.Get m →
          (TryUnequip w (TryEquipToSlot w m Item SlotTag).2 SlotTag OutItem).2.1
            = Item.Get m)
      ∧ IsSlotOccupied (TryUnequip w (TryEquipToSlot w m Item SlotTag).2 SlotTag OutItem).2.2
          SlotTag = false
      ∧ (GetEquippedItem (TryUnequip w (TryEquipToSlot w m Item SlotTag).2 SlotTag
          OutItem).2.2 SlotTag).IsValid = false := by
  have hV : ValidateEquip w m (Item.Get m) SlotTag = EEquipmentResult.Success := by
    rw [TryEquipToSlot_code] at hS
    exact hS
  obtain ⟨Slot, hs⟩ := ValidateEquip_Success_FindSlot w m _ SlotTag hV
  obtain ⟨_, hL⟩ := TryEquipToSlot_authoritative_any w m Item SlotTag hA hV
  obtain ⟨s, hs1, ho1, hi1⟩ := FindSlot_after_set m _ SlotTag _ Slot hs hL
  obtain ⟨hitem, hL2⟩ := Internal_Unequip_occupied w _ SlotTag s hs1 ho1
  obtain ⟨hocc, _⟩ := queries_after_clear _ _ SlotTag hL2
  have hg : GetEquippedItem (TryEquipToSlot w m Item SlotTag).2 SlotTag = s.EquippedItem := by
    unfold GetEquippedItem
    simp only [hs1, ho1, if_true]
  have hocc2 : IsSlotOccupied
      (TryUnequip w (TryEquipToSlot w m Item SlotTag).2 SlotTag OutItem).2.2 SlotTag
        = false := by
    rw [TryUnequip_eq]
    simp only [hs1, ho1, hA, Bool.true_eq_false, if_false]
    rw [IsSlotOccupied_Assign]
    exact hocc
  have hout : (TryUnequip w (TryEquipToSlot w m Item SlotTag).2 SlotTag OutItem).2.1
      = s.EquippedItem := by
    rw [TryUnequip_eq]
    simp only [hs1, ho1, hA, Bool.true_eq_false, if_false]
    exact hitem
  refine ⟨?_, ?_, ?_, hocc2, ?_⟩
  · rw [TryUnequip_eq]
    simp only [hs1, ho1, hA, Bool.true_eq_false, if_false]
  · rw [hout, hg]
  · intro hk
    rw [hout, hi1, hk]
  · rw [GetEquippedItem_of_not_occupied _ _ hocc2]
    rfl

/-- C11 at a concrete input: the sword equipped into the empty main hand and
unequipped again, with the caller's variable holding the helmet before. -/
theorem C11_equip_then_unequip_witness :
    (TryUnequip serverWorld (TryEquipToSlot serverWorld exampleManager
        (ItemRef.Local itemSword) tagMainHand).2 tagMainHand
        (ItemRef.Local itemHelmet)).1 = EEquipmentResult.Success
      ∧ (TryUnequip serverWorld (TryEquipToSlot serverWorld exampleManager
          (ItemRef.Local itemSword) tagMainHand).2 tagMainHand
          (ItemRef.Local itemHelmet)).2.1
          = GetEquippedItem (TryEquipToSlot serverWorld exampleManager
              (ItemRef.Local itemSword) tagMainHand).2 tagMainHand
      ∧ (TryUnequip serverWorld (TryEquipToSlot serverWorld exampleManager
          (ItemRef.Local itemSword) tagMainHand).2 tagMainHand
          (ItemRef.Local itemHelmet)).2.1 = itemSword
      ∧ IsSlotOccupied (TryUnequip serverWorld (TryEquipToSlot serverWorld exampleManager
          (ItemRef.Local itemSword) tagMainHand).2 tagMainHand
          (ItemRef.Local itemHelmet)).2.2 tagMainHand = false
      ∧ (GetEquippedItem (TryUnequip serverWorld (TryEquipToSlot serverWorld exampleManager
          (ItemRef.Local itemSword) tagMainHand).2 tagMainHand
          (ItemRef.Local itemHelmet)).2.2 tagMainHand).IsValid = false :=
  have h := C11_equip_then_unequip serverWorld exampleManager (ItemRef.Local itemSword)
    (ItemRef.Local itemHelmet) tagMainHand (by decide) (by decide)
  ⟨h.1, h.2.1, h.2.2.1 rfl, h.2.2.2.1, h.2.2.2.2⟩

/-! ## The authoritative path of `TryEquipFromInventory` -/

/-- `ResolvedSlotTag` for a valid tag is the tag itself. -/
theorem ResolvedSlotTag_of_valid (w : World) (m : Manager) (Item : FItemInstance)
    (SlotTag : FGameplayTag) (h : SlotTag.IsValid = true) :
    ResolvedSlotTag w m Item SlotTag = SlotTag := by
  simp [ResolvedSlotTag, h]

/-- `ResolvedSlotTag` for the invalid tag is the result of `FindTargetSlot`. -/
theorem ResolvedSlotTag_of_invalid (w : World) (m : Manager) (Item : FItemInstance)
    (SlotTag : FGameplayTag) (h : SlotTag.IsValid = false) :
    ResolvedSlotTag w m Item SlotTag = FindTargetSlot w m Item := by
  simp [ResolvedSlotTag, h]

/-- When the auto-detection step of `TryEquipFromInventory` resolves a valid
tag, the call does what the call with that tag does. -/
theorem TryEquipFromInventory_resolved {Inv : Type} (I : UInventoryComponent Inv)
    (w : World) (m : Manager) (ItemInstanceId : Nat) (inv : Inv) (SlotTag t : FGameplayTag)
    (Item : FItemInstance)
    (hItem : I.GetItemInSlot inv (I.FindSlotIndexByInstanceId inv ItemInstanceId) = Item)
    (ht : ResolvedSlotTag w m Item SlotTag = t) (htv : t.IsValid = true) :
    TryEquipFromInventory I w m ItemInstanceId (some inv) SlotTag
      = TryEquipFromInventory I w m ItemInstanceId (some inv) t := by
  cases hst : SlotTag.IsValid with
  | true =>
    rw [ResolvedSlotTag_of_valid _ _ _ _ hst] at ht
    rw [ht]
  | false =>
    rw [ResolvedSlotTag_of_invalid _ _ _ _ hst] at ht
    unfold TryEquipFromInventory
    simp only [hItem, hst, ht, htv, Bool.not_false, Bool.not_true, if_true,
      Bool.false_eq_true, if_false]

/-- `TryEquipFromInventory` on the authoritative node with the item found, a
valid slot tag and validation passed, when the target slot is absent or empty:
the function goes straight to removing the item from the inventory. -/
theorem TryEquipFromInventory_empty {Inv : Type} (I : UInventoryComponent Inv) (w : World)
    (m : Manager) (ItemInstanceId : Nat) (inv : Inv) (t : FGameplayTag)
    (Item : FItemInstance) (hA : w.HasAuthority = true)
    (hfound : I.FindSlotIndexByInstanceId inv ItemInstanceId ≠ INDEX_NONE)
    (hItem : I.GetItemInSlot inv (I.FindSlotIndexByInstanceId inv ItemInstanceId) = Item)
    (htv : t.IsValid = true)
    (hV : ValidateEquip w m Item t = EEquipmentResult.Success)
    (hempty : ∀ s, FindSlot m t = some s → s.bIsOccupied = false) :
    TryEquipFromInventory I w m ItemInstanceId (some inv) t
      = if (I.TryRemoveItem inv ItemInstanceId).1 = true then
          (EEquipmentResult.Success, Internal_Equip w m Item t,
            some (I.TryRemoveItem inv ItemInstanceId).2)
        else (EEquipmentResult.Failed, m, some (I.TryRemoveItem inv ItemInstanceId).2) := by
  unfold TryEquipFromInventory
  simp only [hfound, if_false, hItem, htv, Bool.not_true, Bool.false_eq_true, hV, ne_eq,
    not_true_eq_false, hA]
  cases hs : FindSlot m t with
  | none => cases (I.TryRemoveItem inv ItemInstanceId).1 <;> simp
  | some s =>
    simp only [hempty s hs, Bool.false_eq_true, if_false]
    cases (I.TryRemoveItem inv ItemInstanceId).1 <;> simp

/-- `TryEquipFromInventory` on the authoritative node with the item found, a
valid slot tag and validation passed, when the target slot is occupied: the
pre-check, the unequip, the add of the old item with its rollback, and then the
removal of the new item. -/
theorem TryEquipFromInventory_occupied {Inv : Type} (I : UInventoryComponent Inv)
    (w : World) (m : Manager) (ItemInstanceId : Nat) (inv : Inv) (t : FGameplayTag)
    (Item : FItemInstance) (Slot : FEquipmentSlot) (hA : w.HasAuthority = true)
    (hfound : I.FindSlotIndexByInstanceId inv ItemInstanceId ≠ INDEX_NONE)
    (hItem : I.GetItemInSlot inv (I.FindSlotIndexByInstanceId inv ItemInstanceId) = Item)
    (htv : t.IsValid = true)
    (hV : ValidateEquip w m Item t = EEquipmentResult.Success)
    (hs : FindSlot m t = some Slot) (ho : Slot.bIsOccupied = true) :
    TryEquipFromInventory I w m ItemInstanceId (some inv) t
      = if I.CanAcceptItem inv Slot.EquippedItem = false then
          (EEquipmentResult.NoInventorySpace, m, some inv)
        else if (I.TryAddItem inv Slot.EquippedItem).1 = false then
          (EEquipmentResult.NoInventorySpace,
            Internal_Equip w (Internal_Unequip w m t).2 Slot.EquippedItem t,
            some (I.TryAddItem inv Slot.EquippedItem).2)
        else if (I.TryRemoveItem (I.TryAddItem inv Slot.EquippedItem).2 ItemInstanceId).1
            = true then
          (EEquipmentResult.Success, Internal_Equip w (Internal_Unequip w m t).2 Item t,
            some (I.TryRemoveItem (I.TryAddItem inv Slot.EquippedItem).2 ItemInstanceId).2)
        else
          (EEquipmentResult.Failed, (Internal_Unequip w m t).2,
            some (I.TryRemoveItem (I.TryAddItem inv Slot.EquippedItem).2 ItemInstanceId).2) := by
  have hold := (Internal_Unequip_occupied w m t Slot hs ho).1
  unfold TryEquipFromInventory
  simp only [hfound, if_false, hItem, htv, Bool.not_true, Bool.false_eq_true, hV, ne_eq,
    not_true_eq_false, hA, hs, ho, if_true, hold]
  cases I.CanAcceptItem inv Slot.EquippedItem with
  | false => simp
  | true =>
    cases (I.TryAddItem inv Slot.EquippedItem).1 with
    | false => simp
    | true =>
      cases (I.TryRemoveItem (I.TryAddItem inv Slot.EquippedItem).2 ItemInstanceId).1 <;> simp


/-- The queries on a tag depend on the logical table only. -/
theorem queries_of_Logical_eq (m m1 : Manager) (t : FGameplayTag)
    (h : m1.Logical = m.Logical) :
    IsSlotOccupied m1 t = IsSlotOccupied m t ∧ GetEquippedItem m1 t = GetEquippedItem m t := by
  rw [IsSlotOccupied_eq, GetEquippedItem_eq, IsSlotOccupied_eq, GetEquippedItem_eq, h]
  exact ⟨rfl, rfl⟩

/-- The queries on the tag of an occupied slot. -/
theorem queries_of_occupied (m : Manager) (t : FGameplayTag) (Slot : FEquipmentSlot)
    (hs : FindSlot m t = some Slot) (ho : Slot.bIsOccupied = true) :
    IsSlotOccupied m t = true ∧ GetEquippedItem m t = Slot.EquippedItem := by
  unfold IsSlotOccupied GetEquippedItem
  simp [hs, ho]

/-- The rollback: unequipping an occupied slot and re-equipping the removed item
restores the logical table. -/
theorem rollback_Logical (w : World) (m : Manager) (t : FGameplayTag)
    (Slot : FEquipmentSlot) (hs : FindSlot m t = some Slot) (ho : Slot.bIsOccupied = true) :
    (Internal_Equip w (Internal_Unequip w m t).2 Slot.EquippedItem t).Logical
      = m.Logical := by
  rw [Internal_Equip_Logical, (Internal_Unequip_occupied w m t Slot hs ho).2]
  exact modifySlot_set_clear_restore t m Slot hs ho

/-- The rollback branch of `TryEquipFromInventory`: the pre-check passes and the
add of the displaced item fails. -/
theorem TryEquipFromInventory_rollback {Inv : Type} (I : UInventoryComponent Inv)
    (w : World) (m : Manager) (ItemInstanceId : Nat) (inv : Inv) (SlotTag t : FGameplayTag)
    (Item : FItemInstance) (Slot : FEquipmentSlot) (hA : w.HasAuthority = true)
    (hfound : I.FindSlotIndexByInstanceId inv ItemInstanceId ≠ INDEX_NONE)
    (hItem : I.GetItemInSlot inv (I.FindSlotIndexByInstanceId inv ItemInstanceId) = Item)
    (ht : ResolvedSlotTag w m Item SlotTag = t) (htv : t.IsValid = true)
    (hV : ValidateEquip w m Item t = EEquipmentResult.Success)
    (hs : FindSlot m t = some Slot) (ho : Slot.bIsOccupied = true)
    (hc : I.CanAcceptItem inv Slot.EquippedItem = true)
    (hadd : (I.TryAddItem inv Slot.EquippedItem).1 = false) :
    TryEquipFromInventory I w m ItemInstanceId (some inv) SlotTag
      = (EEquipmentResult.NoInventorySpace,
          Internal_Equip w (Internal_Unequip w m t).2 Slot.EquippedItem t,
          some (I.TryAddItem inv Slot.EquippedItem).2) := by
  rw [TryEquipFromInventory_resolved I w m ItemInstanceId inv SlotTag t Item hItem ht htv,
    TryEquipFromInventory_occupied I w m ItemInstanceId inv t Item Slot hA hfound hItem htv
      hV hs ho]
  simp [hc, hadd]

/-! ## Claims C12 to C14 -/

/-- C12. On the authoritative node, `TryEquipFromInventory` of an item found in
the inventory and passing validation, into an occupied slot whose current item
the inventory's `CanAcceptItem` rejects, returns `NoInventorySpace` and leaves
the component state (the slot still occupied by the same item) and the inventory
as they were. -/
theorem C12_TryEquipFromInventory_no_space (Inv : Type) (I : UInventoryComponent Inv)
    (w : World) (m : Manager) (ItemInstanceId : Nat) (inv : Inv) (SlotTag t : FGameplayTag)
    (Item : FItemInstance) (Slot : FEquipmentSlot) (hA : w.HasAuthority = true)
    (hfound : I.FindSlotIndexByInstanceId inv ItemInstanceId ≠ INDEX_NONE)
    (hItem : I.GetItemInSlot inv (I.FindSlotIndexByInstanceId inv ItemInstanceId) = Item)
    (ht : ResolvedSlotTag w m Item SlotTag = t) (htv : t.IsValid = true)
    (hV : ValidateEquip w m Item t = EEquipmentResult.Success)
    (hs : FindSlot m t = some Slot) (ho : Slot.bIsOccupied = true)
    (hc : I.CanAcceptItem inv Slot.EquippedItem = false) :
    TryEquipFromInventory I w m ItemInstanceId (some inv) SlotTag
      = (EEquipmentResult.NoInventorySpace, m, some inv) := by
  rw [TryEquipFromInventory_resolved I w m ItemInstanceId inv SlotTag t Item hItem ht htv,
    TryEquipFromInventory_occupied I w m ItemInstanceId inv t Item Slot hA hfound hItem htv
      hV hs ho]
  simp [hc]

/-- C12 at a concrete input: the second sword, held by a full inventory, offered
to the main hand that holds the first sword. -/
theorem C12_TryEquipFromInventory_no_space_witness :
    TryEquipFromInventory exampleInventory serverWorld swordManager 8
        (some [itemSword2, itemHelmet, itemRing, itemPotion]) tagMainHand
      = (EEquipmentResult.NoInventorySpace, swordManager,
          some [itemSword2, itemHelmet, itemRing, itemPotion]) :=
  C12_TryEquipFromInventory_no_space (List FItemInstance) exampleInventory serverWorld
    swordManager 8 [itemSword2, itemHelmet, itemRing, itemPotion] tagMainHand tagMainHand
    itemSword2 { SlotTag := tagMainHand, EquippedItem := itemSword, bIsOccupied := true }
    (by decide) (by decide) (by decide) (by decide) (by decide) (by decide) (by decide)
    (by decide) (by decide)

/-- C13. On the authoritative node, when `TryEquipFromInventory` targets an
occupied slot, `CanAcceptItem` passes, and `TryAddItem` of the displaced item
then fails, the operation returns `NoInventorySpace`, the slot ends occupied by
the original item (the logical table is the one before the call), and the
inventory is left as the failed `TryAddItem` left it: `TryRemoveItem` is not
called, which the call list of a recording inventory shows (it grows by the one
`TryAddItem` only). -/
theorem C13_TryEquipFromInventory_rollback (Inv : Type) (I : UInventoryComponent Inv)
    (w : World) (m : Manager) (ItemInstanceId : Nat) (inv : Inv) (SlotTag t : FGameplayTag)
    (Item : FItemInstance) (Slot : FEquipmentSlot) (hA : w.HasAuthority = true)
    (hfound : I.FindSlotIndexByInstanceId inv ItemInstanceId ≠ INDEX_NONE)
    (hItem : I.GetItemInSlot inv (I.FindSlotIndexByInstanceId inv ItemInstanceId) = Item)
    (ht : ResolvedSlotTag w m Item SlotTag = t) (htv : t.IsValid = true)
    (hV : ValidateEquip w m Item t = EEquipmentResult.Success)
    (hs : FindSlot m t = some Slot) (ho : Slot.bIsOccupied = true)
    (hc : I.CanAcceptItem inv Slot.EquippedItem = true)
    (hadd : (I.TryAddItem inv Slot.EquippedItem).1 = false) :
    (TryEquipFromInventory I w m ItemInstanceId (some inv) SlotTag).1
        = EEquipmentResult.NoInventorySpace
      ∧ IsSlotOccupied (TryEquipFromInventory I w m ItemInstanceId (some inv) SlotTag).2.1 t
          = true
      ∧ GetEquippedItem (TryEquipFromInventory I w m ItemInstanceId (some inv) SlotTag).2.1 t
          = Slot.EquippedItem
      ∧ (TryEquipFromInventory I w m ItemInstanceId (some inv) SlotTag).2.1.Logical
          = m.Logical
      ∧ (TryEquipFromInventory I w m ItemInstanceId (some inv) SlotTag).2.2
          = some (I.TryAddItem inv Slot.EquippedItem).2
      ∧ ∀ calls : List InventoryCall,
          (TryEquipFromInventory (recordingInventory I) w m ItemInstanceId
              (some (inv, calls)) SlotTag).2.2
            = some ((I.TryAddItem inv Slot.EquippedItem).2,
                calls ++ [InventoryCall.TryAddItem Slot.EquippedItem]) := by
  have hL := rollback_Logical w m t Slot hs ho
  obtain ⟨hq1, hq2⟩ := queries_of_Logical_eq m _ t hL
  obtain ⟨ho1, hg1⟩ := queries_of_occupied m t Slot hs ho
  rw [TryEquipFromInventory_rollback I w m ItemInstanceId inv SlotTag t Item Slot hA hfound
    hItem ht htv hV hs ho hc hadd]
  refine ⟨rfl, hq1.trans ho1, hq2.trans hg1, hL, rfl, ?_⟩
  intro calls
  rw [TryEquipFromInventory_rollback (recordingInventory I) w m ItemInstanceId (inv, calls)
    SlotTag t Item Slot hA hfound hItem ht htv hV hs ho hc hadd]
  rfl

/-- C13 at a concrete input: the inventory passes the pre-check but refuses the
add; the second sword stays in the inventory and the first one in the main
hand. -/
theorem C13_TryEquipFromInventory_rollback_witness :
    (TryEquipFromInventory (listInventory true false true) serverWorld swordManager 8
        (some [itemSword2]) tagMainHand).1 = EEquipmentResult.NoInventorySpace
      ∧ IsSlotOccupied (TryEquipFromInventory (listInventory true false true) serverWorld
          swordManager 8 (some [itemSword2]) tagMainHand).2.1 tagMainHand = true
      ∧ GetEquippedItem (TryEquipFromInventory (listInventory true false true) serverWorld
          swordManager 8 (some [itemSword2]) tagMainHand).2.1 tagMainHand = itemSword
      ∧ (TryEquipFromInventory (listInventory true false true) serverWorld swordManager 8
          (some [itemSword2]) tagMainHand).2.1.Logical = swordManager.Logical
      ∧ (TryEquipFromInventory (listInventory true false true) serverWorld swordManager 8
          (some [itemSword2]) tagMainHand).2.2 = some [itemSword2]
      ∧ ∀ calls : List InventoryCall,
          (TryEquipFromInventory (recordingInventory (listInventory true false true))
              serverWorld swordManager 8 (some ([itemSword2], calls)) tagMainHand).2.2
            = some ([itemSword2], calls ++ [InventoryCall.TryAddItem itemSword]) :=
  C13_TryEquipFromInventory_rollback (List FItemInstance) (listInventory true false true)
    serverWorld swordManager 8 [itemSword2] tagMainHand tagMainHand itemSword2
    { SlotTag := tagMainHand, EquippedItem := itemSword, bIsOccupied := true }
    (by decide) (by decide) (by decide) (by decide) (by decide) (by decide) (by decide)
    (by decide) (by decide) (by decide)

/-- C14, the code at the failing input. On the authoritative node the main hand
holds the first sword; the inventory holds the second sword, accepts and adds
the displaced first sword, and then refuses to remove the second one.
`TryEquipFromInventory` returns `Failed`, yet the main hand is now empty and the
first sword is in the inventory: the state is not the one before the call. -/
theorem C14_TryEquipFromInventory_not_atomic :
    IsSlotOccupied swordManager tagMainHand = true
      ∧ GetEquippedItem swordManager tagMainHand = itemSword
      ∧ (TryEquipFromInventory (listInventory true true false) serverWorld swordManager 8
          (some [itemSword2]) tagMainHand).1 = EEquipmentResult.Failed
      ∧ IsSlotOccupied (TryEquipFromInventory (listInventory true true false) serverWorld
          swordManager 8 (some [itemSword2]) tagMainHand).2.1 tagMainHand = false
      ∧ (TryEquipFromInventory (listInventory true true false) serverWorld swordManager 8
          (some [itemSword2]) tagMainHand).2.2 = some [itemSword2, itemSword] := by
  decide


/-! ## Claims C15 to C18 -/

/-- C15. On any node, `TryEquipFromInventory` returns `Failed` when the inventory
reference is absent; otherwise `InvalidItem` when the inventory finds no slot for
the instance id; otherwise `IncompatibleSlot` when no (valid) slot tag was
supplied and `FindTargetSlot` resolves none for the item. In each of these cases
the component state and the inventory are left as they were. -/
theorem C15_TryEquipFromInventory_early_failures (Inv : Type) (I : UInventoryComponent Inv)
    (w : World) (m : Manager) (ItemInstanceId : Nat) (SlotTag : FGameplayTag) :
    TryEquipFromInventory I w m ItemInstanceId none SlotTag
        = (EEquipmentResult.Failed, m, none)
      ∧ (∀ inv, I.FindSlotIndexByInstanceId inv ItemInstanceId = INDEX_NONE →
          TryEquipFromInventory I w m ItemInstanceId (some inv) SlotTag
            = (EEquipmentResult.InvalidItem, m, some inv))
      ∧ (∀ inv, I.FindSlotIndexByInstanceId inv ItemInstanceId ≠ INDEX_NONE →
          SlotTag.IsValid = false →
          (FindTargetSlot w m
            (I.GetItemInSlot inv (I.FindSlotIndexByInstanceId inv ItemInstanceId))).IsValid
              = false →
          TryEquipFromInventory I w m ItemInstanceId (some inv) SlotTag
            = (EEquipmentResult.IncompatibleSlot, m, some inv)) := by
  refine ⟨rfl, ?_, ?_⟩
  · intro inv h
    unfold TryEquipFromInventory
    simp [h]
  · intro inv h hst hft
    unfold TryEquipFromInventory
    simp [h, hst, hft]

/-- C15 at a concrete input: the helmet, held by the inventory, requested without
slot tag on a manager that has no head slot. -/
theorem C15_TryEquipFromInventory_early_failures_witness :
    TryEquipFromInventory exampleInventory clientWorld twoChildrenManager 9
        (some [itemHelmet]) FGameplayTag.None
      = (EEquipmentResult.IncompatibleSlot, twoChildrenManager, some [itemHelmet]) :=
  (C15_TryEquipFromInventory_early_failures (List FItemInstance) exampleInventory
    clientWorld twoChildrenManager 9 FGameplayTag.None).2.2 [itemHelmet]
    (by decide) (by decide) (by decide)

/-- C16, the claim as stated fails: on the authoritative node the sword is found
in the inventory, validation passes for the main hand and the main hand is
empty, but the inventory refuses the removal; `TryEquipFromInventory` returns
`Failed`, equips nothing and leaves the sword in the inventory. -/
theorem C16_TryEquipFromInventory_success_counterexample :
    serverWorld.HasAuthority = true
      ∧ (listInventory true true false).FindSlotIndexByInstanceId [itemSword] 7 = 0
      ∧ (listInventory true true false).GetItemInSlot [itemSword] 0 = itemSword
      ∧ ValidateEquip serverWorld exampleManager itemSword tagMainHand
          = EEquipmentResult.Success
      ∧ IsSlotOccupied exampleManager tagMainHand = false
      ∧ TryEquipFromInventory (listInventory true true false) serverWorld exampleManager 7
          (some [itemSword]) tagMainHand
        = (EEquipmentResult.Failed, exampleManager, some [itemSword]) := by
  decide

/-- C16, amended. On the authoritative node, when the item is found in the
inventory, validation passes, the target slot is either empty or its occupant is
accepted and added by the inventory, and `TryRemoveItem` of the new item then
succeeds, `TryEquipFromInventory` returns `Success`: afterwards the slot holds
the new item (the logical table is the old one with the new item written into
the target slot), and the inventory is the one left by the successful
`TryAddItem` of the displaced occupant (if any) followed by the successful
`TryRemoveItem` of the new item's instance id. Here `inv1` is the inventory
before the removal. -/
theorem C16_TryEquipFromInventory_success (Inv : Type) (I : UInventoryComponent Inv)
    (w : World) (m : Manager) (ItemInstanceId : Nat) (inv inv1 : Inv)
    (SlotTag t : FGameplayTag) (Item : FItemInstance) (hA : w.HasAuthority = true)
    (hfound : I.FindSlotIndexByInstanceId inv ItemInstanceId ≠ INDEX_NONE)
    (hItem : I.GetItemInSlot inv (I.FindSlotIndexByInstanceId inv ItemInstanceId) = Item)
    (ht : ResolvedSlotTag w m Item SlotTag = t) (htv : t.IsValid = true)
    (hV : ValidateEquip w m Item t = EEquipmentResult.Success)
    (hslot : ((∀ s, FindSlot m t = some s → s.bIsOccupied = false) ∧ inv1 = inv)
      ∨ ∃ s, FindSlot m t = some s ∧ s.bIsOccupied = true
          ∧ I.CanAcceptItem inv s.EquippedItem = true
          ∧ (I.TryAddItem inv s.EquippedItem).1 = true
          ∧ inv1 = (I.TryAddItem inv s.EquippedItem).2)
    (hrem : (I.TryRemoveItem inv1 ItemInstanceId).1 = true) :
    (TryEquipFromInventory I w m ItemInstanceId (some inv) SlotTag).1
        = EEquipmentResult.Success
      ∧ IsSlotOccupied (TryEquipFromInventory I w m ItemInstanceId (some inv) SlotTag).2.1 t
          = true
      ∧ GetEquippedItem (TryEquipFromInventory I w m ItemInstanceId (some inv) SlotTag).2.1 t
          = Item
      ∧ (TryEquipFromInventory I w m ItemInstanceId (some inv) SlotTag).2.1.Logical
          = modifySlot t (setEquipped Item) m.Logical
      ∧ (TryEquipFromInventory I w m ItemInstanceId (some inv) SlotTag).2.2
          = some (I.TryRemoveItem inv1 ItemInstanceId).2 := by
  obtain ⟨Slot, hSlot⟩ := ValidateEquip_Success_FindSlot w m Item t hV
  rw [TryEquipFromInventory_resolved I w m ItemInstanceId inv SlotTag t Item hItem ht htv]
  rcases hslot with ⟨hempty, hinv⟩ | ⟨s, hs, ho, hc, hadd, hinv⟩
  · subst hinv
    rw [TryEquipFromInventory_empty I w m ItemInstanceId inv1 t Item hA hfound hItem htv hV
      hempty]
    rw [if_pos hrem]
    have hL := Internal_Equip_Logical w m Item t
    obtain ⟨hq1, hq2⟩ := queries_after_set m _ t Item Slot hSlot hL
    exact ⟨rfl, hq1, hq2, hL, rfl⟩
  · subst hinv
    rw [TryEquipFromInventory_occupied I w m ItemInstanceId inv t Item s hA hfound hItem htv
      hV hs ho]
    rw [if_neg (by simp [hc]), if_neg (by simp [hadd]), if_pos hrem]
    have hL : (Internal_Equip w (Internal_Unequip w m t).2 Item t).Logical
        = modifySlot t (setEquipped Item) m.Logical := by
      rw [Internal_Equip_Logical, (Internal_Unequip_occupied w m t s hs ho).2,
        modifySlot_modifySlot t _ _ clearEquipped_SlotTag]
      rfl
    obtain ⟨hq1, hq2⟩ := queries_after_set m _ t Item Slot hSlot hL
    exact ⟨rfl, hq1, hq2, hL, rfl⟩

/-- C16 (amended) at a concrete input: the second sword is taken from the
inventory into the main hand, and the first sword, displaced, is now the only
item of the inventory. -/
theorem C16_TryEquipFromInventory_success_witness :
    (TryEquipFromInventory exampleInventory serverWorld swordManager 8 (some [itemSword2])
        tagMainHand).1 = EEquipmentResult.Success
      ∧ IsSlotOccupied (TryEquipFromInventory exampleInventory serverWorld swordManager 8
          (some [itemSword2]) tagMainHand).2.1 tagMainHand = true
      ∧ GetEquippedItem (TryEquipFromInventory exampleInventory serverWorld swordManager 8
          (some [itemSword2]) tagMainHand).2.1 tagMainHand = itemSword2
      ∧ (TryEquipFromInventory exampleInventory serverWorld swordManager 8
          (some [itemSword2]) tagMainHand).2.1.Logical
          = modifySlot tagMainHand (setEquipped itemSword2) swordManager.Logical
      ∧ (TryEquipFromInventory exampleInventory serverWorld swordManager 8
          (some [itemSword2]) tagMainHand).2.2 = some [itemSword] :=
  C16_TryEquipFromInventory_success (List FItemInstance) exampleInventory serverWorld
    swordManager 8 [itemSword2] [itemSword2, itemSword] tagMainHand tagMainHand itemSword2
    (by decide) (by decide) (by decide) (by decide) (by decide) (by decide)
    (Or.inr ⟨{ SlotTag := tagMainHand, EquippedItem := itemSword, bIsOccupied := true },
      by decide, by decide, by decide, by decide, by decide⟩)
    (by decide)

/-- C17. On any node, `TryUnequipToInventory` returns `Failed` when the inventory
reference is absent or the slot is absent or empty, and `NoInventorySpace` when
the slot is occupied and the inventory's `CanAcceptItem` pre-check rejects the
equipped item; in all these cases the component state and the inventory are
left as they were. -/
theorem C17_TryUnequipToInventory_failures (Inv : Type) (I : UInventoryComponent Inv)
    (w : World) (m : Manager) (SlotTag : FGameplayTag) :
    TryUnequipToInventory I w m SlotTag none = (EEquipmentResult.Failed, m, none)
      ∧ (∀ inv, (FindSlot m SlotTag = none
            ∨ ∃ s, FindSlot m SlotTag = some s ∧ s.bIsOccupied = false) →
          TryUnequipToInventory I w m SlotTag (some inv)
            = (EEquipmentResult.Failed, m, some inv))
      ∧ (∀ inv s, FindSlot m SlotTag = some s → s.bIsOccupied = true →
          I.CanAcceptItem inv s.EquippedItem = false →
          TryUnequipToInventory I w m SlotTag (some inv)
            = (EEquipmentResult.NoInventorySpace, m, some inv)) := by
  refine ⟨rfl, ?_, ?_⟩
  · intro inv h
    unfold TryUnequipToInventory
    rcases h with h | ⟨s, h, ho⟩
    · simp [h]
    · simp [h, ho]
  · intro inv s hs ho hc
    unfold TryUnequipToInventory
    simp [hs, ho, hc]

/-- C17 at a concrete input: the sword in the main hand cannot go to the full
inventory. -/
theorem C17_TryUnequipToInventory_failures_witness :
    TryUnequipToInventory exampleInventory serverWorld swordManager tagMainHand
        (some [itemSword2, itemHelmet, itemRing, itemPotion])
      = (EEquipmentResult.NoInventorySpace, swordManager,
          some [itemSword2, itemHelmet, itemRing, itemPotion]) :=
  (C17_TryUnequipToInventory_failures (List FItemInstance) exampleInventory serverWorld
    swordManager tagMainHand).2.2 [itemSword2, itemHelmet, itemRing, itemPotion]
    { SlotTag := tagMainHand, EquippedItem := itemSword, bIsOccupied := true }
    (by decide) (by decide) (by decide)

/-- C18. On the authoritative node, when `TryUnequipToInventory` passes the
`CanAcceptItem` pre-check but the `TryAddItem` after the unequip fails, it
returns `NoInventorySpace` and leaves the slot re-occupied with the original
item, with all its fields: the logical table is the one before the call. The
inventory is left as the failed `TryAddItem` left it. -/
theorem C18_TryUnequipToInventory_rollback (Inv : Type) (I : UInventoryComponent Inv)
    (w : World) (m : Manager) (SlotTag : FGameplayTag) (inv : Inv) (Slot : FEquipmentSlot)
    (hA : w.HasAuthority = true) (hs : FindSlot m SlotTag = some Slot)
    (ho : Slot.bIsOccupied = true)
    (hc : I.CanAcceptItem inv Slot.EquippedItem = true)
    (hadd : (I.TryAddItem inv Slot.EquippedItem).1 = false) :
    (TryUnequipToInventory I w m SlotTag (some inv)).1 = EEquipmentResult.NoInventorySpace
      ∧ IsSlotOccupied (TryUnequipToInventory I w m SlotTag (some inv)).2.1 SlotTag = true
      ∧ GetEquippedItem (TryUnequipToInventory I w m SlotTag (some inv)).2.1 SlotTag
          = Slot.EquippedItem
      ∧ (TryUnequipToInventory I w m SlotTag (some inv)).2.1.Logical = m.Logical
      ∧ (TryUnequipToInventory I w m SlotTag (some inv)).2.2
          = some (I.TryAddItem inv Slot.EquippedItem).2 := by
  have hold := (Internal_Unequip_occupied w m SlotTag Slot hs ho).1
  have hL := rollback_Logical w m SlotTag Slot hs ho
  have hE : TryUnequipToInventory I w m SlotTag (some inv)
      = (EEquipmentResult.NoInventorySpace,
          (Internal_Equip w (Internal_Unequip w m SlotTag).2 Slot.EquippedItem SlotTag).emit
            [Event.LogError],
          some (I.TryAddItem inv Slot.EquippedItem).2) := by
    unfold TryUnequipToInventory
    simp [hs, ho, hc, hA, hold, hadd]
  rw [hE]
  have hL1 : ((Internal_Equip w (Internal_Unequip w m SlotTag).2 Slot.EquippedItem
      SlotTag).emit [Event.LogError]).Logical = m.Logical := by
    rw [emit_Logical, hL]
  obtain ⟨hq1, hq2⟩ := queries_of_Logical_eq m _ SlotTag hL1
  obtain ⟨ho1, hg1⟩ := queries_of_occupied m SlotTag Slot hs ho
  exact ⟨rfl, hq1.trans ho1, hq2.trans hg1, hL1, rfl⟩

/-- C18 at a concrete input: the inventory passes the pre-check but refuses the
add; the sword is back in the main hand. -/
theorem C18_TryUnequipToInventory_rollback_witness :
    (TryUnequipToInventory (listInventory true false true) serverWorld swordManager
        tagMainHand (some [itemHelmet])).1 = EEquipmentResult.NoInventorySpace
      ∧ IsSlotOccupied (TryUnequipToInventory (listInventory true false true) serverWorld
          swordManager tagMainHand (some [itemHelmet])).2.1 tagMainHand = true
      ∧ GetEquippedItem (TryUnequipToInventory (listInventory true false true) serverWorld
          swordManager tagMainHand (some [itemHelmet])).2.1 tagMainHand = itemSword
      ∧ (TryUnequipToInventory (listInventory true false true) serverWorld swordManager
          tagMainHand (some [itemHelmet])).2.1.Logical = swordManager.Logical
      ∧ (TryUnequipToInventory (listInventory true false true) serverWorld swordManager
          tagMainHand (some [itemHelmet])).2.2 = some [itemHelmet] :=
  C18_TryUnequipToInventory_rollback (List FItemInstance) (listInventory true false true)
    serverWorld swordManager tagMainHand [itemHelmet]
    { SlotTag := tagMainHand, EquippedItem := itemSword, bIsOccupied := true }
    (by decide) (by decide) (by decide) (by decide) (by decide)


/-! ## Non-authoritative nodes: claims C19 and C20 -/

theorem AtMostOneRequest_refl (m : Manager) : AtMostOneRequest m m := Or.inl rfl

theorem AtMostOneRequest_emit (m : Manager) (e : Event) (h : IsForwardedRequest e = true) :
    AtMostOneRequest m (m.emit [e]) := Or.inr ⟨e, h, rfl⟩

/-- `TryEquipToSlot` on a non-authoritative node: the validation result decides
between returning it unchanged and forwarding the request. -/
theorem TryEquipToSlot_client (w : World) (m : Manager) (Item : FItemInstance)
    (t : FGameplayTag) (hA : w.HasAuthority = false) :
    TryEquipToSlot w m (ItemRef.Local Item) t
      = if ValidateEquip w m Item t = EEquipmentResult.Success then
          (EEquipmentResult.Success, m.emit [Event.ServerRPC_RequestEquip Item t])
        else (ValidateEquip w m Item t, m) := by
  rw [TryEquipToSlot_Local]
  by_cases hV : ValidateEquip w m Item t = EEquipmentResult.Success
  · simp [hV, hA]
  · simp [hV]

/-- `TryUnequip` on a non-authoritative node: the local check decides between
failing and forwarding the request; the output item is never written. -/
theorem TryUnequip_client (w : World) (m : Manager) (t : FGameplayTag)
    (OutItem : FItemInstance) (hA : w.HasAuthority = false) :
    TryUnequip w m t (ItemRef.Local OutItem)
      = if IsSlotOccupied m t = true then
          (EEquipmentResult.Success, OutItem, m.emit [Event.ServerRPC_RequestUnequip t])
        else (EEquipmentResult.Failed, OutItem, m) := by
  rw [TryUnequip_Local]; unfold IsSlotOccupied
  cases FindSlot m t with
  | none => simp
  | some s => cases ho : s.bIsOccupied <;> simp [hA, ho]

/-- `IsSlotOccupied` holds exactly when `FindSlot` returns an occupied slot. -/
theorem IsSlotOccupied_iff (m : Manager) (t : FGameplayTag) :
    IsSlotOccupied m t = true ↔ ∃ s, FindSlot m t = some s ∧ s.bIsOccupied = true := by
  unfold IsSlotOccupied
  cases FindSlot m t with
  | none => simp
  | some s => simp

/-- C19. On a non-authoritative node, none of `TryEquip`, `TryEquipToSlot`,
`TryUnequip`, `TryEquipFromInventory` and `TryUnequipToInventory`, for any
arguments, changes the slot table or the inventory, invokes the GAS hook, or
emits an equipped / unequipped / changed notification: the component state
after the call is the state before it, or that state with exactly one forwarded
request appended to its trace, and the inventory is the one passed in. The
reference arguments of the direct operations may be bound to any object. -/
theorem C19_client_calls_only_forward (w : World) (m : Manager)
    (hA : w.HasAuthority = false) :
    (∀ Item : ItemRef, AtMostOneRequest m (TryEquip w m Item).2)
      ∧ (∀ (Item : ItemRef) SlotTag, AtMostOneRequest m (TryEquipToSlot w m Item SlotTag).2)
      ∧ (∀ SlotTag (OutItem : ItemRef), AtMostOneRequest m (TryUnequip w m SlotTag OutItem).2.2)
      ∧ (∀ (Inv : Type) (I : UInventoryComponent Inv) (ItemInstanceId : Nat)
          (SourceInventory : Option Inv) (SlotTag : FGameplayTag),
          AtMostOneRequest m
              (TryEquipFromInventory I w m ItemInstanceId SourceInventory SlotTag).2.1
            ∧ (TryEquipFromInventory I w m ItemInstanceId SourceInventory SlotTag).2.2
                = SourceInventory)
      ∧ (∀ (Inv : Type) (I : UInventoryComponent Inv) (SlotTag : FGameplayTag)
          (TargetInventory : Option Inv),
          AtMostOneRequest m (TryUnequipToInventory I w m SlotTag TargetInventory).2.1
            ∧ (TryUnequipToInventory I w m SlotTag TargetInventory).2.2
                = TargetInventory) := by
  have hSlot : ∀ (Item : ItemRef) SlotTag,
      AtMostOneRequest m (TryEquipToSlot w m Item SlotTag).2 := by
    intro Item t
    rw [TryEquipToSlot_client_any w m Item t hA, TryEquipToSlot_client w m _ t hA]
    split
    · exact AtMostOneRequest_emit m _ rfl
    · exact AtMostOneRequest_refl m
  refine ⟨?_, hSlot, ?_, ?_, ?_⟩
  · intro Item
    rw [TryEquip_eq]
    split
    · exact AtMostOneRequest_refl m
    · exact hSlot Item _
  · intro t OutItem
    rw [TryUnequip_client_any w m t OutItem hA, TryUnequip_client w m t _ hA]
    split
    · exact AtMostOneRequest_emit m _ rfl
    · exact AtMostOneRequest_refl m
  · intro Inv I id SourceInventory t
    unfold TryEquipFromInventory
    simp only [hA, Bool.not_false, if_true]
    repeat' split
    all_goals first
      | exact ⟨AtMostOneRequest_refl m, rfl⟩
      | exact ⟨AtMostOneRequest_emit m _ rfl, rfl⟩
  · intro Inv I t TargetInventory
    unfold TryUnequipToInventory
    simp only [hA, Bool.not_false, if_true]
    repeat' split
    all_goals first
      | exact ⟨AtMostOneRequest_refl m, rfl⟩
      | exact ⟨AtMostOneRequest_emit m _ rfl, rfl⟩

/-- C19 at a concrete input: a client with the sword in the main hand. -/
theorem C19_client_calls_only_forward_witness :
    (∀ Item : ItemRef,
        AtMostOneRequest swordManager (TryEquip clientWorld swordManager Item).2)
      ∧ (∀ (Item : ItemRef) SlotTag,
          AtMostOneRequest swordManager
            (TryEquipToSlot clientWorld swordManager Item SlotTag).2)
      ∧ (∀ SlotTag (OutItem : ItemRef),
          AtMostOneRequest swordManager
            (TryUnequip clientWorld swordManager SlotTag OutItem).2.2)
      ∧ (∀ (Inv : Type) (I : UInventoryComponent Inv) (ItemInstanceId : Nat)
          (SourceInventory : Option Inv) (SlotTag : FGameplayTag),
          AtMostOneRequest swordManager
              (TryEquipFromInventory I clientWorld swordManager ItemInstanceId
                SourceInventory SlotTag).2.1
            ∧ (TryEquipFromInventory I clientWorld swordManager ItemInstanceId
                SourceInventory SlotTag).2.2 = SourceInventory)
      ∧ (∀ (Inv : Type) (I : UInventoryComponent Inv) (SlotTag : FGameplayTag)
          (TargetInventory : Option Inv),
          AtMostOneRequest swordManager
              (TryUnequipToInventory I clientWorld swordManager SlotTag
                TargetInventory).2.1
            ∧ (TryUnequipToInventory I clientWorld swordManager SlotTag
                TargetInventory).2.2 = TargetInventory) :=
  C19_client_calls_only_forward clientWorld swordManager (by decide)

/-- C20. On a non-authoritative node, `TryEquipToSlot` returns `Success` exactly
when `ValidateEquip` returns `Success`; in that case it forwards exactly one
request (the equip request for that item and tag) and does nothing else, and
otherwise it forwards none and does nothing. `TryUnequip` returns `Success`
exactly when the slot is present and occupied, forwards exactly one unequip
request in that case and none otherwise, and in every case leaves the caller's
output item as it was. The item is the one the argument refers to at entry, and
the output item the one the output refers to, whatever objects the references
are bound to. -/
theorem C20_client_slot_operations (w : World) (m : Manager)
    (hA : w.HasAuthority = false) :
    (∀ (Item : ItemRef) SlotTag,
        ((TryEquipToSlot w m Item SlotTag).1 = EEquipmentResult.Success
          ↔ ValidateEquip w m (Item.Get m) SlotTag = EEquipmentResult.Success)
        ∧ (ValidateEquip w m (Item.Get m) SlotTag = EEquipmentResult.Success →
            (TryEquipToSlot w m Item SlotTag).2
              = m.emit [Event.ServerRPC_RequestEquip (Item.Get m) SlotTag])
        ∧ (ValidateEquip w m (Item.Get m) SlotTag ≠ EEquipmentResult.Success →
            (TryEquipToSlot w m Item SlotTag).2 = m))
      ∧ (∀ SlotTag (OutItem : ItemRef),
        ((TryUnequip w m SlotTag OutItem).1 = EEquipmentResult.Success
          ↔ ∃ s, FindSlot m SlotTag = some s ∧ s.bIsOccupied = true)
        ∧ (TryUnequip w m SlotTag OutItem).2.1 = OutItem.Get m
        ∧ ((∃ s, FindSlot m SlotTag = some s ∧ s.bIsOccupied = true) →
            (TryUnequip w m SlotTag OutItem).2.2
              = m.emit [Event.ServerRPC_RequestUnequip SlotTag])
        ∧ ((¬ ∃ s, FindSlot m SlotTag = some s ∧ s.bIsOccupied = true) →
            (TryUnequip w m SlotTag OutItem).2.2 = m)) := by
  constructor
  · intro Item t
    rw [TryEquipToSlot_client_any w m Item t hA, TryEquipToSlot_client w m _ t hA]
    by_cases hV : ValidateEquip w m (Item.Get m) t = EEquipmentResult.Success
    · simp [hV]
    · simp [hV]
  · intro t OutItem
    rw [TryUnequip_client_any w m t OutItem hA, TryUnequip_client w m t _ hA,
      ← IsSlotOccupied_iff]
    cases IsSlotOccupied m t <;> simp

/-- C20 at a concrete input: a client with the sword in the main hand. -/
theorem C20_client_slot_operations_witness :
    (∀ (Item : ItemRef) SlotTag,
        ((TryEquipToSlot clientWorld swordManager Item SlotTag).1 = EEquipmentResult.Success
          ↔ ValidateEquip clientWorld swordManager (Item.Get swordManager) SlotTag
              = EEquipmentResult.Success)
        ∧ (ValidateEquip clientWorld swordManager (Item.Get swordManager) SlotTag
              = EEquipmentResult.Success →
            (TryEquipToSlot clientWorld swordManager Item SlotTag).2
              = swordManager.emit
                  [Event.ServerRPC_RequestEquip (Item.Get swordManager) SlotTag])
        ∧ (ValidateEquip clientWorld swordManager (Item.Get swordManager) SlotTag
              ≠ EEquipmentResult.Success →
            (TryEquipToSlot clientWorld swordManager Item SlotTag).2 = swordManager))
      ∧ (∀ SlotTag (OutItem : ItemRef),
        ((TryUnequip clientWorld swordManager SlotTag OutItem).1 = EEquipmentResult.Success
          ↔ ∃ s, FindSlot swordManager SlotTag = some s ∧ s.bIsOccupied = true)
        ∧ (TryUnequip clientWorld swordManager SlotTag OutItem).2.1
            = OutItem.Get swordManager
        ∧ ((∃ s, FindSlot swordManager SlotTag = some s ∧ s.bIsOccupied = true) →
            (TryUnequip clientWorld swordManager SlotTag OutItem).2.2
              = swordManager.emit [Event.ServerRPC_RequestUnequip SlotTag])
        ∧ ((¬ ∃ s, FindSlot swordManager SlotTag = some s ∧ s.bIsOccupied = true) →
            (TryUnequip clientWorld swordManager SlotTag OutItem).2.2 = swordManager)) :=
  C20_client_slot_operations clientWorld swordManager (by decide)

/-! ## Traces without operation-failed notification -/

theorem NoFailureNotification_refl (m : Manager) : NoFailureNotification m m :=
  ⟨[], by simp, by simp⟩

theorem NoFailureNotification_trans (m m1 m2 : Manager) (h1 : NoFailureNotification m m1)
    (h2 : NoFailureNotification m1 m2) : NoFailureNotification m m2 := by
  obtain ⟨d1, e1, n1⟩ := h1
  obtain ⟨d2, e2, n2⟩ := h2
  refine ⟨d1 ++ d2, by rw [e2, e1, List.append_assoc], ?_⟩
  intro e he
  rcases List.mem_append.mp he with h | h
  · exact n1 e h
  · exact n2 e h

theorem NoFailureNotification_emit (m m1 : Manager) (es : List Event)
    (hes : ∀ e ∈ es, IsOperationFailed e = false) (h : NoFailureNotification m m1) :
    NoFailureNotification m (m1.emit es) :=
  NoFailureNotification_trans m m1 _ h ⟨es, rfl, hes⟩

theorem NoFailureNotification_writeSlot (m m1 : Manager) (t : FGameplayTag)
    (f : FEquipmentSlot → FEquipmentSlot) (h : NoFailureNotification m m1) :
    NoFailureNotification m (m1.writeSlot t f) :=
  NoFailureNotification_trans m m1 _ h ⟨[], by simp [writeSlot_Trace], by simp⟩

theorem NoFailureNotification_of_Trace (m m1 m2 : Manager) (h : NoFailureNotification m m1)
    (ht : m2.Trace = m1.Trace) : NoFailureNotification m m2 := by
  obtain ⟨d, e, n⟩ := h
  exact ⟨d, by rw [ht, e], n⟩

theorem ApplyVisuals_NoFailureNotification (w : World) (m : Manager) (Item : FItemInstance)
    (t : FGameplayTag) : NoFailureNotification m (ApplyVisuals w m Item t) := by
  unfold ApplyVisuals
  dsimp only
  repeat' split
  all_goals first
    | exact NoFailureNotification_refl m
    | (apply NoFailureNotification_writeSlot
       refine NoFailureNotification_of_Trace m (_ : Manager) _ ?_ rfl
       apply NoFailureNotification_emit _ _ _ (by simp [IsOperationFailed])
       first
         | exact NoFailureNotification_refl m
         | exact NoFailureNotification_emit _ _ _ (by simp [IsOperationFailed])
             (NoFailureNotification_refl m))

theorem RemoveVisuals_NoFailureNotification (w : World) (m : Manager) (t : FGameplayTag) :
    NoFailureNotification m (RemoveVisuals w m t) := by
  unfold RemoveVisuals
  dsimp only
  repeat' split
  all_goals
    repeat (first
      | exact NoFailureNotification_refl m
      | apply NoFailureNotification_writeSlot
      | apply NoFailureNotification_emit _ _ _ (by simp [IsOperationFailed]))

theorem ApplyGAS_NoFailureNotification (w : World) (m : Manager) (Item : FItemInstance)
    (t : FGameplayTag) : NoFailureNotification m (ApplyGAS w m Item t) := by
  unfold ApplyGAS
  repeat' split
  all_goals first
    | exact NoFailureNotification_refl m
    | exact NoFailureNotification_emit _ _ _ (by simp [IsOperationFailed])
        (NoFailureNotification_refl m)

theorem RemoveGAS_NoFailureNotification (w : World) (m : Manager) (t : FGameplayTag) :
    NoFailureNotification m (RemoveGAS w m t) := by
  unfold RemoveGAS
  repeat' split
  all_goals first
    | exact NoFailureNotification_refl m
    | exact NoFailureNotification_emit _ _ _ (by simp [IsOperationFailed])
        (NoFailureNotification_refl m)

/-- `Internal_Equip` sends no operation-failed notification. -/
theorem Internal_Equip_NoFailureNotification (w : World) (m : Manager)
    (Item : FItemInstance) (t : FGameplayTag) :
    NoFailureNotification m (Internal_Equip w m Item t) := by
  unfold Internal_Equip
  split
  · exact NoFailureNotification_refl m
  · dsimp only
    apply NoFailureNotification_emit _ _ _ (by simp [IsOperationFailed])
    refine NoFailureNotification_trans _ _ _ ?_ (ApplyGAS_NoFailureNotification _ _ _ _)
    refine NoFailureNotification_trans _ _ _ ?_ (ApplyVisuals_NoFailureNotification _ _ _ _)
    apply NoFailureNotification_emit _ _ _ (by simp [IsOperationFailed])
    exact NoFailureNotification_writeSlot _ _ _ _ (NoFailureNotification_refl m)

/-- `Internal_Unequip` sends no operation-failed notification. -/
theorem Internal_Unequip_NoFailureNotification (w : World) (m : Manager)
    (t : FGameplayTag) : NoFailureNotification m (Internal_Unequip w m t).2 := by
  unfold Internal_Unequip
  split
  · exact NoFailureNotification_refl m
  · split
    · exact NoFailureNotification_refl m
    · dsimp only
      apply NoFailureNotification_emit _ _ _ (by simp [IsOperationFailed])
      apply NoFailureNotification_emit _ _ _ (by simp [IsOperationFailed])
      apply NoFailureNotification_writeSlot
      refine NoFailureNotification_trans _ _ _ ?_ (RemoveVisuals_NoFailureNotification _ _ _)
      exact RemoveGAS_NoFailureNotification _ _ _


/-! ## The forwarded-request handlers: claims C21 to C23 -/

/-- The handler of a forwarded equip request sends no operation-failed
notification when validation passes. -/
theorem ServerRPC_RequestEquip_NoFailureNotification (w : World) (m : Manager)
    (Item : FItemInstance) (t : FGameplayTag)
    (hV : ValidateEquip w m Item t = EEquipmentResult.Success) :
    NoFailureNotification m (ServerRPC_RequestEquip w m Item t) := by
  unfold ServerRPC_RequestEquip
  simp only [hV, ne_eq, not_true_eq_false, if_false]
  refine NoFailureNotification_trans _ _ _ ?_ (Internal_Equip_NoFailureNotification _ _ _ _)
  split
  · split
    · exact Internal_Unequip_NoFailureNotification w m t
    · exact NoFailureNotification_refl m
  · exact NoFailureNotification_refl m

/-- The handler of a forwarded unequip request, by the local check. -/
theorem ServerRPC_RequestUnequip_eq (w : World) (m : Manager) (t : FGameplayTag) :
    ServerRPC_RequestUnequip w m t
      = if IsSlotOccupied m t = true then (Internal_Unequip w m t).2
        else m.emit [Event.ClientRPC_EquipmentOperationFailed EEquipmentResult.Failed] := by
  unfold ServerRPC_RequestUnequip IsSlotOccupied
  cases FindSlot m t with
  | none => simp
  | some s => cases ho : s.bIsOccupied <;> simp [ho]

/-- `TryUnequip` on the authoritative node, by the local check. -/
theorem TryUnequip_server (w : World) (m : Manager) (t : FGameplayTag)
    (OutItem : FItemInstance) (hA : w.HasAuthority = true) :
    TryUnequip w m t (ItemRef.Local OutItem)
      = if IsSlotOccupied m t = true then
          (EEquipmentResult.Success, (Internal_Unequip w m t).1, (Internal_Unequip w m t).2)
        else (EEquipmentResult.Failed, OutItem, m) := by
  rw [TryUnequip_Local]; unfold IsSlotOccupied
  cases FindSlot m t with
  | none => simp
  | some s => cases ho : s.bIsOccupied <;> simp [hA, ho]

/-- `TryUnequip` on the authoritative node, by the local check, for any output
reference. -/
theorem TryUnequip_server_any (w : World) (m : Manager) (t : FGameplayTag)
    (OutItem : ItemRef) (hA : w.HasAuthority = true) :
    TryUnequip w m t OutItem
      = if IsSlotOccupied m t = true then
          (EEquipmentResult.Success, (Internal_Unequip w m t).1,
            OutItem.Assign (Internal_Unequip w m t).2 (Internal_Unequip w m t).1)
        else (EEquipmentResult.Failed, OutItem.Get m, m) := by
  rw [TryUnequip_eq]
  unfold IsSlotOccupied
  cases FindSlot m t with
  | none => simp
  | some s => cases ho : s.bIsOccupied <;> simp [hA, ho]

/-- C22, the code at the failing input. On the authoritative node the main hand
holds the sword and the inventory passes the `CanAcceptItem` pre-check but then
refuses the add. The direct `TryUnequipToInventory` rolls back: it returns
`NoInventorySpace` and the sword is in the main hand again. The handler
`ServerRPC_RequestUnequipToInventory` ignores the outcome of `TryAddItem`: the
main hand is left empty and the inventory does not hold the sword either. -/
theorem C22_handler_without_rollback :
    (TryUnequipToInventory (listInventory true false true) serverWorld swordManager
        tagMainHand (some [itemHelmet])).1 = EEquipmentResult.NoInventorySpace
      ∧ GetEquippedItem (TryUnequipToInventory (listInventory true false true) serverWorld
          swordManager tagMainHand (some [itemHelmet])).2.1 tagMainHand = itemSword
      ∧ (TryUnequipToInventory (listInventory true false true) serverWorld swordManager
          tagMainHand (some [itemHelmet])).2.2 = some [itemHelmet]
      ∧ IsSlotOccupied (ServerRPC_RequestUnequipToInventory (listInventory true false true)
          serverWorld swordManager tagMainHand (some [itemHelmet])).1 tagMainHand = false
      ∧ GetOccupiedSlotTags (ServerRPC_RequestUnequipToInventory
          (listInventory true false true) serverWorld swordManager tagMainHand
          (some [itemHelmet])).1 = []
      ∧ (ServerRPC_RequestUnequipToInventory (listInventory true false true) serverWorld
          swordManager tagMainHand (some [itemHelmet])).2 = some [itemHelmet] := by
  decide


/-- C23. Each of the four forwarded-request handlers rejects a request exactly
when one of its checks fails, and then the state after it is the state before it
with exactly one operation-failed notification appended to the trace, carrying
the result code of the failed check, so that no slot is written, and the
inventory is the one passed in; when all checks pass, the handler sends no
operation-failed notification at all. The checks and their codes are:
* `ServerRPC_RequestEquip`: `ValidateEquip` of the item and the tag, with the
  code it returns;
* `ServerRPC_RequestUnequip`: the slot exists and is occupied, else `Failed`;
* `ServerRPC_RequestEquipFromInventory`: the inventory is not null, else
  `Failed`; the item is found in it, else `InvalidItem`; `ValidateEquip` of the
  item and the resolved tag, with the code it returns; when the slot is
  occupied, the inventory can accept its occupant, else `NoInventorySpace`;
* `ServerRPC_RequestUnequipToInventory`: the inventory is not null, else
  `Failed`; the slot exists and is occupied, else `Failed`; the inventory can
  accept the occupant, else `NoInventorySpace`.
A state with an operation-failed notification appended is never a state reached
without notification. -/
theorem C23_handler_notifications (w : World) (m : Manager) :
    (∀ Item SlotTag,
        (ValidateEquip w m Item SlotTag ≠ EEquipmentResult.Success →
          ServerRPC_RequestEquip w m Item SlotTag
            = m.emit [Event.ClientRPC_EquipmentOperationFailed
                (ValidateEquip w m Item SlotTag)])
        ∧ (ValidateEquip w m Item SlotTag = EEquipmentResult.Success →
          NoFailureNotification m (ServerRPC_RequestEquip w m Item SlotTag)))
      ∧ (∀ SlotTag,
        (IsSlotOccupied m SlotTag = false →
          ServerRPC_RequestUnequip w m SlotTag
            = m.emit [Event.ClientRPC_EquipmentOperationFailed EEquipmentResult.Failed])
        ∧ (IsSlotOccupied m SlotTag = true →
          NoFailureNotification m (ServerRPC_RequestUnequip w m SlotTag)))
      ∧ (∀ (Inv : Type) (I : UInventoryComponent Inv) (ItemInstanceId : Nat)
          (SlotTag : FGameplayTag),
        ServerRPC_RequestEquipFromInventory I w m ItemInstanceId none SlotTag
            = (m.emit [Event.ClientRPC_EquipmentOperationFailed EEquipmentResult.Failed],
                none)
        ∧ ∀ inv : Inv,
          (I.FindSlotIndexByInstanceId inv ItemInstanceId = INDEX_NONE →
            ServerRPC_RequestEquipFromInventory I w m ItemInstanceId (some inv) SlotTag
              = (m.emit [Event.ClientRPC_EquipmentOperationFailed
                  EEquipmentResult.InvalidItem], some inv))
          ∧ (I.FindSlotIndexByInstanceId inv ItemInstanceId ≠ INDEX_NONE →
            ∀ Item T,
              Item = I.GetItemInSlot inv (I.FindSlotIndexByInstanceId inv ItemInstanceId) →
              T = ResolvedSlotTag w m Item SlotTag →
              (ValidateEquip w m Item T ≠ EEquipmentResult.Success →
                ServerRPC_RequestEquipFromInventory I w m ItemInstanceId (some inv) SlotTag
                  = (m.emit [Event.ClientRPC_EquipmentOperationFailed
                      (ValidateEquip w m Item T)], some inv))
              ∧ (ValidateEquip w m Item T = EEquipmentResult.Success →
                IsSlotOccupied m T = true →
                I.CanAcceptItem inv (GetEquippedItem m T) = false →
                ServerRPC_RequestEquipFromInventory I w m ItemInstanceId (some inv) SlotTag
                  = (m.emit [Event.ClientRPC_EquipmentOperationFailed
                      EEquipmentResult.NoInventorySpace], some inv))
              ∧ (ValidateEquip w m Item T = EEquipmentResult.Success →
                (IsSlotOccupied m T = false
                  ∨ I.CanAcceptItem inv (GetEquippedItem m T) = true) →
                NoFailureNotification m
                  (ServerRPC_RequestEquipFromInventory I w m ItemInstanceId (some inv)
                    SlotTag).1)))
      ∧ (∀ (Inv : Type) (I : UInventoryComponent Inv) (SlotTag : FGameplayTag),
        ServerRPC_RequestUnequipToInventory I w m SlotTag none
            = (m.emit [Event.ClientRPC_EquipmentOperationFailed EEquipmentResult.Failed],
                none)
        ∧ ∀ inv : Inv,
          (IsSlotOccupied m SlotTag = false →
            ServerRPC_RequestUnequipToInventory I w m SlotTag (some inv)
              = (m.emit [Event.ClientRPC_EquipmentOperationFailed EEquipmentResult.Failed],
                  some inv))
          ∧ (IsSlotOccupied m SlotTag = true →
            I.CanAcceptItem inv (GetEquippedItem m SlotTag) = false →
            ServerRPC_RequestUnequipToInventory I w m SlotTag (some inv)
              = (m.emit [Event.ClientRPC_EquipmentOperationFailed
                  EEquipmentResult.NoInventorySpace], some inv))
          ∧ (IsSlotOccupied m SlotTag = true →
            I.CanAcceptItem inv (GetEquippedItem m SlotTag) = true →
            NoFailureNotification m
              (ServerRPC_RequestUnequipToInventory I w m SlotTag (some inv)).1))
      ∧ (∀ r, ¬ NoFailureNotification m
          (m.emit [Event.ClientRPC_EquipmentOperationFailed r])) := by
  refine ⟨?_, ?_, ?_, ?_, ?_⟩
  · intro Item t
    refine ⟨fun hV => ?_, ServerRPC_RequestEquip_NoFailureNotification w m Item t⟩
    unfold ServerRPC_RequestEquip
    simp only [hV, ne_eq, not_false_eq_true, if_true]
  · intro t
    unfold IsSlotOccupied ServerRPC_RequestUnequip
    cases hs : FindSlot m t with
    | none => exact ⟨fun _ => rfl, fun h => (by cases h)⟩
    | some s =>
      cases ho : s.bIsOccupied with
      | false =>
        refine ⟨fun _ => ?_, fun h => ?_⟩
        · simp only [ho, Bool.not_false, if_true]
        · simp only [ho] at h
          cases h
      | true =>
        refine ⟨fun h => ?_, fun _ => ?_⟩
        · simp only [ho] at h
          cases h
        · simp only [ho, Bool.not_true, Bool.false_eq_true, if_false]
          exact Internal_Unequip_NoFailureNotification w m t
  · intro Inv I id t
    refine ⟨rfl, fun inv => ⟨fun hidx => ?_, fun hidx Item T hI hT => ?_⟩⟩
    · unfold ServerRPC_RequestEquipFromInventory
      simp only [hidx, if_true]
    · have hT2 : (if (!t.IsValid) = true then FindTargetSlot w m Item else t) = T := by
        rw [hT]
        unfold ResolvedSlotTag
        cases t.IsValid <;> simp
      unfold ServerRPC_RequestEquipFromInventory
      simp only [hidx, if_false, ← hI, hT2]
      refine ⟨fun hV => ?_, fun hV ho hc => ?_, fun hV hoc => ?_⟩
      · simp only [hV, ne_eq, not_false_eq_true, if_true]
      · simp only [hV, ne_eq, not_true_eq_false, if_false]
        obtain ⟨s, hs, hso⟩ := (IsSlotOccupied_iff m T).mp ho
        have hg : GetEquippedItem m T = s.EquippedItem := by
          unfold GetEquippedItem
          simp only [hs, hso, if_true]
        rw [hg] at hc
        simp only [hs, hso, hc, if_true, Bool.not_false]
      · simp only [hV, ne_eq, not_true_eq_false, if_false]
        cases hs : FindSlot m T with
        | none => exact Internal_Equip_NoFailureNotification _ _ _ _
        | some s =>
          cases hso : s.bIsOccupied with
          | false =>
            simp only [hso, Bool.false_eq_true, if_false]
            exact Internal_Equip_NoFailureNotification _ _ _ _
          | true =>
            have hocc : IsSlotOccupied m T = true := (IsSlotOccupied_iff m T).mpr ⟨s, hs, hso⟩
            have hg : GetEquippedItem m T = s.EquippedItem := by
              unfold GetEquippedItem
              simp only [hs, hso, if_true]
            rcases hoc with h | h
            · rw [hocc] at h
              cases h
            · rw [hg] at h
              simp only [hso, h, if_true, Bool.not_true, Bool.false_eq_true, if_false]
              exact NoFailureNotification_trans _ _ _
                (Internal_Unequip_NoFailureNotification _ _ _)
                (Internal_Equip_NoFailureNotification _ _ _ _)
  · intro Inv I t
    refine ⟨rfl, fun inv => ?_⟩
    unfold ServerRPC_RequestUnequipToInventory IsSlotOccupied GetEquippedItem
    cases hs : FindSlot m t with
    | none => exact ⟨fun _ => rfl, fun h => (by cases h), fun h => (by cases h)⟩
    | some s =>
      cases hso : s.bIsOccupied with
      | false =>
        refine ⟨fun _ => ?_, fun h => ?_, fun h => ?_⟩
        · simp only [hso, Bool.not_false, if_true]
        · simp only [hso] at h
          cases h
        · simp only [hso] at h
          cases h
      | true =>
        refine ⟨fun h => ?_, fun _ hc => ?_, fun _ hc => ?_⟩
        · simp only [hso] at h
          cases h
        · simp only [hso, if_true] at hc
          simp only [hso, hc, Bool.not_true, Bool.false_eq_true, if_false, Bool.not_false,
            if_true]
        · simp only [hso, if_true] at hc
          simp only [hso, hc, Bool.not_true, Bool.false_eq_true, if_false]
          exact Internal_Unequip_NoFailureNotification w m t
  · rintro r ⟨d, hd, hn⟩
    rw [emit_Trace] at hd
    have hmem : Event.ClientRPC_EquipmentOperationFailed r ∈ d := by
      rw [← List.append_cancel_left hd]
      exact List.mem_singleton_self _
    have := hn _ hmem
    simp [IsOperationFailed] at this

/-- C23 at concrete inputs, on the authoritative node with the sword in the main
hand: the forwarded unequip to an inventory that cannot accept the sword is
rejected with `NoInventorySpace`, and the forwarded equip of an item without
equipment fragment is rejected with the code of its validation, `InvalidItem`;
nothing but the notification is added and the inventory is as passed in. -/
theorem C23_handler_notifications_witness :
    ServerRPC_RequestUnequipToInventory (listInventory false true true) serverWorld
          swordManager tagMainHand (some [itemHelmet])
        = (swordManager.emit
            [Event.ClientRPC_EquipmentOperationFailed EEquipmentResult.NoInventorySpace],
            some [itemHelmet])
      ∧ ServerRPC_RequestEquip serverWorld swordManager itemPotion tagMainHand
        = swordManager.emit
            [Event.ClientRPC_EquipmentOperationFailed
              (ValidateEquip serverWorld swordManager itemPotion tagMainHand)]
      ∧ ValidateEquip serverWorld swordManager itemPotion tagMainHand
        = EEquipmentResult.InvalidItem :=
  ⟨(((C23_handler_notifications serverWorld swordManager).2.2.2.1 _
      (listInventory false true true) tagMainHand).2 [itemHelmet]).2.1
      (by decide) (by decide),
    ((C23_handler_notifications serverWorld swordManager).1 itemPotion tagMainHand).1
      (by decide),
    by decide⟩


/-! ## What one operation does to the logical table -/

/-- Equipping right after `Internal_Unequip` of the same tag writes the item
into the slot, whether the slot was occupied or not. -/
theorem Internal_Equip_after_Unequip_Logical (w : World) (m : Manager)
    (Item : FItemInstance) (t : FGameplayTag) :
    (Internal_Equip w (Internal_Unequip w m t).2 Item t).Logical
      = modifySlot t (setEquipped Item) m.Logical := by
  rw [Internal_Equip_Logical]
  by_cases h : ∃ s, FindSlot m t = some s ∧ s.bIsOccupied = true
  · obtain ⟨s, hs, ho⟩ := h
    rw [(Internal_Unequip_occupied w m t s hs ho).2,
      modifySlot_modifySlot t _ _ clearEquipped_SlotTag]
    rfl
  · rw [Internal_Unequip_idle w m t]
    intro s hs
    cases ho : s.bIsOccupied with
    | false => rfl
    | true => exact absurd ⟨s, hs, ho⟩ h

/-- The rollback with the item `Internal_Unequip` returned. -/
theorem rollback_Logical_returned (w : World) (m : Manager) (t : FGameplayTag)
    (Slot : FEquipmentSlot) (hs : FindSlot m t = some Slot) (ho : Slot.bIsOccupied = true) :
    (Internal_Equip w (Internal_Unequip w m t).2 (Internal_Unequip w m t).1 t).Logical
      = m.Logical := by
  rw [(Internal_Unequip_occupied w m t Slot hs ho).1]
  exact rollback_Logical w m t Slot hs ho

/-- `Internal_Unequip` either clears the slot or does nothing. -/
theorem Internal_Unequip_LogicalChange (w : World) (m : Manager) (t : FGameplayTag) :
    LogicalChange t m.Logical (Internal_Unequip w m t).2.Logical := by
  by_cases h : ∃ s, FindSlot m t = some s ∧ s.bIsOccupied = true
  · obtain ⟨s, hs, ho⟩ := h
    exact Or.inr (Or.inl (Internal_Unequip_occupied w m t s hs ho).2)
  · left
    rw [Internal_Unequip_idle w m t]
    intro s hs
    cases ho : s.bIsOccupied with
    | false => rfl
    | true => exact absurd ⟨s, hs, ho⟩ h

theorem TryEquipToSlot_LogicalChange (w : World) (m : Manager) (Item : FItemInstance)
    (t : FGameplayTag) :
    LogicalChange t m.Logical (TryEquipToSlot w m (ItemRef.Local Item) t).2.Logical := by
  by_cases hV : ValidateEquip w m Item t = EEquipmentResult.Success
  · cases hA : w.HasAuthority with
    | false =>
      rw [TryEquipToSlot_client w m Item t hA]
      simp only [hV, if_true]
      exact Or.inl rfl
    | true =>
      exact Or.inr (Or.inr ⟨Item, (ValidateEquip_Success_item w m Item t hV).1,
        (TryEquipToSlot_authoritative w m Item t hA hV).2⟩)
  · left
    rw [TryEquipToSlot_Local]
    simp [hV]

theorem TryEquip_LogicalChange (w : World) (m : Manager) (Item : FItemInstance) :
    LogicalChange (FindTargetSlot w m Item) m.Logical
      (TryEquip w m (ItemRef.Local Item)).2.Logical := by
  rw [TryEquip_Local]
  dsimp only
  split
  · exact Or.inl rfl
  · exact TryEquipToSlot_LogicalChange w m Item _

theorem TryUnequip_LogicalChange (w : World) (m : Manager) (t : FGameplayTag)
    (OutItem : FItemInstance) :
    LogicalChange t m.Logical (TryUnequip w m t (ItemRef.Local OutItem)).2.2.Logical := by
  cases hA : w.HasAuthority with
  | false =>
    rw [TryUnequip_client w m t OutItem hA]
    split <;> exact Or.inl rfl
  | true =>
    rw [TryUnequip_server w m t OutItem hA]
    split
    · exact Internal_Unequip_LogicalChange w m t
    · exact Or.inl rfl

theorem ServerRPC_RequestEquip_LogicalChange (w : World) (m : Manager)
    (Item : FItemInstance) (t : FGameplayTag) :
    LogicalChange t m.Logical (ServerRPC_RequestEquip w m Item t).Logical := by
  unfold ServerRPC_RequestEquip
  by_cases hV : ValidateEquip w m Item t = EEquipmentResult.Success
  · simp only [hV, ne_eq, not_true_eq_false, if_false]
    rw [guarded_unequip_eq]
    exact Or.inr (Or.inr ⟨Item, (ValidateEquip_Success_item w m Item t hV).1,
      Internal_Equip_after_Unequip_Logical w m Item t⟩)
  · simp only [hV, ne_eq, not_false_eq_true, if_true]
    exact Or.inl rfl

theorem ServerRPC_RequestUnequip_LogicalChange (w : World) (m : Manager)
    (t : FGameplayTag) :
    LogicalChange t m.Logical (ServerRPC_RequestUnequip w m t).Logical := by
  rw [ServerRPC_RequestUnequip_eq]
  split
  · exact Internal_Unequip_LogicalChange w m t
  · exact Or.inl rfl


theorem LogicalChange_set (T : FGameplayTag) (m m1 : Manager) (Item : FItemInstance)
    (hv : Item.IsValid = true)
    (h : m1.Logical = modifySlot T (setEquipped Item) m.Logical) :
    LogicalChange T m.Logical m1.Logical :=
  Or.inr (Or.inr ⟨Item, hv, h⟩)

/-- An invalid resolved tag means that no tag was given and none was found. -/
theorem ResolvedSlotTag_invalid (w : World) (m : Manager) (Item : FItemInstance)
    (SlotTag : FGameplayTag) (h : (ResolvedSlotTag w m Item SlotTag).IsValid = false) :
    SlotTag.IsValid = false ∧ (FindTargetSlot w m Item).IsValid = false := by
  cases hst : SlotTag.IsValid with
  | true =>
    rw [ResolvedSlotTag_of_valid _ _ _ _ hst, hst] at h
    cases h
  | false =>
    rw [ResolvedSlotTag_of_invalid _ _ _ _ hst] at h
    exact ⟨rfl, h⟩

theorem TryEquipFromInventory_LogicalChange {Inv : Type} (I : UInventoryComponent Inv)
    (w : World) (m : Manager) (ItemInstanceId : Nat) (SourceInventory : Option Inv)
    (SlotTag T : FGameplayTag)
    (h : ∀ inv, SourceInventory = some inv →
      ResolvedSlotTag w m
        (I.GetItemInSlot inv (I.FindSlotIndexByInstanceId inv ItemInstanceId)) SlotTag = T) :
    LogicalChange T m.Logical
      (TryEquipFromInventory I w m ItemInstanceId SourceInventory SlotTag).2.1.Logical := by
  cases SourceInventory with
  | none => exact Or.inl rfl
  | some inv =>
    have hT := h inv rfl
    by_cases hfound : I.FindSlotIndexByInstanceId inv ItemInstanceId = INDEX_NONE
    · left
      unfold TryEquipFromInventory
      simp [hfound]
    · cases htv : T.IsValid with
      | false =>
        rw [← hT] at htv
        obtain ⟨hst, hft⟩ := ResolvedSlotTag_invalid _ _ _ _ htv
        left
        unfold TryEquipFromInventory
        simp [hfound, hst, hft]
      | true =>
        rw [TryEquipFromInventory_resolved I w m ItemInstanceId inv SlotTag T _ rfl hT htv]
        by_cases hV : ValidateEquip w m
            (I.GetItemInSlot inv (I.FindSlotIndexByInstanceId inv ItemInstanceId)) T
              = EEquipmentResult.Success
        · have hIv := (ValidateEquip_Success_item w m _ T hV).1
          cases hA : w.HasAuthority with
          | false =>
            left
            unfold TryEquipFromInventory
            simp [hfound, htv, hV, hA]
            rfl
          | true =>
            by_cases ho : ∃ s, FindSlot m T = some s ∧ s.bIsOccupied = true
            · obtain ⟨s, hs, ho⟩ := ho
              rw [TryEquipFromInventory_occupied I w m ItemInstanceId inv T _ s hA hfound rfl
                htv hV hs ho]
              split
              · exact Or.inl rfl
              · split
                · exact Or.inl (rollback_Logical w m T s hs ho)
                · split
                  · exact LogicalChange_set T m _ _ hIv
                      (Internal_Equip_after_Unequip_Logical w m _ T)
                  · exact Or.inr (Or.inl (Internal_Unequip_occupied w m T s hs ho).2)
            · have hempty : ∀ s, FindSlot m T = some s → s.bIsOccupied = false := by
                intro s hs
                cases hb : s.bIsOccupied with
                | false => rfl
                | true => exact absurd ⟨s, hs, hb⟩ ho
              rw [TryEquipFromInventory_empty I w m ItemInstanceId inv T _ hA hfound rfl htv
                hV hempty]
              split
              · exact LogicalChange_set T m _ _ hIv (Internal_Equip_Logical w m _ T)
              · exact Or.inl rfl
        · left
          unfold TryEquipFromInventory
          simp [hfound, htv, hV]

theorem TryUnequipToInventory_LogicalChange {Inv : Type} (I : UInventoryComponent Inv)
    (w : World) (m : Manager) (T : FGameplayTag) (TargetInventory : Option Inv) :
    LogicalChange T m.Logical
      (TryUnequipToInventory I w m T TargetInventory).2.1.Logical := by
  unfold TryUnequipToInventory
  cases TargetInventory with
  | none => exact Or.inl rfl
  | some inv =>
    cases hs : FindSlot m T with
    | none => exact Or.inl rfl
    | some s =>
      cases ho : s.bIsOccupied with
      | false =>
        simp only [ho, Bool.not_false, if_true]
        exact Or.inl rfl
      | true =>
        simp only [ho, Bool.not_true, Bool.false_eq_true, if_false]
        split
        · exact Or.inl rfl
        · split
          · exact Or.inl rfl
          · split
            · left
              rw [emit_Logical]
              exact rollback_Logical_returned w m T s hs ho
            · exact Or.inr (Or.inl (Internal_Unequip_occupied w m T s hs ho).2)

/-- The slot tag the handler of a forwarded inventory equip works with. -/
theorem handler_tag_eq (w : World) (m : Manager) (Item : FItemInstance)
    (SlotTag : FGameplayTag) :
    (if (!SlotTag.IsValid) = true then FindTargetSlot w m Item else SlotTag)
      = ResolvedSlotTag w m Item SlotTag := by
  unfold ResolvedSlotTag
  cases SlotTag.IsValid <;> simp

theorem ServerRPC_RequestEquipFromInventory_LogicalChange {Inv : Type}
    (I : UInventoryComponent Inv) (w : World) (m : Manager) (ItemInstanceId : Nat)
    (SourceInventory : Option Inv) (SlotTag T : FGameplayTag)
    (h : ∀ inv, SourceInventory = some inv →
      ResolvedSlotTag w m
        (I.GetItemInSlot inv (I.FindSlotIndexByInstanceId inv ItemInstanceId)) SlotTag = T) :
    LogicalChange T m.Logical
      (ServerRPC_RequestEquipFromInventory I w m ItemInstanceId SourceInventory
        SlotTag).1.Logical := by
  cases SourceInventory with
  | none => exact Or.inl rfl
  | some inv =>
    have hT := h inv rfl
    unfold ServerRPC_RequestEquipFromInventory
    by_cases hfound : I.FindSlotIndexByInstanceId inv ItemInstanceId = INDEX_NONE
    · simp only [hfound, if_true]
      exact Or.inl rfl
    · simp only [hfound, if_false, handler_tag_eq, hT]
      by_cases hV : ValidateEquip w m
          (I.GetItemInSlot inv (I.FindSlotIndexByInstanceId inv ItemInstanceId)) T
            = EEquipmentResult.Success
      · have hIv := (ValidateEquip_Success_item w m _ T hV).1
        simp only [hV, ne_eq, not_true_eq_false, if_false]
        repeat' split
        all_goals first
          | exact Or.inl rfl
          | exact LogicalChange_set T m _ _ hIv (Internal_Equip_after_Unequip_Logical w m _ T)
          | exact LogicalChange_set T m _ _ hIv (Internal_Equip_Logical w m _ T)
      · simp only [hV, ne_eq, not_false_eq_true, if_true]
        exact Or.inl rfl

theorem ServerRPC_RequestUnequipToInventory_LogicalChange {Inv : Type}
    (I : UInventoryComponent Inv) (w : World) (m : Manager) (T : FGameplayTag)
    (TargetInventory : Option Inv) :
    LogicalChange T m.Logical
      (ServerRPC_RequestUnequipToInventory I w m T TargetInventory).1.Logical := by
  unfold ServerRPC_RequestUnequipToInventory
  dsimp only
  repeat' split
  all_goals first
    | exact Or.inl rfl
    | exact Internal_Unequip_LogicalChange w m T

/-- Every operation addressed to the tag `T` leaves the logical table unchanged,
clears the first slot of tag `T`, or writes a valid item into it. -/
theorem StepAt_LogicalChange (T : FGameplayTag) (m m1 : Manager) (h : StepAt T m m1) :
    LogicalChange T m.Logical m1.Logical := by
  cases h with
  | TryEquip w Item h => rw [← h]; exact TryEquip_LogicalChange w m Item
  | TryEquipToSlot w Item => exact TryEquipToSlot_LogicalChange w m Item T
  | TryUnequip w OutItem => exact TryUnequip_LogicalChange w m T OutItem
  | TryEquipFromInventory Inv I w id src SlotTag h =>
    exact TryEquipFromInventory_LogicalChange I w m id src SlotTag T h
  | TryUnequipToInventory Inv I w tgt =>
    exact TryUnequipToInventory_LogicalChange I w m T tgt
  | ServerRPC_RequestEquip w Item => exact ServerRPC_RequestEquip_LogicalChange w m Item T
  | ServerRPC_RequestUnequip w => exact ServerRPC_RequestUnequip_LogicalChange w m T
  | ServerRPC_RequestEquipFromInventory Inv I w id src SlotTag h =>
    exact ServerRPC_RequestEquipFromInventory_LogicalChange I w m id src SlotTag T h
  | ServerRPC_RequestUnequipToInventory Inv I w tgt =>
    exact ServerRPC_RequestUnequipToInventory_LogicalChange I w m T tgt


/-! ## Invariants of the slot table: claims C24 to C26 -/

/-- A slot of the table after a write is a slot of the table before it, or the
written image of one. -/
theorem mem_modifySlot (T : FGameplayTag) (f : FEquipmentSlot → FEquipmentSlot)
    (L : List FEquipmentSlot) :
    ∀ s, s ∈ modifySlot T f L → s ∈ L ∨ ∃ s0 ∈ L, s = f s0 := by
  induction L with
  | nil => intro s h; simp [modifySlot] at h
  | cons a L ih =>
    intro s h
    by_cases ha : (a.SlotTag == T) = true
    · rw [modifySlot, if_pos ha] at h
      rcases List.mem_cons.mp h with e | h'
      · exact Or.inr ⟨a, List.mem_cons_self _ _, e⟩
      · exact Or.inl (List.mem_cons_of_mem _ h')
    · rw [modifySlot, if_neg ha] at h
      rcases List.mem_cons.mp h with e | h'
      · exact Or.inl (e ▸ List.mem_cons_self _ _)
      · rcases ih s h' with h2 | ⟨s0, hs0, e⟩
        · exact Or.inl (List.mem_cons_of_mem _ h2)
        · exact Or.inr ⟨s0, List.mem_cons_of_mem _ hs0, e⟩

theorem SlotInvariant_clearEquipped (s : FEquipmentSlot) : SlotInvariant (clearEquipped s) := by
  unfold SlotInvariant clearEquipped
  simp [FItemInstance.IsValid, FItemInstance.Default]

theorem SlotInvariant_setEquipped (Item : FItemInstance) (hv : Item.IsValid = true)
    (s : FEquipmentSlot) : SlotInvariant (setEquipped Item s) := by
  unfold SlotInvariant setEquipped
  simp [hv]

/-- The slot invariant survives every change an operation makes to the logical
table. -/
theorem LogicalChange_SlotInvariant (T : FGameplayTag) (L L1 : List FEquipmentSlot)
    (h : LogicalChange T L L1) (hL : ∀ s ∈ L, SlotInvariant s) :
    ∀ s ∈ L1, SlotInvariant s := by
  rcases h with h | h | ⟨Item, hv, h⟩
  · rw [h]; exact hL
  · intro s hs
    rw [h] at hs
    rcases mem_modifySlot _ _ _ _ hs with h' | ⟨s0, _, e⟩
    · exact hL s h'
    · rw [e]; exact SlotInvariant_clearEquipped s0
  · intro s hs
    rw [h] at hs
    rcases mem_modifySlot _ _ _ _ hs with h' | ⟨s0, _, e⟩
    · exact hL s h'
    · rw [e]; exact SlotInvariant_setEquipped Item hv s0

/-- The slot invariant speaks about the logical content of a slot only. -/
theorem SlotInvariant_Logical_iff (m : Manager) :
    (∀ s ∈ m.Logical, SlotInvariant s) ↔ ∀ s ∈ m.EquipmentSlots, SlotInvariant s := by
  unfold Manager.Logical
  constructor
  · intro h s hs
    exact h s.Logical (List.mem_map_of_mem _ hs)
  · intro h s hs
    obtain ⟨s0, hs0, e⟩ := List.mem_map.mp hs
    rw [← e]
    exact h s0 hs0

theorem BeginPlay_SlotInvariant (AvailableSlots : List FEquipmentSlotDefinition) :
    ∀ s ∈ (BeginPlay AvailableSlots).EquipmentSlots, SlotInvariant s := by
  intro s hs
  unfold BeginPlay at hs
  obtain ⟨d, _, e⟩ := List.mem_map.mp hs
  rw [← e]
  unfold SlotInvariant
  simp [FItemInstance.IsValid, FItemInstance.Default]

/-- Every state reached by calls whose reference arguments are objects of the
caller's own satisfies the slot invariant. -/
theorem Reachable_SlotInvariant (AvailableSlots : List FEquipmentSlotDefinition)
    (m : Manager) (h : Reachable AvailableSlots m) :
    ∀ s ∈ m.EquipmentSlots, SlotInvariant s := by
  induction h with
  | BeginPlay => exact BeginPlay_SlotInvariant AvailableSlots
  | step T m m1 _ hs ih =>
    rw [← SlotInvariant_Logical_iff] at ih ⊢
    exact LogicalChange_SlotInvariant T _ _ (StepAt_LogicalChange T m m1 hs) ih

/-- C24 fails in the code when a reference argument of a direct operation is
bound to the item of a slot. The state `swordEquippedManager` is reached from
the freshly activated example manager by one direct equip of the sword on the
authoritative node. From it,
* `TryEquipToSlot` with `EquipmentSlots[0].EquippedItem` as its item and the tag
  of the main hand leaves the main hand occupied with the default item, which is
  not valid: the auto-unequip cleared the slot before `Internal_Equip` read the
  argument again;
* `TryUnequip` of the main hand with `EquipmentSlots[0].EquippedItem` as its
  output leaves the main hand unoccupied and holding the sword, a valid item:
  the returned item is assigned through the output after the slot was cleared. -/
theorem C24_occupied_iff_valid_broken :
    Reachable [{ SlotTag := tagMainHand }, { SlotTag := tagOffHand }, { SlotTag := tagHead }]
        swordEquippedManager
      ∧ (TryEquipToSlot serverWorld swordEquippedManager (ItemRef.SlotItem 0)
            tagMainHand).2.EquipmentSlots
          = [{ SlotTag := tagMainHand, EquippedItem := FItemInstance.Default,
               bIsOccupied := true },
             { SlotTag := tagOffHand }, { SlotTag := tagHead }]
      ∧ (∃ s ∈ (TryEquipToSlot serverWorld swordEquippedManager (ItemRef.SlotItem 0)
            tagMainHand).2.EquipmentSlots,
          s.bIsOccupied = true ∧ s.EquippedItem.IsValid = false)
      ∧ (TryUnequip serverWorld swordEquippedManager tagMainHand
            (ItemRef.SlotItem 0)).2.2.EquipmentSlots
          = [{ SlotTag := tagMainHand, EquippedItem := itemSword, bIsOccupied := false },
             { SlotTag := tagOffHand }, { SlotTag := tagHead }]
      ∧ (∃ s ∈ (TryUnequip serverWorld swordEquippedManager tagMainHand
            (ItemRef.SlotItem 0)).2.2.EquipmentSlots,
          s.bIsOccupied = false ∧ s.EquippedItem.IsValid = true) :=
  ⟨Reachable.step tagMainHand _ _ Reachable.BeginPlay
      (StepAt.TryEquipToSlot serverWorld itemSword),
    by decide, by decide, by decide, by decide⟩

theorem SlotKept_refl (T : FGameplayTag) (s : FEquipmentSlot) : SlotKept T s s :=
  ⟨rfl, rfl, rfl, fun _ => ⟨rfl, rfl⟩⟩

theorem Forall₂_SlotKept_refl (T : FGameplayTag) (L : List FEquipmentSlot) :
    List.Forall₂ (SlotKept T) L L :=
  List.forall₂_same.mpr (fun s _ => SlotKept_refl T s)

/-- A write to the first slot of tag `T` that keeps tag, filter and socket keeps
every slot in the sense of `SlotKept T`. -/
theorem Forall₂_SlotKept_modifySlot (T : FGameplayTag) (f : FEquipmentSlot → FEquipmentSlot)
    (hf : ∀ s, (f s).SlotTag = s.SlotTag ∧ (f s).AcceptedItemTags = s.AcceptedItemTags
      ∧ (f s).AttachSocket = s.AttachSocket)
    (L : List FEquipmentSlot) : List.Forall₂ (SlotKept T) L (modifySlot T f L) := by
  induction L with
  | nil => exact List.Forall₂.nil
  | cons a L ih =>
    by_cases ha : (a.SlotTag == T) = true
    · rw [modifySlot, if_pos ha]
      refine List.Forall₂.cons ⟨(hf a).1, (hf a).2.1, (hf a).2.2, ?_⟩
        (Forall₂_SlotKept_refl T L)
      intro hne
      exact absurd (by simpa using ha) hne
    · rw [modifySlot, if_neg ha]
      exact List.Forall₂.cons (SlotKept_refl T a) ih

theorem LogicalChange_SlotKept (T : FGameplayTag) (L L1 : List FEquipmentSlot)
    (h : LogicalChange T L L1) : List.Forall₂ (SlotKept T) L L1 := by
  rcases h with h | h | ⟨Item, _, h⟩
  · rw [h]; exact Forall₂_SlotKept_refl T L
  · rw [h]; exact Forall₂_SlotKept_modifySlot T clearEquipped (fun _ => ⟨rfl, rfl, rfl⟩) L
  · rw [h]
    exact Forall₂_SlotKept_modifySlot T (setEquipped Item) (fun _ => ⟨rfl, rfl, rfl⟩) L

/-- Every operation addressed to the tag `T` keeps every slot in the sense of
`SlotKept T`. -/
theorem StepAt_SlotKept (T : FGameplayTag) (m m1 : Manager) (h : StepAt T m m1) :
    List.Forall₂ (SlotKept T) m.EquipmentSlots m1.EquipmentSlots := by
  have hL := LogicalChange_SlotKept T _ _ (StepAt_LogicalChange T m m1 h)
  unfold Manager.Logical at hL
  rw [List.forall₂_map_left_iff, List.forall₂_map_right_iff] at hL
  exact hL.imp (fun _ _ h => h)

/-- Kept slots have the same sequence of tags. -/
theorem SlotKept_tags (T : FGameplayTag) (L L1 : List FEquipmentSlot)
    (h : List.Forall₂ (SlotKept T) L L1) :
    L1.map (fun s => s.SlotTag) = L.map (fun s => s.SlotTag) := by
  induction h with
  | nil => rfl
  | cons hab _ ih => simp [hab.1, ih]

/-- In every reachable state the sequence of slot tags is the sequence of the
tags of the slot definitions. -/
theorem Reachable_tags (AvailableSlots : List FEquipmentSlotDefinition) (m : Manager)
    (h : Reachable AvailableSlots m) :
    m.EquipmentSlots.map (fun s => s.SlotTag)
      = AvailableSlots.map (fun d => d.SlotTag) := by
  induction h with
  | BeginPlay => simp [BeginPlay]
  | step T m m1 _ hs ih =>
    rw [SlotKept_tags T _ _ (StepAt_SlotKept T m m1 hs), ih]

/-- C26, the claim as stated fails: activation from two slot definitions with
the same tag gives two runtime slots with the same tag. -/
theorem C26_unique_tags_counterexample :
    Reachable [{ SlotTag := tagMainHand }, { SlotTag := tagMainHand }] duplicateTagManager
      ∧ duplicateTagManager.EquipmentSlots.map (fun s => s.SlotTag)
          = [tagMainHand, tagMainHand]
      ∧ ¬ (duplicateTagManager.EquipmentSlots.map (fun s => s.SlotTag)).Nodup :=
  ⟨Reachable.BeginPlay, by decide, by decide⟩

/-- C26, amended. In every reachable state, whatever the slot definitions are,
the sequence of the runtime slot tags is the sequence of the tags of the slot
definitions: it is so after activation and no operation changes it. Hence the
slot tags are unique within the manager instance (no two runtime slots have the
same slot tag, after activation and after every subsequent operation) exactly
when the authored slot definitions have pairwise distinct slot tags. -/
theorem C26_unique_tags (AvailableSlots : List FEquipmentSlotDefinition) (m : Manager)
    (h : Reachable AvailableSlots m) :
    m.EquipmentSlots.map (fun s => s.SlotTag) = AvailableSlots.map (fun d => d.SlotTag)
      ∧ ((m.EquipmentSlots.map (fun s => s.SlotTag)).Nodup
          ↔ (AvailableSlots.map (fun d => d.SlotTag)).Nodup) := by
  have ht := Reachable_tags AvailableSlots m h
  exact ⟨ht, by rw [ht]⟩

/-- C26 (amended) at a concrete input: the state after the sword was equipped on
the freshly activated manager with the slots `[MainHand, OffHand, Head]`. -/
theorem C26_unique_tags_witness :
    (TryEquip serverWorld exampleManager (ItemRef.Local itemSword)).2.EquipmentSlots.map
          (fun s => s.SlotTag)
        = [{ SlotTag := tagMainHand }, { SlotTag := tagOffHand },
            ({ SlotTag := tagHead } : FEquipmentSlotDefinition)].map (fun d => d.SlotTag)
      ∧ (((TryEquip serverWorld exampleManager (ItemRef.Local itemSword)).2.EquipmentSlots.map
            (fun s => s.SlotTag)).Nodup
          ↔ ([{ SlotTag := tagMainHand }, { SlotTag := tagOffHand },
              ({ SlotTag := tagHead } : FEquipmentSlotDefinition)].map
                (fun d => d.SlotTag)).Nodup) :=
  C26_unique_tags
    [{ SlotTag := tagMainHand }, { SlotTag := tagOffHand }, { SlotTag := tagHead }] _
    (Reachable.step tagMainHand _ _ Reachable.BeginPlay
      (StepAt.TryEquip serverWorld itemSword (by decide)))


/-! ## Activation and the queries: claims C27 to C29 -/

/-- C27. For every list of `N` slot definitions, `BeginPlay` produces a runtime
table of exactly `N` slots, one per definition in the same order, each
unoccupied and copying the definition's slot tag, attach socket and accepted
tags; on that table `GetOccupiedSlotTags` is empty and `GetEmptySlotTags` has
`N` entries (the tags of the definitions, in order). -/
theorem C27_BeginPlay_table (AvailableSlots : List FEquipmentSlotDefinition) :
    (BeginPlay AvailableSlots).EquipmentSlots.length = AvailableSlots.length
      ∧ List.Forall₂ (fun d s =>
          s.SlotTag = d.SlotTag ∧ s.AttachSocket = d.AttachSocket
            ∧ s.AcceptedItemTags = d.AcceptedItemTags ∧ s.bIsOccupied = false
            ∧ s.EquippedItem = FItemInstance.Default)
          AvailableSlots (BeginPlay AvailableSlots).EquipmentSlots
      ∧ GetOccupiedSlotTags (BeginPlay AvailableSlots) = []
      ∧ GetEmptySlotTags (BeginPlay AvailableSlots)
          = AvailableSlots.map (fun d => d.SlotTag)
      ∧ (GetEmptySlotTags (BeginPlay AvailableSlots)).length = AvailableSlots.length := by
  have hE : GetEmptySlotTags (BeginPlay AvailableSlots)
      = AvailableSlots.map (fun d => d.SlotTag) := by
    unfold GetEmptySlotTags BeginPlay
    induction AvailableSlots with
    | nil => rfl
    | cons d l ih => simpa using ih
  refine ⟨by simp [BeginPlay], ?_, ?_, hE, by rw [hE, List.length_map]⟩
  · unfold BeginPlay
    rw [List.forall₂_map_right_iff]
    exact List.forall₂_same.mpr (fun d _ => ⟨rfl, rfl, rfl, rfl, rfl⟩)
  · unfold GetOccupiedSlotTags BeginPlay
    induction AvailableSlots with
    | nil => rfl
    | cons d l ih => simp

theorem filter_length_add (p : FEquipmentSlot → Bool) (l : List FEquipmentSlot) :
    (l.filter p).length + (l.filter (fun s => !p s)).length = l.length := by
  induction l with
  | nil => rfl
  | cons a l ih =>
    cases h : p a <;> simp [List.filter_cons, h] <;> omega

/-- C28. For every slot table, `GetOccupiedSlotTags` is exactly the tags of the
occupied slots and `GetEmptySlotTags` exactly the tags of the unoccupied slots,
each listed in slot declaration order (each is the tag sequence of the table
with the other kind of slots left out); their lengths sum to the number of
slots; when all slots are filled they are the whole tag sequence and the empty
list, when none is filled the empty list and the whole tag sequence, and on an
empty table both are empty. -/
theorem C28_occupied_and_empty_tags (m : Manager) :
    GetOccupiedSlotTags m
        = (m.EquipmentSlots.filter (fun s => s.bIsOccupied)).map (fun s => s.SlotTag)
      ∧ GetEmptySlotTags m
        = (m.EquipmentSlots.filter (fun s => !s.bIsOccupied)).map (fun s => s.SlotTag)
      ∧ (GetOccupiedSlotTags m).Sublist (m.EquipmentSlots.map (fun s => s.SlotTag))
      ∧ (GetEmptySlotTags m).Sublist (m.EquipmentSlots.map (fun s => s.SlotTag))
      ∧ (∀ t, t ∈ GetOccupiedSlotTags m
          ↔ ∃ s ∈ m.EquipmentSlots, s.SlotTag = t ∧ s.bIsOccupied = true)
      ∧ (∀ t, t ∈ GetEmptySlotTags m
          ↔ ∃ s ∈ m.EquipmentSlots, s.SlotTag = t ∧ s.bIsOccupied = false)
      ∧ (GetOccupiedSlotTags m).length + (GetEmptySlotTags m).length
          = m.EquipmentSlots.length
      ∧ ((∀ s ∈ m.EquipmentSlots, s.bIsOccupied = true) →
          GetOccupiedSlotTags m = m.EquipmentSlots.map (fun s => s.SlotTag)
            ∧ GetEmptySlotTags m = [])
      ∧ ((∀ s ∈ m.EquipmentSlots, s.bIsOccupied = false) →
          GetOccupiedSlotTags m = []
            ∧ GetEmptySlotTags m = m.EquipmentSlots.map (fun s => s.SlotTag))
      ∧ (m.EquipmentSlots = [] → GetOccupiedSlotTags m = [] ∧ GetEmptySlotTags m = []) := by
  refine ⟨rfl, rfl, ?_, ?_, ?_, ?_, ?_, ?_, ?_, ?_⟩
  · exact (List.filter_sublist _).map _
  · exact (List.filter_sublist _).map _
  · intro t
    unfold GetOccupiedSlotTags
    simp only [List.mem_map, List.mem_filter]
    constructor
    · rintro ⟨s, ⟨hs, ho⟩, ht⟩
      exact ⟨s, hs, ht, ho⟩
    · rintro ⟨s, hs, ht, ho⟩
      exact ⟨s, ⟨hs, ho⟩, ht⟩
  · intro t
    unfold GetEmptySlotTags
    simp only [List.mem_map, List.mem_filter]
    constructor
    · rintro ⟨s, ⟨hs, ho⟩, ht⟩
      exact ⟨s, hs, ht, by simpa using ho⟩
    · rintro ⟨s, hs, ht, ho⟩
      exact ⟨s, ⟨hs, by simpa using ho⟩, ht⟩
  · unfold GetOccupiedSlotTags GetEmptySlotTags
    rw [List.length_map, List.length_map]
    exact filter_length_add _ _
  · intro h
    have h1 : m.EquipmentSlots.filter (fun s => s.bIsOccupied) = m.EquipmentSlots :=
      List.filter_eq_self.mpr (fun s hs => h s hs)
    have h2 : m.EquipmentSlots.filter (fun s => !s.bIsOccupied) = [] :=
      List.filter_eq_nil_iff.mpr (fun s hs => by simp [h s hs])
    unfold GetOccupiedSlotTags GetEmptySlotTags
    rw [h1, h2]
    exact ⟨rfl, rfl⟩
  · intro h
    have h1 : m.EquipmentSlots.filter (fun s => s.bIsOccupied) = [] :=
      List.filter_eq_nil_iff.mpr (fun s hs => by simp [h s hs])
    have h2 : m.EquipmentSlots.filter (fun s => !s.bIsOccupied) = m.EquipmentSlots :=
      List.filter_eq_self.mpr (fun s hs => by simp [h s hs])
    unfold GetOccupiedSlotTags GetEmptySlotTags
    rw [h1, h2]
    exact ⟨rfl, rfl⟩
  · intro h
    unfold GetOccupiedSlotTags GetEmptySlotTags
    rw [h]
    exact ⟨rfl, rfl⟩


/-- `FindSlot` returns a slot exactly when it is the first slot of the table with
the tag. -/
theorem FindSlot_eq_some_iff (m : Manager) (t : FGameplayTag) (s : FEquipmentSlot) :
    FindSlot m t = some s ↔
      s.SlotTag = t ∧ ∃ pre post, m.EquipmentSlots = pre ++ s :: post
        ∧ ∀ x ∈ pre, x.SlotTag ≠ t := by
  unfold FindSlot
  rw [List.find?_eq_some]
  simp

/-- `FindSlot` returns nothing exactly when no slot of the table has the tag. -/
theorem FindSlot_eq_none_iff (m : Manager) (t : FGameplayTag) :
    FindSlot m t = none ↔ ∀ x ∈ m.EquipmentSlots, x.SlotTag ≠ t := by
  unfold FindSlot
  rw [List.find?_eq_none]
  simp

/-- With pairwise distinct tags, a lookup by tag returns the only slot with the
tag. -/
theorem find_of_mem_of_Nodup (l : List FEquipmentSlot) (t : FGameplayTag)
    (s : FEquipmentSlot) (hd : (l.map (fun s => s.SlotTag)).Nodup)
    (hs : s ∈ l) (ht : s.SlotTag = t) :
    l.find? (fun Slot => Slot.SlotTag == t) = some s := by
  induction l with
  | nil => cases hs
  | cons a l ih =>
    rw [List.map_cons, List.nodup_cons] at hd
    rcases List.mem_cons.mp hs with e | hs'
    · subst e
      simp [List.find?_cons, ht]
    · have hne : a.SlotTag ≠ t := by
        intro e
        apply hd.1
        rw [e, ← ht]
        exact List.mem_map_of_mem _ hs'
      simp only [List.find?_cons, beq_eq_false_iff_ne.mpr hne]
      exact ih hd.2 hs'

/-- With pairwise distinct tags, the slot `FindSlot` returns is the only slot
with the tag. -/
theorem FindSlot_of_mem_of_Nodup (m : Manager) (t : FGameplayTag) (s : FEquipmentSlot)
    (hd : (m.EquipmentSlots.map (fun s => s.SlotTag)).Nodup)
    (hs : s ∈ m.EquipmentSlots) (ht : s.SlotTag = t) : FindSlot m t = some s :=
  find_of_mem_of_Nodup m.EquipmentSlots t s hd hs ht

/-- C29, the claim as stated fails: after the sword was equipped into the main
hand of a manager activated from two slot definitions with the tag
`Equipment.MainHand`, the table has a slot with that tag that is empty (the
second one), yet `IsSlotOccupied` is true and `GetEquippedItem` returns the
valid sword. -/
theorem C29_queries_counterexample :
    Reachable [{ SlotTag := tagMainHand }, { SlotTag := tagMainHand }]
        (TryEquipToSlot serverWorld duplicateTagManager (ItemRef.Local itemSword) tagMainHand).2
      ∧ (∃ s ∈ (TryEquipToSlot serverWorld duplicateTagManager (ItemRef.Local itemSword)
            tagMainHand).2.EquipmentSlots,
          s.SlotTag = tagMainHand ∧ s.bIsOccupied = false)
      ∧ IsSlotOccupied (TryEquipToSlot serverWorld duplicateTagManager (ItemRef.Local itemSword)
          tagMainHand).2 tagMainHand = true
      ∧ (GetEquippedItem (TryEquipToSlot serverWorld duplicateTagManager (ItemRef.Local itemSword)
          tagMainHand).2 tagMainHand).IsValid = true :=
  ⟨Reachable.step tagMainHand _ _ Reachable.BeginPlay
      (StepAt.TryEquipToSlot serverWorld itemSword),
    by decide, by decide, by decide⟩

/-- C29, amended. For every slot table and tag, `IsSlotOccupied(tag)` is true
exactly when the first slot with that tag in declaration order (the slot
`FindSlot` returns; the only slot with the tag when slot tags are pairwise
distinct) exists and is occupied, and then `GetEquippedItem(tag)` returns that
slot's stored item (same instance id and fields; valid when the slot satisfies
the occupied-iff-valid invariant). When no slot has the tag (as for any tag on
an empty table) or that first slot is empty, `IsSlotOccupied` is false and
`GetEquippedItem` returns the default, invalid item. -/
theorem C29_queries (m : Manager) (SlotTag : FGameplayTag) :
    (IsSlotOccupied m SlotTag = true
        ↔ ∃ s, FindSlot m SlotTag = some s ∧ s.bIsOccupied = true)
      ∧ (∀ s, FindSlot m SlotTag = some s ↔
          s.SlotTag = SlotTag ∧ ∃ pre post, m.EquipmentSlots = pre ++ s :: post
            ∧ ∀ x ∈ pre, x.SlotTag ≠ SlotTag)
      ∧ (∀ s, FindSlot m SlotTag = some s → s.bIsOccupied = true →
          GetEquippedItem m SlotTag = s.EquippedItem
            ∧ (GetEquippedItem m SlotTag).InstanceId = s.EquippedItem.InstanceId
            ∧ (SlotInvariant s → (GetEquippedItem m SlotTag).IsValid = true))
      ∧ (((∀ x ∈ m.EquipmentSlots, x.SlotTag ≠ SlotTag)
            ∨ ∃ s, FindSlot m SlotTag = some s ∧ s.bIsOccupied = false) →
          IsSlotOccupied m SlotTag = false
            ∧ GetEquippedItem m SlotTag = FItemInstance.Default
            ∧ (GetEquippedItem m SlotTag).IsValid = false)
      ∧ (m.EquipmentSlots = [] → IsSlotOccupied m SlotTag = false
          ∧ (GetEquippedItem m SlotTag).IsValid = false)
      ∧ ((m.EquipmentSlots.map (fun s => s.SlotTag)).Nodup →
          (IsSlotOccupied m SlotTag = true
            ↔ ∃ s ∈ m.EquipmentSlots, s.SlotTag = SlotTag ∧ s.bIsOccupied = true)) := by
  refine ⟨IsSlotOccupied_iff m SlotTag, FindSlot_eq_some_iff m SlotTag, ?_, ?_, ?_, ?_⟩
  · intro s hs ho
    have hg := (queries_of_occupied m SlotTag s hs ho).2
    refine ⟨hg, by rw [hg], ?_⟩
    intro hinv
    rw [hg]
    exact hinv.1.mp ho
  · intro h
    have hnone : ∀ s, FindSlot m SlotTag = some s → s.bIsOccupied = false := by
      intro s hs
      rcases h with h | ⟨s', hs', ho'⟩
      · rw [(FindSlot_eq_none_iff m SlotTag).mpr h] at hs
        cases hs
      · rw [hs'] at hs
        cases hs
        exact ho'
    unfold IsSlotOccupied GetEquippedItem
    cases hs : FindSlot m SlotTag with
    | none => exact ⟨rfl, rfl, rfl⟩
    | some s => simp [hnone s hs, FItemInstance.IsValid, FItemInstance.Default]
  · intro h
    unfold IsSlotOccupied GetEquippedItem FindSlot
    rw [h]
    exact ⟨rfl, rfl⟩
  · intro hd
    rw [IsSlotOccupied_iff]
    constructor
    · rintro ⟨s, hs, ho⟩
      obtain ⟨ht, pre, post, hsplit, _⟩ := (FindSlot_eq_some_iff m SlotTag s).mp hs
      exact ⟨s, by rw [hsplit]; simp, ht, ho⟩
    · rintro ⟨s, hs, ht, ho⟩
      exact ⟨s, FindSlot_of_mem_of_Nodup m SlotTag s hd hs ht, ho⟩


/-! ## The example scenario: claim C30 -/

/-- `GetOccupiedSlotTags` depends on the logical table only. -/
theorem GetOccupiedSlotTags_Logical (m : Manager) :
    GetOccupiedSlotTags m
      = (m.Logical.filter (fun s => s.bIsOccupied)).map (fun s => s.SlotTag) := by
  unfold GetOccupiedSlotTags Manager.Logical
  induction m.EquipmentSlots with
  | nil => rfl
  | cons a l ih =>
    cases h : a.bIsOccupied <;>
      simp [List.filter_cons, h, Logical_bIsOccupied, Logical_SlotTag, ih]

/-- `GetEmptySlotTags` depends on the logical table only. -/
theorem GetEmptySlotTags_Logical (m : Manager) :
    GetEmptySlotTags m
      = (m.Logical.filter (fun s => !s.bIsOccupied)).map (fun s => s.SlotTag) := by
  unfold GetEmptySlotTags Manager.Logical
  induction m.EquipmentSlots with
  | nil => rfl
  | cons a l ih =>
    cases h : a.bIsOccupied <;>
      simp [List.filter_cons, h, Logical_bIsOccupied, Logical_SlotTag, ih]

/-- A slot of the logical table comes from a slot of the table with the same
tag and occupancy. -/
theorem exists_slot_of_Logical (m : Manager) (t : FGameplayTag) (o : Bool)
    (h : ∃ x ∈ m.Logical, x.SlotTag = t ∧ x.bIsOccupied = o) :
    ∃ s ∈ m.EquipmentSlots, s.SlotTag = t ∧ s.bIsOccupied = o := by
  obtain ⟨x, hx, ht, ho⟩ := h
  unfold Manager.Logical at hx
  obtain ⟨s, hs, e⟩ := List.mem_map.mp hx
  subst e
  exact ⟨s, hs, ht, ho⟩

/-- Validation passes for a valid item with an equipment fragment and a slot
without accepted-tag filter. -/
theorem ValidateEquip_of_no_filter (w : World) (m : Manager) (Item : FItemInstance)
    (t : FGameplayTag) (frag : UItemFragment_Equipment) (x : FEquipmentSlot)
    (hv : Item.IsValid = true) (hf : GetEquipmentFragment w Item = some frag)
    (hx : m.Logical.find? (fun s => s.SlotTag == t) = some x)
    (hacc : x.AcceptedItemTags = []) :
    ValidateEquip w m Item t = EEquipmentResult.Success := by
  obtain ⟨s, hs, e⟩ := FindSlot_of_Logical m t x hx
  have hsacc : s.AcceptedItemTags = [] := by
    rw [← e] at hacc
    exact hacc
  unfold ValidateEquip
  simp [hv, hf, hs, hsacc, FGameplayTagContainer.Num]

/-- The logical table of the freshly activated example manager. -/
theorem exampleManager_Logical :
    exampleManager.Logical
      = [{ SlotTag := tagMainHand }, { SlotTag := tagOffHand }, { SlotTag := tagHead }] := by
  decide

/-- C30. The example scenario on the authoritative node, for any valid items
Sword (preferred tag `Equipment.MainHand`) and Helmet (preferred tag
`Equipment.Head`): on a manager with the slots `[MainHand, OffHand, Head]`, all
empty and without accepted-tag filter, after `TryEquip` of Sword
`GetOccupiedSlotTags` is `[MainHand]`; after `TryEquip` of Helmet it is
`[MainHand, Head]`, in declaration order; then `TryUnequip(MainHand)` returns
`Success` with the Sword item, and `GetEmptySlotTags` contains `MainHand`. Sword
and Helmet are passed in objects of the caller's own (no slot of the table holds
them before); the output of `TryUnequip` may be bound to any object. -/
theorem C30_example_scenario (w : World) (Sword Helmet : FItemInstance)
    (OutItem : ItemRef) (swordFrag helmetFrag : UItemFragment_Equipment)
    (hA : w.HasAuthority = true)
    (hSv : Sword.IsValid = true) (hSf : GetEquipmentFragment w Sword = some swordFrag)
    (hSt : swordFrag.EquipmentSlotTag = tagMainHand)
    (hHv : Helmet.IsValid = true) (hHf : GetEquipmentFragment w Helmet = some helmetFrag)
    (hHt : helmetFrag.EquipmentSlotTag = tagHead) :
    GetOccupiedSlotTags (TryEquip w exampleManager (ItemRef.Local Sword)).2 = [tagMainHand]
      ∧ GetOccupiedSlotTags
          (TryEquip w (TryEquip w exampleManager (ItemRef.Local Sword)).2
            (ItemRef.Local Helmet)).2
          = [tagMainHand, tagHead]
      ∧ (TryUnequip w
          (TryEquip w (TryEquip w exampleManager (ItemRef.Local Sword)).2
            (ItemRef.Local Helmet)).2
          tagMainHand OutItem).1 = EEquipmentResult.Success
      ∧ (TryUnequip w
          (TryEquip w (TryEquip w exampleManager (ItemRef.Local Sword)).2
            (ItemRef.Local Helmet)).2
          tagMainHand OutItem).2.1 = Sword
      ∧ tagMainHand ∈ GetEmptySlotTags
          (TryUnequip w
            (TryEquip w (TryEquip w exampleManager (ItemRef.Local Sword)).2
              (ItemRef.Local Helmet)).2
            tagMainHand OutItem).2.2 := by
  -- first equip
  have hT1 : FindTargetSlot w exampleManager Sword = tagMainHand := by
    rw [← hSt]
    apply FindTargetSlot_exact w exampleManager Sword swordFrag hSf (by rw [hSt]; rfl)
    rw [hSt]
    decide
  have hV1 : ValidateEquip w exampleManager Sword tagMainHand = EEquipmentResult.Success :=
    ValidateEquip_of_no_filter w exampleManager Sword tagMainHand swordFrag
      { SlotTag := tagMainHand } hSv hSf (by decide) rfl
  have hE1 : TryEquip w exampleManager (ItemRef.Local Sword)
      = TryEquipToSlot w exampleManager (ItemRef.Local Sword) tagMainHand := by
    rw [TryEquip_Local]
    simp only [hT1]
    rfl
  have hL1 : (TryEquip w exampleManager (ItemRef.Local Sword)).2.Logical
      = [{ SlotTag := tagMainHand, EquippedItem := Sword, bIsOccupied := true },
          { SlotTag := tagOffHand }, { SlotTag := tagHead }] := by
    rw [hE1, (TryEquipToSlot_authoritative w exampleManager Sword tagMainHand hA hV1).2,
      exampleManager_Logical]
    rfl
  generalize (TryEquip w exampleManager (ItemRef.Local Sword)).2 = m1 at hL1 ⊢
  -- second equip
  have hT2 : FindTargetSlot w m1 Helmet = tagHead := by
    rw [← hHt]
    apply FindTargetSlot_exact w m1 Helmet helmetFrag hHf (by rw [hHt]; rfl)
    rw [hHt]
    apply exists_slot_of_Logical
    rw [hL1]
    exact ⟨{ SlotTag := tagHead }, by simp, rfl, rfl⟩
  have hV2 : ValidateEquip w m1 Helmet tagHead = EEquipmentResult.Success :=
    ValidateEquip_of_no_filter w m1 Helmet tagHead helmetFrag { SlotTag := tagHead } hHv hHf
      (by rw [hL1]; rfl) rfl
  have hE2 : TryEquip w m1 (ItemRef.Local Helmet)
      = TryEquipToSlot w m1 (ItemRef.Local Helmet) tagHead := by
    rw [TryEquip_Local]
    simp only [hT2]
    rfl
  have hL2 : (TryEquip w m1 (ItemRef.Local Helmet)).2.Logical
      = [{ SlotTag := tagMainHand, EquippedItem := Sword, bIsOccupied := true },
          { SlotTag := tagOffHand },
          { SlotTag := tagHead, EquippedItem := Helmet, bIsOccupied := true }] := by
    rw [hE2, (TryEquipToSlot_authoritative w m1 Helmet tagHead hA hV2).2, hL1]
    rfl
  generalize (TryEquip w m1 (ItemRef.Local Helmet)).2 = m2 at hL2 ⊢
  -- unequip
  obtain ⟨s, hs, hsl⟩ := FindSlot_of_Logical m2 tagMainHand
    { SlotTag := tagMainHand, EquippedItem := Sword, bIsOccupied := true }
    (by rw [hL2]; rfl)
  have ho : s.bIsOccupied = true := by rw [← Logical_bIsOccupied, hsl]
  have hi : s.EquippedItem = Sword := by rw [← Logical_EquippedItem, hsl]
  obtain ⟨hret, hL3⟩ := Internal_Unequip_occupied w m2 tagMainHand s hs ho
  rw [TryUnequip_server_any w m2 tagMainHand OutItem hA,
    if_pos ((IsSlotOccupied_iff m2 tagMainHand).mpr ⟨s, hs, ho⟩)]
  refine ⟨?_, ?_, rfl, by rw [hret, hi], ?_⟩
  · rw [GetOccupiedSlotTags_Logical, hL1]
    rfl
  · rw [GetOccupiedSlotTags_Logical, hL2]
    rfl
  · rw [GetEmptySlotTags_Assign, GetEmptySlotTags_Logical, hL3, hL2]
    show tagMainHand ∈ [tagMainHand, tagOffHand]
    exact List.mem_cons_self _ _

/-- C30 at a concrete input: the example sword and helmet on the authoritative
node with the example database. -/
theorem C30_example_scenario_witness :
    GetOccupiedSlotTags (TryEquip serverWorld exampleManager (ItemRef.Local itemSword)).2
        = [tagMainHand]
      ∧ GetOccupiedSlotTags (TryEquip serverWorld
          (TryEquip serverWorld exampleManager (ItemRef.Local itemSword)).2
          (ItemRef.Local itemHelmet)).2
          = [tagMainHand, tagHead]
      ∧ (TryUnequip serverWorld (TryEquip serverWorld
          (TryEquip serverWorld exampleManager (ItemRef.Local itemSword)).2
          (ItemRef.Local itemHelmet)).2 tagMainHand
          (ItemRef.Local itemRing)).1 = EEquipmentResult.Success
      ∧ (TryUnequip serverWorld (TryEquip serverWorld
          (TryEquip serverWorld exampleManager (ItemRef.Local itemSword)).2
          (ItemRef.Local itemHelmet)).2 tagMainHand
          (ItemRef.Local itemRing)).2.1 = itemSword
      ∧ tagMainHand ∈ GetEmptySlotTags
          (TryUnequip serverWorld (TryEquip serverWorld
            (TryEquip serverWorld exampleManager (ItemRef.Local itemSword)).2
            (ItemRef.Local itemHelmet)).2
            tagMainHand (ItemRef.Local itemRing)).2.2 :=
  C30_example_scenario serverWorld itemSword itemHelmet (ItemRef.Local itemRing) swordFragment
    helmetFragment (by decide) (by decide) (by decide) (by decide) (by decide) (by decide)
    (by decide)

/-! ## The visual and internal operations in closed form -/

/-- Two writes that agree on the slot they reach are the same write. -/
theorem modifySlot_congr (t : FGameplayTag) (f g : FEquipmentSlot → FEquipmentSlot)
    (l : List FEquipmentSlot)
    (h : ∀ s, l.find? (fun s => s.SlotTag == t) = some s → f s = g s) :
    modifySlot t f l = modifySlot t g l := by
  induction l with
  | nil => rfl
  | cons a l ih =>
    by_cases ha : (a.SlotTag == t) = true
    · have := h a (by simp [List.find?_cons, ha])
      simp [modifySlot, ha, this]
    · have ih' := ih (fun s hs => h s (by simpa [List.find?_cons, ha] using hs))
      simp [modifySlot, ha, ih']

theorem emit_nil (m : Manager) : m.emit [] = m := by
  cases m
  simp [Manager.emit]

theorem emit_emit (m : Manager) (es fs : List Event) :
    (m.emit es).emit fs = m.emit (es ++ fs) := by
  simp [Manager.emit, List.append_assoc]

theorem writeSlot_emit (m : Manager) (t : FGameplayTag) (f : FEquipmentSlot → FEquipmentSlot)
    (es : List Event) : (m.emit es).writeSlot t f = (m.writeSlot t f).emit es := rfl

theorem writeSlot_writeSlot (m : Manager) (t : FGameplayTag)
    (f g : FEquipmentSlot → FEquipmentSlot) (hf : ∀ s, (f s).SlotTag = s.SlotTag) :
    (m.writeSlot t f).writeSlot t g = m.writeSlot t (fun s => g (f s)) := by
  simp [Manager.writeSlot, modifySlot_modifySlot t f g hf]

theorem writeSlot_congr (m : Manager) (t : FGameplayTag)
    (f g : FEquipmentSlot → FEquipmentSlot)
    (h : ∀ s, FindSlot m t = some s → f s = g s) :
    m.writeSlot t f = m.writeSlot t g := by
  simp [Manager.writeSlot, modifySlot_congr t f g m.EquipmentSlots h]

theorem writeSlot_self (m : Manager) (t : FGameplayTag) (f : FEquipmentSlot → FEquipmentSlot)
    (h : ∀ s, FindSlot m t = some s → f s = s) : m.writeSlot t f = m := by
  cases m
  simp only [Manager.writeSlot]
  congr
  exact modifySlot_eq_self t f _ h

theorem ApplyGAS_eq (w : World) (m : Manager) (Item : FItemInstance) (t : FGameplayTag) :
    ApplyGAS w m Item t = m.emit (gasEquipEffects w Item t) := by
  unfold ApplyGAS gasEquipEffects
  cases w.HasAuthority <;> cases w.GASCallbacksBound <;> simp [emit_nil]

theorem RemoveGAS_eq (w : World) (m : Manager) (t : FGameplayTag) :
    RemoveGAS w m t = m.emit (gasUnequipEffects w t) := by
  unfold RemoveGAS gasUnequipEffects
  cases w.HasAuthority <;> cases w.GASCallbacksBound <;> simp [emit_nil]

/-- `RemoveVisuals` on the slot it finds: the visual state of the slot is cleared
and the effects of the removal are appended to the trace. -/
theorem RemoveVisuals_eq (w : World) (m : Manager) (t : FGameplayTag) (Slot : FEquipmentSlot)
    (h : FindSlot m t = some Slot) :
    RemoveVisuals w m t = (m.writeSlot t clearVisuals).emit (RemoveVisualsEffects w Slot) := by
  have hm : ∀ (m2 : Manager) (es : List Event),
      (if Slot.bIsOccupied then
        match GetEquipmentFragment w Slot.EquippedItem with
        | none => m2
        | some EquipFrag =>
          match EquipFrag.AnimLayerClass with
          | none => m2
          | some AnimLayerClass =>
            if w.OwnerMesh then m2.emit [Event.UnlinkAnimClassLayers AnimLayerClass]
            else m2
      else m2) = m2.emit (unlinkEffects w Slot) := by
    intro m2 es
    unfold unlinkEffects
    cases Slot.bIsOccupied
    · simp [emit_nil]
    · cases GetEquipmentFragment w Slot.EquippedItem with
      | none => simp [emit_nil]
      | some f =>
        cases hA : f.AnimLayerClass with
        | none => simp [hA, emit_nil]
        | some a => cases w.OwnerMesh <;> simp [hA, emit_nil]
  unfold RemoveVisuals
  simp only [h]
  rw [hm _ []]
  unfold RemoveVisualsEffects cancelEffects destroyEffects
  cases hh : Slot.MeshLoadHandle with
  | none =>
    cases hc : Slot.AttachedVisualComponent with
    | none =>
      simp only [List.nil_append]
      rw [writeSlot_self m t clearVisuals]
      intro s hs
      rw [h] at hs
      cases hs
      cases Slot
      simp only [clearVisuals] at *
      simp [hh, hc]
    | some c =>
      simp only [List.nil_append]
      rw [writeSlot_emit, emit_emit]
      congr 1
      apply writeSlot_congr
      intro s hs
      rw [h] at hs
      cases hs
      cases Slot
      simp only [clearVisuals] at *
      simp [hh]
  | some hd =>
    cases hc : Slot.AttachedVisualComponent with
    | none =>
      simp only [List.nil_append, List.append_nil]
      rw [writeSlot_emit, emit_emit]
      congr 1
      apply writeSlot_congr
      intro s hs
      rw [h] at hs
      cases hs
      cases Slot
      simp only [clearVisuals] at *
      simp [hc]
    | some c =>
      simp only
      rw [writeSlot_emit, writeSlot_emit, writeSlot_emit, emit_emit, emit_emit,
        writeSlot_writeSlot m t (fun s => { s with MeshLoadHandle := none })
          (fun s => { s with AttachedVisualComponent := none }) (fun _ => rfl)]
      simp only [List.append_assoc]
      rfl


theorem MeshToLoad_eq (w : World) (Item : FItemInstance) (EquipFrag : UItemFragment_Equipment)
    (h : GetEquipmentFragment w Item = some EquipFrag) :
    MeshToLoad w Item
      = (match EquipFrag.EquipSkeletalMesh with
         | some Mesh => some Mesh
         | none => EquipFrag.EquipMesh) := by
  unfold MeshToLoad
  rw [h]

/-- `ApplyVisuals` on the slot it finds: the handle of the requested load is
stored in the slot and the effects of the attachment are appended to the trace;
nothing changes when the item has no mesh to load. -/
theorem ApplyVisuals_eq (w : World) (m : Manager) (Item : FItemInstance) (t : FGameplayTag)
    (Slot : FEquipmentSlot) (h : FindSlot m t = some Slot) :
    ApplyVisuals w m Item t
      = { EquipmentSlots := modifySlot t (setLoadHandle w Item m.NextHandle) m.EquipmentSlots,
          Trace := m.Trace ++ ApplyVisualsEffects w Item Slot t m.NextHandle,
          NextHandle := nextHandleAfter w Item m.NextHandle } := by
  have hid : ∀ l : List FEquipmentSlot, modifySlot t (fun s => s) l = l :=
    fun l => modifySlot_eq_self t _ l (fun _ _ => rfl)
  unfold ApplyVisuals ApplyVisualsEffects setLoadHandle nextHandleAfter
  cases hf : GetEquipmentFragment w Item with
  | none =>
    have hM : MeshToLoad w Item = none := by unfold MeshToLoad; rw [hf]
    cases m
    simp [hM, hid]
  | some EquipFrag =>
    have hM := MeshToLoad_eq w Item EquipFrag hf
    simp only
    rw [← hM]
    cases hL : MeshToLoad w Item with
    | none =>
      cases m
      simp [hid]
    | some Mesh =>
      simp only [h]
      unfold cancelEffects
      cases hh : Slot.MeshLoadHandle with
      | none => simp [Manager.writeSlot, Manager.emit]
      | some hd => simp [Manager.writeSlot, Manager.emit]

theorem FindSlot_writeSlot_same (m : Manager) (t : FGameplayTag)
    (f : FEquipmentSlot → FEquipmentSlot) (hf : ∀ s, (f s).SlotTag = s.SlotTag) :
    FindSlot (m.writeSlot t f) t = (FindSlot m t).map f :=
  find_modifySlot_same t f hf m.EquipmentSlots

theorem FindSlot_writeSlot_other (m : Manager) (t u : FGameplayTag)
    (f : FEquipmentSlot → FEquipmentSlot) (hf : ∀ s, (f s).SlotTag = s.SlotTag)
    (hu : u ≠ t) : FindSlot (m.writeSlot t f) u = FindSlot m u :=
  find_modifySlot_other t u f hf hu m.EquipmentSlots

theorem setLoadHandle_SlotTag (w : World) (Item : FItemInstance) (Handle : Nat)
    (s : FEquipmentSlot) : (setLoadHandle w Item Handle s).SlotTag = s.SlotTag := by
  unfold setLoadHandle
  cases MeshToLoad w Item <;> rfl

theorem equippedSlot_SlotTag (w : World) (Item : FItemInstance) (Handle : Nat)
    (s : FEquipmentSlot) : (equippedSlot w Item Handle s).SlotTag = s.SlotTag := by
  unfold equippedSlot
  rw [setLoadHandle_SlotTag]

theorem unequippedSlot_SlotTag (s : FEquipmentSlot) : (unequippedSlot s).SlotTag = s.SlotTag :=
  rfl

/-- `Internal_Equip` on the slot it finds, in closed form. -/
theorem Internal_Equip_eq (w : World) (m : Manager) (Item : FItemInstance) (t : FGameplayTag)
    (Slot : FEquipmentSlot) (h : FindSlot m t = some Slot) :
    Internal_Equip w m Item t
      = { EquipmentSlots := modifySlot t (equippedSlot w Item m.NextHandle) m.EquipmentSlots,
          Trace := m.Trace ++ equipEffects w Item Slot t m.NextHandle,
          NextHandle := nextHandleAfter w Item m.NextHandle } := by
  unfold Internal_Equip
  simp only [h]
  have h1 : FindSlot ((m.writeSlot t
      (fun s => { s with EquippedItem := Item, bIsOccupied := true })).emit
        [Event.SlotWrite t Item true]) t
      = some { Slot with EquippedItem := Item, bIsOccupied := true } := by
    rw [FindSlot_emit, FindSlot_writeSlot_same, h]
    · rfl
    · intro s
      rfl
  rw [ApplyGAS_eq, ApplyVisuals_eq w _ Item t _ h1]
  unfold equipEffects equippedSlot
  simp only [Manager.emit, Manager.writeSlot, List.append_assoc, Manager.mk.injEq, and_true,
    true_and]
  refine ⟨?_, ?_⟩
  · rw [modifySlot_modifySlot]
    intro s
    rfl
  · unfold ApplyVisualsEffects cancelEffects
    rfl

/-- `Internal_Unequip` on an occupied slot, in closed form. -/
theorem Internal_Unequip_eq (w : World) (m : Manager) (t : FGameplayTag)
    (Slot : FEquipmentSlot) (h : FindSlot m t = some Slot) (ho : Slot.bIsOccupied = true) :
    Internal_Unequip w m t
      = (Slot.EquippedItem,
          { EquipmentSlots := modifySlot t unequippedSlot m.EquipmentSlots,
            Trace := m.Trace ++ unequipEffects w Slot t,
            NextHandle := m.NextHandle }) := by
  unfold Internal_Unequip
  simp only [h, ho, Bool.not_true, Bool.false_eq_true, if_false]
  have h1 : FindSlot (RemoveGAS w m t) t = some Slot := by rw [FindSlot_RemoveGAS, h]
  rw [RemoveVisuals_eq w _ t Slot h1, RemoveGAS_eq]
  unfold unequipEffects unequippedSlot
  simp only [Manager.emit, Manager.writeSlot, List.append_assoc, Prod.mk.injEq,
    Manager.mk.injEq, and_true, true_and]
  refine ⟨?_, rfl⟩
  rw [modifySlot_modifySlot]
  intro s
  rfl


/-- Unequipping an occupied slot and equipping an item into it, in closed form:
the swap of `TryEquipToSlot` and, with the removed item, the rollback. -/
theorem Internal_Equip_after_Unequip_eq (w : World) (m : Manager) (t : FGameplayTag)
    (X : FItemInstance) (Slot : FEquipmentSlot) (hs : FindSlot m t = some Slot)
    (ho : Slot.bIsOccupied = true) :
    Internal_Equip w (Internal_Unequip w m t).2 X t
      = { EquipmentSlots :=
            modifySlot t (fun s => equippedSlot w X m.NextHandle (unequippedSlot s))
              m.EquipmentSlots,
          Trace := m.Trace
            ++ (unequipEffects w Slot t ++ equipEffects w X (unequippedSlot Slot) t m.NextHandle),
          NextHandle := nextHandleAfter w X m.NextHandle } := by
  have h1 : FindSlot (Internal_Unequip w m t).2 t = some (unequippedSlot Slot) := by
    rw [Internal_Unequip_eq w m t Slot hs ho]
    show (modifySlot t unequippedSlot m.EquipmentSlots).find? _ = _
    rw [find_modifySlot_same t _ unequippedSlot_SlotTag]
    show (FindSlot m t).map _ = _
    rw [hs]
    rfl
  rw [Internal_Equip_eq w _ X t _ h1, Internal_Unequip_eq w m t Slot hs ho]
  simp only [Manager.mk.injEq, List.append_assoc, and_true]
  rw [modifySlot_modifySlot t _ _ unequippedSlot_SlotTag]

/-- After `Internal_Unequip` the slot has no pending load to cancel: the visual
attachment that follows only requests the load of the mesh of the item. -/
theorem ApplyVisualsEffects_unequippedSlot (w : World) (Item : FItemInstance)
    (Slot : FEquipmentSlot) (t : FGameplayTag) (Handle : Nat) :
    ApplyVisualsEffects w Item (unequippedSlot Slot) t Handle
      = match MeshToLoad w Item with
        | none => []
        | some Mesh => [Event.RequestAsyncLoad Handle Mesh t] := by
  unfold ApplyVisualsEffects
  cases MeshToLoad w Item <;> rfl

/-! ## Claims C31 and C32 -/

/-- The trace of a rollback: unequip of an occupied slot, then equip of the
removed item. -/
theorem rollback_Trace (w : World) (m : Manager) (t : FGameplayTag) (Slot : FEquipmentSlot)
    (hs : FindSlot m t = some Slot) (ho : Slot.bIsOccupied = true) :
    (Internal_Equip w (Internal_Unequip w m t).2 Slot.EquippedItem t).Trace
      = m.Trace ++ rollbackEffects w Slot t m.NextHandle := by
  rw [Internal_Equip_after_Unequip_eq w m t Slot.EquippedItem Slot hs ho]
  simp only [rollbackEffects, unequipEffects, equipEffects, ApplyVisualsEffects_unequippedSlot,
    List.append_assoc, List.cons_append, List.nil_append]

/-- C32. A rollback is observable. On the authoritative node, when
`TryUnequipToInventory`, or the swap path of `TryEquipFromInventory`, rolls back
after a failed `TryAddItem`, the call appends to the trace the effects of the
unequip and then of the equip of the same original item: the GAS unequip
callback, the visual removal, item-unequipped, equipment-changed, the
post-unequip hook, then the restarted visual attachment (the request of the load
of the mesh of the item under a new handle), the GAS equip callback,
item-equipped, a second equipment-changed and the post-equip hook;
`TryUnequipToInventory` also logs the error. The GAS callbacks are the two
events when the callbacks are bound. -/
theorem C32_rollback_is_observable (Inv : Type) (I : UInventoryComponent Inv) (w : World)
    (m : Manager) (tag : FGameplayTag) (inv : Inv) (Slot : FEquipmentSlot)
    (hA : w.HasAuthority = true) (hs : FindSlot m tag = some Slot)
    (ho : Slot.bIsOccupied = true)
    (hc : I.CanAcceptItem inv Slot.EquippedItem = true)
    (hadd : (I.TryAddItem inv Slot.EquippedItem).1 = false) :
    (TryUnequipToInventory I w m tag (some inv)).2.1.Trace
        = m.Trace ++ rollbackEffects w Slot tag m.NextHandle ++ [Event.LogError]
      ∧ (∀ (ItemInstanceId : Nat) (SlotTag : FGameplayTag),
          I.FindSlotIndexByInstanceId inv ItemInstanceId ≠ INDEX_NONE →
          ResolvedSlotTag w m
            (I.GetItemInSlot inv (I.FindSlotIndexByInstanceId inv ItemInstanceId)) SlotTag
              = tag →
          tag.IsValid = true →
          ValidateEquip w m
            (I.GetItemInSlot inv (I.FindSlotIndexByInstanceId inv ItemInstanceId)) tag
              = EEquipmentResult.Success →
          (TryEquipFromInventory I w m ItemInstanceId (some inv) SlotTag).2.1.Trace
            = m.Trace ++ rollbackEffects w Slot tag m.NextHandle)
      ∧ (w.GASCallbacksBound = true →
          gasUnequipEffects w tag = [Event.OnGASUnequipCallback tag]
            ∧ gasEquipEffects w Slot.EquippedItem tag
                = [Event.OnGASEquipCallback Slot.EquippedItem tag]) := by
  have hold := (Internal_Unequip_occupied w m tag Slot hs ho).1
  refine ⟨?_, ?_, ?_⟩
  · have hE : (TryUnequipToInventory I w m tag (some inv)).2.1
        = (Internal_Equip w (Internal_Unequip w m tag).2 Slot.EquippedItem tag).emit
            [Event.LogError] := by
      unfold TryUnequipToInventory
      simp [hs, ho, hc, hA, hold, hadd]
    rw [hE, emit_Trace, rollback_Trace w m tag Slot hs ho]
  · intro ItemInstanceId SlotTag hfound ht htv hV
    rw [TryEquipFromInventory_rollback I w m ItemInstanceId inv SlotTag tag _ Slot hA hfound
      rfl ht htv hV hs ho hc hadd]
    exact rollback_Trace w m tag Slot hs ho
  · intro hB
    simp [gasUnequipEffects, gasEquipEffects, hA, hB]

/-- C32 at a concrete input: the inventory passes the pre-check but refuses the
add, on the server with the GAS callbacks bound; the sword in the main hand is
unequipped and equipped again. -/
theorem C32_rollback_is_observable_witness :
    (TryUnequipToInventory (listInventory true false true)
        { serverWorld with GASCallbacksBound := true } swordManager tagMainHand
        (some [itemHelmet])).2.1.Trace
      = swordManager.Trace
        ++ [Event.OnGASUnequipCallback tagMainHand,
            Event.SlotWrite tagMainHand FItemInstance.Default false,
            Event.OnItemUnequipped itemSword tagMainHand,
            Event.OnEquipmentChanged,
            Event.OnPostUnequip itemSword tagMainHand,
            Event.SlotWrite tagMainHand itemSword true,
            Event.RequestAsyncLoad 0 10 tagMainHand,
            Event.OnGASEquipCallback itemSword tagMainHand,
            Event.OnItemEquipped itemSword tagMainHand,
            Event.OnEquipmentChanged,
            Event.OnPostEquip itemSword tagMainHand,
            Event.LogError] :=
  ((C32_rollback_is_observable (List FItemInstance) (listInventory true false true)
    { serverWorld with GASCallbacksBound := true } swordManager tagMainHand [itemHelmet]
    { SlotTag := tagMainHand, EquippedItem := itemSword, bIsOccupied := true }
    rfl (by decide) (by decide) (by decide) (by decide)).1).trans (by decide)


/-! ## Visual source selection: claim C36 -/

/-- `OnMeshLoaded` on an occupied slot whose item resolves, with an owner mesh:
the old component is destroyed and the component chosen for the fragment is the
attached one. -/
theorem OnMeshLoaded_eq (w : World) (m : Manager) (t : FGameplayTag) (Slot : FEquipmentSlot)
    (EquipFrag : UItemFragment_Equipment) (hs : FindSlot m t = some Slot)
    (ho : Slot.bIsOccupied = true)
    (hf : GetEquipmentFragment w Slot.EquippedItem = some EquipFrag)
    (hM : w.OwnerMesh = true) :
    OnMeshLoaded w m t
      = (m.writeSlot t (fun s =>
          { s with AttachedVisualComponent := VisualToAttach w EquipFrag Slot.AttachSocket })).emit
            (destroyEffects Slot ++ linkEffects EquipFrag) := by
  have hw : ∀ (c : Option USceneComponent), Slot.AttachedVisualComponent = c →
      m.writeSlot t (fun s => { s with AttachedVisualComponent := c }) = m := by
    intro c hc
    apply writeSlot_self
    intro s h
    rw [hs] at h
    cases h
    cases Slot
    simp only at hc
    simp [hc]
  unfold OnMeshLoaded
  simp only [hs, ho, hf, hM, Bool.not_true, Bool.false_eq_true, if_false]
  unfold VisualToAttach destroyEffects linkEffects
  cases hc : Slot.AttachedVisualComponent with
  | none =>
    cases hk : EquipFrag.EquipSkeletalMesh with
    | some Mesh =>
      cases hl : w.IsLoaded Mesh <;> cases ha : EquipFrag.AnimLayerClass <;>
        simp [hl, ha, hw none hc, emit_nil]
    | none =>
      cases hq : EquipFrag.EquipMesh with
      | some Mesh =>
        cases hl : w.IsLoaded Mesh <;> cases ha : EquipFrag.AnimLayerClass <;>
          simp [hl, ha, hw none hc, emit_nil]
      | none =>
        cases ha : EquipFrag.AnimLayerClass <;> simp [ha, hw none hc, emit_nil]
  | some c =>
    have h2 : ∀ x : Option USceneComponent,
        (m.writeSlot t (fun s => { s with AttachedVisualComponent := none })).writeSlot t
            (fun s => { s with AttachedVisualComponent := x })
          = m.writeSlot t (fun s => { s with AttachedVisualComponent := x }) := by
      intro x
      rw [writeSlot_writeSlot]
      intro s
      rfl
    cases hk : EquipFrag.EquipSkeletalMesh with
    | some Mesh =>
      cases hl : w.IsLoaded Mesh <;> cases ha : EquipFrag.AnimLayerClass <;>
        simp [hl, ha, h2, emit_emit, writeSlot_emit]
    | none =>
      cases hq : EquipFrag.EquipMesh with
      | some Mesh =>
        cases hl : w.IsLoaded Mesh <;> cases ha : EquipFrag.AnimLayerClass <;>
          simp [hl, ha, h2, emit_emit, writeSlot_emit]
      | none =>
        cases ha : EquipFrag.AnimLayerClass <;> simp [ha, h2, emit_emit, writeSlot_emit]


/-- The visual component of the slot of a tag after `OnMeshLoaded`, under its
guards. -/
theorem OnMeshLoaded_component (w : World) (m : Manager) (t : FGameplayTag)
    (Slot : FEquipmentSlot) (EquipFrag : UItemFragment_Equipment)
    (hs : FindSlot m t = some Slot) (ho : Slot.bIsOccupied = true)
    (hf : GetEquipmentFragment w Slot.EquippedItem = some EquipFrag)
    (hM : w.OwnerMesh = true) :
    FindSlot (OnMeshLoaded w m t) t
      = some { Slot with
          AttachedVisualComponent := VisualToAttach w EquipFrag Slot.AttachSocket } := by
  rw [OnMeshLoaded_eq w m t Slot EquipFrag hs ho hf hM, FindSlot_emit, FindSlot_writeSlot_same,
    hs]
  · rfl
  · intro s
    rfl

/-- C36. Visual source selection. For every fragment, `ApplyVisuals` requests
the load of the skeletal mesh when one is set, whatever the static mesh,
otherwise of the static mesh when one is set; when neither is set it requests
no load and changes nothing, so the item stays equipped without a visual.
`OnMeshLoaded`, on the occupied slot with an owner mesh, attaches a component of
the kind chosen by the same priority: a skeletal one for the skeletal mesh when
one is set, otherwise a static one for the static mesh, in both cases when the
mesh did load, and none when neither is set. -/
theorem C36_visual_source_selection (w : World) (m : Manager) (Item : FItemInstance)
    (tag : FGameplayTag) (Slot : FEquipmentSlot) (EquipFrag : UItemFragment_Equipment)
    (hf : GetEquipmentFragment w Item = some EquipFrag)
    (hs : FindSlot m tag = some Slot) :
    (∀ Mesh, EquipFrag.EquipSkeletalMesh = some Mesh →
        (ApplyVisuals w m Item tag).Trace
          = m.Trace ++ cancelEffects Slot ++ [Event.RequestAsyncLoad m.NextHandle Mesh tag])
      ∧ (∀ Mesh, EquipFrag.EquipSkeletalMesh = none → EquipFrag.EquipMesh = some Mesh →
        (ApplyVisuals w m Item tag).Trace
          = m.Trace ++ cancelEffects Slot ++ [Event.RequestAsyncLoad m.NextHandle Mesh tag])
      ∧ (EquipFrag.EquipSkeletalMesh = none → EquipFrag.EquipMesh = none →
        ApplyVisuals w m Item tag = m)
      ∧ (Slot.bIsOccupied = true → Slot.EquippedItem = Item → w.OwnerMesh = true →
        (∀ Mesh, EquipFrag.EquipSkeletalMesh = some Mesh →
          (FindSlot (OnMeshLoaded w m tag) tag).map (fun s => s.AttachedVisualComponent)
            = some (if w.IsLoaded Mesh then
                some (USceneComponent.mk true Mesh Slot.AttachSocket) else none))
        ∧ (∀ Mesh, EquipFrag.EquipSkeletalMesh = none → EquipFrag.EquipMesh = some Mesh →
          (FindSlot (OnMeshLoaded w m tag) tag).map (fun s => s.AttachedVisualComponent)
            = some (if w.IsLoaded Mesh then
                some (USceneComponent.mk false Mesh Slot.AttachSocket) else none))
        ∧ (EquipFrag.EquipSkeletalMesh = none → EquipFrag.EquipMesh = none →
          (FindSlot (OnMeshLoaded w m tag) tag).map (fun s => s.AttachedVisualComponent)
            = some none)) := by
  have hT := ApplyVisuals_eq w m Item tag Slot hs
  have hML := MeshToLoad_eq w Item EquipFrag hf
  refine ⟨?_, ?_, ?_, ?_⟩
  · intro Mesh hk
    rw [hk] at hML
    rw [hT]
    simp [ApplyVisualsEffects, hML]
  · intro Mesh hk hq
    rw [hk, hq] at hML
    rw [hT]
    simp [ApplyVisualsEffects, hML]
  · intro hk hq
    rw [hk, hq] at hML
    unfold ApplyVisuals
    simp [hf, hk, hq]
  · intro ho hI hM
    rw [← hI] at hf
    rw [OnMeshLoaded_component w m tag Slot EquipFrag hs ho hf hM]
    refine ⟨?_, ?_, ?_⟩
    · intro Mesh hk
      simp [VisualToAttach, hk]
    · intro Mesh hk hq
      simp [VisualToAttach, hk, hq]
    · intro hk hq
      simp [VisualToAttach, hk, hq]

/-- C36 at a concrete input: the helmet has a skeletal mesh (20) and no static
one; on a server whose owner has a mesh, the load of mesh 20 is requested and
its completion attaches a skeletal component. -/
theorem C36_visual_source_selection_witness :
    (ApplyVisuals { serverWorld with OwnerMesh := true }
        { EquipmentSlots := [{ SlotTag := tagHead, EquippedItem := itemHelmet,
                               bIsOccupied := true, AttachSocket := 5 }] }
        itemHelmet tagHead).Trace = [Event.RequestAsyncLoad 0 20 tagHead]
      ∧ (FindSlot (OnMeshLoaded { serverWorld with OwnerMesh := true }
          { EquipmentSlots := [{ SlotTag := tagHead, EquippedItem := itemHelmet,
                                 bIsOccupied := true, AttachSocket := 5 }] }
          tagHead) tagHead).map (fun s => s.AttachedVisualComponent)
        = some (some (USceneComponent.mk true 20 5)) :=
  ⟨(C36_visual_source_selection { serverWorld with OwnerMesh := true }
      { EquipmentSlots := [{ SlotTag := tagHead, EquippedItem := itemHelmet,
                             bIsOccupied := true, AttachSocket := 5 }] }
      itemHelmet tagHead
      { SlotTag := tagHead, EquippedItem := itemHelmet, bIsOccupied := true, AttachSocket := 5 }
      helmetFragment (by decide) (by decide)).1 20 rfl,
   ((C36_visual_source_selection { serverWorld with OwnerMesh := true }
      { EquipmentSlots := [{ SlotTag := tagHead, EquippedItem := itemHelmet,
                             bIsOccupied := true, AttachSocket := 5 }] }
      itemHelmet tagHead
      { SlotTag := tagHead, EquippedItem := itemHelmet, bIsOccupied := true, AttachSocket := 5 }
      helmetFragment (by decide) (by decide)).2.2.2 rfl rfl rfl).1 20 rfl⟩


/-! ## The equip query: claim C39 -/

/-- C39. `CanEquipItem` agrees with `TryEquip`: for every slot table and item,
on any node, `CanEquipItem` of the item is true if and only if `TryEquip` of it,
called in the same state, returns `Success`. `CanEquipItem` is a `const` query
built from the `const` functions `FindTargetSlot` and `ValidateEquip`: it reads
the state and yields only its answer, so no slot changes. The item is the one
the argument refers to at the call, whatever object the reference is bound
to. -/
theorem C39_CanEquipItem_agrees_with_TryEquip (w : World) (m : Manager)
    (Item : ItemRef) :
    CanEquipItem w m (Item.Get m) = true
      ↔ (TryEquip w m Item).1 = EEquipmentResult.Success := by
  unfold CanEquipItem
  rw [TryEquip_eq]
  cases hv : (FindTargetSlot w m (Item.Get m)).IsValid with
  | false => simp [hv]
  | true => simp [hv, TryEquipToSlot_code]

/-! ## The GAS integration module: claims C34 and C35 -/

theorem foldl_GrantAbilityStep {A : Type} (C : UAbilitySystemComponent A)
    (Classes : List (Option Nat)) :
    ∀ (Handles : List FGameplayAbilitySpecHandle) (asc : A),
      Classes.foldl (GrantAbilityStep C) (Handles, asc)
        = (Handles ++ (giveAll C asc (Classes.filterMap id)).1.filter (fun h => h.IsValid),
            (giveAll C asc (Classes.filterMap id)).2) := by
  induction Classes with
  | nil => intro Handles asc; simp [giveAll]
  | cons c cs ih =>
    intro Handles asc
    cases c with
    | none => simpa [GrantAbilityStep] using ih Handles asc
    | some Class =>
      simp only [List.foldl_cons, GrantAbilityStep, List.filterMap_cons, id, giveAll]
      cases hv : (C.GiveAbility asc Class).1.IsValid with
      | true => simp [ih, hv, List.filter_cons]
      | false => simp [ih, hv, List.filter_cons]

theorem foldl_PassiveEffectStep {A : Type} (C : UAbilitySystemComponent A)
    (Classes : List (Option Nat)) :
    ∀ (Handles : List FActiveGameplayEffectHandle) (asc : A),
      Classes.foldl (PassiveEffectStep C) (Handles, asc)
        = (Handles ++ (applyValid C asc (Classes.filterMap id)).1.filter (fun h => h.IsValid),
            (applyValid C asc (Classes.filterMap id)).2) := by
  induction Classes with
  | nil => intro Handles asc; simp [applyValid]
  | cons c cs ih =>
    intro Handles asc
    cases c with
    | none => simpa [PassiveEffectStep] using ih Handles asc
    | some Class =>
      simp only [List.foldl_cons, PassiveEffectStep, List.filterMap_cons, id, applyValid]
      cases hs : C.MakeOutgoingSpec asc Class with
      | false => simp [ih]
      | true =>
        cases hv : (C.ApplyGameplayEffectSpecToSelf asc Class).1.IsValid with
        | true => simp [ih, hv, List.filter_cons]
        | false => simp [ih, hv, List.filter_cons]

theorem foldl_OnEquipEffectStep {A : Type} (C : UAbilitySystemComponent A)
    (Classes : List (Option Nat)) :
    ∀ (asc : A),
      Classes.foldl (OnEquipEffectStep C) asc
        = (applyValid C asc (Classes.filterMap id)).2 := by
  induction Classes with
  | nil => intro asc; simp [applyValid]
  | cons c cs ih =>
    intro asc
    cases c with
    | none => simpa [OnEquipEffectStep] using ih asc
    | some Class =>
      simp only [List.foldl_cons, OnEquipEffectStep, List.filterMap_cons, id, applyValid]
      cases hs : C.MakeOutgoingSpec asc Class with
      | false => simp [ih]
      | true => simp [ih]

theorem foldl_clear_valid {A : Type} (C : UAbilitySystemComponent A)
    (Handles : List FGameplayAbilitySpecHandle) :
    ∀ asc : A,
      Handles.foldl (fun a Handle => if Handle.IsValid then C.ClearAbility a Handle else a) asc
        = clearAll C asc (Handles.filter (fun h => h.IsValid)) := by
  unfold clearAll
  induction Handles with
  | nil => intro asc; rfl
  | cons h hs ih =>
    intro asc
    cases hv : h.IsValid <;> simp [hv, List.filter_cons, ih]

theorem foldl_remove_valid {A : Type} (C : UAbilitySystemComponent A)
    (Handles : List FActiveGameplayEffectHandle) :
    ∀ asc : A,
      Handles.foldl
          (fun a Handle => if Handle.IsValid then C.RemoveActiveGameplayEffect a Handle else a)
          asc
        = removeAll C asc (Handles.filter (fun h => h.IsValid)) := by
  unfold removeAll
  induction Handles with
  | nil => intro asc; rfl
  | cons h hs ih =>
    intro asc
    cases hv : h.IsValid <;> simp [hv, List.filter_cons, ih]

theorem TMap_Find_Add_same {V : Type} (M : TMap V) (k : FGameplayTag) (v : V) :
    (M.Add k v).Find k = some v := by
  simp [TMap.Find, TMap.Add]

theorem TMap_Find_Add_other {V : Type} (M : TMap V) (k j : FGameplayTag) (v : V)
    (h : j ≠ k) : (M.Add k v).Find j = M.Find j := by
  simp [TMap.Find, TMap.Add, h]

theorem TMap_Find_Remove_same {V : Type} (M : TMap V) (k : FGameplayTag) :
    (M.Remove k).Find k = none := by
  simp [TMap.Find, TMap.Remove]

theorem TMap_Find_Remove_other {V : Type} (M : TMap V) (k j : FGameplayTag)
    (h : j ≠ k) : (M.Remove k).Find j = M.Find j := by
  simp [TMap.Find, TMap.Remove, h]

/-- `GrantAbilities` with a component and a resolving fragment, in closed form. -/
theorem GrantAbilities_eq {A : Type} (C : UAbilitySystemComponent A) (w : World)
    (self : UEquipmentAbilityGranter) (Item : FItemInstance) (SlotTag : FGameplayTag)
    (asc : A) (EquipFrag : UItemFragment_Equipment)
    (hf : GetEquipmentFragment w Item = some EquipFrag) :
    GrantAbilities C w self Item SlotTag (some asc)
      = ({ GrantedAbilityHandles := self.GrantedAbilityHandles.Add SlotTag
            ((self.GrantedAbilityHandles.Find SlotTag).getD []
              ++ (giveAll C asc (EquipFrag.GrantedAbilities.filterMap id)).1.filter
                  (fun h => h.IsValid)) },
          some (giveAll C asc (EquipFrag.GrantedAbilities.filterMap id)).2) := by
  unfold GrantAbilities
  simp only [hf, foldl_GrantAbilityStep]

/-- `RevokeAbilities` with a component and an entry for the tag, in closed form. -/
theorem RevokeAbilities_eq {A : Type} (C : UAbilitySystemComponent A)
    (self : UEquipmentAbilityGranter) (SlotTag : FGameplayTag) (asc : A)
    (Handles : List FGameplayAbilitySpecHandle)
    (hF : self.GrantedAbilityHandles.Find SlotTag = some Handles) :
    RevokeAbilities C self SlotTag (some asc)
      = ({ GrantedAbilityHandles := self.GrantedAbilityHandles.Remove SlotTag },
          some (clearAll C asc (Handles.filter (fun h => h.IsValid)))) := by
  unfold RevokeAbilities
  simp only [hF, foldl_clear_valid]

/-- `RevokeAbilities` without an entry for the tag does nothing. -/
theorem RevokeAbilities_none {A : Type} (C : UAbilitySystemComponent A)
    (self : UEquipmentAbilityGranter) (SlotTag : FGameplayTag) (ASC : Option A)
    (hF : self.GrantedAbilityHandles.Find SlotTag = none) :
    RevokeAbilities C self SlotTag ASC = (self, ASC) := by
  unfold RevokeAbilities
  cases ASC with
  | none => rfl
  | some asc => simp only [hF]

/-- `ApplyEffects` with a component and a resolving fragment, in closed form. -/
theorem ApplyEffects_eq {A : Type} (C : UAbilitySystemComponent A) (w : World)
    (self : UEquipmentEffectApplier) (Item : FItemInstance) (SlotTag : FGameplayTag)
    (asc : A) (EquipFrag : UItemFragment_Equipment)
    (hf : GetEquipmentFragment w Item = some EquipFrag) :
    ApplyEffects C w self Item SlotTag (some asc)
      = ({ AppliedEffectHandles := self.AppliedEffectHandles.Add SlotTag
            ((self.AppliedEffectHandles.Find SlotTag).getD []
              ++ (applyValid C asc (EquipFrag.PassiveEffects.filterMap id)).1.filter
                  (fun h => h.IsValid)) },
          some (applyValid C (applyValid C asc (EquipFrag.PassiveEffects.filterMap id)).2
            (EquipFrag.OnEquipEffects.filterMap id)).2) := by
  unfold ApplyEffects
  simp only [hf, foldl_PassiveEffectStep, foldl_OnEquipEffectStep]

/-- `RemoveEffects` with a component and an entry for the tag, in closed form. -/
theorem RemoveEffects_eq {A : Type} (C : UAbilitySystemComponent A)
    (self : UEquipmentEffectApplier) (SlotTag : FGameplayTag) (asc : A)
    (Handles : List FActiveGameplayEffectHandle)
    (hF : self.AppliedEffectHandles.Find SlotTag = some Handles) :
    RemoveEffects C self SlotTag (some asc)
      = ({ AppliedEffectHandles := self.AppliedEffectHandles.Remove SlotTag },
          some (removeAll C asc (Handles.filter (fun h => h.IsValid)))) := by
  unfold RemoveEffects
  simp only [hF, foldl_remove_valid]

/-- `RemoveEffects` without an entry for the tag does nothing. -/
theorem RemoveEffects_none {A : Type} (C : UAbilitySystemComponent A)
    (self : UEquipmentEffectApplier) (SlotTag : FGameplayTag) (ASC : Option A)
    (hF : self.AppliedEffectHandles.Find SlotTag = none) :
    RemoveEffects C self SlotTag ASC = (self, ASC) := by
  unfold RemoveEffects
  cases ASC with
  | none => rfl
  | some asc => simp only [hF]


/-- C35. For every fragment, slot tag and present ability system component,
`GrantAbilities` followed by `RevokeAbilities` on the same slot tag is a round
trip on the bookkeeping. `GrantAbilities` gives each non-null ability class of
the fragment once, in order, skipping the null entries, and records under the
tag each valid returned handle, after the handles already there; entries of
other tags are untouched. `RevokeAbilities` then clears each recorded valid
handle exactly once, in order, and removes the entry of the tag, entries of
other tags being those before the grant; a second `RevokeAbilities` on the tag
does nothing. -/
theorem C35_grant_then_revoke (A : Type) (C : UAbilitySystemComponent A) (w : World)
    (self : UEquipmentAbilityGranter) (Item : FItemInstance) (SlotTag : FGameplayTag)
    (asc : A) (EquipFrag : UItemFragment_Equipment)
    (hf : GetEquipmentFragment w Item = some EquipFrag) :
    (GrantAbilities C w self Item SlotTag (some asc)).1.GrantedAbilityHandles.Find SlotTag
        = some ((self.GrantedAbilityHandles.Find SlotTag).getD []
            ++ (giveAll C asc (EquipFrag.GrantedAbilities.filterMap id)).1.filter
                (fun h => h.IsValid))
      ∧ (GrantAbilities C w self Item SlotTag (some asc)).2
        = some (giveAll C asc (EquipFrag.GrantedAbilities.filterMap id)).2
      ∧ (∀ k, k ≠ SlotTag →
          (GrantAbilities C w self Item SlotTag (some asc)).1.GrantedAbilityHandles.Find k
            = self.GrantedAbilityHandles.Find k)
      ∧ (RevokeAbilities C (GrantAbilities C w self Item SlotTag (some asc)).1 SlotTag
          (GrantAbilities C w self Item SlotTag (some asc)).2).2
        = some (clearAll C (giveAll C asc (EquipFrag.GrantedAbilities.filterMap id)).2
            (((self.GrantedAbilityHandles.Find SlotTag).getD []
              ++ (giveAll C asc (EquipFrag.GrantedAbilities.filterMap id)).1.filter
                  (fun h => h.IsValid)).filter (fun h => h.IsValid)))
      ∧ (RevokeAbilities C (GrantAbilities C w self Item SlotTag (some asc)).1 SlotTag
          (GrantAbilities C w self Item SlotTag (some asc)).2).1.GrantedAbilityHandles.Find
            SlotTag = none
      ∧ (∀ k, k ≠ SlotTag →
          (RevokeAbilities C (GrantAbilities C w self Item SlotTag (some asc)).1 SlotTag
            (GrantAbilities C w self Item SlotTag (some asc)).2).1.GrantedAbilityHandles.Find k
            = self.GrantedAbilityHandles.Find k)
      ∧ RevokeAbilities C
          (RevokeAbilities C (GrantAbilities C w self Item SlotTag (some asc)).1 SlotTag
            (GrantAbilities C w self Item SlotTag (some asc)).2).1 SlotTag
          (RevokeAbilities C (GrantAbilities C w self Item SlotTag (some asc)).1 SlotTag
            (GrantAbilities C w self Item SlotTag (some asc)).2).2
        = RevokeAbilities C (GrantAbilities C w self Item SlotTag (some asc)).1 SlotTag
            (GrantAbilities C w self Item SlotTag (some asc)).2 := by
  rw [GrantAbilities_eq C w self Item SlotTag asc EquipFrag hf]
  simp only
  rw [RevokeAbilities_eq C _ SlotTag _ _ (TMap_Find_Add_same _ _ _)]
  simp only
  refine ⟨TMap_Find_Add_same _ _ _, trivial, fun k hk => TMap_Find_Add_other _ _ _ _ hk,
    trivial, TMap_Find_Remove_same _ _, ?_, ?_⟩
  · intro k hk
    rw [TMap_Find_Remove_other _ _ _ hk, TMap_Find_Add_other _ _ _ _ hk]
  · exact RevokeAbilities_none C _ SlotTag _ (TMap_Find_Remove_same _ _)

/-- C35 at a concrete input: the sword grants ability class 100; the example
component hands out handle 1 for it, which is recorded under the main-hand tag
and cleared by the revoke, after which the tag has no entry. -/
theorem C35_grant_then_revoke_witness :
    (GrantAbilities (exampleASC (fun _ => true) (fun _ => true)) serverWorld
        ⟨TMap.Empty⟩ itemSword tagMainHand
        (some ⟨[], 1⟩)).1.GrantedAbilityHandles.Find tagMainHand = some [⟨1⟩]
      ∧ (RevokeAbilities (exampleASC (fun _ => true) (fun _ => true))
          (GrantAbilities (exampleASC (fun _ => true) (fun _ => true)) serverWorld
            ⟨TMap.Empty⟩ itemSword tagMainHand (some ⟨[], 1⟩)).1 tagMainHand
          (GrantAbilities (exampleASC (fun _ => true) (fun _ => true)) serverWorld
            ⟨TMap.Empty⟩ itemSword tagMainHand (some ⟨[], 1⟩)).2).2
        = some ⟨[ASCCall.GiveAbility 100 1, ASCCall.ClearAbility 1], 2⟩ :=
  ⟨(C35_grant_then_revoke ExampleASC (exampleASC (fun _ => true) (fun _ => true))
      serverWorld ⟨TMap.Empty⟩ itemSword tagMainHand ⟨[], 1⟩ swordFragment
      (by decide)).1.trans (by decide),
   (C35_grant_then_revoke ExampleASC (exampleASC (fun _ => true) (fun _ => true))
      serverWorld ⟨TMap.Empty⟩ itemSword tagMainHand ⟨[], 1⟩ swordFragment
      (by decide)).2.2.2.1.trans (by decide)⟩


theorem applyValid_eq_applyEvery {A : Type} (C : UAbilitySystemComponent A)
    (hSpec : ∀ s c, C.MakeOutgoingSpec s c = true) (Classes : List Nat) :
    ∀ asc : A, applyValid C asc Classes = applyEvery C asc Classes := by
  induction Classes with
  | nil => intro asc; rfl
  | cons c cs ih =>
    intro asc
    simp [applyValid, applyEvery, hSpec, ih]

/-- C34, as stated, fails: the sword has the non-null passive effect 200, but on
a component that makes no valid outgoing spec for it `ApplyEffects` applies
nothing, while applying every non-null effect would call the component. -/
theorem C34_ApplyEffects_counterexample :
    swordFragment.PassiveEffects = [some 200]
      ∧ (ApplyEffects (exampleASC (fun _ => true) (fun _ => false)) serverWorld
          ⟨TMap.Empty⟩ itemSword tagMainHand (some ⟨[], 1⟩)).2 = some ⟨[], 1⟩
      ∧ (applyEvery (exampleASC (fun _ => true) (fun _ => false)) ⟨[], 1⟩
          (swordFragment.PassiveEffects.filterMap id)).2
        = ⟨[ASCCall.ApplyGameplayEffectSpecToSelf 200 1], 2⟩ := by
  decide

/-- C34, amended. For every fragment and slot tag, `ApplyEffects` applies, in
order, every non-null passive effect and then every non-null on-equip effect
whose outgoing spec is valid (every non-null one when the component makes a
valid spec for every class), but appends to the tracked handle list of the slot
tag only the valid handles returned for passive effects, in fragment order, and
never a handle of an on-equip effect; entries of other tags are unchanged.
`RemoveEffects` of the tag then removes each tracked valid handle of the tag
once, in order, and deletes the entry of the tag, the entries of other tags
being those before. -/
theorem C34_ApplyEffects_then_RemoveEffects (A : Type) (C : UAbilitySystemComponent A)
    (w : World) (self : UEquipmentEffectApplier) (Item : FItemInstance)
    (SlotTag : FGameplayTag) (asc : A) (EquipFrag : UItemFragment_Equipment)
    (hf : GetEquipmentFragment w Item = some EquipFrag) :
    (ApplyEffects C w self Item SlotTag (some asc)).2
        = some (applyValid C (applyValid C asc (EquipFrag.PassiveEffects.filterMap id)).2
            (EquipFrag.OnEquipEffects.filterMap id)).2
      ∧ (ApplyEffects C w self Item SlotTag (some asc)).1.AppliedEffectHandles.Find SlotTag
        = some ((self.AppliedEffectHandles.Find SlotTag).getD []
            ++ (applyValid C asc (EquipFrag.PassiveEffects.filterMap id)).1.filter
                (fun h => h.IsValid))
      ∧ (∀ k, k ≠ SlotTag →
          (ApplyEffects C w self Item SlotTag (some asc)).1.AppliedEffectHandles.Find k
            = self.AppliedEffectHandles.Find k)
      ∧ (RemoveEffects C (ApplyEffects C w self Item SlotTag (some asc)).1 SlotTag
          (ApplyEffects C w self Item SlotTag (some asc)).2).2
        = some (removeAll C
            (applyValid C (applyValid C asc (EquipFrag.PassiveEffects.filterMap id)).2
              (EquipFrag.OnEquipEffects.filterMap id)).2
            (((self.AppliedEffectHandles.Find SlotTag).getD []
              ++ (applyValid C asc (EquipFrag.PassiveEffects.filterMap id)).1.filter
                  (fun h => h.IsValid)).filter (fun h => h.IsValid)))
      ∧ (RemoveEffects C (ApplyEffects C w self Item SlotTag (some asc)).1 SlotTag
          (ApplyEffects C w self Item SlotTag (some asc)).2).1.AppliedEffectHandles.Find
            SlotTag = none
      ∧ (∀ k, k ≠ SlotTag →
          (RemoveEffects C (ApplyEffects C w self Item SlotTag (some asc)).1 SlotTag
            (ApplyEffects C w self Item SlotTag (some asc)).2).1.AppliedEffectHandles.Find k
            = self.AppliedEffectHandles.Find k)
      ∧ ((∀ s c, C.MakeOutgoingSpec s c = true) →
          (ApplyEffects C w self Item SlotTag (some asc)).2
            = some (applyEvery C (applyEvery C asc (EquipFrag.PassiveEffects.filterMap id)).2
                (EquipFrag.OnEquipEffects.filterMap id)).2
          ∧ (ApplyEffects C w self Item SlotTag (some asc)).1.AppliedEffectHandles.Find SlotTag
            = some ((self.AppliedEffectHandles.Find SlotTag).getD []
                ++ (applyEvery C asc (EquipFrag.PassiveEffects.filterMap id)).1.filter
                    (fun h => h.IsValid))) := by
  rw [ApplyEffects_eq C w self Item SlotTag asc EquipFrag hf]
  simp only
  rw [RemoveEffects_eq C _ SlotTag _ _ (TMap_Find_Add_same _ _ _)]
  simp only
  refine ⟨trivial, TMap_Find_Add_same _ _ _, fun k hk => TMap_Find_Add_other _ _ _ _ hk,
    trivial, TMap_Find_Remove_same _ _, ?_, ?_⟩
  · intro k hk
    rw [TMap_Find_Remove_other _ _ _ hk, TMap_Find_Add_other _ _ _ _ hk]
  · intro hSpec
    rw [applyValid_eq_applyEvery C hSpec, applyValid_eq_applyEvery C hSpec]
    exact ⟨rfl, TMap_Find_Add_same _ _ _⟩

/-- C34, amended, at a concrete input: the sword has the passive effect 200; the
example component hands out handle 1 for it, which is tracked under the
main-hand tag and removed by `RemoveEffects`. -/
theorem C34_ApplyEffects_then_RemoveEffects_witness :
    (ApplyEffects (exampleASC (fun _ => true) (fun _ => true)) serverWorld
        ⟨TMap.Empty⟩ itemSword tagMainHand
        (some ⟨[], 1⟩)).1.AppliedEffectHandles.Find tagMainHand = some [⟨1⟩]
      ∧ (RemoveEffects (exampleASC (fun _ => true) (fun _ => true))
          (ApplyEffects (exampleASC (fun _ => true) (fun _ => true)) serverWorld
            ⟨TMap.Empty⟩ itemSword tagMainHand (some ⟨[], 1⟩)).1 tagMainHand
          (ApplyEffects (exampleASC (fun _ => true) (fun _ => true)) serverWorld
            ⟨TMap.Empty⟩ itemSword tagMainHand (some ⟨[], 1⟩)).2).2
        = some ⟨[ASCCall.ApplyGameplayEffectSpecToSelf 200 1,
                 ASCCall.RemoveActiveGameplayEffect 1], 2⟩ :=
  ⟨(C34_ApplyEffects_then_RemoveEffects ExampleASC
      (exampleASC (fun _ => true) (fun _ => true))
      serverWorld ⟨TMap.Empty⟩ itemSword tagMainHand ⟨[], 1⟩ swordFragment
      (by decide)).2.1.trans (by decide),
   (C34_ApplyEffects_then_RemoveEffects ExampleASC
      (exampleASC (fun _ => true) (fun _ => true))
      serverWorld ⟨TMap.Empty⟩ itemSword tagMainHand ⟨[], 1⟩ swordFragment
      (by decide)).2.2.2.1.trans (by decide)⟩


/-! ## Item conservation: claim C40 -/

/-- In the keyed inventory an item is in the inventory when the lookup of
its instance id in the list gives the item. -/
theorem keyedInventory_InInventory (Capacity : Nat) (inv : List FItemInstance)
    (X : FItemInstance) :
    InInventory (keyedInventory Capacity) inv X
      ↔ inv.find? (fun it => it.InstanceId == X.InstanceId) = some X := by
  unfold InInventory keyedInventory
  simp only
  have hp : (fun (it : FItemInstance) => ((it.InstanceId : Int) == (X.InstanceId : Int)))
      = (fun it => it.InstanceId == X.InstanceId) := by
    funext it
    by_cases h : it.InstanceId = X.InstanceId
    · simp [h]
    · have : ¬ ((it.InstanceId : Int) = (X.InstanceId : Int)) := by
        intro e
        exact h (Int.ofNat.inj e)
      simp [h, this]
  cases ha : inv.any (fun it => it.InstanceId == X.InstanceId) with
  | false =>
    have hn : inv.find? (fun it => it.InstanceId == X.InstanceId) = none := by
      rw [List.find?_eq_none]
      intro x hx
      rw [List.any_eq_false] at ha
      exact ha x hx
    simp [hn]
  | true =>
    have hne : ((X.InstanceId : Int) ≠ INDEX_NONE) := by
      unfold INDEX_NONE
      omega
    simp only [if_true, ne_eq, hne, not_false_eq_true, true_and, hp]
    cases hf : inv.find? (fun it => it.InstanceId == X.InstanceId) with
    | none =>
      rw [List.find?_eq_none] at hf
      rw [List.any_eq_true] at ha
      obtain ⟨x, hx, hxe⟩ := ha
      exact absurd hxe (hf x hx)
    | some y => simp

theorem keyedInventory_WellBehaved (Capacity : Nat) : WellBehaved (keyedInventory Capacity) := by
  refine ⟨?_, ?_, ?_, ?_, ?_, ?_, ?_⟩
  · intro inv Item h
    simp only [keyedInventory] at h ⊢
    split at h
    · cases h
    · rename_i hc
      simp [hc]
  · intro inv id h
    simp only [keyedInventory] at h ⊢
    split at h
    · cases h
    · rename_i hc
      simp [hc]
  · intro inv Item h
    rw [keyedInventory_InInventory]
    simp only [keyedInventory] at h ⊢
    split at h
    · rename_i hc
      simp [hc]
    · cases h
  · intro inv Item X h hne
    rw [keyedInventory_InInventory, keyedInventory_InInventory]
    simp only [keyedInventory] at h ⊢
    split at h
    · rename_i hc
      have : (Item.InstanceId == X.InstanceId) = false := by
        simp only [beq_eq_false_iff_ne, ne_eq]
        exact fun e => hne e.symm
      simp [hc, List.find?_cons, this]
    · cases h
  · intro inv id X h hX
    rw [keyedInventory_InInventory]
    simp only [keyedInventory] at h ⊢
    split at h
    · rename_i hc
      simp only [hc, if_true, List.find?_filter]
      have : inv.find? (fun a =>
          decide ((a.InstanceId != id) = true ∧ (a.InstanceId == X.InstanceId) = true))
          = none := by
        rw [List.find?_eq_none]
        intro x _
        simp [hX]
      rw [this]
      simp
    · cases h
  · intro inv id X h hX
    rw [keyedInventory_InInventory, keyedInventory_InInventory]
    simp only [keyedInventory] at h ⊢
    split at h
    · rename_i hc
      simp only [hc, if_true, List.find?_filter]
      have : (fun (a : FItemInstance) =>
          decide ((a.InstanceId != id) = true ∧ (a.InstanceId == X.InstanceId) = true))
          = (fun a => a.InstanceId == X.InstanceId) := by
        funext a
        by_cases e : a.InstanceId = X.InstanceId
        · simp [e, hX]
        · simp [e]
      rw [this]
    · cases h
  · intro inv id h
    simp only [keyedInventory] at h ⊢
    split at h
    · rename_i hc
      simp only [hc, if_true]
      cases hf : inv.find? (fun it => (it.InstanceId : Int) == (id : Int)) with
      | none =>
        rw [List.find?_eq_none] at hf
        rw [List.any_eq_true] at hc
        obtain ⟨x, hx, hxe⟩ := hc
        have := hf x hx
        simp only [beq_iff_eq] at hxe
        simp [hxe] at this
      | some y =>
        have := List.find?_some hf
        simp only [beq_iff_eq] at this
        simp only [Option.getD_some]
        exact Int.ofNat.inj this
    · exact absurd rfl h


theorem InSlot_of_Logical_eq (m m1 : Manager) (t : FGameplayTag) (X : FItemInstance)
    (h : m1.Logical = m.Logical) : InSlot m1 t X ↔ InSlot m t X := by
  obtain ⟨h1, h2⟩ := queries_of_Logical_eq m m1 t h
  unfold InSlot
  rw [h1, h2]

theorem InSlot_of_occupied (m : Manager) (t : FGameplayTag)
    (h : IsSlotOccupied m t = true) : InSlot m t (GetEquippedItem m t) := ⟨h, rfl⟩

theorem not_InSlot_of_empty (m : Manager) (t : FGameplayTag) (X : FItemInstance)
    (h : IsSlotOccupied m t = false) : ¬ InSlot m t X := by
  intro hX
  rw [hX.1] at h
  cases h

theorem not_InSlot_of_other (m : Manager) (t : FGameplayTag) (X Y : FItemInstance)
    (h : GetEquippedItem m t = Y) (hne : X.InstanceId ≠ Y.InstanceId) : ¬ InSlot m t X := by
  intro hX
  rw [hX.2] at h
  exact hne (by rw [h])

/-- The item an inventory finds for an instance id is in the inventory, when the
inventory is well behaved. -/
theorem InInventory_of_found {Inv : Type} (I : UInventoryComponent Inv) (hW : WellBehaved I)
    (inv : Inv) (id : Nat) (h : I.FindSlotIndexByInstanceId inv id ≠ INDEX_NONE) :
    InInventory I inv (I.GetItemInSlot inv (I.FindSlotIndexByInstanceId inv id)) := by
  unfold InInventory
  rw [hW.found_id inv id h]
  exact ⟨h, rfl⟩

/-- The conservation of the requested item and of the prior occupant by
`TryEquipFromInventory`. -/
theorem TryEquipFromInventory_conserves {Inv : Type} (I : UInventoryComponent Inv)
    (w : World) (m : Manager) (inv : Inv) (ItemInstanceId : Nat) (SlotTag T : FGameplayTag)
    (New : FItemInstance) (hA : w.HasAuthority = true) (hW : WellBehaved I)
    (hNew : I.GetItemInSlot inv (I.FindSlotIndexByInstanceId inv ItemInstanceId) = New)
    (hT : ResolvedSlotTag w m New SlotTag = T)
    (hfound : I.FindSlotIndexByInstanceId inv ItemInstanceId ≠ INDEX_NONE)
    (hOne : IsSlotOccupied m T = true →
      New.InstanceId ≠ (GetEquippedItem m T).InstanceId
        ∧ ¬ InInventory I inv (GetEquippedItem m T)) :
    ∃ inv', (TryEquipFromInventory I w m ItemInstanceId (some inv) SlotTag).2.2 = some inv'
      ∧ ExactlyOnePlace I (TryEquipFromInventory I w m ItemInstanceId (some inv) SlotTag).2.1
          inv' T New
      ∧ (IsSlotOccupied m T = true →
          ExactlyOnePlace I (TryEquipFromInventory I w m ItemInstanceId (some inv) SlotTag).2.1
            inv' T (GetEquippedItem m T)) := by
  subst hNew
  have hNewIn := InInventory_of_found I hW inv ItemInstanceId hfound
  have hId := hW.found_id inv ItemInstanceId hfound
  have hNewNotSlot : ¬ InSlot m T
      (I.GetItemInSlot inv (I.FindSlotIndexByInstanceId inv ItemInstanceId)) := by
    cases ho : IsSlotOccupied m T with
    | false => exact not_InSlot_of_empty m T _ ho
    | true => exact not_InSlot_of_other m T _ _ rfl (hOne ho).1
  -- the outcomes that leave the logical table and the inventory as they were
  have hunch : ∀ (r : EEquipmentResult) (m1 : Manager) (inv1 : Inv),
      m1.Logical = m.Logical → inv1 = inv →
      ∃ inv', (r, m1, some inv1).2.2 = some inv'
        ∧ ExactlyOnePlace I (r, m1, some inv1).2.1 inv' T
            (I.GetItemInSlot inv (I.FindSlotIndexByInstanceId inv ItemInstanceId))
        ∧ (IsSlotOccupied m T = true →
            ExactlyOnePlace I (r, m1, some inv1).2.1 inv' T (GetEquippedItem m T)) := by
    intro r m1 inv1 hL hinv
    subst hinv
    refine ⟨inv1, rfl, Or.inr ⟨?_, hNewIn⟩, fun ho => Or.inl ⟨?_, (hOne ho).2⟩⟩
    · rw [InSlot_of_Logical_eq m m1 T _ hL]
      exact hNewNotSlot
    · rw [InSlot_of_Logical_eq m m1 T _ hL]
      exact InSlot_of_occupied m T ho
  cases htv : T.IsValid with
  | false =>
    rw [← hT] at htv
    obtain ⟨hst, hft⟩ := ResolvedSlotTag_invalid _ _ _ _ htv
    have hE : TryEquipFromInventory I w m ItemInstanceId (some inv) SlotTag
        = (EEquipmentResult.IncompatibleSlot, m, some inv) := by
      unfold TryEquipFromInventory
      simp [hfound, hst, hft]
    rw [hE]
    exact hunch _ m inv rfl rfl
  | true =>
    rw [TryEquipFromInventory_resolved I w m ItemInstanceId inv SlotTag T _ rfl hT htv]
    by_cases hV : ValidateEquip w m
        (I.GetItemInSlot inv (I.FindSlotIndexByInstanceId inv ItemInstanceId)) T
          = EEquipmentResult.Success
    · obtain ⟨Slot0, hs0⟩ := ValidateEquip_Success_FindSlot w m _ T hV
      by_cases ho : ∃ s, FindSlot m T = some s ∧ s.bIsOccupied = true
      · obtain ⟨s, hs, hso⟩ := ho
        obtain ⟨hocc, hget⟩ := queries_of_occupied m T s hs hso
        obtain ⟨hne, hOldOut⟩ := hOne hocc
        rw [hget] at hne hOldOut
        simp only [hget] at hunch
        rw [TryEquipFromInventory_occupied I w m ItemInstanceId inv T _ s hA hfound rfl
          htv hV hs hso, hget]
        split
        · exact hunch EEquipmentResult.Failed m inv rfl rfl
        · split
          · rename_i hadd
            exact hunch EEquipmentResult.Failed _ _ (rollback_Logical w m T s hs hso)
              (hW.add_failed inv s.EquippedItem hadd)
          · rename_i hadd
            have hadd : (I.TryAddItem inv s.EquippedItem).1 = true := by
              simpa using hadd
            have hOldIn := hW.add_success inv s.EquippedItem hadd
            have hNewIn1 := (hW.add_others inv s.EquippedItem _ hadd hne).mpr hNewIn
            split
            · rename_i hrem
              have hL := Internal_Equip_after_Unequip_Logical w m
                (I.GetItemInSlot inv (I.FindSlotIndexByInstanceId inv ItemInstanceId)) T
              obtain ⟨hq1, hq2⟩ := queries_after_set m _ T _ s hs hL
              refine ⟨_, rfl, Or.inl ⟨⟨hq1, hq2⟩, hW.remove_success _ _ _ hrem hId⟩,
                fun _ => Or.inr ⟨not_InSlot_of_other _ T _ _ hq2 (fun e => hne e.symm), ?_⟩⟩
              rw [hW.remove_others _ _ _ hrem (by rw [← hId]; exact fun e => hne e.symm)]
              exact hOldIn
            · rename_i hrem
              have hrem : (I.TryRemoveItem (I.TryAddItem inv s.EquippedItem).2
                  ItemInstanceId).1 = false := by simpa using hrem
              have hE := hW.remove_failed _ _ hrem
              have hq := queries_after_clear m (Internal_Unequip w m T).2 T
                (Internal_Unequip_occupied w m T s hs hso).2
              refine ⟨_, rfl, Or.inr ⟨not_InSlot_of_empty _ T _ hq.1, ?_⟩,
                fun _ => Or.inr ⟨not_InSlot_of_empty _ T _ hq.1, ?_⟩⟩
              · rw [hE]
                exact hNewIn1
              · rw [hE]
                exact hOldIn
      · have hempty : ∀ s, FindSlot m T = some s → s.bIsOccupied = false := by
          intro s hs
          cases hb : s.bIsOccupied with
          | false => rfl
          | true => exact absurd ⟨s, hs, hb⟩ ho
        have hocc : IsSlotOccupied m T = false := by
          cases hb : IsSlotOccupied m T with
          | false => rfl
          | true => exact absurd ((IsSlotOccupied_iff m T).mp hb) ho
        rw [TryEquipFromInventory_empty I w m ItemInstanceId inv T _ hA hfound rfl htv
          hV hempty]
        split
        · rename_i hrem
          obtain ⟨hq1, hq2⟩ := queries_after_set m _ T _ Slot0 hs0
            (Internal_Equip_Logical w m
              (I.GetItemInSlot inv (I.FindSlotIndexByInstanceId inv ItemInstanceId)) T)
          refine ⟨_, rfl, Or.inl ⟨⟨hq1, hq2⟩, hW.remove_success _ _ _ hrem hId⟩, ?_⟩
          intro h
          rw [hocc] at h
          cases h
        · rename_i hrem
          have hrem : (I.TryRemoveItem inv ItemInstanceId).1 = false := by simpa using hrem
          exact hunch _ m _ rfl (hW.remove_failed _ _ hrem)
    · have hE : TryEquipFromInventory I w m ItemInstanceId (some inv) T
          = (ValidateEquip w m
              (I.GetItemInSlot inv (I.FindSlotIndexByInstanceId inv ItemInstanceId)) T,
              m, some inv) := by
        unfold TryEquipFromInventory
        simp [hfound, htv, hV]
      rw [hE]
      exact hunch _ m inv rfl rfl


/-- C40. Item conservation in the inventory-integrated operations. On the
authoritative node, with a well-behaved inventory (a failed add or remove leaves
it unchanged, a successful one moves exactly the item concerned), for every
input and every outcome of `TryEquipFromInventory` and `TryUnequipToInventory`,
each item involved that was in exactly one place before (the requested item, in
the inventory; the prior occupant of the slot, in the slot; the two of
distinct instance ids) ends in exactly one place, the equipment slot or the inventory,
never in both and never in neither, with all its fields unchanged. When the
requested item is not in the inventory, nothing changes. -/
theorem C40_item_conservation (Inv : Type) (I : UInventoryComponent Inv) (w : World)
    (m : Manager) (inv : Inv) (hA : w.HasAuthority = true) (hW : WellBehaved I) :
    (∀ (ItemInstanceId : Nat) (SlotTag T : FGameplayTag) (New : FItemInstance),
        I.GetItemInSlot inv (I.FindSlotIndexByInstanceId inv ItemInstanceId) = New →
        ResolvedSlotTag w m New SlotTag = T →
        I.FindSlotIndexByInstanceId inv ItemInstanceId ≠ INDEX_NONE →
        (IsSlotOccupied m T = true →
          New.InstanceId ≠ (GetEquippedItem m T).InstanceId
            ∧ ¬ InInventory I inv (GetEquippedItem m T)) →
        ∃ inv', (TryEquipFromInventory I w m ItemInstanceId (some inv) SlotTag).2.2 = some inv'
          ∧ ExactlyOnePlace I
              (TryEquipFromInventory I w m ItemInstanceId (some inv) SlotTag).2.1 inv' T New
          ∧ (IsSlotOccupied m T = true →
              ExactlyOnePlace I
                (TryEquipFromInventory I w m ItemInstanceId (some inv) SlotTag).2.1 inv' T
                (GetEquippedItem m T)))
      ∧ (∀ (ItemInstanceId : Nat) (SlotTag : FGameplayTag),
          I.FindSlotIndexByInstanceId inv ItemInstanceId = INDEX_NONE →
          (TryEquipFromInventory I w m ItemInstanceId (some inv) SlotTag).2 = (m, some inv))
      ∧ (∀ (tag : FGameplayTag), IsSlotOccupied m tag = true →
          ¬ InInventory I inv (GetEquippedItem m tag) →
          ∃ inv', (TryUnequipToInventory I w m tag (some inv)).2.2 = some inv'
            ∧ ExactlyOnePlace I (TryUnequipToInventory I w m tag (some inv)).2.1 inv' tag
                (GetEquippedItem m tag)) := by
  refine ⟨?_, ?_, ?_⟩
  · intro ItemInstanceId SlotTag T New hNew hT hfound hOne
    exact TryEquipFromInventory_conserves I w m inv ItemInstanceId SlotTag T New hA hW hNew hT
      hfound hOne
  · intro ItemInstanceId SlotTag h
    unfold TryEquipFromInventory
    simp [h]
  · intro tag hocc hOut
    obtain ⟨s, hs, hso⟩ := (IsSlotOccupied_iff m tag).mp hocc
    obtain ⟨_, hget⟩ := queries_of_occupied m tag s hs hso
    have hold := (Internal_Unequip_occupied w m tag s hs hso).1
    rw [hget] at hOut ⊢
    cases hc : I.CanAcceptItem inv s.EquippedItem with
    | false =>
      have hE : TryUnequipToInventory I w m tag (some inv)
          = (EEquipmentResult.NoInventorySpace, m, some inv) := by
        unfold TryUnequipToInventory
        simp [hs, hso, hc]
      rw [hE]
      exact ⟨inv, rfl, Or.inl ⟨hget ▸ InSlot_of_occupied m tag hocc, hOut⟩⟩
    | true =>
      cases hadd : (I.TryAddItem inv s.EquippedItem).1 with
      | false =>
        have hE : TryUnequipToInventory I w m tag (some inv)
            = (EEquipmentResult.NoInventorySpace,
                (Internal_Equip w (Internal_Unequip w m tag).2 s.EquippedItem tag).emit
                  [Event.LogError],
                some (I.TryAddItem inv s.EquippedItem).2) := by
          unfold TryUnequipToInventory
          simp [hs, hso, hc, hA, hold, hadd]
        rw [hE]
        refine ⟨_, rfl, Or.inl ⟨?_, ?_⟩⟩
        · rw [InSlot_of_Logical_eq m _ tag _
            (by rw [emit_Logical]; exact rollback_Logical w m tag s hs hso)]
          exact hget ▸ InSlot_of_occupied m tag hocc
        · show ¬ InInventory I (I.TryAddItem inv s.EquippedItem).2 s.EquippedItem
          rw [hW.add_failed inv s.EquippedItem hadd]
          exact hOut
      | true =>
        have hE : TryUnequipToInventory I w m tag (some inv)
            = (EEquipmentResult.Success, (Internal_Unequip w m tag).2,
                some (I.TryAddItem inv s.EquippedItem).2) := by
          unfold TryUnequipToInventory
          simp [hs, hso, hc, hA, hold, hadd]
        rw [hE]
        have hq := queries_after_clear m (Internal_Unequip w m tag).2 tag
          (Internal_Unequip_occupied w m tag s hs hso).2
        exact ⟨_, rfl, Or.inr ⟨not_InSlot_of_empty _ tag _ hq.1,
          hW.add_success inv s.EquippedItem hadd⟩⟩

/-- C40 at a concrete input: the second sword, held by the keyed inventory, is
equipped into the main hand that holds the first sword; afterwards the second
sword is in the slot only and the first sword in the inventory only. -/
theorem C40_item_conservation_witness :
    ∃ inv', (TryEquipFromInventory (keyedInventory 4) serverWorld swordManager 8
        (some [itemSword2]) tagMainHand).2.2 = some inv'
      ∧ ExactlyOnePlace (keyedInventory 4)
          (TryEquipFromInventory (keyedInventory 4) serverWorld swordManager 8
            (some [itemSword2]) tagMainHand).2.1 inv' tagMainHand itemSword2
      ∧ (IsSlotOccupied swordManager tagMainHand = true →
          ExactlyOnePlace (keyedInventory 4)
            (TryEquipFromInventory (keyedInventory 4) serverWorld swordManager 8
              (some [itemSword2]) tagMainHand).2.1 inv' tagMainHand
            (GetEquippedItem swordManager tagMainHand)) :=
  (C40_item_conservation (List FItemInstance) (keyedInventory 4) serverWorld swordManager
    [itemSword2] rfl (keyedInventory_WellBehaved 4)).1 8 tagMainHand tagMainHand itemSword2
    (by decide) (by decide) (by decide) (fun _ => ⟨by decide, by decide⟩)


/-! ## Client reconciliation: claim C38 -/

theorem OnRep_step_Logical (w : World) (m : Manager) (i : Nat) :
    (OnRep_step w m i).Logical = m.Logical := by
  unfold OnRep_step
  cases m.EquipmentSlots[i]? with
  | none => rfl
  | some Slot =>
    simp only
    split
    · exact ApplyVisuals_Logical w m _ _
    · split
      · exact RemoveVisuals_Logical w m _
      · rfl

theorem foldl_OnRep_step_Logical (w : World) (l : List Nat) :
    ∀ m : Manager, (l.foldl (OnRep_step w) m).Logical = m.Logical := by
  induction l with
  | nil => intro m; rfl
  | cons i l ih =>
    intro m
    rw [List.foldl_cons, ih, OnRep_step_Logical]

/-- The visual helpers emit no equipment-changed notification. -/
theorem ApplyVisuals_no_changed (w : World) (m : Manager) (Item : FItemInstance)
    (t : FGameplayTag) :
    ∃ es, (ApplyVisuals w m Item t).Trace = m.Trace ++ es
      ∧ Event.OnEquipmentChanged ∉ es := by
  cases hs : FindSlot m t with
  | none =>
    refine ⟨[], ?_, by simp⟩
    unfold ApplyVisuals
    simp only [hs]
    repeat' split
    all_goals simp
  | some Slot =>
    rw [ApplyVisuals_eq w m Item t Slot hs]
    refine ⟨_, rfl, ?_⟩
    unfold ApplyVisualsEffects cancelEffects
    cases MeshToLoad w Item <;> cases Slot.MeshLoadHandle <;> simp

theorem RemoveVisuals_no_changed (w : World) (m : Manager) (t : FGameplayTag) :
    ∃ es, (RemoveVisuals w m t).Trace = m.Trace ++ es
      ∧ Event.OnEquipmentChanged ∉ es := by
  cases hs : FindSlot m t with
  | none =>
    refine ⟨[], ?_, by simp⟩
    unfold RemoveVisuals
    simp only [hs, List.append_nil]
  | some Slot =>
    rw [RemoveVisuals_eq w m t Slot hs]
    refine ⟨_, rfl, ?_⟩
    unfold RemoveVisualsEffects cancelEffects destroyEffects unlinkEffects
    cases Slot.MeshLoadHandle <;> cases Slot.AttachedVisualComponent <;>
      cases Slot.bIsOccupied <;> cases GetEquipmentFragment w Slot.EquippedItem <;>
      simp
    all_goals (split <;> try split) <;> simp

theorem OnRep_step_no_changed (w : World) (m : Manager) (i : Nat) :
    ∃ es, (OnRep_step w m i).Trace = m.Trace ++ es
      ∧ Event.OnEquipmentChanged ∉ es := by
  unfold OnRep_step
  cases m.EquipmentSlots[i]? with
  | none => exact ⟨[], by simp, by simp⟩
  | some Slot =>
    simp only
    split
    · exact ApplyVisuals_no_changed w m _ _
    · split
      · exact RemoveVisuals_no_changed w m _
      · exact ⟨[], by simp, by simp⟩

theorem foldl_OnRep_step_no_changed (w : World) (l : List Nat) :
    ∀ m : Manager, ∃ es, (l.foldl (OnRep_step w) m).Trace = m.Trace ++ es
      ∧ Event.OnEquipmentChanged ∉ es := by
  induction l with
  | nil => intro m; exact ⟨[], by simp, by simp⟩
  | cons i l ih =>
    intro m
    obtain ⟨es1, h1, n1⟩ := OnRep_step_no_changed w m i
    obtain ⟨es2, h2, n2⟩ := ih (OnRep_step w m i)
    refine ⟨es1 ++ es2, ?_, ?_⟩
    · rw [List.foldl_cons, h2, h1, List.append_assoc]
    · simp [n1, n2]


theorem find_append_of_no_tag (pre l : List FEquipmentSlot) (t : FGameplayTag)
    (h : ∀ s ∈ pre, s.SlotTag ≠ t) :
    (pre ++ l).find? (fun s => s.SlotTag == t) = l.find? (fun s => s.SlotTag == t) := by
  induction pre with
  | nil => rfl
  | cons a pre ih =>
    have ha : (a.SlotTag == t) = false := by
      simp only [beq_eq_false_iff_ne, ne_eq]
      exact h a (List.mem_cons_self _ _)
    simp only [List.cons_append, List.find?_cons, ha]
    exact ih (fun s hs => h s (List.mem_cons_of_mem _ hs))

theorem modifySlot_append_of_no_tag (pre l : List FEquipmentSlot) (t : FGameplayTag)
    (f : FEquipmentSlot → FEquipmentSlot) (h : ∀ s ∈ pre, s.SlotTag ≠ t) :
    modifySlot t f (pre ++ l) = pre ++ modifySlot t f l := by
  induction pre with
  | nil => rfl
  | cons a pre ih =>
    have ha : (a.SlotTag == t) = false := by
      simp only [beq_eq_false_iff_ne, ne_eq]
      exact h a (List.mem_cons_self _ _)
    have ih' := ih (fun s hs => h s (List.mem_cons_of_mem _ hs))
    simp only [List.cons_append, modifySlot, ha, Bool.false_eq_true, if_false]
    exact congrArg (List.cons a) ih'

/-- One turn of the loop of `OnRep_EquipmentSlots`, at the first slot not yet
done, when no slot before it has its tag: the slot is reconciled by its own
state. -/
theorem OnRep_step_reconcileSlot (w : World) (acc : Manager) (Slot : FEquipmentSlot)
    (post : List FEquipmentSlot)
    (h : ∀ s ∈ acc.EquipmentSlots, s.SlotTag ≠ Slot.SlotTag) :
    OnRep_step w { acc with EquipmentSlots := acc.EquipmentSlots ++ Slot :: post }
        acc.EquipmentSlots.length
      = { reconcileSlot w acc Slot with
          EquipmentSlots := (reconcileSlot w acc Slot).EquipmentSlots ++ post } := by
  have hfind : FindSlot { acc with EquipmentSlots := acc.EquipmentSlots ++ Slot :: post }
      Slot.SlotTag = some Slot := by
    unfold FindSlot
    simp only
    rw [find_append_of_no_tag _ _ _ h]
    simp [List.find?_cons]
  have hmod : ∀ f : FEquipmentSlot → FEquipmentSlot,
      modifySlot Slot.SlotTag f (acc.EquipmentSlots ++ Slot :: post)
        = acc.EquipmentSlots ++ f Slot :: post := by
    intro f
    rw [modifySlot_append_of_no_tag _ _ _ _ h]
    simp [modifySlot]
  unfold OnRep_step reconcileSlot
  simp only [List.getElem?_append_right (Nat.le_refl _), Nat.sub_self, List.getElem?_cons_zero]
  split
  · rw [ApplyVisuals_eq w _ _ _ Slot hfind]
    simp only [hmod, List.append_assoc, List.singleton_append]
  · split
    · rw [RemoveVisuals_eq w _ _ Slot hfind]
      simp only [Manager.writeSlot, Manager.emit, hmod, List.append_assoc,
        List.singleton_append]
    · simp only [List.append_assoc, List.singleton_append]

theorem reconcileSlot_tags (w : World) (acc : Manager) (Slot : FEquipmentSlot) :
    (reconcileSlot w acc Slot).EquipmentSlots.map (fun s => s.SlotTag)
      = acc.EquipmentSlots.map (fun s => s.SlotTag) ++ [Slot.SlotTag] := by
  unfold reconcileSlot
  split
  · simp [setLoadHandle_SlotTag]
  · split
    · simp [clearVisuals]
    · simp

/-- One turn of the loop of `OnRep_EquipmentSlots` at a slot that is unoccupied and
has no visual component: nothing changes. -/
theorem OnRep_step_idle (w : World) (acc : Manager) (Slot : FEquipmentSlot)
    (post : List FEquipmentSlot) (ho : Slot.bIsOccupied = false)
    (hv : Slot.AttachedVisualComponent = none) :
    OnRep_step w { acc with EquipmentSlots := acc.EquipmentSlots ++ Slot :: post }
        acc.EquipmentSlots.length
      = { reconcileSlot w acc Slot with
          EquipmentSlots := (reconcileSlot w acc Slot).EquipmentSlots ++ post } := by
  unfold OnRep_step reconcileSlot
  simp only [List.getElem?_append_right (Nat.le_refl _), Nat.sub_self, List.getElem?_cons_zero]
  simp [ho, hv]

/-- When every slot is the first of its tag or idle, the loop of
`OnRep_EquipmentSlots` over the slots not yet done reconciles each of them by
its own state. -/
theorem foldl_OnRep_step_reconcile (w : World) (post : List FEquipmentSlot) :
    ∀ acc : Manager,
      (∀ p1 s p2, post = p1 ++ s :: p2 →
        (∀ t ∈ (acc.EquipmentSlots ++ p1).map (fun x => x.SlotTag), t ≠ s.SlotTag)
          ∨ (s.bIsOccupied = false ∧ s.AttachedVisualComponent = none)) →
      (List.range' acc.EquipmentSlots.length post.length).foldl (OnRep_step w)
          { acc with EquipmentSlots := acc.EquipmentSlots ++ post }
        = reconcileSlots w acc post := by
  induction post with
  | nil =>
    intro acc _
    cases acc
    simp [reconcileSlots]
  | cons Slot post ih =>
    intro acc hfi
    have hstep : OnRep_step w { acc with EquipmentSlots := acc.EquipmentSlots ++ Slot :: post }
        acc.EquipmentSlots.length
      = { reconcileSlot w acc Slot with
          EquipmentSlots := (reconcileSlot w acc Slot).EquipmentSlots ++ post } := by
      rcases hfi [] Slot post rfl with h | ⟨ho, hv⟩
      · apply OnRep_step_reconcileSlot w acc Slot post
        intro x hx
        apply h
        simp only [List.append_nil, List.mem_map]
        exact ⟨x, hx, rfl⟩
      · exact OnRep_step_idle w acc Slot post ho hv
    have hlen : (reconcileSlot w acc Slot).EquipmentSlots.length
        = acc.EquipmentSlots.length + 1 := by
      have := congrArg List.length (reconcileSlot_tags w acc Slot)
      simpa using this
    have hfi' : ∀ p1 s p2, post = p1 ++ s :: p2 →
        (∀ t ∈ ((reconcileSlot w acc Slot).EquipmentSlots ++ p1).map (fun x => x.SlotTag),
            t ≠ s.SlotTag)
          ∨ (s.bIsOccupied = false ∧ s.AttachedVisualComponent = none) := by
      intro p1 s p2 hp
      rcases hfi (Slot :: p1) s p2 (by rw [hp]; rfl) with h | h
      · left
        intro t ht
        apply h
        rw [List.map_append, reconcileSlot_tags] at ht
        simpa [List.map_append, List.append_assoc] using ht
      · exact Or.inr h
    have hih := ih (reconcileSlot w acc Slot) hfi'
    rw [hlen] at hih
    simp only [List.length_cons, List.range'_succ, List.foldl_cons]
    rw [hstep, hih]
    rfl

/-- When every slot is the first of its tag or idle, `OnRep_EquipmentSlots`
reconciles each slot by its own state and then notifies the change. -/
theorem OnRep_EquipmentSlots_eq (w : World) (m : Manager)
    (hfi : FirstOrIdle m.EquipmentSlots) :
    OnRep_EquipmentSlots w m = (reconcile w m).emit [Event.OnEquipmentChanged] := by
  unfold OnRep_EquipmentSlots reconcile
  have := foldl_OnRep_step_reconcile w m.EquipmentSlots { m with EquipmentSlots := [] }
    (by
      intro p1 s p2 hp
      rcases hfi p1 s p2 hp with h | h
      · left
        intro t ht
        simp only [List.nil_append, List.mem_map] at ht
        obtain ⟨x, hx, rfl⟩ := ht
        exact h x hx
      · exact Or.inr h)
  simp only [List.length_nil, List.nil_append] at this
  rw [List.range_eq_range', this]

/-- A table with pairwise distinct tags has every slot first of its tag. -/
theorem FirstOrIdle_of_Nodup (Slots : List FEquipmentSlot)
    (hnd : (Slots.map (fun s => s.SlotTag)).Nodup) : FirstOrIdle Slots := by
  intro pre s post hS
  left
  intro x hx e
  rw [hS, List.map_append, List.map_cons, List.nodup_append] at hnd
  exact hnd.2.2 (List.mem_map_of_mem _ hx) (by rw [e]; exact List.mem_cons_self _ _)

/-- After the reconciliation of a list of slots no unoccupied slot has a visual
component, if that is so for the slots done before. -/
theorem reconcileSlots_no_visual (w : World) (Slots : List FEquipmentSlot) :
    ∀ acc : Manager,
      (∀ s ∈ acc.EquipmentSlots, s.bIsOccupied = false → s.AttachedVisualComponent = none) →
      ∀ s ∈ (reconcileSlots w acc Slots).EquipmentSlots,
        s.bIsOccupied = false → s.AttachedVisualComponent = none := by
  induction Slots with
  | nil => intro acc h; exact h
  | cons Slot Slots ih =>
    intro acc h
    apply ih (reconcileSlot w acc Slot)
    intro s hs ho
    unfold reconcileSlot at hs
    split at hs
    · rename_i hc
      simp only [List.mem_append, List.mem_singleton] at hs
      rcases hs with hs | hs
      · exact h s hs ho
      · subst hs
        simp only [Bool.and_eq_true] at hc
        unfold setLoadHandle at ho
        cases hM : MeshToLoad w Slot.EquippedItem <;> simp [hM, hc.1] at ho
    · split at hs
      · simp only [List.mem_append, List.mem_singleton] at hs
        rcases hs with hs | hs
        · exact h s hs ho
        · subst hs
          rfl
      · rename_i hc1 hc2
        simp only [List.mem_append, List.mem_singleton] at hs
        rcases hs with hs | hs
        · exact h s hs ho
        · subst hs
          cases hv : s.AttachedVisualComponent with
          | none => rfl
          | some c => simp [ho, hv] at hc2


/-! ## Every operation is a sequence of internal moves -/

/-- After `Internal_Unequip` the slot of the tag is not occupied. -/
theorem IsSlotOccupied_after_unequip (w : World) (m : Manager) (T : FGameplayTag) :
    IsSlotOccupied (Internal_Unequip w m T).2 T = false := by
  by_cases h : ∃ s, FindSlot m T = some s ∧ s.bIsOccupied = true
  · obtain ⟨s, hs, ho⟩ := h
    exact (queries_after_clear m _ T (Internal_Unequip_occupied w m T s hs ho).2).1
  · have hidle : ∀ s, FindSlot m T = some s → s.bIsOccupied = false := by
      intro s hs
      cases hb : s.bIsOccupied with
      | false => rfl
      | true => exact absurd ⟨s, hs, hb⟩ h
    rw [Internal_Unequip_idle w m T hidle]
    cases hb : IsSlotOccupied m T with
    | false => rfl
    | true => exact absurd ((IsSlotOccupied_iff m T).mp hb) h

theorem Moves_unequip (w : World) (m : Manager) (T : FGameplayTag) :
    Moves w m (Internal_Unequip w m T).2 :=
  Moves.unequip m T Moves.refl

/-- The swap and the rollback: unequip, then equip into the emptied slot. -/
theorem Moves_swap (w : World) (m : Manager) (X : FItemInstance) (T : FGameplayTag) :
    Moves w m (Internal_Equip w (Internal_Unequip w m T).2 X T) :=
  Moves.equip _ X T (Moves_unequip w m T) (IsSlotOccupied_after_unequip w m T)

theorem Moves_notice (w : World) (m : Manager) (e : Event) (h : IsNotice e = true) :
    Moves w m (m.emit [e]) :=
  Moves.notice m [e] Moves.refl (fun x hx => by
    rw [List.mem_singleton] at hx
    rw [hx]
    exact h)

theorem Moves_equip_empty (w : World) (m : Manager) (X : FItemInstance) (T : FGameplayTag)
    (h : ¬ ∃ s, FindSlot m T = some s ∧ s.bIsOccupied = true) :
    Moves w m (Internal_Equip w m X T) := by
  apply Moves.equip m X T Moves.refl
  cases hb : IsSlotOccupied m T with
  | false => rfl
  | true => exact absurd ((IsSlotOccupied_iff m T).mp hb) h

/-- `TryEquipToSlot` is a sequence of internal moves, for any reference. -/
theorem TryEquipToSlot_Moves (w : World) (m : Manager) (Item : ItemRef)
    (T : FGameplayTag) : Moves w m (TryEquipToSlot w m Item T).2 := by
  rw [TryEquipToSlot_eq]
  split
  · exact Moves.refl
  · split
    · exact Moves_notice w m _ rfl
    · exact Moves_swap w m _ T

theorem TryEquip_Moves (w : World) (m : Manager) (Item : ItemRef) :
    Moves w m (TryEquip w m Item).2 := by
  rw [TryEquip_eq]
  split
  · exact Moves.refl
  · exact TryEquipToSlot_Moves w m Item _

theorem TryUnequip_Moves (w : World) (m : Manager) (T : FGameplayTag)
    (OutItem : FItemInstance) : Moves w m (TryUnequip w m T (ItemRef.Local OutItem)).2.2 := by
  cases hA : w.HasAuthority with
  | false =>
    rw [TryUnequip_client w m T OutItem hA]
    split
    · exact Moves_notice w m _ rfl
    · exact Moves.refl
  | true =>
    rw [TryUnequip_server w m T OutItem hA]
    split
    · exact Moves_unequip w m T
    · exact Moves.refl

theorem ServerRPC_RequestEquip_Moves (w : World) (m : Manager) (Item : FItemInstance)
    (T : FGameplayTag) : Moves w m (ServerRPC_RequestEquip w m Item T) := by
  unfold ServerRPC_RequestEquip
  by_cases hV : ValidateEquip w m Item T = EEquipmentResult.Success
  · simp only [hV, ne_eq, not_true_eq_false, if_false]
    rw [guarded_unequip_eq]
    exact Moves_swap w m Item T
  · simp only [hV, ne_eq, not_false_eq_true, if_true]
    exact Moves_notice w m _ rfl

theorem ServerRPC_RequestUnequip_Moves (w : World) (m : Manager) (T : FGameplayTag) :
    Moves w m (ServerRPC_RequestUnequip w m T) := by
  rw [ServerRPC_RequestUnequip_eq]
  split
  · exact Moves_unequip w m T
  · exact Moves_notice w m _ rfl

theorem TryEquipFromInventory_Moves {Inv : Type} (I : UInventoryComponent Inv)
    (w : World) (m : Manager) (ItemInstanceId : Nat) (SourceInventory : Option Inv)
    (SlotTag : FGameplayTag) :
    Moves w m (TryEquipFromInventory I w m ItemInstanceId SourceInventory SlotTag).2.1 := by
  cases SourceInventory with
  | none => exact Moves.refl
  | some inv =>
    by_cases hfound : I.FindSlotIndexByInstanceId inv ItemInstanceId = INDEX_NONE
    · unfold TryEquipFromInventory
      simp only [hfound, if_true]
      exact Moves.refl
    · cases htv : (ResolvedSlotTag w m
          (I.GetItemInSlot inv (I.FindSlotIndexByInstanceId inv ItemInstanceId))
          SlotTag).IsValid with
      | false =>
        obtain ⟨hst, hft⟩ := ResolvedSlotTag_invalid _ _ _ _ htv
        unfold TryEquipFromInventory
        simp only [hfound, hst, hft, if_false, Bool.not_false, if_true]
        exact Moves.refl
      | true =>
        rw [TryEquipFromInventory_resolved I w m ItemInstanceId inv SlotTag _ _ rfl rfl htv]
        generalize ResolvedSlotTag w m
          (I.GetItemInSlot inv (I.FindSlotIndexByInstanceId inv ItemInstanceId)) SlotTag = T
          at htv ⊢
        by_cases hV : ValidateEquip w m
            (I.GetItemInSlot inv (I.FindSlotIndexByInstanceId inv ItemInstanceId)) T
              = EEquipmentResult.Success
        · cases hA : w.HasAuthority with
          | false =>
            unfold TryEquipFromInventory
            simp only [hfound, htv, hV, hA, if_false, Bool.not_true, Bool.false_eq_true,
              ne_eq, not_true_eq_false, Bool.not_false, if_true]
            exact Moves_notice w m _ rfl
          | true =>
            by_cases ho : ∃ s, FindSlot m T = some s ∧ s.bIsOccupied = true
            · obtain ⟨s, hs, ho⟩ := ho
              rw [TryEquipFromInventory_occupied I w m ItemInstanceId inv T _ s hA hfound rfl
                htv hV hs ho]
              split
              · exact Moves.refl
              · split
                · exact Moves_swap w m _ T
                · split
                  · exact Moves_swap w m _ T
                  · exact Moves_unequip w m T
            · have hempty : ∀ s, FindSlot m T = some s → s.bIsOccupied = false := by
                intro s hs
                cases hb : s.bIsOccupied with
                | false => rfl
                | true => exact absurd ⟨s, hs, hb⟩ ho
              rw [TryEquipFromInventory_empty I w m ItemInstanceId inv T _ hA hfound rfl htv
                hV hempty]
              split
              · exact Moves_equip_empty w m _ T ho
              · exact Moves.refl
        · unfold TryEquipFromInventory
          simp only [hfound, htv, hV, if_false, Bool.not_true, Bool.false_eq_true, ne_eq,
            not_false_eq_true, if_true]
          exact Moves.refl


theorem TryUnequipToInventory_Moves {Inv : Type} (I : UInventoryComponent Inv)
    (w : World) (m : Manager) (T : FGameplayTag) (TargetInventory : Option Inv) :
    Moves w m (TryUnequipToInventory I w m T TargetInventory).2.1 := by
  unfold TryUnequipToInventory
  cases TargetInventory with
  | none => exact Moves.refl
  | some inv =>
    cases hs : FindSlot m T with
    | none => exact Moves.refl
    | some s =>
      cases ho : s.bIsOccupied with
      | false =>
        simp only [ho, Bool.not_false, if_true]
        exact Moves.refl
      | true =>
        simp only [ho, Bool.not_true, Bool.false_eq_true, if_false]
        split
        · exact Moves.refl
        · split
          · exact Moves_notice w m _ rfl
          · split
            · exact Moves.notice _ _ (Moves_swap w m _ T) (fun e he => by
                rw [List.mem_singleton] at he
                rw [he]
                rfl)
            · exact Moves_unequip w m T

theorem ServerRPC_RequestEquipFromInventory_Moves {Inv : Type}
    (I : UInventoryComponent Inv) (w : World) (m : Manager) (ItemInstanceId : Nat)
    (SourceInventory : Option Inv) (SlotTag : FGameplayTag) :
    Moves w m
      (ServerRPC_RequestEquipFromInventory I w m ItemInstanceId SourceInventory SlotTag).1 := by
  cases SourceInventory with
  | none => exact Moves_notice w m _ rfl
  | some inv =>
    unfold ServerRPC_RequestEquipFromInventory
    by_cases hfound : I.FindSlotIndexByInstanceId inv ItemInstanceId = INDEX_NONE
    · simp only [hfound, if_true]
      exact Moves_notice w m _ rfl
    · simp only [hfound, if_false, handler_tag_eq]
      generalize ResolvedSlotTag w m
        (I.GetItemInSlot inv (I.FindSlotIndexByInstanceId inv ItemInstanceId)) SlotTag = T
      by_cases hV : ValidateEquip w m
          (I.GetItemInSlot inv (I.FindSlotIndexByInstanceId inv ItemInstanceId)) T
            = EEquipmentResult.Success
      · simp only [hV, ne_eq, not_true_eq_false, if_false]
        cases hs : FindSlot m T with
        | none =>
          exact Moves_equip_empty w m _ T (fun ⟨s, h, _⟩ => by rw [hs] at h; cases h)
        | some s =>
          cases ho : s.bIsOccupied with
          | false =>
            simp only [ho, Bool.false_eq_true, if_false]
            exact Moves_equip_empty w m _ T (fun ⟨s1, h, h1⟩ => by
              rw [hs] at h
              cases h
              rw [ho] at h1
              cases h1)
          | true =>
            simp only [ho, if_true]
            cases hc : I.CanAcceptItem inv s.EquippedItem with
            | false =>
              simp only [Bool.not_false, if_true]
              exact Moves_notice w m _ rfl
            | true =>
              simp only [Bool.not_true, Bool.false_eq_true, if_false]
              exact Moves_swap w m _ T
      · simp only [hV, ne_eq, not_false_eq_true, if_true]
        exact Moves_notice w m _ rfl

theorem ServerRPC_RequestUnequipToInventory_Moves {Inv : Type}
    (I : UInventoryComponent Inv) (w : World) (m : Manager) (T : FGameplayTag)
    (TargetInventory : Option Inv) :
    Moves w m (ServerRPC_RequestUnequipToInventory I w m T TargetInventory).1 := by
  unfold ServerRPC_RequestUnequipToInventory
  dsimp only
  repeat' split
  all_goals first
    | exact Moves_notice w m _ rfl
    | exact Moves_unequip w m T

/-- Every public operation and every handler is a sequence of internal moves. -/
theorem StepOn_Moves (w : World) (m m1 : Manager) (h : StepOn w m m1) : Moves w m m1 := by
  cases h with
  | TryEquip Item => exact TryEquip_Moves w m Item
  | TryEquipToSlot Item T => exact TryEquipToSlot_Moves w m Item T
  | TryUnequip T OutItem => exact TryUnequip_Moves w m T OutItem
  | TryEquipFromInventory Inv I id src SlotTag =>
    exact TryEquipFromInventory_Moves I w m id src SlotTag
  | TryUnequipToInventory Inv I T tgt => exact TryUnequipToInventory_Moves I w m T tgt
  | ServerRPC_RequestEquip Item T => exact ServerRPC_RequestEquip_Moves w m Item T
  | ServerRPC_RequestUnequip T => exact ServerRPC_RequestUnequip_Moves w m T
  | ServerRPC_RequestEquipFromInventory Inv I id src SlotTag =>
    exact ServerRPC_RequestEquipFromInventory_Moves I w m id src SlotTag
  | ServerRPC_RequestUnequipToInventory Inv I T tgt =>
    exact ServerRPC_RequestUnequipToInventory_Moves I w m T tgt

/-- A property of the states that the activation establishes and that the
internal moves and the mesh-load completions preserve holds in every reachable
state. -/
theorem ReachableVia_induction (P : World → Prop) (Q : Manager → Prop)
    (h0 : ∀ AvailableSlots, Q (BeginPlay AvailableSlots))
    (hU : ∀ w, P w → ∀ m T, Q m → Q (Internal_Unequip w m T).2)
    (hE : ∀ w, P w → ∀ m Item T, Q m → IsSlotOccupied m T = false →
      Q (Internal_Equip w m Item T))
    (hN : ∀ m es, Q m → (∀ e ∈ es, IsNotice e = true) → Q (m.emit es))
    (hL : ∀ w, P w → ∀ m T, Q m → Q (OnMeshLoaded w m T))
    (AvailableSlots : List FEquipmentSlotDefinition) (m : Manager)
    (h : ReachableVia P AvailableSlots m) : Q m := by
  induction h with
  | BeginPlay => exact h0 AvailableSlots
  | step w hw m m1 _ hs ih =>
    have hM := StepOn_Moves w m m1 hs
    clear hs
    induction hM with
    | refl => exact ih
    | unequip m2 T _ ih2 => exact hU w hw m2 T ih2
    | equip m2 Item T _ hempty ih2 => exact hE w hw m2 Item T ih2 hempty
    | notice m2 es _ hes ih2 => exact hN m2 es ih2 hes
  | loaded w hw m _ T ih => exact hL w hw m T ih


/-! ## The visual state in the reachable states: claim C37 -/

theorem UncancelledLoads_append (tr es : List Event) (T : FGameplayTag) :
    UncancelledLoads (tr ++ es) T = es.foldl (pendingStep T) (UncancelledLoads tr T) := by
  unfold UncancelledLoads
  rw [List.foldl_append]

theorem foldl_pendingStep_of_no_load (T : FGameplayTag) (es : List Event) :
    ∀ acc : List Nat, (∀ e ∈ es, IsLoadEvent e = false) →
      es.foldl (pendingStep T) acc = acc := by
  induction es with
  | nil => intro acc _; rfl
  | cons e es ih =>
    intro acc h
    have he := h e (List.mem_cons_self _ _)
    rw [List.foldl_cons, ih _ (fun x hx => h x (List.mem_cons_of_mem _ hx))]
    cases e <;> first | rfl | cases he

theorem IsLoadEvent_of_IsNotice (e : Event) (h : IsNotice e = true) : IsLoadEvent e = false := by
  cases e <;> first | rfl | cases h

theorem gasUnequipEffects_no_load (w : World) (T : FGameplayTag) :
    ∀ e ∈ gasUnequipEffects w T, IsLoadEvent e = false := by
  unfold gasUnequipEffects
  split
  · intro e he
    rw [List.mem_singleton] at he
    rw [he]
    rfl
  · intro e he
    cases he

theorem gasEquipEffects_no_load (w : World) (Item : FItemInstance) (T : FGameplayTag) :
    ∀ e ∈ gasEquipEffects w Item T, IsLoadEvent e = false := by
  unfold gasEquipEffects
  split
  · intro e he
    rw [List.mem_singleton] at he
    rw [he]
    rfl
  · intro e he
    cases he

theorem destroyEffects_no_load (Slot : FEquipmentSlot) :
    ∀ e ∈ destroyEffects Slot, IsLoadEvent e = false := by
  unfold destroyEffects
  cases Slot.AttachedVisualComponent with
  | none => intro e he; cases he
  | some c =>
    intro e he
    rw [List.mem_singleton] at he
    rw [he]
    rfl

theorem unlinkEffects_no_load (w : World) (Slot : FEquipmentSlot) :
    ∀ e ∈ unlinkEffects w Slot, IsLoadEvent e = false := by
  intro e he
  unfold unlinkEffects at he
  repeat' split at he
  all_goals first
    | (rw [List.mem_singleton] at he; rw [he]; rfl)
    | cases he

theorem linkEffects_no_load (EquipFrag : UItemFragment_Equipment) :
    ∀ e ∈ linkEffects EquipFrag, IsLoadEvent e = false := by
  unfold linkEffects
  cases EquipFrag.AnimLayerClass with
  | none => intro e he; cases he
  | some c =>
    intro e he
    rw [List.mem_singleton] at he
    rw [he]
    rfl

/-- Of the effects of `Internal_Unequip`, only the cancellation of the pending
load of the slot counts for the uncancelled loads. -/
theorem foldl_pendingStep_unequipEffects (w : World) (Slot : FEquipmentSlot)
    (T0 T : FGameplayTag) (acc : List Nat) :
    (unequipEffects w Slot T0).foldl (pendingStep T) acc
      = (cancelEffects Slot).foldl (pendingStep T) acc := by
  unfold unequipEffects RemoveVisualsEffects
  simp only [List.foldl_append]
  rw [foldl_pendingStep_of_no_load T (gasUnequipEffects w T0) acc
    (gasUnequipEffects_no_load w T0)]
  rw [foldl_pendingStep_of_no_load T (destroyEffects Slot) _ (destroyEffects_no_load Slot)]
  rw [foldl_pendingStep_of_no_load T (unlinkEffects w Slot) _ (unlinkEffects_no_load w Slot)]
  rfl

/-- Of the effects of `Internal_Equip`, only those of the visual attachment count
for the uncancelled loads. -/
theorem foldl_pendingStep_equipEffects (w : World) (Item : FItemInstance)
    (Slot : FEquipmentSlot) (T0 T : FGameplayTag) (Handle : Nat) (acc : List Nat) :
    (equipEffects w Item Slot T0 Handle).foldl (pendingStep T) acc
      = (ApplyVisualsEffects w Item Slot T0 Handle).foldl (pendingStep T) acc := by
  unfold equipEffects
  simp only [List.foldl_append]
  rw [foldl_pendingStep_of_no_load T (gasEquipEffects w Item T0) _
    (gasEquipEffects_no_load w Item T0)]
  rfl

theorem foldl_pendingStep_cancelEffects (Slot : FEquipmentSlot) (T : FGameplayTag)
    (acc : List Nat) :
    (cancelEffects Slot).foldl (pendingStep T) acc
      = match Slot.MeshLoadHandle with
        | some h => acc.filter (fun x => x != h)
        | none => acc := by
  unfold cancelEffects
  cases Slot.MeshLoadHandle <;> rfl

/-- A member of the table after a write is a member before it, or the written
slot. -/
theorem mem_modifySlot_found (T : FGameplayTag) (f : FEquipmentSlot → FEquipmentSlot)
    (L : List FEquipmentSlot) :
    ∀ s, s ∈ modifySlot T f L →
      s ∈ L ∨ ∃ s0, L.find? (fun x => x.SlotTag == T) = some s0 ∧ s = f s0 := by
  induction L with
  | nil => intro s h; simp [modifySlot] at h
  | cons a L ih =>
    intro s h
    by_cases ha : (a.SlotTag == T) = true
    · rw [modifySlot, if_pos ha] at h
      rcases List.mem_cons.mp h with e | h'
      · exact Or.inr ⟨a, by simp [List.find?_cons, ha], e⟩
      · exact Or.inl (List.mem_cons_of_mem _ h')
    · rw [modifySlot, if_neg ha] at h
      rcases List.mem_cons.mp h with e | h'
      · exact Or.inl (e ▸ List.mem_cons_self _ _)
      · rcases ih s h' with h2 | ⟨s0, hs0, e⟩
        · exact Or.inl (List.mem_cons_of_mem _ h2)
        · refine Or.inr ⟨s0, ?_, e⟩
          simp only [List.find?_cons]
          have : (a.SlotTag == T) = false := by simpa using ha
          rw [this]
          exact hs0

theorem FindSlot_mem (m : Manager) (T : FGameplayTag) (s : FEquipmentSlot)
    (h : FindSlot m T = some s) : s ∈ m.EquipmentSlots :=
  List.mem_of_find?_eq_some h


/-- The visual invariant is kept by a write to the slot of a tag together with
effects, when the written slot is consistent, its handle is the old one or a
fresh one, and the effects account for the change of the handle. -/
theorem VisualInvariant_write (m : Manager) (hI : VisualInvariant m) (T0 : FGameplayTag)
    (Slot : FEquipmentSlot) (hs : FindSlot m T0 = some Slot)
    (g : FEquipmentSlot → FEquipmentSlot) (es : List Event) (n : Nat)
    (hg : ∀ s, (g s).SlotTag = s.SlotTag)
    (hn : m.NextHandle ≤ n)
    (hidle : (g Slot).bIsOccupied = false →
      (g Slot).AttachedVisualComponent = none ∧ (g Slot).MeshLoadHandle = none)
    (hh : ∀ h, (g Slot).MeshLoadHandle = some h →
      h < n ∧ (Slot.MeshLoadHandle = some h ∨ m.NextHandle ≤ h))
    (hp0 : es.foldl (pendingStep T0) (heldHandle (some Slot)) = heldHandle (some (g Slot)))
    (hp : ∀ T, T ≠ T0 → ∀ acc : List Nat,
      (∀ h, Slot.MeshLoadHandle = some h → h ∉ acc) → es.foldl (pendingStep T) acc = acc) :
    VisualInvariant { EquipmentSlots := modifySlot T0 g m.EquipmentSlots,
                      Trace := m.Trace ++ es, NextHandle := n } := by
  have hF0 : ∀ (tr : List Event) (k : Nat),
      FindSlot { EquipmentSlots := modifySlot T0 g m.EquipmentSlots, Trace := tr,
                 NextHandle := k } T0 = some (g Slot) := by
    intro tr k
    show (modifySlot T0 g m.EquipmentSlots).find? _ = _
    rw [find_modifySlot_same T0 g hg]
    show (FindSlot m T0).map g = _
    rw [hs]
    rfl
  have hFo : ∀ (tr : List Event) (k : Nat) (T : FGameplayTag), T ≠ T0 →
      FindSlot { EquipmentSlots := modifySlot T0 g m.EquipmentSlots, Trace := tr,
                 NextHandle := k } T = FindSlot m T := by
    intro tr k T hT
    exact find_modifySlot_other T0 T g hg hT m.EquipmentSlots
  have hmem : ∀ s ∈ modifySlot T0 g m.EquipmentSlots, s ∈ m.EquipmentSlots ∨ s = g Slot := by
    intro s h
    rcases mem_modifySlot_found T0 g _ s h with h1 | ⟨s0, h0, e⟩
    · exact Or.inl h1
    · right
      have : FindSlot m T0 = some s0 := h0
      rw [hs] at this
      cases this
      exact e
  have hSlot := FindSlot_mem m T0 Slot hs
  refine ⟨?_, ?_, ?_, ?_⟩
  · intro s h ho
    rcases hmem s h with h1 | e
    · exact hI.idle s h1 ho
    · subst e
      exact hidle ho
  · intro T
    show UncancelledLoads (m.Trace ++ es) T = _
    rw [UncancelledLoads_append, hI.pending]
    by_cases hT : T = T0
    · subst hT
      rw [hF0, hs]
      exact hp0
    · rw [hFo _ _ T hT]
      apply hp T hT
      intro h hh0
      cases hu : FindSlot m T with
      | none => simp [heldHandle]
      | some u =>
        have := hI.distinct T0 T Slot u h (fun e => hT e.symm) hs hu hh0
        simp only [heldHandle, Option.mem_toList, Option.mem_def]
        exact this
  · intro s h k hk
    rcases hmem s h with h1 | e
    · exact Nat.lt_of_lt_of_le (hI.fresh s h1 k hk) hn
    · subst e
      exact (hh k hk).1
  · intro T U s u h hTU hsT hsU hsh
    by_cases hT : T = T0
    · subst hT
      rw [hF0] at hsT
      cases hsT
      rw [hFo _ _ U (fun e => hTU e.symm)] at hsU
      rcases (hh h hsh).2 with hold | hnew
      · exact hI.distinct T U Slot u h hTU hs hsU hold
      · intro hu
        have := hI.fresh u (FindSlot_mem m U u hsU) h hu
        omega
    · rw [hFo _ _ T hT] at hsT
      by_cases hU : U = T0
      · subst hU
        rw [hF0] at hsU
        cases hsU
        intro hu
        rcases (hh h hu).2 with hold | hnew
        · exact hI.distinct T U s Slot h hTU hsT hs hsh hold
        · have := hI.fresh s (FindSlot_mem m T s hsT) h hsh
          omega
      · rw [hFo _ _ U hU] at hsU
        exact hI.distinct T U s u h hTU hsT hsU hsh


theorem VisualInvariant_BeginPlay (AvailableSlots : List FEquipmentSlotDefinition) :
    VisualInvariant (BeginPlay AvailableSlots) := by
  have hall : ∀ s ∈ (BeginPlay AvailableSlots).EquipmentSlots,
      s.AttachedVisualComponent = none ∧ s.MeshLoadHandle = none := by
    intro s hs
    simp only [BeginPlay, List.mem_map] at hs
    obtain ⟨d, _, rfl⟩ := hs
    exact ⟨rfl, rfl⟩
  refine ⟨fun s hs _ => hall s hs, ?_, ?_, ?_⟩
  · intro T
    show ([] : List Nat) = _
    cases hF : FindSlot (BeginPlay AvailableSlots) T with
    | none => rfl
    | some s =>
      have := (hall s (FindSlot_mem _ T s hF)).2
      simp [heldHandle, this]
  · intro s hs h hh
    rw [(hall s hs).2] at hh
    cases hh
  · intro T U s u h _ hsT _ hsh
    rw [(hall s (FindSlot_mem _ T s hsT)).2] at hsh
    cases hsh

theorem VisualInvariant_Internal_Unequip (w : World) (m : Manager) (T : FGameplayTag)
    (hI : VisualInvariant m) : VisualInvariant (Internal_Unequip w m T).2 := by
  by_cases h : ∃ s, FindSlot m T = some s ∧ s.bIsOccupied = true
  · obtain ⟨Slot, hs, ho⟩ := h
    rw [Internal_Unequip_eq w m T Slot hs ho]
    apply VisualInvariant_write m hI T Slot hs unequippedSlot _ _ unequippedSlot_SlotTag
      (Nat.le_refl _)
    · intro _
      exact ⟨rfl, rfl⟩
    · intro h hh
      cases hh
    · rw [foldl_pendingStep_unequipEffects, foldl_pendingStep_cancelEffects]
      cases hh : Slot.MeshLoadHandle with
      | none => simp [heldHandle, hh, unequippedSlot, clearVisuals]
      | some h => simp [heldHandle, hh, unequippedSlot, clearVisuals]
    · intro U _ acc hacc
      rw [foldl_pendingStep_unequipEffects, foldl_pendingStep_cancelEffects]
      cases hh : Slot.MeshLoadHandle with
      | none => rfl
      | some h =>
        simp only
        rw [List.filter_eq_self]
        intro x hx
        have := hacc h hh
        simp only [bne_iff_ne, ne_eq]
        intro e
        exact this (e ▸ hx)
  · have hidle : ∀ s, FindSlot m T = some s → s.bIsOccupied = false := by
      intro s hs
      cases hb : s.bIsOccupied with
      | false => rfl
      | true => exact absurd ⟨s, hs, hb⟩ h
    rw [Internal_Unequip_idle w m T hidle]
    exact hI

theorem equippedSlot_bIsOccupied (w : World) (Item : FItemInstance) (Handle : Nat)
    (s : FEquipmentSlot) : (equippedSlot w Item Handle s).bIsOccupied = true := by
  unfold equippedSlot setLoadHandle
  cases MeshToLoad w Item <;> rfl

theorem VisualInvariant_Internal_Equip (w : World) (m : Manager) (Item : FItemInstance)
    (T : FGameplayTag) (hI : VisualInvariant m) (hempty : IsSlotOccupied m T = false) :
    VisualInvariant (Internal_Equip w m Item T) := by
  cases hs : FindSlot m T with
  | none =>
    unfold Internal_Equip
    simp only [hs]
    exact hI
  | some Slot =>
    have ho : Slot.bIsOccupied = false := by
      unfold IsSlotOccupied at hempty
      rw [hs] at hempty
      exact hempty
    have hnone := (hI.idle Slot (FindSlot_mem m T Slot hs) ho).2
    rw [Internal_Equip_eq w m Item T Slot hs]
    apply VisualInvariant_write m hI T Slot hs (equippedSlot w Item m.NextHandle) _ _
      (equippedSlot_SlotTag w Item m.NextHandle)
    · unfold nextHandleAfter
      cases MeshToLoad w Item <;> simp
    · intro hb
      rw [equippedSlot_bIsOccupied] at hb
      cases hb
    · intro h hh
      unfold equippedSlot setLoadHandle at hh
      unfold nextHandleAfter
      cases hM : MeshToLoad w Item with
      | none =>
        simp only [hM, hnone] at hh
        cases hh
      | some Mesh =>
        simp only [hM, Option.some.injEq] at hh
        subst hh
        exact ⟨Nat.lt_succ_self _, Or.inr (Nat.le_refl _)⟩
    · rw [foldl_pendingStep_equipEffects]
      unfold ApplyVisualsEffects equippedSlot setLoadHandle cancelEffects
      cases hM : MeshToLoad w Item with
      | none => simp [heldHandle, hnone]
      | some Mesh => simp [heldHandle, hnone, pendingStep]
    · intro U hU acc _
      rw [foldl_pendingStep_equipEffects]
      unfold ApplyVisualsEffects cancelEffects
      cases hM : MeshToLoad w Item with
      | none => rfl
      | some Mesh =>
        have : ¬ T = U := fun e => hU e.symm
        simp [hnone, pendingStep, this]

theorem VisualInvariant_emit_notices (m : Manager) (es : List Event)
    (hI : VisualInvariant m) (hes : ∀ e ∈ es, IsNotice e = true) :
    VisualInvariant (m.emit es) := by
  refine ⟨hI.idle, ?_, hI.fresh, hI.distinct⟩
  intro T
  show UncancelledLoads (m.Trace ++ es) T = heldHandle (FindSlot m T)
  rw [UncancelledLoads_append, foldl_pendingStep_of_no_load T es _
    (fun e he => IsLoadEvent_of_IsNotice e (hes e he))]
  exact hI.pending T

/-- A load completing for a slot that is absent or not occupied changes nothing. -/
theorem OnMeshLoaded_of_empty (w : World) (m : Manager) (T : FGameplayTag)
    (h : IsSlotOccupied m T = false) : OnMeshLoaded w m T = m := by
  unfold OnMeshLoaded
  unfold IsSlotOccupied at h
  cases hs : FindSlot m T with
  | none => rfl
  | some Slot =>
    rw [hs] at h
    simp only at h
    simp [h]

theorem VisualInvariant_OnMeshLoaded (w : World) (m : Manager) (T : FGameplayTag)
    (hI : VisualInvariant m) : VisualInvariant (OnMeshLoaded w m T) := by
  cases hs : FindSlot m T with
  | none =>
    unfold OnMeshLoaded
    simp only [hs]
    exact hI
  | some Slot =>
    cases ho : Slot.bIsOccupied with
    | false =>
      rw [OnMeshLoaded_of_empty w m T (by unfold IsSlotOccupied; rw [hs]; exact ho)]
      exact hI
    | true =>
      cases hf : GetEquipmentFragment w Slot.EquippedItem with
      | none =>
        unfold OnMeshLoaded
        simp only [hs, ho, hf, Bool.not_true, Bool.false_eq_true, if_false]
        exact hI
      | some EquipFrag =>
        cases hM : w.OwnerMesh with
        | false =>
          unfold OnMeshLoaded
          simp only [hs, ho, hf, hM, Bool.not_true, Bool.false_eq_true, if_false,
            Bool.not_false, if_true]
          exact hI
        | true =>
          rw [OnMeshLoaded_eq w m T Slot EquipFrag hs ho hf hM]
          refine VisualInvariant_write m hI T Slot hs
            (fun s => { s with
              AttachedVisualComponent := VisualToAttach w EquipFrag Slot.AttachSocket })
            (destroyEffects Slot ++ linkEffects EquipFrag) m.NextHandle (fun _ => rfl)
            (Nat.le_refl _) ?_ ?_ ?_ ?_
          · intro hb
            rw [ho] at hb
            cases hb
          · intro h hh
            exact ⟨hI.fresh Slot (FindSlot_mem m T Slot hs) h hh, Or.inl hh⟩
          · rw [List.foldl_append,
              foldl_pendingStep_of_no_load T _ _ (destroyEffects_no_load Slot),
              foldl_pendingStep_of_no_load T _ _ (linkEffects_no_load EquipFrag)]
            rfl
          · intro U _ acc _
            rw [List.foldl_append,
              foldl_pendingStep_of_no_load U _ _ (destroyEffects_no_load Slot),
              foldl_pendingStep_of_no_load U _ _ (linkEffects_no_load EquipFrag)]

/-- The visual invariant holds in every reachable state, on any nodes. -/
theorem ReachableVia_VisualInvariant (P : World → Prop)
    (AvailableSlots : List FEquipmentSlotDefinition) (m : Manager)
    (h : ReachableVia P AvailableSlots m) : VisualInvariant m :=
  ReachableVia_induction P VisualInvariant VisualInvariant_BeginPlay
    (fun w _ m T hI => VisualInvariant_Internal_Unequip w m T hI)
    (fun w _ m Item T hI he => VisualInvariant_Internal_Equip w m Item T hI he)
    (fun m es hI hes => VisualInvariant_emit_notices m es hI hes)
    (fun w _ m T hI => VisualInvariant_OnMeshLoaded w m T hI)
    AvailableSlots m h


/-- C37. Visual state mirrors occupancy on the authoritative node. In every state
reachable from the activation by any interleaving of equip/unequip operations
(direct calls and handlers) and mesh-load completions, the loads requested for a
slot tag and not cancelled since are at most one; every unoccupied slot has no
attached visual component and holds no load handle, and no uncancelled load is
pending for the tag of an unoccupied slot; a load completing for a slot that is
not occupied changes nothing, so it attaches nothing. -/
theorem C37_visual_state_mirrors_occupancy (AvailableSlots : List FEquipmentSlotDefinition)
    (m : Manager)
    (h : ReachableVia (fun w => w.HasAuthority = true) AvailableSlots m) :
    (∀ T, (UncancelledLoads m.Trace T).length ≤ 1)
      ∧ (∀ s ∈ m.EquipmentSlots, s.bIsOccupied = false →
          s.AttachedVisualComponent = none ∧ s.MeshLoadHandle = none)
      ∧ (∀ T, IsSlotOccupied m T = false → UncancelledLoads m.Trace T = [])
      ∧ (∀ w T, IsSlotOccupied m T = false → OnMeshLoaded w m T = m) := by
  have hI := ReachableVia_VisualInvariant _ AvailableSlots m h
  refine ⟨?_, hI.idle, ?_, fun w T hT => OnMeshLoaded_of_empty w m T hT⟩
  · intro T
    rw [hI.pending]
    unfold heldHandle
    cases FindSlot m T with
    | none => simp
    | some s => cases hm : s.MeshLoadHandle <;> simp [hm]
  · intro T hT
    rw [hI.pending]
    unfold IsSlotOccupied at hT
    cases hs : FindSlot m T with
    | none => rfl
    | some s =>
      rw [hs] at hT
      have := (hI.idle s (FindSlot_mem m T s hs) hT).2
      simp [heldHandle, this]

/-- A reachable state of the example manager on the server: the sword is equipped
into the main hand, replaced by the second sword, and the load of the mesh of
the second sword completes. -/
theorem exampleReachable :
    ReachableVia (fun w => w.HasAuthority = true)
      [{ SlotTag := tagMainHand }, { SlotTag := tagOffHand }, { SlotTag := tagHead }]
      (OnMeshLoaded { serverWorld with OwnerMesh := true }
        (TryEquipToSlot serverWorld
          (TryEquipToSlot serverWorld exampleManager (ItemRef.Local itemSword) tagMainHand).2
          (ItemRef.Local itemSword2) tagMainHand).2 tagMainHand) := by
  refine ReachableVia.loaded _ ?_ _ ?_ _
  · rfl
  · refine ReachableVia.step serverWorld ?_ _ _ ?_
      (StepOn.TryEquipToSlot (ItemRef.Local itemSword2) tagMainHand)
    · rfl
    · refine ReachableVia.step serverWorld ?_ _ _ ReachableVia.BeginPlay
        (StepOn.TryEquipToSlot (ItemRef.Local itemSword) tagMainHand)
      rfl

/-- C37 at a concrete input: the state after the sword was equipped into the main
hand of the example manager on the server, then replaced by the second sword,
and the load of its mesh completed. -/
theorem C37_visual_state_mirrors_occupancy_witness :
    (∀ T, (UncancelledLoads
        (OnMeshLoaded { serverWorld with OwnerMesh := true }
          (TryEquipToSlot serverWorld
            (TryEquipToSlot serverWorld exampleManager (ItemRef.Local itemSword) tagMainHand).2
            (ItemRef.Local itemSword2) tagMainHand).2 tagMainHand).Trace T).length ≤ 1)
      ∧ (∀ s ∈ (OnMeshLoaded { serverWorld with OwnerMesh := true }
          (TryEquipToSlot serverWorld
            (TryEquipToSlot serverWorld exampleManager (ItemRef.Local itemSword) tagMainHand).2
            (ItemRef.Local itemSword2) tagMainHand).2 tagMainHand).EquipmentSlots,
          s.bIsOccupied = false →
            s.AttachedVisualComponent = none ∧ s.MeshLoadHandle = none) :=
  ⟨(C37_visual_state_mirrors_occupancy _ _ exampleReachable).1,
   (C37_visual_state_mirrors_occupancy _ _ exampleReachable).2.1⟩


/-! ## The GAS bookkeeping in the reachable states: claim C33 -/

theorem WrittenAt_refl (T : FGameplayTag) (m : Manager) : WrittenAt T m m :=
  ⟨fun s => s, fun _ => rfl, (modifySlot_eq_self T _ _ (fun _ _ => rfl)).symm⟩

theorem WrittenAt_trans (T : FGameplayTag) (m m1 m2 : Manager) (h1 : WrittenAt T m m1)
    (h2 : WrittenAt T m1 m2) : WrittenAt T m m2 := by
  obtain ⟨g1, t1, e1⟩ := h1
  obtain ⟨g2, t2, e2⟩ := h2
  refine ⟨fun s => g2 (g1 s), fun s => by rw [t2, t1], ?_⟩
  rw [e2, e1, modifySlot_modifySlot T g1 g2 t1]

theorem WrittenAt_of_EquipmentSlots (T : FGameplayTag) (m m1 m2 : Manager)
    (h : WrittenAt T m m1) (he : m2.EquipmentSlots = m1.EquipmentSlots) : WrittenAt T m m2 := by
  obtain ⟨g, t, e⟩ := h
  exact ⟨g, t, by rw [he, e]⟩

theorem WrittenAt_emit (T : FGameplayTag) (m m1 : Manager) (es : List Event)
    (h : WrittenAt T m m1) : WrittenAt T m (m1.emit es) :=
  WrittenAt_of_EquipmentSlots T m m1 _ h rfl

theorem WrittenAt_writeSlot (T : FGameplayTag) (m m1 : Manager)
    (f : FEquipmentSlot → FEquipmentSlot) (h : WrittenAt T m m1)
    (hf : ∀ s, (f s).SlotTag = s.SlotTag) : WrittenAt T m (m1.writeSlot T f) :=
  WrittenAt_trans T m m1 _ h ⟨f, hf, rfl⟩

theorem ApplyVisuals_WrittenAt (w : World) (m : Manager) (Item : FItemInstance)
    (T : FGameplayTag) : WrittenAt T m (ApplyVisuals w m Item T) := by
  unfold ApplyVisuals
  dsimp only
  repeat' split
  all_goals
    repeat (first
      | exact WrittenAt_refl T m
      | exact WrittenAt_of_EquipmentSlots T m m _ (WrittenAt_refl T m) rfl
      | (intro _; rfl)
      | apply WrittenAt_writeSlot)

theorem RemoveVisuals_WrittenAt (w : World) (m : Manager) (T : FGameplayTag) :
    WrittenAt T m (RemoveVisuals w m T) := by
  unfold RemoveVisuals
  dsimp only
  repeat' split
  all_goals
    repeat (first
      | exact WrittenAt_refl T m
      | (intro _; rfl)
      | apply WrittenAt_writeSlot
      | apply WrittenAt_emit)

theorem OnMeshLoaded_WrittenAt (w : World) (m : Manager) (T : FGameplayTag) :
    WrittenAt T m (OnMeshLoaded w m T) := by
  unfold OnMeshLoaded
  dsimp only
  repeat' split
  all_goals
    repeat (first
      | exact WrittenAt_refl T m
      | (intro _; rfl)
      | apply WrittenAt_writeSlot
      | apply WrittenAt_emit)

theorem Internal_Equip_WrittenAt (w : World) (m : Manager) (Item : FItemInstance)
    (T : FGameplayTag) : WrittenAt T m (Internal_Equip w m Item T) := by
  unfold Internal_Equip
  split
  · exact WrittenAt_refl T m
  · dsimp only
    apply WrittenAt_emit
    rw [ApplyGAS_eq]
    apply WrittenAt_emit
    refine WrittenAt_trans T _ _ _ ?_ (ApplyVisuals_WrittenAt _ _ _ _)
    apply WrittenAt_emit
    exact WrittenAt_writeSlot T m m _ (WrittenAt_refl T m) (fun _ => rfl)

theorem Internal_Unequip_WrittenAt (w : World) (m : Manager) (T : FGameplayTag) :
    WrittenAt T m (Internal_Unequip w m T).2 := by
  unfold Internal_Unequip
  split
  · exact WrittenAt_refl T m
  · split
    · exact WrittenAt_refl T m
    · dsimp only
      apply WrittenAt_emit
      apply WrittenAt_emit
      refine WrittenAt_writeSlot T m _ _ ?_ (fun _ => rfl)
      refine WrittenAt_trans T _ _ _ ?_ (RemoveVisuals_WrittenAt _ _ _)
      rw [RemoveGAS_eq]
      exact WrittenAt_emit T m m _ (WrittenAt_refl T m)

/-- The item of a slot of another tag is not touched by `Internal_Unequip` of the
tag: a reference bound to it reads the same item after as before. -/
theorem ItemRef.Get_after_unequip_of_other_tag (Index : Nat) (w : World) (m : Manager)
    (T : FGameplayTag)
    (h : ∀ s, m.EquipmentSlots.get? Index = some s → s.SlotTag ≠ T) :
    (ItemRef.SlotItem Index).Get (Internal_Unequip w m T).2
      = (ItemRef.SlotItem Index).Get m := by
  obtain ⟨g, _, e⟩ := Internal_Unequip_WrittenAt w m T
  unfold ItemRef.Get
  simp only
  rw [e, get?_modifySlot_of_other_tag T g _ Index h]

/-- A write that keeps the tag keeps the sequence of the tags. -/
theorem modifySlot_tags (T : FGameplayTag) (g : FEquipmentSlot → FEquipmentSlot)
    (hg : ∀ s, (g s).SlotTag = s.SlotTag) (l : List FEquipmentSlot) :
    (modifySlot T g l).map (fun s => s.SlotTag) = l.map (fun s => s.SlotTag) := by
  induction l with
  | nil => rfl
  | cons a l ih =>
    by_cases ha : (a.SlotTag == T) = true
    · rw [modifySlot, if_pos ha, List.map_cons, List.map_cons, hg]
    · rw [modifySlot, if_neg ha, List.map_cons, List.map_cons, ih]

/-- A write through the pointer `FindSlot` returns reaches the first slot of the
tag, and so keeps the condition `FirstOrIdleFrom`. -/
theorem FirstOrIdleFrom_modifySlot (T : FGameplayTag) (g : FEquipmentSlot → FEquipmentSlot)
    (hg : ∀ s, (g s).SlotTag = s.SlotTag) (l : List FEquipmentSlot) :
    ∀ seen : List FGameplayTag, T ∉ seen → FirstOrIdleFrom seen l →
      FirstOrIdleFrom seen (modifySlot T g l) := by
  induction l with
  | nil => intro seen _ h; exact h
  | cons a l ih =>
    intro seen hT h
    by_cases ha : (a.SlotTag == T) = true
    · rw [modifySlot, if_pos ha]
      have hat : a.SlotTag = T := by simpa using ha
      refine ⟨Or.inl ?_, ?_⟩
      · rw [hg, hat]
        exact hT
      · rw [hg]
        exact h.2
    · rw [modifySlot, if_neg ha]
      have hat : ¬ a.SlotTag = T := by simpa using ha
      refine ⟨h.1, ih (a.SlotTag :: seen) ?_ h.2⟩
      intro hmem
      rcases List.mem_cons.mp hmem with e | e
      · exact hat e.symm
      · exact hT e

/-- An assignment of `EquippedItem` keeps the condition `FirstOrIdleFrom`. -/
theorem FirstOrIdleFrom_assignEquippedItem (v : FItemInstance) (l : List FEquipmentSlot) :
    ∀ (i : Nat) (seen : List FGameplayTag), FirstOrIdleFrom seen l →
      FirstOrIdleFrom seen (assignEquippedItem v i l) := by
  induction l with
  | nil => intro i seen h; cases i <;> exact h
  | cons a l ih =>
    intro i seen h
    cases i with
    | zero => exact h
    | succ k => exact ⟨h.1, ih k _ h.2⟩

/-- The receipt of a slot table by an instance whose table is empty keeps the
condition `FirstOrIdleFrom`: no slot has a visual component. -/
theorem FirstOrIdleFrom_receiveSlots_nil (S : List FEquipmentSlot) :
    ∀ seen : List FGameplayTag, FirstOrIdleFrom seen S →
      FirstOrIdleFrom seen (receiveSlots S []) := by
  induction S with
  | nil => intro seen _; exact True.intro
  | cons s S ih =>
    intro seen hS
    refine ⟨?_, ih _ hS.2⟩
    rcases hS.1 with h | h
    · exact Or.inl h
    · exact Or.inr ⟨h.1, rfl⟩

/-- The receipt of a slot table keeps the condition `FirstOrIdleFrom`, when the
two tables have the same tags: occupancy comes from the one, the visual
component from the other. -/
theorem FirstOrIdleFrom_receiveSlots (S : List FEquipmentSlot) :
    ∀ (C : List FEquipmentSlot) (seen : List FGameplayTag),
      S.map (fun s => s.SlotTag) = C.map (fun s => s.SlotTag) →
      FirstOrIdleFrom seen S → FirstOrIdleFrom seen C →
      FirstOrIdleFrom seen (receiveSlots S C) := by
  induction S with
  | nil => intro C seen _ _ _; exact True.intro
  | cons s S ih =>
    intro C seen ht hS hC
    cases C with
    | nil => cases ht
    | cons c C =>
      simp only [List.map_cons, List.cons.injEq] at ht
      refine ⟨?_, ih C _ ht.2 hS.2 (by rw [ht.1]; exact hC.2)⟩
      rcases hS.1 with h | h
      · exact Or.inl h
      · rcases hC.1 with h2 | h2
        · exact Or.inl (by rw [ht.1]; exact h2)
        · exact Or.inr ⟨h.1, h2.2⟩

theorem receiveSlots_tags (S : List FEquipmentSlot) :
    ∀ C : List FEquipmentSlot,
      (receiveSlots S C).map (fun s => s.SlotTag) = S.map (fun s => s.SlotTag) := by
  induction S with
  | nil => intro C; rfl
  | cons s S ih =>
    intro C
    cases C with
    | nil =>
      show s.SlotTag :: (receiveSlots S []).map (fun s => s.SlotTag) = _
      rw [ih]
      rfl
    | cons c C =>
      show s.SlotTag :: (receiveSlots S C).map (fun s => s.SlotTag) = _
      rw [ih]
      rfl

/-- The condition `FirstOrIdleFrom` without slots before is `FirstOrIdle`. -/
theorem FirstOrIdle_of_FirstOrIdleFrom (l : List FEquipmentSlot) :
    ∀ seen : List FGameplayTag, FirstOrIdleFrom seen l →
      ∀ pre s post, l = pre ++ s :: post →
        (s.SlotTag ∉ seen ∧ ∀ x ∈ pre, x.SlotTag ≠ s.SlotTag)
          ∨ (s.bIsOccupied = false ∧ s.AttachedVisualComponent = none) := by
  induction l with
  | nil =>
    intro seen _ pre s post h
    cases pre <;> cases h
  | cons a l ih =>
    intro seen h pre s post hl
    cases pre with
    | nil =>
      simp only [List.nil_append, List.cons.injEq] at hl
      rw [← hl.1]
      rcases h.1 with h1 | h1
      · exact Or.inl ⟨h1, fun x hx => by cases hx⟩
      · exact Or.inr h1
    | cons p pre =>
      simp only [List.cons_append, List.cons.injEq] at hl
      rcases ih _ h.2 pre s post hl.2 with h1 | h1
      · left
        refine ⟨fun hmem => h1.1 (List.mem_cons_of_mem _ hmem), ?_⟩
        intro x hx
        rcases List.mem_cons.mp hx with e | e
        · rw [e, ← hl.1]
          intro e2
          exact h1.1 (by rw [← e2]; exact List.mem_cons_self _ _)
        · exact h1.2 x e
      · exact Or.inr h1

/-- After activation every slot is unoccupied and without visual component. -/
theorem BeginPlay_FirstOrIdleFrom (AvailableSlots : List FEquipmentSlotDefinition) :
    ∀ seen : List FGameplayTag,
      FirstOrIdleFrom seen (BeginPlay AvailableSlots).EquipmentSlots := by
  unfold BeginPlay
  induction AvailableSlots with
  | nil => intro seen; exact True.intro
  | cons d ds ih =>
    intro seen
    exact ⟨Or.inr ⟨rfl, rfl⟩, ih _⟩

theorem TableInvariant_of_EquipmentSlots (AvailableSlots : List FEquipmentSlotDefinition)
    (m m1 : Manager) (h : TableInvariant AvailableSlots m)
    (he : m1.EquipmentSlots = m.EquipmentSlots) : TableInvariant AvailableSlots m1 :=
  ⟨by rw [he]; exact h.tags, by rw [he]; exact h.idle⟩

theorem TableInvariant_WrittenAt (AvailableSlots : List FEquipmentSlotDefinition)
    (T : FGameplayTag) (m m1 : Manager) (h : TableInvariant AvailableSlots m)
    (hw : WrittenAt T m m1) : TableInvariant AvailableSlots m1 := by
  obtain ⟨g, hg, e⟩ := hw
  refine ⟨?_, ?_⟩
  · rcases h.tags with h0 | ht
    · left
      rw [e, h0]
      rfl
    · right
      rw [e, modifySlot_tags T g hg]
      exact ht
  · rw [e]
    exact FirstOrIdleFrom_modifySlot T g hg _ [] (fun hm => by cases hm) h.idle

theorem TableInvariant_BeginPlay (AvailableSlots : List FEquipmentSlotDefinition) :
    TableInvariant AvailableSlots (BeginPlay AvailableSlots) :=
  ⟨Or.inr (by simp [BeginPlay]), BeginPlay_FirstOrIdleFrom AvailableSlots []⟩

theorem TableInvariant_Moves (AvailableSlots : List FEquipmentSlotDefinition) (w : World)
    (m m1 : Manager) (hM : Moves w m m1) (h : TableInvariant AvailableSlots m) :
    TableInvariant AvailableSlots m1 := by
  induction hM with
  | refl => exact h
  | unequip m2 T _ ih =>
    exact TableInvariant_WrittenAt _ T _ _ ih (Internal_Unequip_WrittenAt w m2 T)
  | equip m2 Item T _ _ ih =>
    exact TableInvariant_WrittenAt _ T _ _ ih (Internal_Equip_WrittenAt w m2 Item T)
  | notice m2 es _ _ ih => exact TableInvariant_of_EquipmentSlots _ _ _ ih rfl

theorem TableInvariant_Assign (AvailableSlots : List FEquipmentSlotDefinition)
    (r : ItemRef) (m : Manager) (v : FItemInstance) (h : TableInvariant AvailableSlots m) :
    TableInvariant AvailableSlots (r.Assign m v) := by
  cases r with
  | Local _ => exact h
  | SlotItem i =>
    refine ⟨?_, ?_⟩
    · rcases h.tags with h0 | ht
      · left
        show assignEquippedItem v i m.EquipmentSlots = []
        rw [h0]
        cases i <;> rfl
      · right
        show (assignEquippedItem v i m.EquipmentSlots).map (fun s => s.SlotTag) = _
        rw [assignEquippedItem_tags]
        exact ht
    · exact FirstOrIdleFrom_assignEquippedItem v _ i [] h.idle

theorem TableInvariant_TryUnequip (AvailableSlots : List FEquipmentSlotDefinition)
    (w : World) (m : Manager) (T : FGameplayTag) (OutItem : ItemRef)
    (h : TableInvariant AvailableSlots m) :
    TableInvariant AvailableSlots (TryUnequip w m T OutItem).2.2 := by
  rw [TryUnequip_eq]
  split
  · exact h
  · split
    · exact h
    · split
      · exact TableInvariant_of_EquipmentSlots _ _ _ h rfl
      · exact TableInvariant_Assign _ _ _ _
          (TableInvariant_WrittenAt _ T _ _ h (Internal_Unequip_WrittenAt w m T))

theorem TableInvariant_Received (AvailableSlots : List FEquipmentSlotDefinition)
    (Server m : Manager) (hS : TableInvariant AvailableSlots Server)
    (h : TableInvariant AvailableSlots m) :
    TableInvariant AvailableSlots (ReceiveEquipmentSlots Server m) := by
  refine ⟨?_, ?_⟩
  · rcases hS.tags with h0 | ht
    · left
      show receiveSlots Server.EquipmentSlots m.EquipmentSlots = []
      rw [h0]
      rfl
    · right
      show (receiveSlots Server.EquipmentSlots m.EquipmentSlots).map (fun s => s.SlotTag) = _
      rw [receiveSlots_tags]
      exact ht
  · show FirstOrIdleFrom [] (receiveSlots Server.EquipmentSlots m.EquipmentSlots)
    rcases hS.tags with h0 | ht
    · rw [h0]
      exact True.intro
    · rcases h.tags with h1 | ht1
      · rw [h1]
        exact FirstOrIdleFrom_receiveSlots_nil _ [] hS.idle
      · exact FirstOrIdleFrom_receiveSlots _ _ [] (by rw [ht, ht1]) hS.idle h.idle

theorem TableInvariant_OnRep_step (AvailableSlots : List FEquipmentSlotDefinition)
    (w : World) (m : Manager) (i : Nat) (h : TableInvariant AvailableSlots m) :
    TableInvariant AvailableSlots (OnRep_step w m i) := by
  unfold OnRep_step
  split
  · exact h
  · split
    · exact TableInvariant_WrittenAt _ _ _ _ h (ApplyVisuals_WrittenAt w m _ _)
    · split
      · exact TableInvariant_WrittenAt _ _ _ _ h (RemoveVisuals_WrittenAt w m _)
      · exact h

theorem TableInvariant_OnRep_EquipmentSlots (AvailableSlots : List FEquipmentSlotDefinition)
    (w : World) (m : Manager) (h : TableInvariant AvailableSlots m) :
    TableInvariant AvailableSlots (OnRep_EquipmentSlots w m) := by
  unfold OnRep_EquipmentSlots
  apply TableInvariant_of_EquipmentSlots _ _ _ _ (emit_EquipmentSlots _ _)
  generalize List.range m.EquipmentSlots.length = l
  induction l generalizing m with
  | nil => exact h
  | cons i l ih => exact ih _ (TableInvariant_OnRep_step _ w m i h)

/-- Every slot table a component can hold is empty or has the tags of the slot
definitions, and every slot of it is the first of its tag or idle. -/
theorem Attainable_TableInvariant (AvailableSlots : List FEquipmentSlotDefinition)
    (m : Manager) (h : Attainable AvailableSlots m) : TableInvariant AvailableSlots m := by
  induction h with
  | Constructed => exact ⟨Or.inl rfl, True.intro⟩
  | BeginPlay => exact TableInvariant_BeginPlay AvailableSlots
  | step w m m1 _ hs ih => exact TableInvariant_Moves _ w m m1 (StepOn_Moves w m m1 hs) ih
  | TryUnequip w m _ T OutItem ih => exact TableInvariant_TryUnequip _ w m T OutItem ih
  | OnMeshLoaded w m _ T ih =>
    exact TableInvariant_WrittenAt _ T _ _ ih (OnMeshLoaded_WrittenAt w m T)
  | Received Server m _ _ ihS ih => exact TableInvariant_Received _ Server m ihS ih
  | OnRep_EquipmentSlots w m _ ih => exact TableInvariant_OnRep_EquipmentSlots _ w m ih

theorem Attainable_FirstOrIdle (AvailableSlots : List FEquipmentSlotDefinition)
    (m : Manager) (h : Attainable AvailableSlots m) : FirstOrIdle m.EquipmentSlots := by
  intro pre s post hl
  rcases FirstOrIdle_of_FirstOrIdleFrom _ [] (Attainable_TableInvariant _ m h).idle
    pre s post hl with h1 | h1
  · exact Or.inl h1.2
  · exact Or.inr h1

/-- C38. Client reconciliation. For every slot table the component can hold (the
table received from the authoritative instance, with the visual state the client
has), `OnRep_EquipmentSlots` reconciles each slot by the state of that slot: it
starts the visual attachment for exactly the slots that are occupied and have no
attached visual, removes the visual of exactly the slots that are unoccupied and
have one, and leaves the other slots as they are. It leaves the tag, occupied
flag and equipped item of every slot unchanged and emits exactly one
equipment-changed notification, after the effects of the visual helpers;
afterwards no unoccupied slot has an attached visual. -/
theorem C38_OnRep_EquipmentSlots_reconciles (AvailableSlots : List FEquipmentSlotDefinition)
    (w : World) (m : Manager) (h : Attainable AvailableSlots m) :
    OnRep_EquipmentSlots w m = (reconcile w m).emit [Event.OnEquipmentChanged]
      ∧ (OnRep_EquipmentSlots w m).Logical = m.Logical
      ∧ (∃ es, (OnRep_EquipmentSlots w m).Trace = m.Trace ++ es ++ [Event.OnEquipmentChanged]
          ∧ Event.OnEquipmentChanged ∉ es)
      ∧ ∀ s ∈ (OnRep_EquipmentSlots w m).EquipmentSlots,
          s.bIsOccupied = false → s.AttachedVisualComponent = none := by
  have hE := OnRep_EquipmentSlots_eq w m (Attainable_FirstOrIdle AvailableSlots m h)
  refine ⟨hE, ?_, ?_, ?_⟩
  · unfold OnRep_EquipmentSlots
    rw [emit_Logical, foldl_OnRep_step_Logical]
  · obtain ⟨es, h1, hn⟩ := foldl_OnRep_step_no_changed w
      (List.range m.EquipmentSlots.length) m
    refine ⟨es, ?_, hn⟩
    unfold OnRep_EquipmentSlots
    rw [emit_Trace, h1]
  · rw [hE, emit_EquipmentSlots]
    exact reconcileSlots_no_visual w m.EquipmentSlots { m with EquipmentSlots := [] }
      (fun s hs => (by cases hs))

/-- The example server with the sword in the main hand is a state the component
can be in. -/
theorem swordEquippedManager_Attainable :
    Attainable [{ SlotTag := tagMainHand }, { SlotTag := tagOffHand }, { SlotTag := tagHead }]
      swordEquippedManager :=
  Attainable.step serverWorld _ _ Attainable.BeginPlay
    (StepOn.TryEquipToSlot (ItemRef.Local itemSword) tagMainHand)

/-- The example client that has received the table of the server with the sword
in the main hand. -/
theorem clientReceived_Attainable :
    Attainable [{ SlotTag := tagMainHand }, { SlotTag := tagOffHand }, { SlotTag := tagHead }]
      (ReceiveEquipmentSlots swordEquippedManager exampleManager) :=
  Attainable.Received _ _ swordEquippedManager_Attainable Attainable.BeginPlay

theorem clientAfterUnequip_Attainable :
    Attainable [{ SlotTag := tagMainHand }, { SlotTag := tagOffHand }, { SlotTag := tagHead }]
      clientAfterUnequip :=
  Attainable.Received _ _
    (Attainable.TryUnequip serverWorld _ swordEquippedManager_Attainable tagMainHand
      (ItemRef.Local FItemInstance.Default))
    (Attainable.OnMeshLoaded _ _
      (Attainable.OnRep_EquipmentSlots clientWorld _ clientReceived_Attainable) tagMainHand)

/-- C38 at concrete inputs. The client has received the table of the server that
holds the sword in the main hand: the load of the mesh of the sword is requested
and one equipment-changed notification follows. Later, with the mesh attached,
it has received the table of the server after the unequip: the visual of the
main hand, now unoccupied, is removed (the load handle cancelled, the component
destroyed) and one equipment-changed notification follows. -/
theorem C38_OnRep_EquipmentSlots_reconciles_witness :
    OnRep_EquipmentSlots clientWorld
          (ReceiveEquipmentSlots swordEquippedManager exampleManager)
        = { EquipmentSlots :=
              [{ SlotTag := tagMainHand, EquippedItem := itemSword, bIsOccupied := true,
                 MeshLoadHandle := some 0 },
               { SlotTag := tagOffHand }, { SlotTag := tagHead }],
            Trace := [Event.RequestAsyncLoad 0 10 tagMainHand, Event.OnEquipmentChanged],
            NextHandle := 1 }
      ∧ clientAfterUnequip.EquipmentSlots
        = [{ SlotTag := tagMainHand,
             AttachedVisualComponent := some (USceneComponent.mk false 10 0),
             MeshLoadHandle := some 0 },
           { SlotTag := tagOffHand }, { SlotTag := tagHead }]
      ∧ OnRep_EquipmentSlots clientWorld clientAfterUnequip
        = { EquipmentSlots :=
              [{ SlotTag := tagMainHand }, { SlotTag := tagOffHand }, { SlotTag := tagHead }],
            Trace := [Event.RequestAsyncLoad 0 10 tagMainHand, Event.OnEquipmentChanged,
                      Event.CancelHandle 0,
                      Event.DestroyComponent (USceneComponent.mk false 10 0),
                      Event.OnEquipmentChanged],
            NextHandle := 1 } :=
  ⟨(C38_OnRep_EquipmentSlots_reconciles _ clientWorld _ clientReceived_Attainable).1.trans
      (by decide),
    by decide,
    (C38_OnRep_EquipmentSlots_reconciles _ clientWorld _ clientAfterUnequip_Attainable).1.trans
      (by decide)⟩

end EquipmentPlugin
